import Mathlib

/-!
# lxdream: the ia32 ABI layer of the SH4 dynamic translator

A verification development over `src/xlat/x86/ia32abi.h`.

The file under study is a code generator: every function appends host
instructions to the output cursor `xlat_output` and, at the end of a block,
patches earlier placeholders.  The embedding therefore has two layers.

* The emitter layer: `Translator` holds the fields of `sh4_x86` the file
  reads, the bytes of the current block and the cursor.  Each C function is a
  function `Translator → Translator`, written statement by statement.
* The host layer: `Machine`, `step` and `run` give the emitted instructions
  their ia32 meaning, so that statements about "the code emitted by ..." can
  be made about executions.

The instruction macros (`x86op.h`), the guest register file (`sh4r`), the
helper routines and the instruction-cache macros are not part of the sources
at hand; they appear as constructors, as an abstract record `Sh4r`, and as
fields of `Env`.
-/

namespace Lxdream

/-! ## Machine words -/

/-- Truncation to an unsigned 32-bit word. -/
def wrap32 (n : Nat) : Nat := n % 4294967296

/-- Unsigned 32-bit subtraction `a - b`. -/
def sub32 (a b : Nat) : Nat := (a % 4294967296 + 4294967296 - b % 4294967296) % 4294967296

/-- Unsigned 32-bit addition `a + b`. -/
def add32 (a b : Nat) : Nat := (a + b) % 4294967296

/-- Truncation of a signed quantity to an unsigned 32-bit word. -/
def wrapInt32 (z : Int) : Nat := (z % 4294967296).toNat

/-! ## Host instructions -/

/-- Host registers of the ia32 target. -/
inductive Reg
  | EAX | ECX | EDX | EBX | ESP | EBP | ESI | EDI
  deriving DecidableEq, Repr

/-- Fields of the guest register file `sh4r` that the ABI layer touches.  The C
code names them by their displacement from EBP: `R_PC` and `REG_OFFSET(pc)`
both denote `pc`, `R_NEW_PC` denotes `new_pc`, `R_SPC` denotes `spc`. -/
inductive Sh4Field
  | pc | new_pc | spc | slice_cycle
  deriving DecidableEq, Repr

/-- The host instructions the ABI layer emits, one constructor per emission
operation of `x86op.h` used in `ia32abi.h`, with the operand order of the C
call.  Immediates are carried as written in the C call; the instruction
truncates them to 32 bits when it executes.  A displacement from EBP is
carried as the guest field it addresses.  `JMP_prerel rel` is the jump whose
target lies `rel` bytes from the cursor at which the jump itself is emitted:
the trailer computes `rel` as `target - xlat_output` right before emitting
it. -/
inductive Instr
  | MOVL_imm32_r32 (imm : Nat) (r : Reg)
  | MOVP_immptr_rptr (p : Nat) (r : Reg)
  | MOVL_r32_r32 (r1 r2 : Reg)
  | ADDL_r32_r32 (r1 r2 : Reg)
  | ADDL_imms_r32 (imm : Nat) (r : Reg)
  | SUBL_imms_r32 (imm : Nat) (r : Reg)
  | ANDL_imms_r32 (imm : Nat) (r : Reg)
  | ADDL_r32_rbpdisp (r : Reg) (f : Sh4Field)
  | ADDL_rbpdisp_r32 (f : Sh4Field) (r : Reg)
  | MOVL_rbpdisp_r32 (f : Sh4Field) (r : Reg)
  | MOVL_r32_rbpdisp (r : Reg) (f : Sh4Field)
  | MOVL_imm32_rspdisp (imm : Nat) (disp : Nat)
  | MOVP_moffptr_rax (addr : Nat)
  | MOVL_moffptr_eax (addr : Nat)
  | MULL_r32 (r : Reg)
  | PUSH_r32 (r : Reg)
  | PUSH_imm32 (imm : Nat)
  | POP_r32 (r : Reg)
  | CALL_r32 (r : Reg)
  | CALL_r32disp (r : Reg) (disp : Nat)
  | JMP_prerel (rel : Int)
  | RET
  deriving DecidableEq, Repr

/-! ## Guest register file and the environment of the translator -/

/-- The part of the guest register file `sh4r` used by the exits. -/
structure Sh4r where
  pc : Nat
  new_pc : Nat
  spc : Nat
  slice_cycle : Nat
  deriving DecidableEq, Repr

/-- Read a field of the guest register file. -/
def Sh4r.get (g : Sh4r) : Sh4Field → Nat
  | .pc => g.pc
  | .new_pc => g.new_pc
  | .spc => g.spc
  | .slice_cycle => g.slice_cycle

/-- Write a field of the guest register file. -/
def Sh4r.set (g : Sh4r) (f : Sh4Field) (v : Nat) : Sh4r :=
  match f with
  | .pc => { g with pc := v }
  | .new_pc => { g with new_pc := v }
  | .spc => { g with spc := v }
  | .slice_cycle => { g with slice_cycle := v }

/-- What a called routine leaves behind: its return value in EAX, whatever it
left in the caller-saved registers ECX and EDX, and the guest register file
as the routine updated it. -/
structure HelperResult where
  eax : Nat
  ecx : Nat
  edx : Nat
  sh4r : Sh4r

/-- Everything `ia32abi.h` takes from the rest of the program.

* `HAVE_FASTCALL` selects the register-passing or the stack-passing
  definitions of `call_func1` and `call_func2`.
* `sh4r_addr` is `(uint32_t)&sh4r`; `sh4_cpu_period` is the value of the
  global of that name while translating and `sh4_cpu_period_addr` its address.
* `xlat_get_code`, `xlat_get_code_by_vma` and `sh4_raise_exception` are the
  addresses of the routines of those names.
* `IS_IN_ICACHE`, `GET_ICACHE_PHYS` and `xlat_get_lut_entry` are the macros
  and the function of those names; the last returns the address of a slot.
* `encode` is the byte encoding of an instruction fixed by `x86op.h`.
* `call target a1 a2 g` is the behaviour of the routine at address `target`
  called with first argument `a1`, second argument `a2` and guest register
  file `g`. -/
structure Env where
  HAVE_FASTCALL : Bool
  sh4r_addr : Nat
  sh4_cpu_period : Nat
  sh4_cpu_period_addr : Nat
  xlat_get_code : Nat
  xlat_get_code_by_vma : Nat
  sh4_raise_exception : Nat
  IS_IN_ICACHE : Nat → Bool
  GET_ICACHE_PHYS : Nat → Nat
  xlat_get_lut_entry : Nat → Nat
  encode : Instr → List Nat
  call : Nat → Nat → Nat → Sh4r → HelperResult

/-! ## The emitter state -/

/-- One entry of `sh4_x86.backpatch_list`. -/
structure BackpatchRecord where
  fixup_offset : Nat
  fixup_icount : Nat
  exc_code : Int
  deriving DecidableEq, Repr

/-- The state the emitters act on: the fields of `sh4_x86` read in
`ia32abi.h`, the code array of `xlat_current_block` with its address
`code_addr`, and the cursor `xlat_output` kept as an offset into that array
(the pointer of the C code is `code_addr + xlat_output`).  `backpatch_posn`
is the length of `backpatch_list`.  `listing` records, next to the bytes,
which instruction was emitted at which offset. -/
structure Translator where
  block_start_pc : Nat
  tlb_on : Bool
  branch_taken : Bool
  backpatch_list : List BackpatchRecord
  code_addr : Nat
  code : Nat → Nat
  xlat_output : Nat
  listing : List (Nat × Instr)

/-- The number of registered backpatch sites, `sh4_x86.backpatch_posn`. -/
def Translator.backpatch_posn (s : Translator) : Nat := s.backpatch_list.length

/-- Store the bytes `bs` at offsets `off, off + 1, ...` of a code array. -/
def writeBytes (code : Nat → Nat) (off : Nat) (bs : List Nat) : Nat → Nat :=
  fun a => if off ≤ a ∧ a < off + bs.length then bs.getD (a - off) 0 else code a

/-- The little-endian 32-bit word at offset `off` of a code array. -/
def read32 (code : Nat → Nat) (off : Nat) : Nat :=
  code off % 256 + 256 * (code (off + 1) % 256) + 65536 * (code (off + 2) % 256)
    + 16777216 * (code (off + 3) % 256)

/-- Store the 32-bit word `v` little-endian at offset `off` of a code array. -/
def write32 (code : Nat → Nat) (off : Nat) (v : Nat) : Nat → Nat :=
  fun a =>
    if a = off then v % 256
    else if a = off + 1 then v / 256 % 256
    else if a = off + 2 then v / 65536 % 256
    else if a = off + 3 then v / 16777216 % 256
    else code a

/-- Append one instruction at the cursor: what every `x86op.h` emission
operation does through `OP` and `OP32`. -/
def emit (e : Env) (i : Instr) (s : Translator) : Translator :=
  { s with
    code := writeBytes s.code s.xlat_output (e.encode i)
    xlat_output := s.xlat_output + (e.encode i).length
    listing := s.listing ++ [(s.xlat_output, i)] }

/-- The instructions a piece of the translator appends when started in `s`. -/
def emitted (f : Translator → Translator) (s : Translator) : List Instr :=
  ((f s).listing.drop s.listing.length).map Prod.snd

/-- The instructions emitted so far, in order. -/
def Translator.instrs (s : Translator) : List Instr := s.listing.map Prod.snd

/-- Emission operation `load_imm32(reg, value)` of the SH4 translator. -/
def load_imm32 (e : Env) (reg : Reg) (value : Nat) (s : Translator) : Translator :=
  emit e (.MOVL_imm32_r32 value reg) s

/-- Emission operation `load_ptr(reg, ptr)`, defined in `ia32abi.h` as
`load_imm32(reg, (uint32_t)ptr)`. -/
def load_ptr (e : Env) (reg : Reg) (ptr : Nat) (s : Translator) : Translator :=
  load_imm32 e reg ptr s

/-- Emission operation `load_spreg(reg, regoff)`: load a guest register. -/
def load_spreg (e : Env) (reg : Reg) (f : Sh4Field) (s : Translator) : Translator :=
  emit e (.MOVL_rbpdisp_r32 f reg) s

/-- Emission operation `store_spreg(reg, regoff)`: store a guest register. -/
def store_spreg (e : Env) (reg : Reg) (f : Sh4Field) (s : Translator) : Translator :=
  emit e (.MOVL_r32_rbpdisp reg f) s

/-- Modelled from the spec: `sh4_x86_add_backpatch(fixup_addr, fixup_pc, exc_code)`,
the registration routine of the Backpatch Registry, which `ia32abi.h` calls
but does not define.  A site records "the branch offset, the exception code
(or a sentinel), and the guest instruction count valid at that point".  The
offset recorded is that of the 4 bytes ending at `fixup_addr`, which is how
`sh4_translate_end_block` reads it (it patches 4 bytes at `fixup_offset` and
measures a displacement from `fixup_offset + 4`); the instruction count is
`(fixup_pc - block_start_pc) >> 1`. -/
def sh4_x86_add_backpatch (fixup_addr : Nat) (fixup_pc : Nat) (exc_code : Int)
    (s : Translator) : Translator :=
  { s with
    backpatch_list := s.backpatch_list ++
      [{ fixup_offset := fixup_addr - 4
         fixup_icount := sub32 fixup_pc s.block_start_pc / 2
         exc_code := exc_code }] }

/-! ## Call sequences (`call_func*`) -/

/-- C function `call_func0`. -/
def call_func0 (e : Env) (ptr : Nat) (s : Translator) : Translator :=
  let s := load_imm32 e .ECX ptr s
  emit e (.CALL_r32 .ECX) s

/-- C function `call_func1`, in its register-passing (`HAVE_FASTCALL`) and
its stack-passing definition. -/
def call_func1 (e : Env) (ptr : Nat) (arg1 : Reg) (s : Translator) : Translator :=
  if e.HAVE_FASTCALL then
    let s := if arg1 ≠ .EAX then emit e (.MOVL_r32_r32 arg1 .EAX) s else s
    let s := emit e (.MOVP_immptr_rptr ptr .ECX) s
    emit e (.CALL_r32 .ECX) s
  else
    let s := emit e (.SUBL_imms_r32 12 .ESP) s
    let s := emit e (.PUSH_r32 arg1) s
    let s := emit e (.MOVP_immptr_rptr ptr .ECX) s
    let s := emit e (.CALL_r32 .ECX) s
    emit e (.ADDL_imms_r32 16 .ESP) s

/-- C function `call_func1_r32` (register-passing only). -/
def call_func1_r32 (e : Env) (addr_reg : Reg) (arg1 : Reg) (s : Translator) : Translator :=
  let s := if arg1 ≠ .EAX then emit e (.MOVL_r32_r32 arg1 .EAX) s else s
  emit e (.CALL_r32 addr_reg) s

/-- C function `call_func1_r32disp8` (register-passing only). -/
def call_func1_r32disp8 (e : Env) (preg : Reg) (disp8 : Nat) (arg1 : Reg)
    (s : Translator) : Translator :=
  let s := if arg1 ≠ .EAX then emit e (.MOVL_r32_r32 arg1 .EAX) s else s
  emit e (.CALL_r32disp preg disp8) s

/-- C function `call_func1_r32disp8_exc` (register-passing only). -/
def call_func1_r32disp8_exc (e : Env) (preg : Reg) (disp8 : Nat) (arg1 : Reg) (pc : Nat)
    (s : Translator) : Translator :=
  let s := if arg1 ≠ .EAX then emit e (.MOVL_r32_r32 arg1 .EAX) s else s
  let s := emit e (.MOVP_immptr_rptr 0 .EDX) s
  let s := sh4_x86_add_backpatch s.xlat_output pc (-2) s
  emit e (.CALL_r32disp preg disp8) s

/-- C function `call_func2`, in its register-passing (`HAVE_FASTCALL`) and
its stack-passing definition. -/
def call_func2 (e : Env) (ptr : Nat) (arg1 arg2 : Reg) (s : Translator) : Translator :=
  if e.HAVE_FASTCALL then
    let s := if arg2 ≠ .EDX then emit e (.MOVL_r32_r32 arg2 .EDX) s else s
    let s := if arg1 ≠ .EAX then emit e (.MOVL_r32_r32 arg1 .EAX) s else s
    let s := emit e (.MOVP_immptr_rptr ptr .ECX) s
    emit e (.CALL_r32 .ECX) s
  else
    let s := emit e (.SUBL_imms_r32 8 .ESP) s
    let s := emit e (.PUSH_r32 arg2) s
    let s := emit e (.PUSH_r32 arg1) s
    let s := emit e (.MOVP_immptr_rptr ptr .ECX) s
    let s := emit e (.CALL_r32 .ECX) s
    emit e (.ADDL_imms_r32 16 .ESP) s

/-- C function `call_func2_r32` (register-passing only). -/
def call_func2_r32 (e : Env) (addr_reg : Reg) (arg1 arg2 : Reg) (s : Translator) : Translator :=
  let s := if arg2 ≠ .EDX then emit e (.MOVL_r32_r32 arg2 .EDX) s else s
  let s := if arg1 ≠ .EAX then emit e (.MOVL_r32_r32 arg1 .EAX) s else s
  emit e (.CALL_r32 addr_reg) s

/-- C function `call_func2_r32disp8` (register-passing only). -/
def call_func2_r32disp8 (e : Env) (preg : Reg) (disp8 : Nat) (arg1 arg2 : Reg)
    (s : Translator) : Translator :=
  let s := if arg2 ≠ .EDX then emit e (.MOVL_r32_r32 arg2 .EDX) s else s
  let s := if arg1 ≠ .EAX then emit e (.MOVL_r32_r32 arg1 .EAX) s else s
  emit e (.CALL_r32disp preg disp8) s

/-- C function `call_func2_r32disp8_exc` (register-passing only). -/
def call_func2_r32disp8_exc (e : Env) (preg : Reg) (disp8 : Nat) (arg1 arg2 : Reg) (pc : Nat)
    (s : Translator) : Translator :=
  let s := if arg2 ≠ .EDX then emit e (.MOVL_r32_r32 arg2 .EDX) s else s
  let s := if arg1 ≠ .EAX then emit e (.MOVL_r32_r32 arg1 .EAX) s else s
  let s := emit e (.MOVL_imm32_rspdisp 0 0) s
  let s := sh4_x86_add_backpatch s.xlat_output pc (-2) s
  emit e (.CALL_r32disp preg disp8) s

/-- C function `call_func1_exc` (register-passing only). -/
def call_func1_exc (e : Env) (ptr : Nat) (arg1 : Reg) (pc : Nat) (s : Translator) : Translator :=
  let s := if arg1 ≠ .EAX then emit e (.MOVL_r32_r32 arg1 .EAX) s else s
  let s := emit e (.MOVP_immptr_rptr 0 .EDX) s
  let s := sh4_x86_add_backpatch s.xlat_output pc (-2) s
  let s := emit e (.MOVP_immptr_rptr ptr .ECX) s
  emit e (.CALL_r32 .ECX) s

/-- C function `call_func2_exc` (register-passing only). -/
def call_func2_exc (e : Env) (ptr : Nat) (arg1 arg2 : Reg) (pc : Nat) (s : Translator) : Translator :=
  let s := if arg2 ≠ .EDX then emit e (.MOVL_r32_r32 arg2 .EDX) s else s
  let s := if arg1 ≠ .EAX then emit e (.MOVL_r32_r32 arg1 .EAX) s else s
  let s := emit e (.MOVL_imm32_rspdisp 0 0) s
  let s := sh4_x86_add_backpatch s.xlat_output pc (-2) s
  let s := emit e (.MOVP_immptr_rptr ptr .ECX) s
  emit e (.CALL_r32 .ECX) s

/-! ## Prologue, epilogue and the block exits -/

/-- C function `enter_block`. -/
def enter_block (e : Env) (s : Translator) : Translator :=
  let s := emit e (.PUSH_r32 .EBP) s
  let s := load_ptr e .EBP (e.sh4r_addr + 128) s
  emit e (.SUBL_imms_r32 8 .ESP) s

/-- C function `exit_block`. -/
def exit_block (e : Env) (s : Translator) : Translator :=
  let s := emit e (.ADDL_imms_r32 8 .ESP) s
  let s := emit e (.POP_r32 .EBP) s
  emit e .RET s

/-- The immediate `((pc - sh4_x86.block_start_pc)>>1)*sh4_cpu_period` of the
exits, in unsigned 32-bit arithmetic. -/
def cycle_delta (e : Env) (s : Translator) (pc : Nat) : Nat :=
  wrap32 (sub32 pc s.block_start_pc / 2 * e.sh4_cpu_period)

/-- The choice `if( sh4_x86.tlb_on ) call_func1(xlat_get_code_by_vma, reg)
else call_func1(xlat_get_code, reg)` shared by the exits. -/
def call_dispatch (e : Env) (reg : Reg) (s : Translator) : Translator :=
  if s.tlb_on then call_func1 e e.xlat_get_code_by_vma reg s
  else call_func1 e e.xlat_get_code reg s

/-- C function `exit_block_pcset`. -/
def exit_block_pcset (e : Env) (pc : Nat) (s : Translator) : Translator :=
  let s := load_imm32 e .ECX (cycle_delta e s pc) s
  let s := emit e (.ADDL_r32_rbpdisp .ECX .slice_cycle) s
  let s := load_spreg e .EAX .pc s
  let s := call_dispatch e .EAX s
  exit_block e s

/-- C function `exit_block_newpcset`. -/
def exit_block_newpcset (e : Env) (pc : Nat) (s : Translator) : Translator :=
  let s := load_imm32 e .ECX (cycle_delta e s pc) s
  let s := emit e (.ADDL_r32_rbpdisp .ECX .slice_cycle) s
  let s := load_spreg e .EAX .new_pc s
  let s := store_spreg e .EAX .pc s
  let s := call_dispatch e .EAX s
  exit_block e s

/-- C function `exit_block_abs`. -/
def exit_block_abs (e : Env) (pc endpc : Nat) (s : Translator) : Translator :=
  let s := load_imm32 e .ECX pc s
  let s := store_spreg e .ECX .pc s
  let s :=
    if e.IS_IN_ICACHE pc then
      let s := emit e (.MOVP_moffptr_rax (e.xlat_get_lut_entry (e.GET_ICACHE_PHYS pc))) s
      emit e (.ANDL_imms_r32 0xFFFFFFFC .EAX) s
    else call_dispatch e .ECX s
  let s := load_imm32 e .ECX (cycle_delta e s endpc) s
  let s := emit e (.ADDL_r32_rbpdisp .ECX .slice_cycle) s
  exit_block e s

/-- C function `exit_block_rel`. -/
def exit_block_rel (e : Env) (pc endpc : Nat) (s : Translator) : Translator :=
  let s := load_imm32 e .ECX (sub32 pc s.block_start_pc) s
  let s := emit e (.ADDL_rbpdisp_r32 .pc .ECX) s
  let s := store_spreg e .ECX .pc s
  let s :=
    if e.IS_IN_ICACHE pc then
      let s := emit e (.MOVP_moffptr_rax (e.xlat_get_lut_entry (e.GET_ICACHE_PHYS pc))) s
      emit e (.ANDL_imms_r32 0xFFFFFFFC .EAX) s
    else call_dispatch e .ECX s
  let s := load_imm32 e .ECX (cycle_delta e s endpc) s
  let s := emit e (.ADDL_r32_rbpdisp .ECX .slice_cycle) s
  exit_block e s

/-- C function `exit_block_exc`. -/
def exit_block_exc (e : Env) (code : Int) (pc : Nat) (s : Translator) : Translator :=
  let s := load_imm32 e .ECX (sub32 pc s.block_start_pc) s
  let s := emit e (.ADDL_r32_rbpdisp .ECX .pc) s
  let s := load_imm32 e .ECX (cycle_delta e s pc) s
  let s := emit e (.ADDL_r32_rbpdisp .ECX .slice_cycle) s
  let s := load_imm32 e .EAX (wrapInt32 code) s
  let s := call_func1 e e.sh4_raise_exception .EAX s
  let s := load_spreg e .EAX .pc s
  let s := call_dispatch e .EAX s
  exit_block e s

/-! ## Block trailer -/

/-- The first shared sequence of the trailer ("Raise exception"), emitted at
`end_ptr`. -/
def raise_trampoline (e : Env) (s : Translator) : Translator :=
  let s := emit e (.MOVL_r32_r32 .EDX .ECX) s
  let s := emit e (.ADDL_r32_r32 .EDX .ECX) s
  let s := emit e (.ADDL_r32_rbpdisp .ECX .pc) s
  let s := emit e (.MOVL_moffptr_eax e.sh4_cpu_period_addr) s
  let s := emit e (.MULL_r32 .EDX) s
  let s := emit e (.ADDL_r32_rbpdisp .EAX .slice_cycle) s
  let s := emit e (.POP_r32 .EAX) s
  let s := call_func1 e e.sh4_raise_exception .EAX s
  let s := load_spreg e .EAX .pc s
  let s := call_dispatch e .EAX s
  exit_block e s

/-- The second shared sequence of the trailer ("Exception already raised -
just cleanup"), emitted at `preexc_ptr`. -/
def cleanup_trampoline (e : Env) (s : Translator) : Translator :=
  let s := emit e (.MOVL_r32_r32 .EDX .ECX) s
  let s := emit e (.ADDL_r32_r32 .EDX .ECX) s
  let s := emit e (.ADDL_r32_rbpdisp .ECX .spc) s
  let s := emit e (.MOVL_moffptr_eax e.sh4_cpu_period_addr) s
  let s := emit e (.MULL_r32 .EDX) s
  let s := emit e (.ADDL_r32_rbpdisp .EAX .slice_cycle) s
  let s := load_spreg e .EAX .pc s
  let s := call_dispatch e .EAX s
  exit_block e s

/-- The assignment `*fixup_addr = (uint32_t)xlat_output`. -/
def patch_abs (r : BackpatchRecord) (s : Translator) : Translator :=
  { s with code := write32 s.code r.fixup_offset (wrap32 (s.code_addr + s.xlat_output)) }

/-- The assignment
`*fixup_addr += xlat_output - (uint8_t *)&code[fixup_offset] - 4`. -/
def patch_rel (r : BackpatchRecord) (s : Translator) : Translator :=
  let delta : Int := (s.xlat_output : Int) - (r.fixup_offset : Int) - 4
  let v : Nat := wrapInt32 ((read32 s.code r.fixup_offset : Int) + delta)
  { s with code := write32 s.code r.fixup_offset v }

/-- The body of the loop over `sh4_x86.backpatch_list` for the entry `r`;
`end_ptr` and `preexc_ptr` are the offsets of the two shared sequences. -/
def backpatch_site (e : Env) (end_ptr preexc_ptr : Nat) (s : Translator)
    (r : BackpatchRecord) : Translator :=
  if r.exc_code < 0 then
    let s := if r.exc_code = -2 then patch_abs r s else patch_rel r s
    let s := load_imm32 e .EDX r.fixup_icount s
    let rel : Int := (preexc_ptr : Int) - (s.xlat_output : Int)
    emit e (.JMP_prerel rel) s
  else
    let s := patch_rel r s
    let s := emit e (.PUSH_imm32 r.exc_code.toNat) s
    let s := load_imm32 e .EDX r.fixup_icount s
    let rel : Int := (end_ptr : Int) - (s.xlat_output : Int)
    emit e (.JMP_prerel rel) s

/-- The second half of `sh4_translate_end_block`: the statement
`if( sh4_x86.backpatch_posn != 0 ) { ... }`. -/
def end_block_trailer (e : Env) (s : Translator) : Translator :=
  if s.backpatch_posn ≠ 0 then
    let end_ptr := s.xlat_output
    let s := raise_trampoline e s
    let preexc_ptr := s.xlat_output
    let s := cleanup_trampoline e s
    s.backpatch_list.foldl (backpatch_site e end_ptr preexc_ptr) s
  else s

/-- C function `sh4_translate_end_block`. -/
def sh4_translate_end_block (e : Env) (pc : Nat) (s : Translator) : Translator :=
  let s := if s.branch_taken = false then exit_block_rel e pc pc s else s
  end_block_trailer e s

/-! ## The host machine -/

/-- One call made by emitted code: the address called, the two argument
positions of the calling convention in force, and the guest register file as
the callee found it. -/
structure CallEvent where
  target : Nat
  arg1 : Nat
  arg2 : Nat
  sh4r : Sh4r
  deriving DecidableEq, Repr

/-- The host state emitted code acts on.  Memory is seen through the three
ways the emitted code reaches it: the guest register file through EBP, the
stack through ESP, and `mem` through absolute addresses.  `trace` lists the
calls made so far, oldest first. -/
structure Machine where
  reg : Reg → Nat
  sh4r : Sh4r
  stack : Nat → Nat
  mem : Nat → Nat
  trace : List CallEvent

/-- Set one host register. -/
def Machine.setReg (m : Machine) (r : Reg) (v : Nat) : Machine :=
  { m with reg := fun x => if x = r then v else m.reg x }

/-- Set one field of the guest register file. -/
def Machine.setField (m : Machine) (f : Sh4Field) (v : Nat) : Machine :=
  { m with sh4r := m.sh4r.set f v }

/-- Store a word on the stack. -/
def Machine.setStack (m : Machine) (a : Nat) (v : Nat) : Machine :=
  { m with stack := fun x => if x = a then v else m.stack x }

/-- Where control goes after an instruction: on to the next one, back to the
caller at the popped return address, or to the place `rel` bytes from the
first byte of the jump just executed. -/
inductive Flow
  | next
  | ret (addr : Nat)
  | jump (rel : Int)
  deriving DecidableEq, Repr

/-- A call to the routine at address `target`.  The routine finds its
arguments in EAX and EDX under the register-passing convention and in the two
lowest stack words otherwise; it returns in EAX, may leave anything in ECX
and EDX, may update the guest register file, and preserves the other
registers and the caller's stack. -/
def do_call (e : Env) (target : Nat) (m : Machine) : Machine :=
  let a1 := if e.HAVE_FASTCALL then m.reg .EAX else m.stack (m.reg .ESP)
  let a2 := if e.HAVE_FASTCALL then m.reg .EDX else m.stack (add32 (m.reg .ESP) 4)
  let res := e.call target a1 a2 m.sh4r
  { m with
    reg := fun x =>
      if x = .EAX then wrap32 res.eax
      else if x = .ECX then wrap32 res.ecx
      else if x = .EDX then wrap32 res.edx
      else m.reg x
    sh4r := res.sh4r
    trace := m.trace ++ [{ target := target, arg1 := a1, arg2 := a2, sh4r := m.sh4r }] }

/-- Execute one instruction.  An access to the guest register file is
defined only while EBP holds `&sh4r + 128`, the value `enter_block` binds it
to; with any other EBP the access leaves the model (`none`). -/
def step (e : Env) (i : Instr) (m : Machine) : Option (Machine × Flow) :=
  match i with
  | .MOVL_imm32_r32 imm r => some (m.setReg r (wrap32 imm), .next)
  | .MOVP_immptr_rptr p r => some (m.setReg r (wrap32 p), .next)
  | .MOVL_r32_r32 r1 r2 => some (m.setReg r2 (m.reg r1), .next)
  | .ADDL_r32_r32 r1 r2 => some (m.setReg r2 (add32 (m.reg r2) (m.reg r1)), .next)
  | .ADDL_imms_r32 imm r => some (m.setReg r (add32 (m.reg r) imm), .next)
  | .SUBL_imms_r32 imm r => some (m.setReg r (sub32 (m.reg r) imm), .next)
  | .ANDL_imms_r32 imm r => some (m.setReg r (m.reg r &&& wrap32 imm), .next)
  | .ADDL_r32_rbpdisp r f =>
      if m.reg .EBP = wrap32 (e.sh4r_addr + 128) then
        some (m.setField f (add32 (m.sh4r.get f) (m.reg r)), .next)
      else none
  | .ADDL_rbpdisp_r32 f r =>
      if m.reg .EBP = wrap32 (e.sh4r_addr + 128) then
        some (m.setReg r (add32 (m.reg r) (m.sh4r.get f)), .next)
      else none
  | .MOVL_rbpdisp_r32 f r =>
      if m.reg .EBP = wrap32 (e.sh4r_addr + 128) then
        some (m.setReg r (m.sh4r.get f), .next)
      else none
  | .MOVL_r32_rbpdisp r f =>
      if m.reg .EBP = wrap32 (e.sh4r_addr + 128) then
        some (m.setField f (m.reg r), .next)
      else none
  | .MOVL_imm32_rspdisp imm disp =>
      some (m.setStack (add32 (m.reg .ESP) disp) (wrap32 imm), .next)
  | .MOVP_moffptr_rax addr => some (m.setReg .EAX (wrap32 (m.mem addr)), .next)
  | .MOVL_moffptr_eax addr => some (m.setReg .EAX (wrap32 (m.mem addr)), .next)
  | .MULL_r32 r =>
      let p := m.reg .EAX * m.reg r
      some ((m.setReg .EAX (wrap32 p)).setReg .EDX (wrap32 (p / 4294967296)), .next)
  | .PUSH_r32 r =>
      let sp := sub32 (m.reg .ESP) 4
      some ((m.setStack sp (m.reg r)).setReg .ESP sp, .next)
  | .PUSH_imm32 imm =>
      let sp := sub32 (m.reg .ESP) 4
      some ((m.setStack sp (wrap32 imm)).setReg .ESP sp, .next)
  | .POP_r32 r =>
      let v := m.stack (m.reg .ESP)
      some ((m.setReg .ESP (add32 (m.reg .ESP) 4)).setReg r v, .next)
  | .CALL_r32 r => some (do_call e (m.reg r) m, .next)
  | .CALL_r32disp r disp => some (do_call e (wrap32 (m.mem (add32 (m.reg r) disp))) m, .next)
  | .JMP_prerel rel => some (m, .jump rel)
  | .RET =>
      let addr := m.stack (m.reg .ESP)
      some (m.setReg .ESP (add32 (m.reg .ESP) 4), .ret addr)

/-- Execute a sequence of instructions in order, up to and including the
first one that transfers control. -/
def run (e : Env) : List Instr → Machine → Option (Machine × Flow)
  | [], m => some (m, .next)
  | i :: is, m =>
    match step e i m with
    | none => none
    | some (m1, .next) => run e is m1
    | some (m1, fl) => some (m1, fl)

/-- Whether `i` is a call instruction. -/
def Instr.isCall : Instr → Bool
  | .CALL_r32 _ => true
  | .CALL_r32disp _ _ => true
  | _ => false

/-- The values the stack pointer has at the call instructions that `run e is m`
executes, in the order of execution. -/
def call_esps (e : Env) : List Instr → Machine → List Nat
  | [], _ => []
  | i :: is, m =>
    (if i.isCall then [m.reg .ESP] else []) ++
      (match step e i m with
       | some (m1, .next) => call_esps e is m1
       | _ => [])

/-- The result of the call recorded in `ev`. -/
def CallEvent.result (e : Env) (ev : CallEvent) : HelperResult :=
  e.call ev.target ev.arg1 ev.arg2 ev.sh4r

/-- The dispatch helper an exit calls: `xlat_get_code_by_vma` when
`sh4_x86.tlb_on` is set, `xlat_get_code` otherwise. -/
def dispatch_helper (e : Env) (s : Translator) : Nat :=
  if s.tlb_on then e.xlat_get_code_by_vma else e.xlat_get_code

/-- What every emitter of this file guarantees between the state `s` it
starts from and the state `t` it ends in: the cursor does not move back, the
bytes below the old cursor are left alone, and the block keeps its address,
its backpatch list and its `tlb_on` flag. -/
def Grows (s t : Translator) : Prop :=
  s.xlat_output ≤ t.xlat_output ∧
  (∀ a, a < s.xlat_output → t.code a = s.code a) ∧
  t.code_addr = s.code_addr ∧
  t.backpatch_list = s.backpatch_list ∧
  t.tlb_on = s.tlb_on

/-- What every emitter of this file guarantees about the bytes beyond its
final cursor: going from the state `s` to the state `t` the cursor does not
move back, and the bytes at and after the new cursor are left alone. -/
def WritesBelowCursor (s t : Translator) : Prop :=
  s.xlat_output ≤ t.xlat_output ∧ ∀ a, t.xlat_output ≤ a → t.code a = s.code a

/-- The state in which `sh4_translate_end_block(pc)` reaches its trailer: after
the implicit exit when `branch_taken` is false, unchanged otherwise. -/
def before_trailer (e : Env) (pc : Nat) (s : Translator) : Translator :=
  if s.branch_taken = false then exit_block_rel e pc pc s else s

/-- The state of the backpatch loop of `sh4_translate_end_block(pc)` when it
has gone through the sites `done`: the two shared sequences are emitted,
followed by one stub for each site of `done`. -/
def loop_state (e : Env) (pc : Nat) (s : Translator) (done : List BackpatchRecord) :
    Translator :=
  done.foldl
    (backpatch_site e (before_trailer e pc s).xlat_output
      (raise_trampoline e (before_trailer e pc s)).xlat_output)
    (cleanup_trampoline e (raise_trampoline e (before_trailer e pc s)))

/-- Two emitter states that agree on everything except the bytes of the code
array. -/
def SameLayout (s t : Translator) : Prop :=
  s.block_start_pc = t.block_start_pc ∧ s.tlb_on = t.tlb_on ∧
  s.branch_taken = t.branch_taken ∧ s.backpatch_list = t.backpatch_list ∧
  s.code_addr = t.code_addr ∧ s.xlat_output = t.xlat_output ∧ s.listing = t.listing

/-- The instructions of the raise trampoline that come before its call of
`sh4_raise_exception`: from `MOVL_r32_r32( REG_EDX, REG_ECX )` to
`POP_r32(REG_EAX)`. -/
def raise_trampoline_entry (e : Env) (s : Translator) : Translator :=
  let s := emit e (.MOVL_r32_r32 .EDX .ECX) s
  let s := emit e (.ADDL_r32_r32 .EDX .ECX) s
  let s := emit e (.ADDL_r32_rbpdisp .ECX .pc) s
  let s := emit e (.MOVL_moffptr_eax e.sh4_cpu_period_addr) s
  let s := emit e (.MULL_r32 .EDX) s
  let s := emit e (.ADDL_r32_rbpdisp .EAX .slice_cycle) s
  emit e (.POP_r32 .EAX) s

/-- What an exception-enabled call sequence, taking the emitter from `s` to
`t`, has to do for the guest address `pc`: it emits the argument moves
`moves`, then at some offset `p` the placeholder instruction `ph`, whose
encoding is the opcode bytes `opc` followed by a 32-bit zero, then the
instructions `calls`; it appends one site to the backpatch list, coded -2,
with the instruction count of `pc` and the offset `p + opc.length` of the four
zero bytes, which are still zero in `t`. -/
def StagesPlaceholder (pc : Nat) (s t : Translator) (moves : List Instr) (ph : Instr)
    (opc : List Nat) (calls : List Instr) : Prop :=
  ∃ (pre rest : List (Nat × Instr)) (p : Nat),
    t.listing = s.listing ++ pre ++ (p, ph) :: rest ∧
    pre.map Prod.snd = moves ∧
    rest.map Prod.snd = calls ∧
    t.backpatch_list = s.backpatch_list ++
      [{ fixup_offset := p + opc.length
         fixup_icount := sub32 pc s.block_start_pc / 2
         exc_code := -2 }] ∧
    t.backpatch_posn = s.backpatch_posn + 1 ∧
    read32 t.code (p + opc.length) = 0 ∧
    p + opc.length + 4 ≤ t.xlat_output

/-- Two backpatch sites whose 4-byte placeholders do not overlap. -/
def SitesApart (a b : BackpatchRecord) : Prop :=
  a.fixup_offset + 4 ≤ b.fixup_offset ∨ b.fixup_offset + 4 ≤ a.fixup_offset

instance (a b : BackpatchRecord) : Decidable (SitesApart a b) := by
  unfold SitesApart
  exact inferInstance

/-! ## The native-PC resolver (`xlat_get_native_pc`)

The source has two definitions of `xlat_get_native_pc`, chosen by
`HAVE_EXCEPTIONS`; they are embedded under two names. -/

/-- The `struct UnwindInfo` of the source; `pc` is 0 for `NULL`. -/
structure UnwindInfo where
  block_start : Nat
  block_end : Nat
  pc : Nat
  deriving DecidableEq, Repr

/-- The two values of `_Unwind_Reason_Code` the source uses. -/
inductive Unwind_Reason_Code
  | URC_NO_REASON
  | URC_NORMAL_STOP
  deriving DecidableEq, Repr

/-- C function `xlat_check_frame`; `ip` is the value of `_Unwind_GetIP(context)`
for the frame visited. -/
def xlat_check_frame (ip : Nat) (info : UnwindInfo) : Unwind_Reason_Code × UnwindInfo :=
  if ip ≥ info.block_start ∧ ip < info.block_end then
    (.URC_NORMAL_STOP, { info with pc := ip })
  else (.URC_NO_REASON, info)

/-- The library routine `_Unwind_Backtrace( trace, arg )`, with the stack given
as the list of the instruction pointers of its frames from the trap point
outward: the callback is called on one frame after the other until it returns
something other than `_URC_NO_REASON` or the frames run out.  Returned are
the final contents of `arg` and the instruction pointers the callback was
called on, in order. -/
def Unwind_Backtrace (callback : Nat → UnwindInfo → Unwind_Reason_Code × UnwindInfo) :
    List Nat → UnwindInfo → UnwindInfo × List Nat
  | [], info => (info, [])
  | ip :: rest, info =>
    match callback ip info with
    | (.URC_NO_REASON, info1) =>
      ((Unwind_Backtrace callback rest info1).1, ip :: (Unwind_Backtrace callback rest info1).2)
    | (.URC_NORMAL_STOP, info1) => (info1, [ip])

/-- The `info` that `xlat_get_native_pc` hands to `_Unwind_Backtrace`;
`uintptr_t` has 32 bits on this host. -/
def unwind_info (code code_size : Nat) : UnwindInfo :=
  { pc := 0
    block_start := wrap32 code
    block_end := add32 (wrap32 code) code_size }

/-- C function `xlat_get_native_pc`, in its `HAVE_EXCEPTIONS` definition, on
the stack `frames`; the result 0 is `NULL`. -/
def xlat_get_native_pc_unwind (frames : List Nat) (code code_size : Nat) : Nat :=
  (Unwind_Backtrace xlat_check_frame frames (unwind_info code code_size)).1.pc

/-- The registers and the memory the frame scan works on; `result` is the
register that the compiler chose for the output operand `%0` of the `asm`
statement, whose content the C variable `result` receives when the statement
ends, and `inspected` lists the frame pointers whose saved slot has been
compared so far. -/
structure ScanState where
  eax : Nat
  ecx : Nat
  edx : Nat
  result : Nat
  mem : Nat → Nat
  inspected : List Nat

/-- The loop of the `asm` statement, from the label `frame_loop` to the
label `frame_not_found`; `mem a` is the 32-bit word at address `a`.  Each
round costs one unit of `fuel`. -/
def frame_loop : Nat → ScanState → Option ScanState
  | 0, _ => none
  | fuel + 1, st =>
    if st.eax = 0 then some st
    else if wrap32 (st.mem st.eax) = st.edx then
      some { st with
        result := wrap32 (st.mem (add32 st.eax 4))
        inspected := st.inspected ++ [st.eax] }
    else if sub32 st.ecx 1 = 0 then
      some { st with ecx := sub32 st.ecx 1, inspected := st.inspected ++ [st.eax] }
    else
      frame_loop fuel { st with
        eax := wrap32 (st.mem st.eax)
        ecx := sub32 st.ecx 1
        inspected := st.inspected ++ [st.eax] }

/-- C function `xlat_get_native_pc`, in its definition without
`HAVE_EXCEPTIONS`: the `asm` statement loads EBP, the count 8 and the sentinel
`&sh4r + 128` and enters the loop; the function returns the field `result` of
the final state.  The C variable `result` is the output operand `%0` with the
constraint `"=r"`, which is write-only: its initialiser `NULL` does not reach
the register chosen for the operand, and the statement writes that register
at `frame_found` only.  `out` is what that register holds when the statement
is entered; it is not fixed by the source (a compiler that gives `%0` the
register of the input operand `%1` makes it `&sh4r + 128`).  `none` means that
`fuel` rounds were not enough. -/
def xlat_get_native_pc_framescan (e : Env) (out : Nat) (mem : Nat → Nat) (ebp : Nat)
    (fuel : Nat) : Option ScanState :=
  frame_loop fuel
    { eax := ebp, ecx := 8, edx := wrap32 (e.sh4r_addr + 128), result := out, mem := mem,
      inspected := [] }

/-- The frame pointers of the saved base-pointer chain: the chain starts at
`ebp`, and the next frame pointer is the word the current one points to. -/
def frame_chain (mem : Nat → Nat) (ebp : Nat) (k : Nat) : Nat :=
  (fun fp => wrap32 (mem fp))^[k] ebp

/-! ## A sample environment

The theorems below hold for every `Env`.  To evaluate the definitions on
concrete inputs a sample environment is fixed here: the usual IA-32 encodings,
an arbitrary layout of the guest register file, and simple helper routines. -/

/-- The register numbers of IA-32. -/
def regNum : Reg → Nat
  | .EAX => 0 | .ECX => 1 | .EDX => 2 | .EBX => 3
  | .ESP => 4 | .EBP => 5 | .ESI => 6 | .EDI => 7

/-- Sample 8-bit displacements of the guest fields from EBP. -/
def fieldDisp : Sh4Field → Nat
  | .pc => 0x10 | .new_pc => 0x14 | .spc => 0x18 | .slice_cycle => 0x1C

/-- The four bytes of a 32-bit word, lowest first. -/
def le32 (v : Nat) : List Nat :=
  [v % 256, v / 256 % 256, v / 65536 % 256, v / 16777216 % 256]

/-- The usual IA-32 encodings of the instructions. -/
def ia32_encode : Instr → List Nat
  | .MOVL_imm32_r32 imm r => (0xB8 + regNum r) :: le32 imm
  | .MOVP_immptr_rptr p r => (0xB8 + regNum r) :: le32 p
  | .MOVL_r32_r32 r1 r2 => [0x89, 0xC0 + 8 * regNum r1 + regNum r2]
  | .ADDL_r32_r32 r1 r2 => [0x01, 0xC0 + 8 * regNum r1 + regNum r2]
  | .ADDL_imms_r32 imm r => [0x83, 0xC0 + regNum r, imm % 256]
  | .SUBL_imms_r32 imm r => [0x83, 0xE8 + regNum r, imm % 256]
  | .ANDL_imms_r32 imm r => [0x83, 0xE0 + regNum r, imm % 256]
  | .ADDL_r32_rbpdisp r f => [0x01, 0x45 + 8 * regNum r, fieldDisp f]
  | .ADDL_rbpdisp_r32 f r => [0x03, 0x45 + 8 * regNum r, fieldDisp f]
  | .MOVL_rbpdisp_r32 f r => [0x8B, 0x45 + 8 * regNum r, fieldDisp f]
  | .MOVL_r32_rbpdisp r f => [0x89, 0x45 + 8 * regNum r, fieldDisp f]
  | .MOVL_imm32_rspdisp imm disp => [0xC7, 0x44, 0x24, disp % 256] ++ le32 imm
  | .MOVP_moffptr_rax addr => 0xA1 :: le32 addr
  | .MOVL_moffptr_eax addr => 0xA1 :: le32 addr
  | .MULL_r32 r => [0xF7, 0xE0 + regNum r]
  | .PUSH_r32 r => [0x50 + regNum r]
  | .PUSH_imm32 imm => 0x68 :: le32 imm
  | .POP_r32 r => [0x58 + regNum r]
  | .CALL_r32 r => [0xFF, 0xD0 + regNum r]
  | .CALL_r32disp r disp => [0xFF, 0x50 + regNum r, disp % 256]
  | .JMP_prerel rel =>
      if -128 ≤ rel - 2 ∧ rel - 2 ≤ 127 then [0xEB, ((rel - 2) % 256).toNat]
      else 0xE9 :: le32 (wrapInt32 (rel - 5))
  | .RET => [0xC3]

/-- Sample helper routines: the two lookups return an entry point computed
from the address asked for and leave the guest state alone; the routine at
the address of `sh4_raise_exception` enters the handler at `0x100 + code`,
saving the old PC in SPC. -/
def sampleCall (target a1 _a2 : Nat) (g : Sh4r) : HelperResult :=
  if target = 0x08049000 then
    { eax := 0, ecx := 0xDEAD, edx := 0xBEEF, sh4r := { g with spc := g.pc, pc := 0x100 + a1 } }
  else if target = 0x08048200 then
    { eax := 0x09000004 + 16 * a1, ecx := 0x1111, edx := 0x2222, sh4r := g }
  else
    { eax := 0x09000000 + 16 * a1, ecx := 0x3333, edx := 0x4444, sh4r := g }

/-- A sample environment; the instruction cache holds the page `0x8C010000`. -/
def sampleEnv (fastcall : Bool) : Env :=
  { HAVE_FASTCALL := fastcall
    sh4r_addr := 0x0A000000
    sh4_cpu_period := 1
    sh4_cpu_period_addr := 0x0A001000
    xlat_get_code := 0x08048100
    xlat_get_code_by_vma := 0x08048200
    sh4_raise_exception := 0x08049000
    IS_IN_ICACHE := fun pc => pc / 4096 == 0x8C010
    GET_ICACHE_PHYS := fun pc => 0x0C010000 + pc % 4096
    xlat_get_lut_entry := fun a => 0x0B000000 + 4 * (a % 0x1000000 / 2)
    encode := ia32_encode
    call := sampleCall }

/-- A sample translator state: an empty block of guest code starting at `start`. -/
def sampleTranslator (start : Nat) (tlb branch : Bool) (sites : List BackpatchRecord) :
    Translator :=
  { block_start_pc := start
    tlb_on := tlb
    branch_taken := branch
    backpatch_list := sites
    code_addr := 0x40000000
    code := fun _ => 0
    xlat_output := 0
    listing := [] }

/-- A sample block at finalization: 8 bytes of body code, all zero, ended by
an explicit exit, with the backpatch sites `sites` registered. -/
def sampleBlock (sites : List BackpatchRecord) : Translator :=
  { sampleTranslator 0x1000 false true sites with xlat_output := 8 }

/-- A sample block at finalization that has not exited yet: 8 bytes of body
code, all zero, with the backpatch sites `sites` registered. -/
def sampleFallthrough (sites : List BackpatchRecord) : Translator :=
  { sampleTranslator 0x1000 false false sites with xlat_output := 8 }

/-- A sample host state inside a block: EBP bound to the guest register file,
the stack pointer at `0xBFFF0000` with return address `0x08050000` above the
frame of the prologue. -/
def sampleMachine (g : Sh4r) : Machine :=
  { reg := fun r => match r with
      | .EBP => 0x0A000080
      | .ESP => 0xBFFF0000
      | _ => 0
    sh4r := g
    stack := fun a => if a = 0xBFFF0008 then 0xBFFF0100 else if a = 0xBFFF000C then 0x08050000 else 0
    mem := fun a => if a = 0x0A001000 then 1 else 0x09100000 + a % 4096
    trace := [] }

/-- The sample host state with distinct values in the general registers. -/
def sampleRegs : Machine :=
  { sampleMachine { pc := 0x1000, new_pc := 0, spc := 0, slice_cycle := 0 } with
    reg := fun r => match r with
      | .EAX => 11 | .ECX => 33 | .EDX => 22 | .EBX => 44
      | .ESP => 0xBFFF0000 | .EBP => 0x0A000080 | .ESI => 66 | .EDI => 77 }

/-- A sample host state at the entry of a block: the stack pointer at
`0xBFFF000C` points at the return address `0x08050000`, and EBP holds the
host frame pointer `0xBFFF0100`. -/
def sampleEntry : Machine :=
  { sampleMachine { pc := 0x1000, new_pc := 0, spc := 0, slice_cycle := 0 } with
    reg := fun r => match r with
      | .EAX => 11 | .ECX => 33 | .EDX => 22 | .EBX => 44
      | .ESP => 0xBFFF000C | .EBP => 0xBFFF0100 | .ESI => 66 | .EDI => 77
    stack := fun a => if a = 0xBFFF000C then 0x08050000 else 0 }

/-! ## The 64-bit VRAM region (`pvr2mem.c`)

VRAM is the array of bytes at `video_base`, here a function from byte offsets
to bytes, and the buffers of the caller (`src`, `dest`) are functions from
byte indices to bytes.  A pointer into VRAM is its byte offset from
`video_base`, so `p++` adds 4 for a `uint32_t *`, 2 for a `uint16_t *` and 1
for a `uint8_t *`.  The calls of `texcache_invalidate_page` act on the texture
cache only and are left out. -/

/-- The array `mem` with the element at `a` replaced by `v`. -/
def store (mem : Nat → Nat) (a v : Nat) : Nat → Nat :=
  fun x => if x = a then v else mem x

/-- The loop `*dest++ = *src++` run `n` times, from `src[s]` on to `dest[d]`
on.  A 32-bit store `*p = *q` is this loop run 4 times. -/
def copy_bytes (src : Nat → Nat) : Nat → Nat → Nat → (Nat → Nat) → Nat → Nat
  | 0, _, _, dest => dest
  | n + 1, d, s, dest => copy_bytes src n (d + 1) (s + 1) (store dest d (src s))

/-- The two bank pointers `banks[0]` and `banks[1]`. -/
structure Banks where
  b0 : Nat
  b1 : Nat
  deriving DecidableEq, Repr

/-- The pointer `banks[i]`. -/
def Banks.get (b : Banks) (i : Nat) : Nat := if i = 0 then b.b0 else b.b1

/-- The update `banks[i] += n` (in bytes). -/
def Banks.inc (b : Banks) (i n : Nat) : Banks :=
  if i = 0 then { b with b0 := b.b0 + n } else { b with b1 := b.b1 + n }

/-- The negation `!f` of C. -/
def lnot (f : Nat) : Nat := if f = 0 then 1 else 0

/-- The loop `while( length >= 4 ) { *banks[bank_flag]++ = *dwsrc++; bank_flag =
!bank_flag; length -= 4; }` run `n` times, with `dwsrc` at `src[s]`: the new
VRAM, the bank pointers and the flag. -/
def write_words (src : Nat → Nat) :
    Nat → Nat → Banks → Nat → (Nat → Nat) → (Nat → Nat) × Banks × Nat
  | 0, _, banks, bank_flag, vram => (vram, banks, bank_flag)
  | n + 1, s, banks, bank_flag, vram =>
    write_words src n (s + 4) (banks.inc bank_flag 4) (lnot bank_flag)
      (copy_bytes src 4 (banks.get bank_flag) s vram)

/-- `pvr2_vram64_write( destaddr, src, length )`: the new VRAM.  The sum
`destaddr + length` is a sum of `uint32_t`.  The loop of the non-aligned start
runs `min (4 - (destaddr & 3)) length` times, the word loop `length / 4` times
and the loop of the non-aligned end `length % 4` times, for the `length` that
is left when they are reached. -/
def pvr2_vram64_write (destaddr : Nat) (src : Nat → Nat) (length : Nat) (vram : Nat → Nat) :
    Nat → Nat :=
  let bank_flag := (destaddr &&& 0x04) >>> 2
  let destaddr := destaddr &&& 0x7FFFFF
  let length := if wrap32 (destaddr + length) > 0x800000 then 0x800000 - destaddr else length
  let banks : Banks :=
    { b0 := (destaddr &&& 0x007FFFF8) >>> 1, b1 := ((destaddr &&& 0x007FFFF8) >>> 1) + 0x400000 }
  let banks := if bank_flag ≠ 0 then banks.inc 0 4 else banks
  let head := if destaddr &&& 0x03 ≠ 0 then min (4 - (destaddr &&& 0x03)) length else 0
  let vram :=
    if destaddr &&& 0x03 ≠ 0 then
      copy_bytes src head (banks.get bank_flag + (destaddr &&& 0x03)) 0 vram
    else vram
  let bank_flag := if destaddr &&& 0x03 ≠ 0 then lnot bank_flag else bank_flag
  let length := length - head
  let r := write_words src (length / 4) head banks bank_flag vram
  if length % 4 ≠ 0 then
    copy_bytes src (length % 4) (r.2.1.get r.2.2) (head + 4 * (length / 4)) r.1
  else r.1

/-- The loop `while( length >= 4 ) { *dwdest++ = *banks[bank_flag]++; bank_flag =
!bank_flag; length -= 4; }` run `n` times, with `dwdest` at `dest[d]`: the new
buffer, the bank pointers and the flag. -/
def read_words (vram : Nat → Nat) :
    Nat → Nat → Banks → Nat → (Nat → Nat) → (Nat → Nat) × Banks × Nat
  | 0, _, banks, bank_flag, dest => (dest, banks, bank_flag)
  | n + 1, d, banks, bank_flag, dest =>
    read_words vram n (d + 4) (banks.inc bank_flag 4) (lnot bank_flag)
      (copy_bytes vram 4 d (banks.get bank_flag) dest)

/-- `pvr2_vram64_read( dest, srcaddr, length )`: the new buffer `dest`. -/
def pvr2_vram64_read (dest : Nat → Nat) (srcaddr length : Nat) (vram : Nat → Nat) :
    Nat → Nat :=
  let bank_flag := (srcaddr &&& 0x04) >>> 2
  let srcaddr := srcaddr &&& 0x7FFFFF
  let length := if wrap32 (srcaddr + length) > 0x800000 then 0x800000 - srcaddr else length
  let banks : Banks :=
    { b0 := (srcaddr &&& 0x007FFFF8) >>> 1, b1 := ((srcaddr &&& 0x007FFFF8) >>> 1) + 0x400000 }
  let banks := if bank_flag ≠ 0 then banks.inc 0 4 else banks
  let head := if srcaddr &&& 0x03 ≠ 0 then min (4 - (srcaddr &&& 0x03)) length else 0
  let dest :=
    if srcaddr &&& 0x03 ≠ 0 then
      copy_bytes vram head 0 (banks.get bank_flag + (srcaddr &&& 0x03)) dest
    else dest
  let bank_flag := if srcaddr &&& 0x03 ≠ 0 then lnot bank_flag else bank_flag
  let length := length - head
  let r := read_words vram (length / 4) head banks bank_flag dest
  if length % 4 ≠ 0 then
    copy_bytes vram (length % 4) (head + 4 * (length / 4)) (r.2.1.get r.2.2) r.1
  else r.1

/-- The arithmetic right shift `i >> 3` of the `int` whose bit pattern is `i`,
stored to a `uint32_t`. -/
def sar3 (i : Nat) : Nat :=
  if i < 0x80000000 then i >>> 3 else (i >>> 3) + 0xE0000000

/-- The outer loop of `pvr2_vram64_write_stride`, run `n` times with `dwsrc` at
`src[s]`; `line_bytes` is the count of words of a line. -/
def write_lines (src : Nat → Nat) (line_bytes line_gap line_gap_flag : Nat) :
    Nat → Nat → Banks → Nat → (Nat → Nat) → (Nat → Nat) × Banks × Nat
  | 0, _, banks, bank_flag, vram => (vram, banks, bank_flag)
  | n + 1, s, banks, bank_flag, vram =>
    let r := write_words src line_bytes s banks bank_flag vram
    let banks := (r.2.1.inc 0 (4 * line_gap)).inc 1 (4 * line_gap)
    if line_gap_flag ≠ 0 then
      write_lines src line_bytes line_gap line_gap_flag n (s + 4 * line_bytes)
        (banks.inc r.2.2 4) (lnot r.2.2) r.1
    else
      write_lines src line_bytes line_gap line_gap_flag n (s + 4 * line_bytes) banks r.2.2 r.1

/-- `pvr2_vram64_write_stride( destaddr, src, line_bytes, line_stride_bytes,
line_count )`: the new VRAM. -/
def pvr2_vram64_write_stride (destaddr : Nat) (src : Nat → Nat)
    (line_bytes line_stride_bytes line_count : Nat) (vram : Nat → Nat) : Nat → Nat :=
  let bank_flag := (destaddr &&& 0x04) >>> 2
  let destaddr := destaddr &&& 0x7FFFF8
  let i := sub32 line_stride_bytes line_bytes
  let line_gap_flag := i &&& 0x04
  let line_gap := sar3 i
  let line_bytes := line_bytes >>> 2
  let banks : Banks := { b0 := destaddr >>> 1, b1 := (destaddr >>> 1) + 0x400000 }
  let banks := if bank_flag ≠ 0 then banks.inc 0 4 else banks
  (write_lines src line_bytes line_gap line_gap_flag line_count 0 banks bank_flag vram).1

/-- The outer loop of `pvr2_vram64_read_stride`, run `n` times with `dwdest`
at `dest[d]`; `line_bytes` is the count of words of a line and
`dest_line_gap` a count of words. -/
def read_lines (vram : Nat → Nat) (line_bytes dest_line_gap src_line_gap src_line_gap_flag : Nat) :
    Nat → Nat → Banks → Nat → (Nat → Nat) → (Nat → Nat) × Banks × Nat
  | 0, _, banks, bank_flag, dest => (dest, banks, bank_flag)
  | n + 1, d, banks, bank_flag, dest =>
    let r := read_words vram line_bytes d banks bank_flag dest
    let banks := (r.2.1.inc 0 (4 * src_line_gap)).inc 1 (4 * src_line_gap)
    if src_line_gap_flag ≠ 0 then
      read_lines vram line_bytes dest_line_gap src_line_gap src_line_gap_flag n
        (d + 4 * line_bytes + 4 * dest_line_gap) (banks.inc r.2.2 4) (lnot r.2.2) r.1
    else
      read_lines vram line_bytes dest_line_gap src_line_gap src_line_gap_flag n
        (d + 4 * line_bytes + 4 * dest_line_gap) banks r.2.2 r.1

/-- `pvr2_vram64_read_stride( dest, dest_line_bytes, srcaddr, src_line_bytes,
line_count )`: the new buffer `dest`.  The local `dest_line_gap` is assigned
only when `src_line_bytes <= dest_line_bytes`; on the other branch it keeps
the indeterminate value it has on entry, the parameter `indeterminate`. -/
def pvr2_vram64_read_stride (indeterminate : Nat) (dest : Nat → Nat)
    (dest_line_bytes srcaddr src_line_bytes line_count : Nat) (vram : Nat → Nat) : Nat → Nat :=
  let bank_flag := (srcaddr &&& 0x04) >>> 2
  let srcaddr := srcaddr &&& 0x7FFFF8
  let dest_line_gap :=
    if src_line_bytes ≤ dest_line_bytes then (dest_line_bytes - src_line_bytes) >>> 2
    else indeterminate
  let i := sub32 src_line_bytes dest_line_bytes
  let src_line_gap := if src_line_bytes ≤ dest_line_bytes then 0 else sar3 i
  let src_line_gap_flag := if src_line_bytes ≤ dest_line_bytes then 0 else i &&& 0x04
  let line_bytes :=
    if src_line_bytes ≤ dest_line_bytes then src_line_bytes >>> 2 else dest_line_bytes >>> 2
  let banks : Banks := { b0 := srcaddr >>> 1, b1 := (srcaddr >>> 1) + 0x400000 }
  let banks := if bank_flag ≠ 0 then banks.inc 0 4 else banks
  (read_lines vram line_bytes dest_line_gap src_line_gap src_line_gap_flag line_count 0 banks
    bank_flag dest).1

/-- The `uint16_t` at byte offset `p` of `vram`. -/
def load16 (vram : Nat → Nat) (p : Nat) : Nat := vram p + 256 * vram (p + 1)

/-- `pvr2_vram64_detwiddle_16( dest, banks, offset, x1, y1, width, stride )`:
the new `dest`, an array of `uint16_t`, and the bank pointers.  The recursion
of the C function does not end for every `width`; here it ends with `none`
when `fuel` nested calls do not suffice. -/
def pvr2_vram64_detwiddle_16 (vram : Nat → Nat) :
    Nat → (Nat → Nat) → Banks → Nat → Nat → Nat → Nat → Nat → Option ((Nat → Nat) × Banks)
  | 0, _, _, _, _, _, _, _ => none
  | fuel + 1, dest, banks, offset, x1, y1, width, stride =>
    if width = 2 then
      let dest := store dest (y1 * stride + x1) (load16 vram (banks.get 0))
      let banks := banks.inc 0 2
      let dest := store dest ((y1 + 1) * stride + x1) (load16 vram (banks.get offset))
      let banks := banks.inc offset 2
      let dest := store dest (y1 * stride + x1 + 1) (load16 vram (banks.get 1))
      let banks := banks.inc 1 2
      let dest := store dest ((y1 + 1) * stride + x1 + 1) (load16 vram (banks.get (offset ^^^ 1)))
      let banks := banks.inc (offset ^^^ 1) 2
      some (dest, banks)
    else
      let subdivide := width >>> 1
      (pvr2_vram64_detwiddle_16 vram fuel dest banks offset x1 y1 subdivide stride).bind
      fun r =>
      (pvr2_vram64_detwiddle_16 vram fuel r.1 r.2 offset x1 (y1 + subdivide) subdivide stride).bind
      fun r =>
      (pvr2_vram64_detwiddle_16 vram fuel r.1 r.2 offset (x1 + subdivide) y1 subdivide stride).bind
      fun r =>
      pvr2_vram64_detwiddle_16 vram fuel r.1 r.2 offset (x1 + subdivide) (y1 + subdivide)
        subdivide stride

/-- The loop `for( i=0; i<width; i+=height ) pvr2_vram64_detwiddle_16( wdest,
banks, offset_flag, i, 0, height, width )` from `i` on, `none` when `n`
iterations do not suffice. -/
def tiles_across_16 (vram : Nat → Nat) (fuel offset_flag width height : Nat) :
    Nat → Nat → (Nat → Nat) → Banks → Option ((Nat → Nat) × Banks)
  | 0, i, dest, banks => if i < width then none else some (dest, banks)
  | n + 1, i, dest, banks =>
    if i < width then
      (pvr2_vram64_detwiddle_16 vram fuel dest banks offset_flag i 0 height width).bind
      fun r => tiles_across_16 vram fuel offset_flag width height n (i + height) r.1 r.2
    else some (dest, banks)

/-- The loop `for( i=0; i<height; i+=width ) pvr2_vram64_detwiddle_16( wdest,
banks, offset_flag, 0, i, width, width )` from `i` on, `none` when `n`
iterations do not suffice. -/
def tiles_down_16 (vram : Nat → Nat) (fuel offset_flag width height : Nat) :
    Nat → Nat → (Nat → Nat) → Banks → Option ((Nat → Nat) × Banks)
  | 0, i, dest, banks => if i < height then none else some (dest, banks)
  | n + 1, i, dest, banks =>
    if i < height then
      (pvr2_vram64_detwiddle_16 vram fuel dest banks offset_flag 0 i width width).bind
      fun r => tiles_down_16 vram fuel offset_flag width height n (i + width) r.1 r.2
    else some (dest, banks)

/-- `pvr2_vram64_read_twiddled_16( dest, srcaddr, width, height )`: the new
`dest`, an array of `uint16_t`; `fuel` bounds the iterations of the loops and
the depth of the recursion. -/
def pvr2_vram64_read_twiddled_16 (fuel : Nat) (dest : Nat → Nat) (srcaddr width height : Nat)
    (vram : Nat → Nat) : Option (Nat → Nat) :=
  let offset_flag := (srcaddr &&& 0x06) >>> 1
  let srcaddr := srcaddr &&& 0x7FFFF8
  let banks : Banks := { b0 := srcaddr >>> 1, b1 := (srcaddr >>> 1) + 0x400000 }
  let banks : Banks :=
    if offset_flag &&& 0x02 ≠ 0 then { b0 := banks.b1, b1 := banks.b0 + 4 } else banks
  let offset_flag := if offset_flag &&& 0x02 ≠ 0 then offset_flag &&& 0x01 else offset_flag
  let banks := banks.inc 0 (2 * offset_flag)
  if width > height then
    (tiles_across_16 vram fuel offset_flag width height fuel 0 dest banks).map Prod.fst
  else if height > width then
    (tiles_down_16 vram fuel offset_flag width height fuel 0 dest banks).map Prod.fst
  else if width = 1 then some (store dest 0 (load16 vram (banks.get 0)))
  else (pvr2_vram64_detwiddle_16 vram fuel dest banks offset_flag 0 0 width width).map Prod.fst

/-- `pvr2_vram64_detwiddle_4( dest, banks, offset, x1, y1, width, stride )`:
the new `dest`, an array of `uint8_t`, and the bank pointers; `none` when
`fuel` nested calls do not suffice. -/
def pvr2_vram64_detwiddle_4 (vram : Nat → Nat) :
    Nat → (Nat → Nat) → Banks → Nat → Nat → Nat → Nat → Nat → Option ((Nat → Nat) × Banks)
  | 0, _, _, _, _, _, _, _ => none
  | fuel + 1, dest, banks, offset, x1, y1, width, stride =>
    if width = 2 then
      let x1 := x1 >>> 1
      let t1 := vram (banks.get (if offset < 4 then 0 else 1))
      let banks := banks.inc (if offset < 4 then 0 else 1) 1
      let t2 := vram (banks.get (if offset < 3 then 0 else 1))
      let banks := banks.inc (if offset < 3 then 0 else 1) 1
      let dest := store dest (y1 * stride + x1) (((t1 &&& 0x0F) ||| (t2 <<< 4)) % 256)
      let dest := store dest ((y1 + 1) * stride + x1) (((t1 >>> 4) ||| (t2 &&& 0xF0)) % 256)
      some (dest, banks)
    else if width = 4 then
      (pvr2_vram64_detwiddle_4 vram fuel dest banks offset x1 y1 2 stride).bind
      fun r =>
      (pvr2_vram64_detwiddle_4 vram fuel r.1 r.2 (offset + 2) x1 (y1 + 2) 2 stride).bind
      fun r =>
      (pvr2_vram64_detwiddle_4 vram fuel r.1 r.2 (offset + 4) (x1 + 2) y1 2 stride).bind
      fun r =>
      pvr2_vram64_detwiddle_4 vram fuel r.1 r.2 (offset + 6) (x1 + 2) (y1 + 2) 2 stride
    else
      let subdivide := width >>> 1
      (pvr2_vram64_detwiddle_4 vram fuel dest banks offset x1 y1 subdivide stride).bind
      fun r =>
      (pvr2_vram64_detwiddle_4 vram fuel r.1 r.2 offset x1 (y1 + subdivide) subdivide stride).bind
      fun r =>
      (pvr2_vram64_detwiddle_4 vram fuel r.1 r.2 offset (x1 + subdivide) y1 subdivide stride).bind
      fun r =>
      pvr2_vram64_detwiddle_4 vram fuel r.1 r.2 offset (x1 + subdivide) (y1 + subdivide)
        subdivide stride

/-- The loop `for( i=0; i<width; i+=height ) pvr2_vram64_detwiddle_4( wdest,
banks, offset_flag, i, 0, height, stride )` from `i` on, `none` when `n`
iterations do not suffice. -/
def tiles_across_4 (vram : Nat → Nat) (fuel offset_flag width height stride : Nat) :
    Nat → Nat → (Nat → Nat) → Banks → Option ((Nat → Nat) × Banks)
  | 0, i, dest, banks => if i < width then none else some (dest, banks)
  | n + 1, i, dest, banks =>
    if i < width then
      (pvr2_vram64_detwiddle_4 vram fuel dest banks offset_flag i 0 height stride).bind
      fun r => tiles_across_4 vram fuel offset_flag width height stride n (i + height) r.1 r.2
    else some (dest, banks)

/-- The loop `for( i=0; i<height; i+=width ) pvr2_vram64_detwiddle_4( wdest,
banks, offset_flag, 0, i, width, stride )` from `i` on, `none` when `n`
iterations do not suffice. -/
def tiles_down_4 (vram : Nat → Nat) (fuel offset_flag width height stride : Nat) :
    Nat → Nat → (Nat → Nat) → Banks → Option ((Nat → Nat) × Banks)
  | 0, i, dest, banks => if i < height then none else some (dest, banks)
  | n + 1, i, dest, banks =>
    if i < height then
      (pvr2_vram64_detwiddle_4 vram fuel dest banks offset_flag 0 i width stride).bind
      fun r => tiles_down_4 vram fuel offset_flag width height stride n (i + width) r.1 r.2
    else some (dest, banks)

/-- `pvr2_vram64_read_twiddled_4( dest, srcaddr, width, height )`: the new
`dest`, an array of `uint8_t`; `fuel` bounds the iterations of the loops and
the depth of the recursion. -/
def pvr2_vram64_read_twiddled_4 (fuel : Nat) (dest : Nat → Nat) (srcaddr width height : Nat)
    (vram : Nat → Nat) : Option (Nat → Nat) :=
  let offset_flag := srcaddr &&& 0x07
  let stride := width >>> 1
  let srcaddr := srcaddr &&& 0x7FFFF8
  let banks : Banks := { b0 := srcaddr >>> 1, b1 := (srcaddr >>> 1) + 0x400000 }
  let banks : Banks :=
    if offset_flag &&& 0x04 ≠ 0 then { b0 := banks.b1, b1 := banks.b0 + 4 } else banks
  let offset_flag := if offset_flag &&& 0x04 ≠ 0 then offset_flag &&& 0x03 else offset_flag
  let banks := banks.inc 0 offset_flag
  if width > height then
    (tiles_across_4 vram fuel offset_flag width height stride fuel 0 dest banks).map Prod.fst
  else if height > width then
    (tiles_down_4 vram fuel offset_flag width height stride fuel 0 dest banks).map Prod.fst
  else if width = 1 then some (store dest 0 (vram (banks.get 0)))
  else (pvr2_vram64_detwiddle_4 vram fuel dest banks offset_flag 0 0 width stride).map Prod.fst

/-- `pvr2_vram64_detwiddle_8( dest, banks, offset, x1, y1, width, stride )`:
the new `dest`, an array of `uint8_t`, and the bank pointers; `none` when
`fuel` nested calls do not suffice. -/
def pvr2_vram64_detwiddle_8 (vram : Nat → Nat) :
    Nat → (Nat → Nat) → Banks → Nat → Nat → Nat → Nat → Nat → Option ((Nat → Nat) × Banks)
  | 0, _, _, _, _, _, _, _ => none
  | fuel + 1, dest, banks, offset, x1, y1, width, stride =>
    if width = 2 then
      let dest := store dest (y1 * stride + x1) (vram (banks.get 0))
      let banks := banks.inc 0 1
      let dest := store dest ((y1 + 1) * stride + x1)
        (vram (banks.get (if offset < 3 then 0 else 1)))
      let banks := banks.inc (if offset < 3 then 0 else 1) 1
      let dest := store dest (y1 * stride + x1 + 1)
        (vram (banks.get (if offset < 2 then 0 else 1)))
      let banks := banks.inc (if offset < 2 then 0 else 1) 1
      let dest := store dest ((y1 + 1) * stride + x1 + 1)
        (vram (banks.get (if offset = 0 then 0 else 1)))
      let banks := banks.inc (if offset = 0 then 0 else 1) 1
      some (dest, { b0 := banks.b1, b1 := banks.b0 })
    else
      let subdivide := width >>> 1
      (pvr2_vram64_detwiddle_8 vram fuel dest banks offset x1 y1 subdivide stride).bind
      fun r =>
      (pvr2_vram64_detwiddle_8 vram fuel r.1 r.2 offset x1 (y1 + subdivide) subdivide stride).bind
      fun r =>
      (pvr2_vram64_detwiddle_8 vram fuel r.1 r.2 offset (x1 + subdivide) y1 subdivide stride).bind
      fun r =>
      pvr2_vram64_detwiddle_8 vram fuel r.1 r.2 offset (x1 + subdivide) (y1 + subdivide)
        subdivide stride

/-- The loop `for( i=0; i<width; i+=height ) pvr2_vram64_detwiddle_8( wdest,
banks, offset_flag, i, 0, height, width )` from `i` on, `none` when `n`
iterations do not suffice. -/
def tiles_across_8 (vram : Nat → Nat) (fuel offset_flag width height : Nat) :
    Nat → Nat → (Nat → Nat) → Banks → Option ((Nat → Nat) × Banks)
  | 0, i, dest, banks => if i < width then none else some (dest, banks)
  | n + 1, i, dest, banks =>
    if i < width then
      (pvr2_vram64_detwiddle_8 vram fuel dest banks offset_flag i 0 height width).bind
      fun r => tiles_across_8 vram fuel offset_flag width height n (i + height) r.1 r.2
    else some (dest, banks)

/-- The loop `for( i=0; i<height; i+=width ) pvr2_vram64_detwiddle_8( wdest,
banks, offset_flag, 0, i, width, width )` from `i` on, `none` when `n`
iterations do not suffice. -/
def tiles_down_8 (vram : Nat → Nat) (fuel offset_flag width height : Nat) :
    Nat → Nat → (Nat → Nat) → Banks → Option ((Nat → Nat) × Banks)
  | 0, i, dest, banks => if i < height then none else some (dest, banks)
  | n + 1, i, dest, banks =>
    if i < height then
      (pvr2_vram64_detwiddle_8 vram fuel dest banks offset_flag 0 i width width).bind
      fun r => tiles_down_8 vram fuel offset_flag width height n (i + width) r.1 r.2
    else some (dest, banks)

/-- `pvr2_vram64_read_twiddled_8( dest, srcaddr, width, height )`: the new
`dest`, an array of `uint8_t`; `fuel` bounds the iterations of the loops and
the depth of the recursion. -/
def pvr2_vram64_read_twiddled_8 (fuel : Nat) (dest : Nat → Nat) (srcaddr width height : Nat)
    (vram : Nat → Nat) : Option (Nat → Nat) :=
  let offset_flag := srcaddr &&& 0x07
  let srcaddr := srcaddr &&& 0x7FFFF8
  let banks : Banks := { b0 := srcaddr >>> 1, b1 := (srcaddr >>> 1) + 0x400000 }
  let banks : Banks :=
    if offset_flag &&& 0x04 ≠ 0 then { b0 := banks.b1, b1 := banks.b0 + 4 } else banks
  let offset_flag := if offset_flag &&& 0x04 ≠ 0 then offset_flag &&& 0x03 else offset_flag
  let banks := banks.inc 0 offset_flag
  if width > height then
    (tiles_across_8 vram fuel offset_flag width height fuel 0 dest banks).map Prod.fst
  else if height > width then
    (tiles_down_8 vram fuel offset_flag width height fuel 0 dest banks).map Prod.fst
  else if width = 1 then some (store dest 0 (vram (banks.get 0)))
  else (pvr2_vram64_detwiddle_8 vram fuel dest banks offset_flag 0 0 width width).map Prod.fst

/-- The VRAM offset of the byte at linear address `a` of the 64-bit region:
the 32-bit words of the region alternate between the two banks of 4 MB. -/
def bank_offset (a : Nat) : Nat :=
  ((a &&& 0x7FFFF8) >>> 1) + (a &&& 3) + (if a &&& 4 ≠ 0 then 0x400000 else 0)

/-- The twiddled index of the pixel `(x, y)` of a square of side `2 ^ k`: the
bits of `y` at the even positions and the bits of `x` at the odd positions,
bit 0 first. -/
def twiddle : Nat → Nat → Nat → Nat
  | 0, _, _ => 0
  | k + 1, x, y => y % 2 + 2 * (x % 2) + 4 * twiddle k (x / 2) (y / 2)

/-- The twiddled index of the pixel `(x, y)` of an image whose smaller side is
`2 ^ k`: squares of that side follow one another along the longer side. -/
def twiddled_index (k x y : Nat) : Nat :=
  2 ^ k * 2 ^ k * (x / 2 ^ k + y / 2 ^ k) + twiddle k (x % 2 ^ k) (y % 2 ^ k)

/-- The calls `pvr2_vram64_write( destaddr + i*line_stride_bytes, src +
i*line_bytes, line_bytes )` for the lines `i`, ..., `i + n - 1`, one after the
other. -/
def write_line_by_line (destaddr : Nat) (src : Nat → Nat) (line_bytes line_stride_bytes : Nat) :
    Nat → Nat → (Nat → Nat) → Nat → Nat
  | 0, _, vram => vram
  | n + 1, i, vram =>
    write_line_by_line destaddr src line_bytes line_stride_bytes n (i + 1)
      (pvr2_vram64_write (wrap32 (destaddr + i * line_stride_bytes))
        (fun k => src (i * line_bytes + k)) line_bytes vram)

/-- The layout of the 64-bit region by division: word `a / 4` of the linear
region is word `a / 8` of bank `a / 4 % 2`. -/
def lin_offset (a : Nat) : Nat :=
  a / 8 * 4 + a % 4 + (if a / 4 % 2 = 1 then 0x400000 else 0)

/-- The bank pointers when the next word to access is the one at the linear
address `a`, a multiple of 4. -/
def banks_at (a : Nat) : Banks := { b0 := (a + 4) / 8 * 4, b1 := a / 8 * 4 + 0x400000 }

/-- The bank flag when the next word to access is the one at the linear
address `a`. -/
def flag_at (a : Nat) : Nat := a / 4 % 2

/-- The index in `dest` of the pixel `(x, y)` of the block whose corner is
`(x1, y1)`, for lines of `stride` pixels. -/
def cell (stride x1 y1 x y : Nat) : Nat := (y1 + y) * stride + x1 + x

/-- The bank pointers of the 16-bit reader when the next pixel is the one at
the linear address `a`: `banks[0]` is at the pixel, `banks[1]` at the start of
the next 32-bit word. -/
def tw_banks_16 (a : Nat) : Banks := { b0 := lin_offset a, b1 := lin_offset (a + 4 - a % 4) }

/-! ## Render buffers (`pvr2mem.c`)

The copies between a render buffer and the memory of the guest go through
OpenGL (`glReadPixels`, `glDrawPixels`, the choice of the GL buffer by
`backBuffer`), which is outside this file, and through one transfer to or
from VRAM.  The model of a copy is the transfer that it performs. -/

/-- The values of `buffer->colour_format`: the five cases of the `switch` and
any other value. -/
inductive ColourFormat
  | COLFMT_RGB565
  | COLFMT_RGB888
  | COLFMT_ARGB1555
  | COLFMT_ARGB4444
  | COLFMT_ARGB8888
  | other
  deriving DecidableEq, Repr

/-- The fields of a render buffer (`pvr2_render_buffer_t`) that the copies
read. -/
structure pvr2_render_buffer where
  render_addr : Nat
  width : Nat
  height : Nat
  colour_format : ColourFormat
  deriving DecidableEq, Repr

/-- The transfer of the pixel data: the call `pvr2_vram64_write( destaddr,
target, size )`, the call `pvr2_vram_write_invert( destaddr, target, size,
line_size )`, the call `pvr2_vram64_read( target, srcaddr, size )`, or the
direct use of the memory at `mem_get_region( addr )`. -/
inductive PixelTransfer
  | vram64_write (destaddr size : Nat)
  | vram_write_invert (destaddr size line_size : Nat)
  | vram64_read (srcaddr size : Nat)
  | direct (addr : Nat)
  deriving DecidableEq, Repr

/-- `pvr2_render_buffer_copy_to_sh4( buffer, backBuffer )`: the transfer it
performs, `none` when it returns at once (`render_addr == -1`).  The test
`buffer->render_addr & 0xFF000000 == 0x04000000` is taken as C parses it:
`==` binds tighter than `&`, so the address is masked with the value of the
comparison `0xFF000000 == 0x04000000`. -/
def pvr2_render_buffer_copy_to_sh4 (buffer : pvr2_render_buffer) : Option PixelTransfer :=
  if buffer.render_addr = wrapInt32 (-1) then none
  else
    let line_size := buffer.width
    let line_size :=
      match buffer.colour_format with
      | .COLFMT_RGB565 => line_size <<< 1
      | .COLFMT_RGB888 => (line_size <<< 1) + line_size
      | .COLFMT_ARGB1555 => line_size <<< 1
      | .COLFMT_ARGB4444 => line_size <<< 1
      | .COLFMT_ARGB8888 => line_size <<< 2
      | .other => line_size
    let size := line_size * buffer.height
    if buffer.render_addr &&& (if (0xFF000000 : Nat) = 0x04000000 then 1 else 0) ≠ 0 then
      some (.vram64_write buffer.render_addr (wrap32 size))
    else
      some (.vram_write_invert buffer.render_addr (wrap32 size) (wrap32 line_size))

/-- `pvr2_render_buffer_copy_from_sh4( buffer, backBuffer )`: the transfer it
performs, `none` when it returns at once (`render_addr == -1`).  The test of
the address is the one of `pvr2_render_buffer_copy_to_sh4`. -/
def pvr2_render_buffer_copy_from_sh4 (buffer : pvr2_render_buffer) : Option PixelTransfer :=
  if buffer.render_addr = wrapInt32 (-1) then none
  else
    let size := buffer.width * buffer.height
    let size :=
      match buffer.colour_format with
      | .COLFMT_RGB565 => size <<< 1
      | .COLFMT_RGB888 => (size <<< 1) + size
      | .COLFMT_ARGB1555 => size <<< 1
      | .COLFMT_ARGB4444 => size <<< 1
      | .COLFMT_ARGB8888 => size <<< 2
      | .other => size
    if buffer.render_addr &&& (if (0xFF000000 : Nat) = 0x04000000 then 1 else 0) ≠ 0 then
      some (.vram64_read buffer.render_addr (wrap32 size))
    else
      some (.direct buffer.render_addr)

/-- A sample render buffer at the start of the 64-bit region. -/
def sampleBuffer : pvr2_render_buffer :=
  { render_addr := 0x04000000, width := 4, height := 2, colour_format := .COLFMT_RGB565 }

/-- A sample source buffer: byte `k` holds `k + 1`. -/
def sampleSrc : Nat → Nat := fun k => k + 1

/-- A sample VRAM: the byte at offset `a` is `a % 251`. -/
def sampleVram : Nat → Nat := fun a => a % 251

/-- An array of zeros. -/
def zeros : Nat → Nat := fun _ => 0

/-! ## Word arithmetic -/

@[simp] theorem wrap32_wrap32 (a : Nat) : wrap32 (wrap32 a) = wrap32 a := by
  unfold wrap32; omega

@[simp] theorem wrap32_add32 (a b : Nat) : wrap32 (add32 a b) = add32 a b := by
  unfold wrap32 add32; omega

@[simp] theorem wrap32_sub32 (a b : Nat) : wrap32 (sub32 a b) = sub32 a b := by
  unfold wrap32 sub32; omega

@[simp] theorem add32_wrap32_left (a b : Nat) : add32 (wrap32 a) b = add32 a b := by
  unfold wrap32 add32; omega

@[simp] theorem add32_wrap32_right (a b : Nat) : add32 a (wrap32 b) = add32 a b := by
  unfold wrap32 add32; omega

@[simp] theorem add32_add32 (a b c : Nat) : add32 (add32 a b) c = add32 a (b + c) := by
  unfold add32; omega

@[simp] theorem sub32_sub32 (a b c : Nat) : sub32 (sub32 a b) c = sub32 a (b + c) := by
  unfold sub32; omega

@[simp] theorem sub32_wrap32_left (a b : Nat) : sub32 (wrap32 a) b = sub32 a b := by
  unfold sub32 wrap32; omega

@[simp] theorem add32_sub32_cancel (a b : Nat) : add32 (sub32 a b) b = wrap32 a := by
  unfold add32 sub32 wrap32; omega

theorem add32_ne_sub32 (a j k : Nat) (h : (j + k) % 4294967296 ≠ 0) :
    add32 a j ≠ sub32 a k := by
  unfold add32 sub32; omega

theorem add32_sub32_ne_self (a j k : Nat) (h : j % 4294967296 ≠ 0) :
    add32 (sub32 a k) j ≠ sub32 a k := by
  unfold add32 sub32; omega

theorem wrap32_lt (a : Nat) : wrap32 a < 4294967296 := by
  unfold wrap32; omega

theorem wrap32_of_lt {a : Nat} (h : a < 4294967296) : wrap32 a = a := by
  unfold wrap32; omega

theorem wrap32_wrapInt32 (z : Int) : wrap32 (wrapInt32 z) = wrapInt32 z := by
  unfold wrap32 wrapInt32; omega

theorem sub32_block_end (S K : Nat) (hK : 2 * K < 4294967296) :
    sub32 (wrap32 (S + 2 * K)) S = 2 * K := by
  unfold sub32 wrap32; omega

/-! ## Projections of the emitter state -/

@[simp] theorem emit_listing (e : Env) (i : Instr) (s : Translator) :
    (emit e i s).listing = s.listing ++ [(s.xlat_output, i)] := rfl

@[simp] theorem emit_xlat_output (e : Env) (i : Instr) (s : Translator) :
    (emit e i s).xlat_output = s.xlat_output + (e.encode i).length := rfl

@[simp] theorem emit_block_start_pc (e : Env) (i : Instr) (s : Translator) :
    (emit e i s).block_start_pc = s.block_start_pc := rfl

@[simp] theorem emit_tlb_on (e : Env) (i : Instr) (s : Translator) :
    (emit e i s).tlb_on = s.tlb_on := rfl

@[simp] theorem emit_branch_taken (e : Env) (i : Instr) (s : Translator) :
    (emit e i s).branch_taken = s.branch_taken := rfl

@[simp] theorem emit_backpatch_list (e : Env) (i : Instr) (s : Translator) :
    (emit e i s).backpatch_list = s.backpatch_list := rfl

@[simp] theorem emit_code_addr (e : Env) (i : Instr) (s : Translator) :
    (emit e i s).code_addr = s.code_addr := rfl

@[simp] theorem emit_instrs (e : Env) (i : Instr) (s : Translator) :
    (emit e i s).instrs = s.instrs ++ [i] := by
  simp [Translator.instrs]

@[simp] theorem cycle_delta_emit (e : Env) (i : Instr) (s : Translator) (pc : Nat) :
    cycle_delta e (emit e i s) pc = cycle_delta e s pc := rfl

@[simp] theorem dispatch_helper_emit (e : Env) (i : Instr) (s : Translator) :
    dispatch_helper e (emit e i s) = dispatch_helper e s := by
  simp [dispatch_helper]

theorem cycle_delta_block_end (e : Env) (s : Translator) (K : Nat) (hK : 2 * K < 4294967296) :
    cycle_delta e s (wrap32 (s.block_start_pc + 2 * K)) = wrap32 (K * e.sh4_cpu_period) := by
  unfold cycle_delta
  rw [sub32_block_end _ _ hK, Nat.mul_div_cancel_left K (by decide : 0 < 2)]

@[simp] theorem patch_abs_listing (r : BackpatchRecord) (s : Translator) :
    (patch_abs r s).listing = s.listing := rfl

@[simp] theorem patch_rel_listing (r : BackpatchRecord) (s : Translator) :
    (patch_rel r s).listing = s.listing := rfl

@[simp] theorem patch_abs_xlat_output (r : BackpatchRecord) (s : Translator) :
    (patch_abs r s).xlat_output = s.xlat_output := rfl

@[simp] theorem patch_rel_xlat_output (r : BackpatchRecord) (s : Translator) :
    (patch_rel r s).xlat_output = s.xlat_output := rfl

@[simp] theorem add_backpatch_listing (a p : Nat) (c : Int) (s : Translator) :
    (sh4_x86_add_backpatch a p c s).listing = s.listing := rfl

/-! ## Projections of the machine state -/

@[simp] theorem setReg_reg (m : Machine) (r : Reg) (v : Nat) (x : Reg) :
    (m.setReg r v).reg x = if x = r then v else m.reg x := rfl

@[simp] theorem setReg_sh4r (m : Machine) (r : Reg) (v : Nat) : (m.setReg r v).sh4r = m.sh4r := rfl

@[simp] theorem setReg_stack (m : Machine) (r : Reg) (v : Nat) : (m.setReg r v).stack = m.stack := rfl

@[simp] theorem setReg_mem (m : Machine) (r : Reg) (v : Nat) : (m.setReg r v).mem = m.mem := rfl

@[simp] theorem setReg_trace (m : Machine) (r : Reg) (v : Nat) : (m.setReg r v).trace = m.trace := rfl

@[simp] theorem setField_reg (m : Machine) (f : Sh4Field) (v : Nat) : (m.setField f v).reg = m.reg := rfl

@[simp] theorem setField_sh4r (m : Machine) (f : Sh4Field) (v : Nat) :
    (m.setField f v).sh4r = m.sh4r.set f v := rfl

@[simp] theorem setField_stack (m : Machine) (f : Sh4Field) (v : Nat) : (m.setField f v).stack = m.stack := rfl

@[simp] theorem setField_mem (m : Machine) (f : Sh4Field) (v : Nat) : (m.setField f v).mem = m.mem := rfl

@[simp] theorem setField_trace (m : Machine) (f : Sh4Field) (v : Nat) : (m.setField f v).trace = m.trace := rfl

@[simp] theorem setStack_reg (m : Machine) (a v : Nat) : (m.setStack a v).reg = m.reg := rfl

@[simp] theorem setStack_sh4r (m : Machine) (a v : Nat) : (m.setStack a v).sh4r = m.sh4r := rfl

@[simp] theorem setStack_stack (m : Machine) (a v x : Nat) :
    (m.setStack a v).stack x = if x = a then v else m.stack x := rfl

@[simp] theorem setStack_mem (m : Machine) (a v : Nat) : (m.setStack a v).mem = m.mem := rfl

@[simp] theorem setStack_trace (m : Machine) (a v : Nat) : (m.setStack a v).trace = m.trace := rfl

@[simp] theorem do_call_reg (e : Env) (t : Nat) (m : Machine) (x : Reg) :
    (do_call e t m).reg x =
      if x = .EAX then wrap32 (e.call t (if e.HAVE_FASTCALL then m.reg .EAX else m.stack (m.reg .ESP))
          (if e.HAVE_FASTCALL then m.reg .EDX else m.stack (add32 (m.reg .ESP) 4)) m.sh4r).eax
      else if x = .ECX then wrap32 (e.call t (if e.HAVE_FASTCALL then m.reg .EAX else m.stack (m.reg .ESP))
          (if e.HAVE_FASTCALL then m.reg .EDX else m.stack (add32 (m.reg .ESP) 4)) m.sh4r).ecx
      else if x = .EDX then wrap32 (e.call t (if e.HAVE_FASTCALL then m.reg .EAX else m.stack (m.reg .ESP))
          (if e.HAVE_FASTCALL then m.reg .EDX else m.stack (add32 (m.reg .ESP) 4)) m.sh4r).edx
      else m.reg x := rfl

@[simp] theorem do_call_sh4r (e : Env) (t : Nat) (m : Machine) :
    (do_call e t m).sh4r = (e.call t (if e.HAVE_FASTCALL then m.reg .EAX else m.stack (m.reg .ESP))
          (if e.HAVE_FASTCALL then m.reg .EDX else m.stack (add32 (m.reg .ESP) 4)) m.sh4r).sh4r := rfl

@[simp] theorem do_call_stack (e : Env) (t : Nat) (m : Machine) : (do_call e t m).stack = m.stack := rfl

@[simp] theorem do_call_mem (e : Env) (t : Nat) (m : Machine) : (do_call e t m).mem = m.mem := rfl

@[simp] theorem do_call_trace (e : Env) (t : Nat) (m : Machine) :
    (do_call e t m).trace = m.trace ++ [CallEvent.mk t
      (if e.HAVE_FASTCALL then m.reg .EAX else m.stack (m.reg .ESP))
      (if e.HAVE_FASTCALL then m.reg .EDX else m.stack (add32 (m.reg .ESP) 4))
      m.sh4r] := rfl

theorem machine_ext (a b : Machine) (h1 : ∀ r, a.reg r = b.reg r) (h2 : a.sh4r = b.sh4r)
    (h3 : ∀ x, a.stack x = b.stack x) (h4 : a.mem = b.mem) (h5 : a.trace = b.trace) : a = b := by
  cases a; cases b
  simp only [Machine.mk.injEq]
  exact ⟨funext h1, h2, funext h3, h4, h5⟩

theorem setReg_setReg_same (m : Machine) (r : Reg) (v w : Nat) :
    (m.setReg r v).setReg r w = m.setReg r w := by
  refine machine_ext _ _ ?_ rfl (fun _ => rfl) rfl rfl
  intro x
  by_cases h : x = r <;> simp [h]

/-! ## Execution, one instruction at a time -/

@[simp] theorem run_nil (e : Env) (m : Machine) : run e [] m = some (m, .next) := by
  simp [run, step]

@[simp] theorem run_MOVL_imm32_r32 (e : Env) (imm : Nat) (r : Reg) (is : List Instr) (m : Machine) :
    run e (.MOVL_imm32_r32 imm r :: is) m = run e is (m.setReg r (wrap32 imm)) := by
  simp [run, step]

@[simp] theorem run_MOVP_immptr_rptr (e : Env) (p : Nat) (r : Reg) (is : List Instr) (m : Machine) :
    run e (.MOVP_immptr_rptr p r :: is) m = run e is (m.setReg r (wrap32 p)) := by
  simp [run, step]

@[simp] theorem run_MOVL_r32_r32 (e : Env) (r1 r2 : Reg) (is : List Instr) (m : Machine) :
    run e (.MOVL_r32_r32 r1 r2 :: is) m = run e is (m.setReg r2 (m.reg r1)) := by
  simp [run, step]

@[simp] theorem run_ADDL_r32_r32 (e : Env) (r1 r2 : Reg) (is : List Instr) (m : Machine) :
    run e (.ADDL_r32_r32 r1 r2 :: is) m = run e is (m.setReg r2 (add32 (m.reg r2) (m.reg r1))) := by
  simp [run, step]

@[simp] theorem run_ADDL_imms_r32 (e : Env) (imm : Nat) (r : Reg) (is : List Instr) (m : Machine) :
    run e (.ADDL_imms_r32 imm r :: is) m = run e is (m.setReg r (add32 (m.reg r) imm)) := by
  simp [run, step]

@[simp] theorem run_SUBL_imms_r32 (e : Env) (imm : Nat) (r : Reg) (is : List Instr) (m : Machine) :
    run e (.SUBL_imms_r32 imm r :: is) m = run e is (m.setReg r (sub32 (m.reg r) imm)) := by
  simp [run, step]

@[simp] theorem run_ANDL_imms_r32 (e : Env) (imm : Nat) (r : Reg) (is : List Instr) (m : Machine) :
    run e (.ANDL_imms_r32 imm r :: is) m = run e is (m.setReg r (m.reg r &&& wrap32 imm)) := by
  simp [run, step]

theorem run_ADDL_r32_rbpdisp (e : Env) (r : Reg) (f : Sh4Field) (is : List Instr) (m : Machine)
    (h : m.reg .EBP = wrap32 (e.sh4r_addr + 128)) :
    run e (.ADDL_r32_rbpdisp r f :: is) m
      = run e is (m.setField f (add32 (m.sh4r.get f) (m.reg r))) := by
  simp [run, step, h]

theorem run_ADDL_rbpdisp_r32 (e : Env) (r : Reg) (f : Sh4Field) (is : List Instr) (m : Machine)
    (h : m.reg .EBP = wrap32 (e.sh4r_addr + 128)) :
    run e (.ADDL_rbpdisp_r32 f r :: is) m
      = run e is (m.setReg r (add32 (m.reg r) (m.sh4r.get f))) := by
  simp [run, step, h]

theorem run_MOVL_rbpdisp_r32 (e : Env) (r : Reg) (f : Sh4Field) (is : List Instr) (m : Machine)
    (h : m.reg .EBP = wrap32 (e.sh4r_addr + 128)) :
    run e (.MOVL_rbpdisp_r32 f r :: is) m = run e is (m.setReg r (m.sh4r.get f)) := by
  simp [run, step, h]

theorem run_MOVL_r32_rbpdisp (e : Env) (r : Reg) (f : Sh4Field) (is : List Instr) (m : Machine)
    (h : m.reg .EBP = wrap32 (e.sh4r_addr + 128)) :
    run e (.MOVL_r32_rbpdisp r f :: is) m = run e is (m.setField f (m.reg r)) := by
  simp [run, step, h]

@[simp] theorem run_MOVP_moffptr_rax (e : Env) (a : Nat) (is : List Instr) (m : Machine) :
    run e (.MOVP_moffptr_rax a :: is) m = run e is (m.setReg .EAX (wrap32 (m.mem a))) := by
  simp [run, step]

@[simp] theorem run_MOVL_moffptr_eax (e : Env) (a : Nat) (is : List Instr) (m : Machine) :
    run e (.MOVL_moffptr_eax a :: is) m = run e is (m.setReg .EAX (wrap32 (m.mem a))) := by
  simp [run, step]

@[simp] theorem run_MULL_r32 (e : Env) (r : Reg) (is : List Instr) (m : Machine) :
    run e (.MULL_r32 r :: is) m
      = run e is ((m.setReg .EAX (wrap32 (m.reg .EAX * m.reg r))).setReg .EDX
          (wrap32 (m.reg .EAX * m.reg r / 4294967296))) := by
  simp [run, step]

@[simp] theorem run_PUSH_r32 (e : Env) (r : Reg) (is : List Instr) (m : Machine) :
    run e (.PUSH_r32 r :: is) m
      = run e is ((m.setStack (sub32 (m.reg .ESP) 4) (m.reg r)).setReg .ESP (sub32 (m.reg .ESP) 4)) := by
  simp [run, step]

@[simp] theorem run_PUSH_imm32 (e : Env) (imm : Nat) (is : List Instr) (m : Machine) :
    run e (.PUSH_imm32 imm :: is) m
      = run e is ((m.setStack (sub32 (m.reg .ESP) 4) (wrap32 imm)).setReg .ESP (sub32 (m.reg .ESP) 4)) := by
  simp [run, step]

@[simp] theorem run_POP_r32 (e : Env) (r : Reg) (is : List Instr) (m : Machine) :
    run e (.POP_r32 r :: is) m
      = run e is ((m.setReg .ESP (add32 (m.reg .ESP) 4)).setReg r (m.stack (m.reg .ESP))) := by
  simp [run, step]

@[simp] theorem run_CALL_r32 (e : Env) (r : Reg) (is : List Instr) (m : Machine) :
    run e (.CALL_r32 r :: is) m = run e is (do_call e (m.reg r) m) := by
  simp [run, step]

@[simp] theorem run_JMP_prerel (e : Env) (rel : Int) (is : List Instr) (m : Machine) :
    run e (.JMP_prerel rel :: is) m = some (m, .jump rel) := by
  simp [run, step]

@[simp] theorem run_RET (e : Env) (is : List Instr) (m : Machine) :
    run e (.RET :: is) m
      = some (m.setReg .ESP (add32 (m.reg .ESP) 4), .ret (m.stack (m.reg .ESP))) := by
  simp [run, step]

theorem run_append_of_exit (e : Env) (xs ys : List Instr) (m m' : Machine) (fl : Flow)
    (h : run e xs m = some (m', fl)) (hfl : fl ≠ .next) :
    run e (xs ++ ys) m = some (m', fl) := by
  induction xs generalizing m with
  | nil => simp [run] at h; exact absurd h.2.symm hfl
  | cons i is ih =>
    simp only [List.cons_append, run] at h ⊢
    cases hs : step e i m with
    | none => simp [hs] at h
    | some p =>
      obtain ⟨m1, f1⟩ := p
      cases f1 with
      | next => simp only [hs] at h ⊢; exact ih m1 h
      | ret a => simp only [hs] at h ⊢; exact h
      | jump r => simp only [hs] at h ⊢; exact h

/-! ## Bytes of the code array -/

theorem writeBytes_below (c : Nat → Nat) (off : Nat) (bs : List Nat) (a : Nat) (h : a < off) :
    writeBytes c off bs a = c a := by
  unfold writeBytes
  rw [if_neg]
  omega

theorem read32_congr (c d : Nat → Nat) (o : Nat)
    (h : ∀ a, o ≤ a → a < o + 4 → c a = d a) : read32 c o = read32 d o := by
  unfold read32
  rw [h o (by omega) (by omega), h (o + 1) (by omega) (by omega),
    h (o + 2) (by omega) (by omega), h (o + 3) (by omega) (by omega)]

theorem read32_write32_same (c : Nat → Nat) (o v : Nat) :
    read32 (write32 c o v) o = v % 4294967296 := by
  unfold read32 write32
  simp
  omega

theorem write32_apart (c : Nat → Nat) (o v a : Nat) (h : a < o ∨ o + 4 ≤ a) :
    write32 c o v a = c a := by
  unfold write32
  rw [if_neg (by omega), if_neg (by omega), if_neg (by omega), if_neg (by omega)]

theorem read32_write32_apart (c : Nat → Nat) (o v o' : Nat) (h : o' + 4 ≤ o ∨ o + 4 ≤ o') :
    read32 (write32 c o v) o' = read32 c o' := by
  apply read32_congr
  intro a h1 h2
  exact write32_apart c o v a (by omega)

theorem read32_lt (c : Nat → Nat) (o : Nat) : read32 c o < 4294967296 := by
  unfold read32; omega

/-! ## The emitters only append to the listing -/

theorem ext_refl (s : Translator) : ∃ xs, s.listing = s.listing ++ xs := ⟨[], by simp⟩

theorem ext_trans {s t u : Translator} (h1 : ∃ xs, t.listing = s.listing ++ xs)
    (h2 : ∃ ys, u.listing = t.listing ++ ys) : ∃ zs, u.listing = s.listing ++ zs := by
  obtain ⟨xs, hx⟩ := h1
  obtain ⟨ys, hy⟩ := h2
  exact ⟨xs ++ ys, by rw [hy, hx, List.append_assoc]⟩

theorem emit_ext (e : Env) (i : Instr) (s : Translator) :
    ∃ xs, (emit e i s).listing = s.listing ++ xs := ⟨_, rfl⟩

theorem patch_abs_ext (r : BackpatchRecord) (s : Translator) :
    ∃ xs, (patch_abs r s).listing = s.listing ++ xs := ⟨[], by simp [patch_abs]⟩

theorem patch_rel_ext (r : BackpatchRecord) (s : Translator) :
    ∃ xs, (patch_rel r s).listing = s.listing ++ xs := ⟨[], by simp [patch_rel]⟩

theorem call_func1_ext (e : Env) (ptr : Nat) (r : Reg) (s : Translator) :
    ∃ xs, (call_func1 e ptr r s).listing = s.listing ++ xs := by
  unfold call_func1
  split
  · split
    · exact ext_trans (ext_trans (emit_ext _ _ _) (emit_ext _ _ _)) (emit_ext _ _ _)
    · exact ext_trans (emit_ext _ _ _) (emit_ext _ _ _)
  · exact ext_trans (ext_trans (ext_trans (ext_trans (emit_ext _ _ _) (emit_ext _ _ _))
      (emit_ext _ _ _)) (emit_ext _ _ _)) (emit_ext _ _ _)

theorem call_dispatch_ext (e : Env) (r : Reg) (s : Translator) :
    ∃ xs, (call_dispatch e r s).listing = s.listing ++ xs := by
  unfold call_dispatch
  split <;> exact call_func1_ext e _ r s

theorem exit_block_ext (e : Env) (s : Translator) :
    ∃ xs, (exit_block e s).listing = s.listing ++ xs :=
  ext_trans (ext_trans (emit_ext _ _ _) (emit_ext _ _ _)) (emit_ext _ _ _)

theorem exit_block_rel_ext (e : Env) (pc endpc : Nat) (s : Translator) :
    ∃ xs, (exit_block_rel e pc endpc s).listing
      = s.listing ++ (s.xlat_output, .MOVL_imm32_r32 (sub32 pc s.block_start_pc) .ECX) :: xs := by
  have h : ∃ xs, (exit_block_rel e pc endpc s).listing
      = (emit e (.MOVL_imm32_r32 (sub32 pc s.block_start_pc) .ECX) s).listing ++ xs := by
    unfold exit_block_rel
    refine ext_trans ?_ (exit_block_ext e _)
    refine ext_trans ?_ (emit_ext e _ _)
    refine ext_trans ?_ (emit_ext e _ _)
    split
    · iterate 3 refine ext_trans ?_ (emit_ext e _ _)
      exact emit_ext e _ _
    · refine ext_trans ?_ (call_dispatch_ext e _ _)
      refine ext_trans ?_ (emit_ext e _ _)
      exact emit_ext e _ _
  obtain ⟨xs, hx⟩ := h
  exact ⟨xs, by rw [hx]; simp⟩

theorem raise_trampoline_ext (e : Env) (s : Translator) :
    ∃ xs, (raise_trampoline e s).listing = s.listing ++ xs := by
  unfold raise_trampoline
  refine ext_trans ?_ (exit_block_ext e _)
  refine ext_trans ?_ (call_dispatch_ext e _ _)
  refine ext_trans ?_ (emit_ext e _ _)
  refine ext_trans ?_ (call_func1_ext e _ _ _)
  iterate 6 refine ext_trans ?_ (emit_ext e _ _)
  exact emit_ext e _ _

theorem raise_trampoline_head (e : Env) (s : Translator) :
    ∃ xs, (raise_trampoline e s).listing
      = s.listing ++ (s.xlat_output, .MOVL_r32_r32 .EDX .ECX) :: xs := by
  have h : ∃ xs, (raise_trampoline e s).listing
      = (emit e (.MOVL_r32_r32 .EDX .ECX) s).listing ++ xs := by
    unfold raise_trampoline
    refine ext_trans ?_ (exit_block_ext e _)
    refine ext_trans ?_ (call_dispatch_ext e _ _)
    refine ext_trans ?_ (emit_ext e _ _)
    refine ext_trans ?_ (call_func1_ext e _ _ _)
    iterate 5 refine ext_trans ?_ (emit_ext e _ _)
    exact emit_ext e _ _
  obtain ⟨xs, hx⟩ := h
  exact ⟨xs, by rw [hx]; simp⟩

theorem cleanup_trampoline_ext (e : Env) (s : Translator) :
    ∃ xs, (cleanup_trampoline e s).listing = s.listing ++ xs := by
  unfold cleanup_trampoline
  refine ext_trans ?_ (exit_block_ext e _)
  refine ext_trans ?_ (call_dispatch_ext e _ _)
  refine ext_trans ?_ (emit_ext e _ _)
  iterate 5 refine ext_trans ?_ (emit_ext e _ _)
  exact emit_ext e _ _

theorem cleanup_trampoline_head (e : Env) (s : Translator) :
    ∃ xs, (cleanup_trampoline e s).listing
      = s.listing ++ (s.xlat_output, .MOVL_r32_r32 .EDX .ECX) :: xs := by
  have h : ∃ xs, (cleanup_trampoline e s).listing
      = (emit e (.MOVL_r32_r32 .EDX .ECX) s).listing ++ xs := by
    unfold cleanup_trampoline
    refine ext_trans ?_ (exit_block_ext e _)
    refine ext_trans ?_ (call_dispatch_ext e _ _)
    refine ext_trans ?_ (emit_ext e _ _)
    iterate 4 refine ext_trans ?_ (emit_ext e _ _)
    exact emit_ext e _ _
  obtain ⟨xs, hx⟩ := h
  exact ⟨xs, by rw [hx]; simp⟩

theorem backpatch_site_ext (e : Env) (ep pp : Nat) (s : Translator) (r : BackpatchRecord) :
    ∃ xs, (backpatch_site e ep pp s r).listing = s.listing ++ xs := by
  unfold backpatch_site
  split
  · refine ext_trans ?_ (emit_ext e _ _)
    refine ext_trans ?_ (emit_ext e _ _)
    split
    · exact patch_abs_ext _ _
    · exact patch_rel_ext _ _
  · refine ext_trans ?_ (emit_ext e _ _)
    refine ext_trans ?_ (emit_ext e _ _)
    refine ext_trans ?_ (emit_ext e _ _)
    exact patch_rel_ext _ _

theorem backpatch_loop_ext (e : Env) (ep pp : Nat) (rs : List BackpatchRecord)
    (s : Translator) :
    ∃ xs, (rs.foldl (backpatch_site e ep pp) s).listing = s.listing ++ xs := by
  induction rs generalizing s with
  | nil => exact ext_refl s
  | cons r rs ih => exact ext_trans (backpatch_site_ext e ep pp s r) (ih _)

theorem end_block_trailer_ext (e : Env) (s : Translator) :
    ∃ xs, (end_block_trailer e s).listing = s.listing ++ xs := by
  unfold end_block_trailer
  split
  · refine ext_trans ?_ (backpatch_loop_ext e _ _ _ _)
    exact ext_trans (raise_trampoline_ext e s) (cleanup_trampoline_ext e _)
  · exact ext_refl s

theorem emitted_of_ext (f : Translator → Translator) (s : Translator) (xs : List (Nat × Instr))
    (h : (f s).listing = s.listing ++ xs) : emitted f s = xs.map Prod.snd := by
  simp [emitted, h]

theorem emitted_eq_drop (f : Translator → Translator) (s : Translator) :
    emitted f s = (f s).instrs.drop s.instrs.length := by
  simp [emitted, Translator.instrs, List.map_drop]

theorem end_block_trailer_head (e : Env) (s : Translator) :
    emitted (end_block_trailer e) s = [] ∨
    ∃ rest, emitted (end_block_trailer e) s = .MOVL_r32_r32 .EDX .ECX :: rest := by
  by_cases h : s.backpatch_posn ≠ 0
  · right
    obtain ⟨a, ha⟩ := raise_trampoline_head e s
    obtain ⟨b, hb⟩ := cleanup_trampoline_ext e (raise_trampoline e s)
    obtain ⟨c, hc⟩ := backpatch_loop_ext e s.xlat_output (raise_trampoline e s).xlat_output
      (cleanup_trampoline e (raise_trampoline e s)).backpatch_list
      (cleanup_trampoline e (raise_trampoline e s))
    refine ⟨(a ++ (b ++ c)).map Prod.snd, ?_⟩
    rw [emitted_of_ext (end_block_trailer e) s
      ((s.xlat_output, .MOVL_r32_r32 .EDX .ECX) :: (a ++ (b ++ c)))]
    · simp
    · unfold end_block_trailer
      rw [if_pos h]
      show (List.foldl (backpatch_site e s.xlat_output (raise_trampoline e s).xlat_output)
        (cleanup_trampoline e (raise_trampoline e s))
        (cleanup_trampoline e (raise_trampoline e s)).backpatch_list).listing = _
      rw [hc, hb, ha]
      simp
  · left
    rw [emitted_of_ext (end_block_trailer e) s []]
    · simp
    · unfold end_block_trailer
      rw [if_neg h, List.append_nil]

/-- The instructions of `sh4_translate_end_block` for a block without an explicit exit
begin with those of `exit_block_rel(pc, pc)`. -/
theorem end_block_emitted (e : Env) (pc : Nat) (s : Translator) (h : s.branch_taken = false) :
    ∃ rest, emitted (sh4_translate_end_block e pc) s
      = emitted (exit_block_rel e pc pc) s ++ rest := by
  obtain ⟨xs, hxs⟩ : ∃ xs, (exit_block_rel e pc pc s).listing = s.listing ++ xs := by
    unfold exit_block_rel
    refine ext_trans ?_ (exit_block_ext e _)
    refine ext_trans ?_ (emit_ext e _ _)
    refine ext_trans ?_ (emit_ext e _ _)
    split
    · iterate 4 refine ext_trans ?_ (emit_ext e _ _)
      exact emit_ext e _ _
    · refine ext_trans ?_ (call_dispatch_ext e _ _)
      iterate 2 refine ext_trans ?_ (emit_ext e _ _)
      exact emit_ext e _ _
  obtain ⟨ys, hys⟩ := end_block_trailer_ext e (exit_block_rel e pc pc s)
  refine ⟨ys.map Prod.snd, ?_⟩
  rw [emitted_of_ext _ s xs hxs, emitted_of_ext (sh4_translate_end_block e pc) s (xs ++ ys)]
  · simp
  · simp only [sh4_translate_end_block, h, if_true]
    rw [hys, hxs, List.append_assoc]

/-! ## Instruction sequences of the shared pieces -/

theorem call_func1_instrs (e : Env) (ptr : Nat) (r : Reg) (s : Translator) :
    (call_func1 e ptr r s).instrs = s.instrs ++
      (if e.HAVE_FASTCALL = true then
        (if r ≠ .EAX then [Instr.MOVL_r32_r32 r .EAX] else [])
          ++ [.MOVP_immptr_rptr ptr .ECX, .CALL_r32 .ECX]
       else
        [.SUBL_imms_r32 12 .ESP, .PUSH_r32 r, .MOVP_immptr_rptr ptr .ECX, .CALL_r32 .ECX,
          .ADDL_imms_r32 16 .ESP]) := by
  unfold call_func1
  split
  · split <;> simp
  · simp

theorem call_dispatch_instrs (e : Env) (r : Reg) (s : Translator) :
    (call_dispatch e r s).instrs = s.instrs ++
      (if e.HAVE_FASTCALL = true then
        (if r ≠ .EAX then [Instr.MOVL_r32_r32 r .EAX] else [])
          ++ [.MOVP_immptr_rptr (dispatch_helper e s) .ECX, .CALL_r32 .ECX]
       else
        [.SUBL_imms_r32 12 .ESP, .PUSH_r32 r, .MOVP_immptr_rptr (dispatch_helper e s) .ECX,
          .CALL_r32 .ECX, .ADDL_imms_r32 16 .ESP]) := by
  unfold call_dispatch dispatch_helper
  split <;> exact call_func1_instrs e _ r s

theorem exit_block_instrs (e : Env) (s : Translator) :
    (exit_block e s).instrs = s.instrs ++ [.ADDL_imms_r32 8 .ESP, .POP_r32 .EBP, .RET] := by
  simp [exit_block]

/-! ## The emitters only grow the block -/

theorem grows_refl (s : Translator) : Grows s s :=
  ⟨Nat.le_refl _, fun _ _ => rfl, rfl, rfl, rfl⟩

theorem grows_trans {s t u : Translator} (h1 : Grows s t) (h2 : Grows t u) : Grows s u := by
  obtain ⟨a1, a2, a3, a4, a5⟩ := h1
  obtain ⟨b1, b2, b3, b4, b5⟩ := h2
  refine ⟨Nat.le_trans a1 b1, ?_, b3.trans a3, b4.trans a4, b5.trans a5⟩
  intro a ha
  rw [b2 a (by omega), a2 a ha]

theorem emit_grows (e : Env) (i : Instr) (s : Translator) : Grows s (emit e i s) := by
  refine ⟨by simp, ?_, rfl, rfl, rfl⟩
  intro a ha
  exact writeBytes_below _ _ _ _ ha

theorem call_func1_grows (e : Env) (ptr : Nat) (r : Reg) (s : Translator) :
    Grows s (call_func1 e ptr r s) := by
  unfold call_func1
  split
  · split
    · exact grows_trans (grows_trans (emit_grows _ _ _) (emit_grows _ _ _)) (emit_grows _ _ _)
    · exact grows_trans (emit_grows _ _ _) (emit_grows _ _ _)
  · exact grows_trans (grows_trans (grows_trans (grows_trans (emit_grows _ _ _)
      (emit_grows _ _ _)) (emit_grows _ _ _)) (emit_grows _ _ _)) (emit_grows _ _ _)

theorem call_func1_tlb_on (e : Env) (ptr : Nat) (r : Reg) (s : Translator) :
    (call_func1 e ptr r s).tlb_on = s.tlb_on :=
  (call_func1_grows e ptr r s).2.2.2.2

theorem call_dispatch_grows (e : Env) (r : Reg) (s : Translator) :
    Grows s (call_dispatch e r s) := by
  unfold call_dispatch
  split <;> exact call_func1_grows e _ r s

theorem call_dispatch_tlb_on (e : Env) (r : Reg) (s : Translator) :
    (call_dispatch e r s).tlb_on = s.tlb_on :=
  (call_dispatch_grows e r s).2.2.2.2

theorem exit_block_grows (e : Env) (s : Translator) : Grows s (exit_block e s) :=
  grows_trans (grows_trans (emit_grows _ _ _) (emit_grows _ _ _)) (emit_grows _ _ _)

theorem exit_block_rel_grows (e : Env) (pc endpc : Nat) (s : Translator) :
    Grows s (exit_block_rel e pc endpc s) := by
  unfold exit_block_rel
  refine grows_trans ?_ (exit_block_grows e _)
  refine grows_trans ?_ (emit_grows e _ _)
  refine grows_trans ?_ (emit_grows e _ _)
  split
  · iterate 4 refine grows_trans ?_ (emit_grows e _ _)
    exact emit_grows e _ _
  · refine grows_trans ?_ (call_dispatch_grows e _ _)
    iterate 2 refine grows_trans ?_ (emit_grows e _ _)
    exact emit_grows e _ _

theorem before_trailer_grows (e : Env) (pc : Nat) (s : Translator) :
    Grows s (before_trailer e pc s) := by
  unfold before_trailer
  split
  · exact exit_block_rel_grows e pc pc s
  · exact grows_refl s

theorem raise_trampoline_grows_from (e : Env) (s : Translator) :
    Grows (emit e (.MOVL_r32_r32 .EDX .ECX) s) (raise_trampoline e s) := by
  unfold raise_trampoline
  refine grows_trans ?_ (exit_block_grows e _)
  refine grows_trans ?_ (call_dispatch_grows e _ _)
  refine grows_trans ?_ (emit_grows e _ _)
  refine grows_trans ?_ (call_func1_grows e _ _ _)
  iterate 5 refine grows_trans ?_ (emit_grows e _ _)
  exact emit_grows e _ _

theorem raise_trampoline_grows (e : Env) (s : Translator) : Grows s (raise_trampoline e s) :=
  grows_trans (emit_grows e _ s) (raise_trampoline_grows_from e s)

theorem raise_trampoline_lt (e : Env) (s : Translator) (henc : ∀ i, 0 < (e.encode i).length) :
    s.xlat_output < (raise_trampoline e s).xlat_output := by
  have h1 := (raise_trampoline_grows_from e s).1
  have h2 := henc (.MOVL_r32_r32 .EDX .ECX)
  simp only [emit_xlat_output] at h1
  omega

theorem cleanup_trampoline_grows (e : Env) (s : Translator) :
    Grows s (cleanup_trampoline e s) := by
  unfold cleanup_trampoline
  refine grows_trans ?_ (exit_block_grows e _)
  refine grows_trans ?_ (call_dispatch_grows e _ _)
  refine grows_trans ?_ (emit_grows e _ _)
  iterate 5 refine grows_trans ?_ (emit_grows e _ _)
  exact emit_grows e _ _

theorem trampolines_grow (e : Env) (pc : Nat) (s : Translator) :
    Grows s (loop_state e pc s []) :=
  grows_trans (before_trailer_grows e pc s)
    (grows_trans (raise_trampoline_grows e _) (cleanup_trampoline_grows e _))

theorem trampolines_lt (e : Env) (pc : Nat) (s : Translator)
    (henc : ∀ i, 0 < (e.encode i).length) :
    s.xlat_output < (loop_state e pc s []).xlat_output := by
  have h1 := (before_trailer_grows e pc s).1
  have h2 := raise_trampoline_lt e (before_trailer e pc s) henc
  have h3 := (cleanup_trampoline_grows e (raise_trampoline e (before_trailer e pc s))).1
  show _ < (cleanup_trampoline e (raise_trampoline e (before_trailer e pc s))).xlat_output
  omega

/-! ## The backpatch loop -/

theorem patch_abs_grows_after (r : BackpatchRecord) (s t : Translator)
    (h : Grows (patch_abs r s) t) :
    s.xlat_output ≤ t.xlat_output ∧ t.code_addr = s.code_addr ∧
    t.backpatch_list = s.backpatch_list ∧
    ∀ a, a < s.xlat_output →
      t.code a = write32 s.code r.fixup_offset (wrap32 (s.code_addr + s.xlat_output)) a := by
  obtain ⟨h1, h2, h3, h4, -⟩ := h
  exact ⟨h1, h3, h4, fun a ha => h2 a ha⟩

theorem patch_rel_grows_after (r : BackpatchRecord) (s t : Translator)
    (h : Grows (patch_rel r s) t) :
    s.xlat_output ≤ t.xlat_output ∧ t.code_addr = s.code_addr ∧
    t.backpatch_list = s.backpatch_list ∧
    ∀ a, a < s.xlat_output →
      t.code a = write32 s.code r.fixup_offset
        (wrapInt32 ((read32 s.code r.fixup_offset : Int)
          + ((s.xlat_output : Int) - (r.fixup_offset : Int) - 4))) a := by
  obtain ⟨h1, h2, h3, h4, -⟩ := h
  exact ⟨h1, h3, h4, fun a ha => h2 a ha⟩

/-- One iteration of the loop: what it does to the bytes already emitted. -/
theorem backpatch_site_code (e : Env) (ep pp : Nat) (s : Translator) (r : BackpatchRecord) :
    s.xlat_output ≤ (backpatch_site e ep pp s r).xlat_output ∧
    (backpatch_site e ep pp s r).code_addr = s.code_addr ∧
    (backpatch_site e ep pp s r).backpatch_list = s.backpatch_list ∧
    ∃ v,
      (∀ a, a < s.xlat_output →
        (backpatch_site e ep pp s r).code a = write32 s.code r.fixup_offset v a) ∧
      (r.exc_code = -2 → v = wrap32 (s.code_addr + s.xlat_output)) ∧
      (r.exc_code ≠ -2 → v = wrapInt32 ((read32 s.code r.fixup_offset : Int)
          + ((s.xlat_output : Int) - (r.fixup_offset : Int) - 4))) := by
  unfold backpatch_site
  split
  · split
    · rename_i h2
      obtain ⟨a1, a2, a3, a4⟩ := patch_abs_grows_after r s _
        (grows_trans (emit_grows e (.MOVL_imm32_r32 r.fixup_icount .EDX) (patch_abs r s))
          (emit_grows e _ _))
      exact ⟨a1, a2, a3, _, a4, fun _ => rfl, fun h => absurd h2 h⟩
    · rename_i h2
      obtain ⟨a1, a2, a3, a4⟩ := patch_rel_grows_after r s _
        (grows_trans (emit_grows e (.MOVL_imm32_r32 r.fixup_icount .EDX) (patch_rel r s))
          (emit_grows e _ _))
      exact ⟨a1, a2, a3, _, a4, fun h => absurd h h2, fun _ => rfl⟩
  · rename_i h1
    obtain ⟨a1, a2, a3, a4⟩ := patch_rel_grows_after r s _
      (grows_trans (grows_trans (emit_grows e (.PUSH_imm32 r.exc_code.toNat) (patch_rel r s))
        (emit_grows e (.MOVL_imm32_r32 r.fixup_icount .EDX) _)) (emit_grows e _ _))
    refine ⟨a1, a2, a3, _, a4, fun h => ?_, fun _ => rfl⟩
    rw [h] at h1
    exact absurd (by decide) h1

/-- One iteration of the loop moves the cursor forward when every instruction
occupies at least one byte. -/
theorem backpatch_site_lt (e : Env) (ep pp : Nat) (s : Translator) (r : BackpatchRecord)
    (henc : ∀ i, 0 < (e.encode i).length) :
    s.xlat_output < (backpatch_site e ep pp s r).xlat_output := by
  unfold backpatch_site
  split
  · split
    · have := henc (.MOVL_imm32_r32 r.fixup_icount .EDX)
      simp only [load_imm32, emit_xlat_output, patch_abs_xlat_output]
      omega
    · have := henc (.MOVL_imm32_r32 r.fixup_icount .EDX)
      simp only [load_imm32, emit_xlat_output, patch_rel_xlat_output]
      omega
  · have := henc (.MOVL_imm32_r32 r.fixup_icount .EDX)
    simp only [load_imm32, emit_xlat_output, patch_rel_xlat_output]
    omega

/-- One iteration of the loop: the stub it appends to the listing. -/
theorem backpatch_site_stub (e : Env) (ep pp : Nat) (s : Translator) (r : BackpatchRecord) :
    ∃ (j : Nat) (rel : Int),
      (backpatch_site e ep pp s r).listing = s.listing ++
        (if 0 ≤ r.exc_code then
          [(s.xlat_output, .PUSH_imm32 r.exc_code.toNat),
           (s.xlat_output + (e.encode (.PUSH_imm32 r.exc_code.toNat)).length,
              .MOVL_imm32_r32 r.fixup_icount .EDX),
           (j, .JMP_prerel rel)]
         else
          [(s.xlat_output, .MOVL_imm32_r32 r.fixup_icount .EDX), (j, .JMP_prerel rel)]) ∧
      (j : Int) + rel = (if 0 ≤ r.exc_code then (ep : Int) else (pp : Int)) := by
  unfold backpatch_site
  by_cases h : r.exc_code < 0
  · have h' : ¬ (0 ≤ r.exc_code) := by omega
    rw [if_pos h]
    simp only [if_neg h']
    refine ⟨s.xlat_output + (e.encode (.MOVL_imm32_r32 r.fixup_icount .EDX)).length,
      (pp : Int) - ((s.xlat_output + (e.encode (.MOVL_imm32_r32 r.fixup_icount .EDX)).length
        : Nat) : Int), ?_, by omega⟩
    by_cases h2 : r.exc_code = -2
    · rw [if_pos h2]
      simp only [load_imm32, emit_listing, patch_abs_listing, patch_abs_xlat_output,
        emit_xlat_output, List.append_assoc, List.singleton_append]
    · rw [if_neg h2]
      simp only [load_imm32, emit_listing, patch_rel_listing, patch_rel_xlat_output,
        emit_xlat_output, List.append_assoc, List.singleton_append]
  · have h' : 0 ≤ r.exc_code := by omega
    rw [if_neg h]
    simp only [if_pos h']
    refine ⟨s.xlat_output + (e.encode (.PUSH_imm32 r.exc_code.toNat)).length
        + (e.encode (.MOVL_imm32_r32 r.fixup_icount .EDX)).length,
      (ep : Int) - ((s.xlat_output + (e.encode (.PUSH_imm32 r.exc_code.toNat)).length
        + (e.encode (.MOVL_imm32_r32 r.fixup_icount .EDX)).length : Nat) : Int), ?_, by omega⟩
    simp only [load_imm32, emit_listing, patch_rel_listing, patch_rel_xlat_output,
      emit_xlat_output, List.append_assoc, List.singleton_append, List.cons_append,
      List.nil_append]

theorem backpatch_loop_grows (e : Env) (ep pp : Nat) (rs : List BackpatchRecord)
    (s : Translator) :
    s.xlat_output ≤ (rs.foldl (backpatch_site e ep pp) s).xlat_output ∧
    (rs.foldl (backpatch_site e ep pp) s).code_addr = s.code_addr ∧
    (rs.foldl (backpatch_site e ep pp) s).backpatch_list = s.backpatch_list := by
  induction rs generalizing s with
  | nil => exact ⟨Nat.le_refl _, rfl, rfl⟩
  | cons r rs ih =>
    obtain ⟨a1, a2, a3, -⟩ := backpatch_site_code e ep pp s r
    obtain ⟨b1, b2, b3⟩ := ih (backpatch_site e ep pp s r)
    exact ⟨Nat.le_trans a1 b1, b2.trans a2, b3.trans a3⟩

/-- A word that none of the sites `rs` overlaps is still there after the loop. -/
theorem backpatch_loop_read_apart (e : Env) (ep pp : Nat) (rs : List BackpatchRecord)
    (s : Translator) (o : Nat) (ho : o + 4 ≤ s.xlat_output)
    (hap : ∀ q ∈ rs, q.fixup_offset + 4 ≤ o ∨ o + 4 ≤ q.fixup_offset) :
    read32 (rs.foldl (backpatch_site e ep pp) s).code o = read32 s.code o := by
  induction rs generalizing s with
  | nil => rfl
  | cons r rs ih =>
    obtain ⟨a1, -, -, v, hv, -, -⟩ := backpatch_site_code e ep pp s r
    have h1 : read32 (backpatch_site e ep pp s r).code o = read32 s.code o := by
      rw [read32_congr _ (write32 s.code r.fixup_offset v) o
        (fun a _ h2 => hv a (by omega))]
      exact read32_write32_apart _ _ _ _ (by
        have := hap r (List.mem_cons_self _ _)
        omega)
    rw [List.foldl_cons, ih (backpatch_site e ep pp s r) (by omega)
      (fun q hq => hap q (List.mem_cons_of_mem _ hq)), h1]

/-- The word at a site after the loop, when no other site overlaps it: the
value its own iteration stored, computed at the cursor that iteration found. -/
theorem backpatch_loop_read_site (e : Env) (ep pp : Nat) (pre post : List BackpatchRecord)
    (r : BackpatchRecord) (s : Translator)
    (hin : r.fixup_offset + 4 ≤ s.xlat_output)
    (hpre : ∀ q ∈ pre, SitesApart q r) (hpost : ∀ q ∈ post, SitesApart r q) :
    ((r.exc_code = -2 →
      read32 ((pre ++ r :: post).foldl (backpatch_site e ep pp) s).code r.fixup_offset
        = wrap32 (s.code_addr + (pre.foldl (backpatch_site e ep pp) s).xlat_output)) ∧
    (r.exc_code ≠ -2 →
      read32 ((pre ++ r :: post).foldl (backpatch_site e ep pp) s).code r.fixup_offset
        = wrapInt32 ((read32 s.code r.fixup_offset : Int)
            + (((pre.foldl (backpatch_site e ep pp) s).xlat_output : Int)
                - (r.fixup_offset : Int) - 4)))) := by
  obtain ⟨p1, p2, -⟩ := backpatch_loop_grows e ep pp pre s
  have hread : read32 (pre.foldl (backpatch_site e ep pp) s).code r.fixup_offset
      = read32 s.code r.fixup_offset :=
    backpatch_loop_read_apart e ep pp pre s _ hin (fun q hq => by
      have := hpre q hq
      unfold SitesApart at this
      omega)
  obtain ⟨a1, -, -, v, hv, hv1, hv2⟩ :=
    backpatch_site_code e ep pp (pre.foldl (backpatch_site e ep pp) s) r
  have hstep : read32 (backpatch_site e ep pp (pre.foldl (backpatch_site e ep pp) s) r).code
      r.fixup_offset = v % 4294967296 := by
    rw [read32_congr _ (write32 (pre.foldl (backpatch_site e ep pp) s).code r.fixup_offset v)
      r.fixup_offset (fun a _ h2 => hv a (by omega))]
    exact read32_write32_same _ _ _
  have hfinal : read32 ((pre ++ r :: post).foldl (backpatch_site e ep pp) s).code r.fixup_offset
      = v % 4294967296 := by
    rw [List.foldl_append, List.foldl_cons,
      backpatch_loop_read_apart e ep pp post _ _ (by omega) (fun q hq => by
        have := hpost q hq
        unfold SitesApart at this
        omega), hstep]
  constructor
  · intro h
    rw [hfinal, hv1 h, p2]
    unfold wrap32
    omega
  · intro h
    rw [hfinal, hv2 h, hread]
    unfold wrapInt32
    omega

theorem end_block_eq_loop (e : Env) (pc : Nat) (s : Translator) (h : s.backpatch_list ≠ []) :
    sh4_translate_end_block e pc s = loop_state e pc s s.backpatch_list := by
  have hb : (before_trailer e pc s).backpatch_list = s.backpatch_list :=
    (before_trailer_grows e pc s).2.2.2.1
  have hc : (cleanup_trampoline e (raise_trampoline e (before_trailer e pc s))).backpatch_list
      = s.backpatch_list :=
    ((grows_trans (raise_trampoline_grows e _) (cleanup_trampoline_grows e _)).2.2.2.1).trans hb
  have hn : (before_trailer e pc s).backpatch_posn ≠ 0 := by
    unfold Translator.backpatch_posn
    rw [hb]
    exact fun h0 => h (List.length_eq_zero.mp h0)
  show end_block_trailer e (before_trailer e pc s) = _
  unfold end_block_trailer loop_state
  rw [if_pos hn]
  show List.foldl _ _ (cleanup_trampoline e (raise_trampoline e (before_trailer e pc s))).backpatch_list = _
  rw [hc]

theorem loop_state_append (e : Env) (pc : Nat) (s : Translator) (xs ys : List BackpatchRecord) :
    loop_state e pc s (xs ++ ys)
      = ys.foldl (backpatch_site e (before_trailer e pc s).xlat_output
          (raise_trampoline e (before_trailer e pc s)).xlat_output) (loop_state e pc s xs) := by
  unfold loop_state
  rw [List.foldl_append]

/-- A byte below the cursor that no site of `rs` covers is still there after
the loop. -/
theorem backpatch_loop_code_apart (e : Env) (ep pp : Nat) (rs : List BackpatchRecord)
    (s : Translator) (a : Nat) (ha : a < s.xlat_output)
    (hap : ∀ q ∈ rs, a < q.fixup_offset ∨ q.fixup_offset + 4 ≤ a) :
    (rs.foldl (backpatch_site e ep pp) s).code a = s.code a := by
  induction rs generalizing s with
  | nil => rfl
  | cons r rs ih =>
    obtain ⟨a1, -, -, v, hv, -, -⟩ := backpatch_site_code e ep pp s r
    rw [List.foldl_cons, ih (backpatch_site e ep pp s r) (by omega)
      (fun q hq => hap q (List.mem_cons_of_mem _ hq)), hv a ha]
    exact write32_apart _ _ _ _ (hap r (List.mem_cons_self _ _))

/-- The trailer of `sh4_translate_end_block` changes no byte emitted before it
other than the 4 bytes of each registered site. -/
theorem end_block_code_frame (e : Env) (pc : Nat) (s : Translator) (a : Nat)
    (ha : a < (before_trailer e pc s).xlat_output)
    (hap : ∀ q ∈ s.backpatch_list, a < q.fixup_offset ∨ q.fixup_offset + 4 ≤ a) :
    (sh4_translate_end_block e pc s).code a = (before_trailer e pc s).code a := by
  by_cases hl : s.backpatch_list = []
  · have hb : (before_trailer e pc s).backpatch_list = s.backpatch_list :=
      (before_trailer_grows e pc s).2.2.2.1
    have hn : ¬ (before_trailer e pc s).backpatch_posn ≠ 0 := by
      unfold Translator.backpatch_posn
      rw [hb, hl]
      simp
    show (end_block_trailer e (before_trailer e pc s)).code a = _
    unfold end_block_trailer
    rw [if_neg hn]
  · rw [end_block_eq_loop e pc s hl]
    have hg : Grows (before_trailer e pc s) (loop_state e pc s []) :=
      grows_trans (raise_trampoline_grows e _) (cleanup_trampoline_grows e _)
    have h0 := loop_state_append e pc s [] s.backpatch_list
    simp only [List.nil_append] at h0
    rw [h0, backpatch_loop_code_apart e _ _ s.backpatch_list _ a
      (Nat.lt_of_lt_of_le ha hg.1) hap]
    exact hg.2.1 a ha

/-! ## Execution of the shared pieces -/

/-- The execution of the code of `exit_block_rel`. -/
theorem exit_block_rel_run (e : Env) (pc endpc : Nat) (s : Translator) (m : Machine)
    (hbp : m.reg .EBP = wrap32 (e.sh4r_addr + 128)) :
    ∃ m' : Machine,
      run e (emitted (exit_block_rel e pc endpc) s) m
        = some (m', .ret (m.stack (add32 (m.reg .ESP) 12))) ∧
      (if e.IS_IN_ICACHE pc = true then
          m'.trace = m.trace ∧
          m'.reg .EAX = wrap32 (m.mem (e.xlat_get_lut_entry (e.GET_ICACHE_PHYS pc))) &&& 0xFFFFFFFC ∧
          m'.sh4r = (m.sh4r.set .pc (add32 (sub32 pc s.block_start_pc) m.sh4r.pc)).set .slice_cycle
            (add32 m.sh4r.slice_cycle (cycle_delta e s endpc))
       else ∃ ev : CallEvent,
          m'.trace = m.trace ++ [ev] ∧
          ev.target = wrap32 (dispatch_helper e s) ∧
          ev.arg1 = add32 (sub32 pc s.block_start_pc) m.sh4r.pc ∧
          ev.sh4r = m.sh4r.set .pc (add32 (sub32 pc s.block_start_pc) m.sh4r.pc) ∧
          m'.reg .EAX = wrap32 (ev.result e).eax ∧
          m'.sh4r = (ev.result e).sh4r.set .slice_cycle
            (add32 (ev.result e).sh4r.slice_cycle (cycle_delta e s endpc))) ∧
      m'.reg .EBP = m.stack (add32 (m.reg .ESP) 8) ∧
      m'.reg .ESP = add32 (m.reg .ESP) 16 := by
  cases h1 : e.IS_IN_ICACHE pc <;> cases h2 : s.tlb_on <;> cases h3 : e.HAVE_FASTCALL <;>
  · simp only [emitted, exit_block_rel, load_imm32, store_spreg, call_dispatch, call_func1,
      exit_block, h1, h2, h3, emit_listing, emit_tlb_on, emit_block_start_pc, List.append_assoc,
      List.drop_left, List.map, List.singleton_append, List.cons_append, List.nil_append,
      Bool.false_eq_true, if_false, ite_false, if_true, ite_true, cycle_delta_emit, ne_eq,
      reduceCtorEq, not_false_eq_true, not_true_eq_false]
    simp [run_ADDL_r32_rbpdisp, run_ADDL_rbpdisp_r32, run_MOVL_rbpdisp_r32, run_MOVL_r32_rbpdisp,
      hbp, h3, and_assoc, CallEvent.result, dispatch_helper, h2, Sh4r.get, Sh4r.set,
      add32_ne_sub32, show wrap32 4294967292 = 4294967292 from rfl]

/-- The execution of the cleanup trampoline: one call, to the dispatch helper. -/
theorem cleanup_trampoline_run (e : Env) (s : Translator) (m : Machine)
    (hbp : m.reg .EBP = wrap32 (e.sh4r_addr + 128)) :
    ∃ (m' : Machine) (ev : CallEvent),
      run e (emitted (cleanup_trampoline e) s) m
        = some (m', .ret (m.stack (add32 (m.reg .ESP) 12))) ∧
      m'.trace = m.trace ++ [ev] ∧
      ev.target = wrap32 (dispatch_helper e s) ∧
      ev.arg1 = m.sh4r.pc := by
  rw [emitted_eq_drop]
  unfold cleanup_trampoline
  simp only [exit_block_instrs, call_dispatch_instrs, load_spreg, emit_instrs,
    dispatch_helper_emit, List.append_assoc, List.drop_left, ne_eq, not_true_eq_false,
    if_false, List.nil_append, List.singleton_append, List.cons_append]
  cases h3 : e.HAVE_FASTCALL <;>
  · simp [run_ADDL_r32_rbpdisp, run_ADDL_rbpdisp_r32, run_MOVL_rbpdisp_r32, run_MOVL_r32_rbpdisp,
      hbp, h3, and_assoc, Sh4r.get, Sh4r.set, add32_ne_sub32, add32_sub32_ne_self]

theorem ia32_encode_pos (i : Instr) : 0 < (ia32_encode i).length := by
  cases i <;> simp [ia32_encode, le32]
  split <;> simp

/-! ## Exits (claims C1 to C8) -/

/-- C1. No-fault cycle accounting is exact.  A block of `K` two-byte guest
instructions starting at `block_start_pc` falls off its end without an explicit
exit (`branch_taken` is false).  Whatever backpatch sites are registered on
the code emitted so far, `sh4_translate_end_block` called for the end address
`block_start_pc + 2K` leaves the bytes of the implicit exit as it emitted
them, and that code, run from its first instruction, returns to the caller
with `slice_cycle` advanced by `K * sh4_cpu_period` modulo `2^32` and the guest
PC advanced by `2K`, provided the dispatch helper raises no fault (it leaves
the guest register file as it found it). -/
theorem end_block_cycle_accounting (e : Env) (s : Translator) (m : Machine) (K : Nat)
    (hK : 2 * K < 4294967296)
    (hbt : s.branch_taken = false)
    (hsites : ∀ q ∈ s.backpatch_list, q.fixup_offset + 4 ≤ s.xlat_output)
    (hbp : m.reg .EBP = wrap32 (e.sh4r_addr + 128))
    (hnf : ∀ a1 a2 g, (e.call (wrap32 (dispatch_helper e s)) a1 a2 g).sh4r = g) :
    (∀ a, s.xlat_output ≤ a →
      a < (exit_block_rel e (wrap32 (s.block_start_pc + 2 * K))
            (wrap32 (s.block_start_pc + 2 * K)) s).xlat_output →
      (sh4_translate_end_block e (wrap32 (s.block_start_pc + 2 * K)) s).code a
        = (exit_block_rel e (wrap32 (s.block_start_pc + 2 * K))
            (wrap32 (s.block_start_pc + 2 * K)) s).code a) ∧
    ∃ m' ra,
      run e (emitted (sh4_translate_end_block e (wrap32 (s.block_start_pc + 2 * K))) s) m
        = some (m', .ret ra) ∧
      m'.sh4r.slice_cycle = add32 m.sh4r.slice_cycle (K * e.sh4_cpu_period) ∧
      m'.sh4r.pc = add32 m.sh4r.pc (2 * K) := by
  constructor
  · intro a ha1 ha2
    have hbt' : before_trailer e (wrap32 (s.block_start_pc + 2 * K)) s
        = exit_block_rel e (wrap32 (s.block_start_pc + 2 * K))
            (wrap32 (s.block_start_pc + 2 * K)) s := by
      unfold before_trailer
      rw [if_pos hbt]
    rw [← hbt'] at ha2 ⊢
    exact end_block_code_frame e _ s a ha2 (fun q hq => by
      have := hsites q hq
      omega)
  obtain ⟨rest, hrest⟩ := end_block_emitted e (wrap32 (s.block_start_pc + 2 * K)) s hbt
  obtain ⟨m', hrun, hprops, -, -⟩ := exit_block_rel_run e (wrap32 (s.block_start_pc + 2 * K))
    (wrap32 (s.block_start_pc + 2 * K)) s m hbp
  rw [hrest, run_append_of_exit e _ rest m m' _ hrun (by simp)]
  refine ⟨m', _, rfl, ?_⟩
  have hd : cycle_delta e s (wrap32 (s.block_start_pc + 2 * K))
      = wrap32 (K * e.sh4_cpu_period) := cycle_delta_block_end e _ K hK
  have hs : sub32 (wrap32 (s.block_start_pc + 2 * K)) s.block_start_pc = 2 * K :=
    sub32_block_end _ _ hK
  split at hprops
  · obtain ⟨-, -, hg⟩ := hprops
    rw [hg, hd]
    simp only [hs, Sh4r.set]
    constructor
    · simp
    · unfold add32; omega
  · obtain ⟨ev, -, ht, -, hsh, -, hg⟩ := hprops
    have hres : (ev.result e).sh4r = ev.sh4r := by
      unfold CallEvent.result
      rw [ht]
      exact hnf _ _ _
    rw [hg, hres, hsh, hd]
    simp only [hs, Sh4r.set]
    constructor
    · simp
    · unfold add32; omega

/-- C1, witness (Scenario A).  A block of 3 instructions at `0x1000`, one cycle
per instruction, with 8 bytes of body code and one backpatch site registered
in them: the cycle counter goes from 0 to 3 and the guest PC from `0x1000` to
`0x1006`. -/
theorem end_block_cycle_accounting_witness :
    2 * 3 < 4294967296 ∧
    (sampleFallthrough [⟨3, 1, 5⟩]).branch_taken = false ∧
    (∀ q ∈ (sampleFallthrough [⟨3, 1, 5⟩]).backpatch_list,
      q.fixup_offset + 4 ≤ (sampleFallthrough [⟨3, 1, 5⟩]).xlat_output) ∧
    (sampleMachine { pc := 0x1000, new_pc := 0, spc := 0, slice_cycle := 0 }).reg .EBP
      = wrap32 ((sampleEnv false).sh4r_addr + 128) ∧
    (∀ a1 a2 g, ((sampleEnv false).call
      (wrap32 (dispatch_helper (sampleEnv false) (sampleFallthrough [⟨3, 1, 5⟩])))
      a1 a2 g).sh4r = g) ∧
    ∃ m' ra,
      run (sampleEnv false)
        (emitted (sh4_translate_end_block (sampleEnv false) (wrap32 (0x1000 + 2 * 3)))
          (sampleFallthrough [⟨3, 1, 5⟩]))
        (sampleMachine { pc := 0x1000, new_pc := 0, spc := 0, slice_cycle := 0 })
        = some (m', .ret ra) ∧
      m'.sh4r.slice_cycle = 3 ∧ m'.sh4r.pc = 0x1006 :=
  ⟨by decide, rfl, by decide, by decide, fun _ _ _ => rfl,
    let ⟨m', ra, h1, h2, h3⟩ := (end_block_cycle_accounting (sampleEnv false)
      (sampleFallthrough [⟨3, 1, 5⟩])
      (sampleMachine { pc := 0x1000, new_pc := 0, spc := 0, slice_cycle := 0 }) 3
      (by decide) rfl (by decide) (by decide) (fun _ _ _ => rfl)).2
    ⟨m', ra, h1, h2.trans (by decide), h3.trans (by decide)⟩⟩

/-- C2. Exactly one exit per path at finalization.  `sh4_translate_end_block(pc)`
emits the sequence of `exit_block_rel(pc, pc)` if and only if `branch_taken` is
false.  A block that already ended in an explicit exit gets the trailer and
nothing else; a block without one gets the implicit exit followed by the
trailer.  The implicit exit is one straight-line path: its last instruction is
the return, and no instruction before it returns or jumps. -/
theorem end_block_exit_iff (e : Env) (pc : Nat) (s : Translator) :
    ((emitted (exit_block_rel e pc pc) s <+: emitted (sh4_translate_end_block e pc) s)
      ↔ s.branch_taken = false) ∧
    (s.branch_taken = true →
      emitted (sh4_translate_end_block e pc) s = emitted (end_block_trailer e) s) ∧
    (s.branch_taken = false →
      emitted (sh4_translate_end_block e pc) s
        = emitted (exit_block_rel e pc pc) s
          ++ emitted (end_block_trailer e) (exit_block_rel e pc pc s)) ∧
    (emitted (exit_block_rel e pc pc) s).getLast? = some .RET ∧
    (∀ i ∈ (emitted (exit_block_rel e pc pc) s).dropLast,
      i ≠ .RET ∧ ∀ rel, i ≠ .JMP_prerel rel) := by
  have htrue : s.branch_taken = true →
      emitted (sh4_translate_end_block e pc) s = emitted (end_block_trailer e) s := by
    intro h
    simp [emitted, sh4_translate_end_block, h]
  have hfalse : s.branch_taken = false →
      emitted (sh4_translate_end_block e pc) s
        = emitted (exit_block_rel e pc pc) s
          ++ emitted (end_block_trailer e) (exit_block_rel e pc pc s) := by
    intro h
    obtain ⟨xs, hxs⟩ := exit_block_rel_ext e pc pc s
    obtain ⟨ys, hys⟩ := end_block_trailer_ext e (exit_block_rel e pc pc s)
    rw [emitted_of_ext _ s _ hxs, emitted_of_ext _ _ ys hys,
      emitted_of_ext (sh4_translate_end_block e pc) s
        (((s.xlat_output, .MOVL_imm32_r32 (sub32 pc s.block_start_pc) .ECX) :: xs) ++ ys)]
    · simp
    · simp only [sh4_translate_end_block, h, if_true]
      rw [hys, hxs, List.append_assoc]
  refine ⟨⟨?_, ?_⟩, htrue, hfalse, ?_⟩
  · intro hp
    cases hb : s.branch_taken with
    | false => rfl
    | true =>
      exfalso
      rw [htrue hb] at hp
      obtain ⟨xs, hxs⟩ := exit_block_rel_ext e pc pc s
      rw [emitted_of_ext _ s _ hxs] at hp
      rcases end_block_trailer_head e s with h0 | ⟨rest, h1⟩
      · rw [h0] at hp
        simp at hp
      · rw [h1] at hp
        simp at hp
  · intro h
    rw [hfalse h]
    exact ⟨_, rfl⟩
  · cases h1 : e.IS_IN_ICACHE pc <;> cases h2 : s.tlb_on <;> cases h3 : e.HAVE_FASTCALL <;>
    · simp only [emitted, exit_block_rel, load_imm32, store_spreg, call_dispatch, call_func1,
        exit_block, h1, h2, h3, emit_listing, emit_tlb_on, emit_block_start_pc,
        List.append_assoc, List.drop_left, List.map, List.singleton_append, List.cons_append,
        List.nil_append, Bool.false_eq_true, if_false, ite_false, if_true, ite_true,
        cycle_delta_emit, ne_eq, reduceCtorEq, not_false_eq_true, not_true_eq_false]
      simp

/-- C3. `exit_block_abs(pc, endpc)`.  Run from its first instruction with EBP
bound to the guest register file, the emitted code stores the constant `pc`
into the guest PC.  When `pc` is in the instruction-cache window it calls
nothing and takes the entry point from the lookup-table slot of `pc`, masked
with `0xFFFFFFFC`; otherwise it makes exactly one call, to
`xlat_get_code_by_vma` when `tlb_on` and to `xlat_get_code` otherwise, with
`pc` as argument, and takes the entry point from its result.  In every case
it then adds `((endpc - block_start_pc) >> 1) * sh4_cpu_period` to
`slice_cycle` and runs the epilogue: the frame is released, EBP restored, and
the code returns with the entry point in EAX. -/
theorem exit_block_abs_correct (e : Env) (pc endpc : Nat) (s : Translator) (m : Machine)
    (hbp : m.reg .EBP = wrap32 (e.sh4r_addr + 128)) :
    ∃ m' : Machine,
      run e (emitted (exit_block_abs e pc endpc) s) m
        = some (m', .ret (m.stack (add32 (m.reg .ESP) 12))) ∧
      (if e.IS_IN_ICACHE pc = true then
          m'.trace = m.trace ∧
          m'.reg .EAX = wrap32 (m.mem (e.xlat_get_lut_entry (e.GET_ICACHE_PHYS pc))) &&& 0xFFFFFFFC ∧
          m'.sh4r = (m.sh4r.set .pc (wrap32 pc)).set .slice_cycle
            (add32 m.sh4r.slice_cycle
              (wrap32 (sub32 endpc s.block_start_pc / 2 * e.sh4_cpu_period)))
       else ∃ ev : CallEvent,
          m'.trace = m.trace ++ [ev] ∧
          ev.target = wrap32 (if s.tlb_on then e.xlat_get_code_by_vma else e.xlat_get_code) ∧
          ev.arg1 = wrap32 pc ∧
          ev.sh4r = m.sh4r.set .pc (wrap32 pc) ∧
          m'.reg .EAX = wrap32 (ev.result e).eax ∧
          m'.sh4r = (ev.result e).sh4r.set .slice_cycle
            (add32 (ev.result e).sh4r.slice_cycle
              (wrap32 (sub32 endpc s.block_start_pc / 2 * e.sh4_cpu_period)))) ∧
      m'.reg .EBP = m.stack (add32 (m.reg .ESP) 8) ∧
      m'.reg .ESP = add32 (m.reg .ESP) 16 := by
  cases h1 : e.IS_IN_ICACHE pc <;> cases h2 : s.tlb_on <;> cases h3 : e.HAVE_FASTCALL <;>
  · simp only [emitted, exit_block_abs, load_imm32, store_spreg, call_dispatch, call_func1,
      exit_block, h1, h2, h3, emit_listing, emit_tlb_on, emit_block_start_pc, List.append_assoc,
      List.drop_left, List.map, List.singleton_append, List.cons_append, List.nil_append,
      Bool.false_eq_true, if_false, ite_false, if_true, ite_true, cycle_delta_emit, ne_eq,
      reduceCtorEq, not_false_eq_true, not_true_eq_false]
    simp [run_ADDL_r32_rbpdisp, run_ADDL_rbpdisp_r32, run_MOVL_rbpdisp_r32, run_MOVL_r32_rbpdisp,
      hbp, h3, and_assoc, CallEvent.result, h2, Sh4r.get, Sh4r.set, cycle_delta,
      add32_ne_sub32, show wrap32 4294967292 = 4294967292 from rfl]

/-- C3, witness: an absolute exit to `0x8C0000A0`, outside the cached page, with
address translation on. -/
theorem exit_block_abs_correct_witness :
    (sampleMachine { pc := 0x1000, new_pc := 0, spc := 0, slice_cycle := 0 }).reg .EBP
      = wrap32 ((sampleEnv true).sh4r_addr + 128) ∧
    ∃ m' : Machine,
      run (sampleEnv true)
        (emitted (exit_block_abs (sampleEnv true) 0x8C0000A0 0x1006)
          (sampleTranslator 0x1000 true false []))
        (sampleMachine { pc := 0x1000, new_pc := 0, spc := 0, slice_cycle := 0 })
        = some (m', .ret 0x08050000) ∧
      m'.reg .EBP = 0xBFFF0100 :=
  ⟨by decide,
    let ⟨m', h1, _, h3, _⟩ := exit_block_abs_correct (sampleEnv true) 0x8C0000A0 0x1006
      (sampleTranslator 0x1000 true false [])
      (sampleMachine { pc := 0x1000, new_pc := 0, spc := 0, slice_cycle := 0 }) (by decide)
    ⟨m', h1, h3⟩⟩

/-- C4. `exit_block_rel` is functionally identical to `exit_block_abs`.  On
every machine state whose guest PC equals `block_start_pc`, the code of
`exit_block_rel(pc, endpc)` and the code of `exit_block_abs(pc, endpc)` both
run to their return and end in the same machine state with the same return
address: the same guest PC and `slice_cycle`, the same calls with the same
arguments (or the same slot lookup), and the same entry point in EAX. -/
theorem exit_block_rel_equiv_abs (e : Env) (pc endpc : Nat) (s : Translator) (m : Machine)
    (hbp : m.reg .EBP = wrap32 (e.sh4r_addr + 128))
    (hpc : m.sh4r.pc = s.block_start_pc) :
    ∃ (m' : Machine) (ra : Nat),
      run e (emitted (exit_block_rel e pc endpc) s) m = some (m', .ret ra) ∧
      run e (emitted (exit_block_abs e pc endpc) s) m = some (m', .ret ra) := by
  cases h1 : e.IS_IN_ICACHE pc <;> cases h2 : s.tlb_on <;> cases h3 : e.HAVE_FASTCALL <;>
  · simp only [emitted, exit_block_abs, exit_block_rel, load_imm32, store_spreg, call_dispatch,
      call_func1, exit_block, h1, h2, h3, emit_listing, emit_tlb_on, emit_block_start_pc,
      List.append_assoc, List.drop_left, List.map, List.singleton_append, List.cons_append,
      List.nil_append, Bool.false_eq_true, if_false, ite_false, if_true, ite_true,
      cycle_delta_emit, ne_eq, reduceCtorEq, not_false_eq_true, not_true_eq_false]
    simp [run_ADDL_r32_rbpdisp, run_ADDL_rbpdisp_r32, run_MOVL_rbpdisp_r32, run_MOVL_r32_rbpdisp,
      hbp, h3, and_assoc, Sh4r.get, Sh4r.set, hpc, add32_ne_sub32, setReg_setReg_same]

/-- C4, witness: a relative and an absolute exit to the cached address
`0x8C010010`, run with the guest PC at the block start `0x8C010000`. -/
theorem exit_block_rel_equiv_abs_witness :
    (sampleMachine { pc := 0x8C010000, new_pc := 0, spc := 0, slice_cycle := 7 }).reg .EBP
      = wrap32 ((sampleEnv false).sh4r_addr + 128) ∧
    (sampleMachine { pc := 0x8C010000, new_pc := 0, spc := 0, slice_cycle := 7 }).sh4r.pc
      = (sampleTranslator 0x8C010000 false false []).block_start_pc ∧
    ∃ (m' : Machine) (ra : Nat),
      run (sampleEnv false)
        (emitted (exit_block_rel (sampleEnv false) 0x8C010010 0x8C010010)
          (sampleTranslator 0x8C010000 false false []))
        (sampleMachine { pc := 0x8C010000, new_pc := 0, spc := 0, slice_cycle := 7 })
        = some (m', .ret ra) ∧
      run (sampleEnv false)
        (emitted (exit_block_abs (sampleEnv false) 0x8C010010 0x8C010010)
          (sampleTranslator 0x8C010000 false false []))
        (sampleMachine { pc := 0x8C010000, new_pc := 0, spc := 0, slice_cycle := 7 })
        = some (m', .ret ra) :=
  ⟨by decide, rfl,
    exit_block_rel_equiv_abs (sampleEnv false) 0x8C010010 0x8C010010
      (sampleTranslator 0x8C010000 false false [])
      (sampleMachine { pc := 0x8C010000, new_pc := 0, spc := 0, slice_cycle := 7 })
      (by decide) rfl⟩

/-- C5. The register-indirect exits take the next PC from a guest register
slot.  The code of `exit_block_pcset` calls the dispatch helper exactly once,
with the run-time value of the guest PC slot as argument, and has not changed
that slot when it makes the call.  The code of `exit_block_newpcset` reads the
staged `new_pc` slot, stores it into the guest PC slot and calls the dispatch
helper exactly once with that same value.  In both the helper called is
`xlat_get_code_by_vma` when `tlb_on` and `xlat_get_code` otherwise, and the
code returns with the helper's result in EAX without touching the guest
register file again. -/
theorem exit_block_pcset_newpcset_dispatch (e : Env) (pc : Nat) (s : Translator) (m : Machine)
    (hbp : m.reg .EBP = wrap32 (e.sh4r_addr + 128)) :
    (∃ (m' : Machine) (ev : CallEvent),
      run e (emitted (exit_block_pcset e pc) s) m
        = some (m', .ret (m.stack (add32 (m.reg .ESP) 12))) ∧
      m'.trace = m.trace ++ [ev] ∧
      ev.target = wrap32 (if s.tlb_on then e.xlat_get_code_by_vma else e.xlat_get_code) ∧
      ev.arg1 = m.sh4r.pc ∧
      ev.sh4r.pc = m.sh4r.pc ∧
      m'.sh4r = (ev.result e).sh4r ∧
      m'.reg .EAX = wrap32 (ev.result e).eax) ∧
    (∃ (m' : Machine) (ev : CallEvent),
      run e (emitted (exit_block_newpcset e pc) s) m
        = some (m', .ret (m.stack (add32 (m.reg .ESP) 12))) ∧
      m'.trace = m.trace ++ [ev] ∧
      ev.target = wrap32 (if s.tlb_on then e.xlat_get_code_by_vma else e.xlat_get_code) ∧
      ev.arg1 = m.sh4r.new_pc ∧
      ev.sh4r.pc = m.sh4r.new_pc ∧
      ev.sh4r.new_pc = m.sh4r.new_pc ∧
      m'.sh4r = (ev.result e).sh4r ∧
      m'.reg .EAX = wrap32 (ev.result e).eax) := by
  constructor <;> cases h2 : s.tlb_on <;> cases h3 : e.HAVE_FASTCALL <;>
  · simp only [emitted, exit_block_pcset, exit_block_newpcset, load_imm32, store_spreg, load_spreg,
      call_dispatch, call_func1, exit_block, h2, h3, emit_listing, emit_tlb_on,
      emit_block_start_pc, List.append_assoc, List.drop_left, List.map, List.singleton_append,
      List.cons_append, List.nil_append, Bool.false_eq_true, if_false, ite_false, if_true,
      ite_true, cycle_delta_emit, ne_eq, reduceCtorEq, not_false_eq_true, not_true_eq_false]
    simp [run_ADDL_r32_rbpdisp, run_ADDL_rbpdisp_r32, run_MOVL_rbpdisp_r32, run_MOVL_r32_rbpdisp,
      hbp, h3, and_assoc, CallEvent.result, Sh4r.get, Sh4r.set, add32_ne_sub32]

/-- C5, witness: both register-indirect exits with `0x2000` in the guest PC
slot and `0x3000` staged. -/
theorem exit_block_pcset_newpcset_dispatch_witness :
    (sampleMachine { pc := 0x2000, new_pc := 0x3000, spc := 0, slice_cycle := 0 }).reg .EBP
      = wrap32 ((sampleEnv true).sh4r_addr + 128) ∧
    (∃ (m' : Machine) (ev : CallEvent),
      run (sampleEnv true)
        (emitted (exit_block_pcset (sampleEnv true) 0x1004)
          (sampleTranslator 0x1000 false false []))
        (sampleMachine { pc := 0x2000, new_pc := 0x3000, spc := 0, slice_cycle := 0 })
        = some (m', .ret 0x08050000) ∧
      m'.trace = [ev] ∧ ev.arg1 = 0x2000) ∧
    (∃ (m' : Machine) (ev : CallEvent),
      run (sampleEnv true)
        (emitted (exit_block_newpcset (sampleEnv true) 0x1004)
          (sampleTranslator 0x1000 false false []))
        (sampleMachine { pc := 0x2000, new_pc := 0x3000, spc := 0, slice_cycle := 0 })
        = some (m', .ret 0x08050000) ∧
      m'.trace = [ev] ∧ ev.arg1 = 0x3000) :=
  ⟨by decide,
    let ⟨⟨m1, ev1, a1, a2, _, a4, _⟩, ⟨m2, ev2, b1, b2, _, b4, _⟩⟩ :=
      exit_block_pcset_newpcset_dispatch (sampleEnv true) 0x1004
        (sampleTranslator 0x1000 false false [])
        (sampleMachine { pc := 0x2000, new_pc := 0x3000, spc := 0, slice_cycle := 0 })
        (by decide)
    ⟨⟨m1, ev1, a1, a2, a4⟩, ⟨m2, ev2, b1, b2, b4⟩⟩⟩

/-- C6, counterexample.  A block starts at `0x1000`, the exit is emitted for
`pc = 0x1004` with a period of 1, and the staged `new_pc` holds `0x2000`.  The
code of `exit_block_newpcset` advances `slice_cycle` from 0 to 2, the delta of
the `pc` argument, and not to `0x800`, the delta the staged register would
give; with `0x3000` staged the result is again 2. -/
theorem exit_block_newpcset_delta_is_static :
    (run (sampleEnv true)
        (emitted (exit_block_newpcset (sampleEnv true) 0x1004)
          (sampleTranslator 0x1000 false false []))
        (sampleMachine { pc := 0x1002, new_pc := 0x2000, spc := 0, slice_cycle := 0 })).map
      (fun r => r.1.sh4r.slice_cycle) = some 2 ∧
    (run (sampleEnv true)
        (emitted (exit_block_newpcset (sampleEnv true) 0x1004)
          (sampleTranslator 0x1000 false false []))
        (sampleMachine { pc := 0x1002, new_pc := 0x3000, spc := 0, slice_cycle := 0 })).map
      (fun r => r.1.sh4r.slice_cycle) = some 2 ∧
    wrap32 (sub32 0x2000 0x1000 / 2 * (sampleEnv true).sh4_cpu_period) = 0x800 := by
  decide

/-- C6 (as amended).  In both register-indirect exits the delta committed to
`slice_cycle` is the translation-time constant
`((pc - block_start_pc) >> 1) * sh4_cpu_period` computed from the `pc`
argument.  It is committed before the dispatch call, so the helper finds
`slice_cycle` advanced by exactly that constant, whatever the staged `new_pc`
holds; in `exit_block_newpcset` the staged register only supplies the next
PC. -/
theorem exit_block_pcset_newpcset_cycles (e : Env) (pc : Nat) (s : Translator) (m : Machine)
    (hbp : m.reg .EBP = wrap32 (e.sh4r_addr + 128)) :
    (∃ (m' : Machine) (ev : CallEvent),
      run e (emitted (exit_block_pcset e pc) s) m
        = some (m', .ret (m.stack (add32 (m.reg .ESP) 12))) ∧
      m'.trace = m.trace ++ [ev] ∧
      ev.sh4r.slice_cycle = add32 m.sh4r.slice_cycle
        (wrap32 (sub32 pc s.block_start_pc / 2 * e.sh4_cpu_period)) ∧
      m'.sh4r = (ev.result e).sh4r) ∧
    (∃ (m' : Machine) (ev : CallEvent),
      run e (emitted (exit_block_newpcset e pc) s) m
        = some (m', .ret (m.stack (add32 (m.reg .ESP) 12))) ∧
      m'.trace = m.trace ++ [ev] ∧
      ev.sh4r.slice_cycle = add32 m.sh4r.slice_cycle
        (wrap32 (sub32 pc s.block_start_pc / 2 * e.sh4_cpu_period)) ∧
      m'.sh4r = (ev.result e).sh4r) := by
  constructor <;> cases h2 : s.tlb_on <;> cases h3 : e.HAVE_FASTCALL <;>
  · simp only [emitted, exit_block_pcset, exit_block_newpcset, load_imm32, store_spreg, load_spreg,
      call_dispatch, call_func1, exit_block, h2, h3, emit_listing, emit_tlb_on,
      emit_block_start_pc, List.append_assoc, List.drop_left, List.map, List.singleton_append,
      List.cons_append, List.nil_append, Bool.false_eq_true, if_false, ite_false, if_true,
      ite_true, cycle_delta_emit, ne_eq, reduceCtorEq, not_false_eq_true, not_true_eq_false]
    simp [run_ADDL_r32_rbpdisp, run_ADDL_rbpdisp_r32, run_MOVL_rbpdisp_r32, run_MOVL_r32_rbpdisp,
      hbp, h3, and_assoc, CallEvent.result, Sh4r.get, Sh4r.set, add32_ne_sub32, cycle_delta]

/-- C6, witness of the amended statement: with `0x3000` staged, both exits hand
the helper a `slice_cycle` advanced by the delta of the `pc` argument. -/
theorem exit_block_pcset_newpcset_cycles_witness :
    (sampleMachine { pc := 0x2000, new_pc := 0x3000, spc := 0, slice_cycle := 0 }).reg .EBP
      = wrap32 ((sampleEnv false).sh4r_addr + 128) ∧
    (∃ (m' : Machine) (ev : CallEvent),
      run (sampleEnv false)
        (emitted (exit_block_pcset (sampleEnv false) 0x1004)
          (sampleTranslator 0x1000 false false []))
        (sampleMachine { pc := 0x2000, new_pc := 0x3000, spc := 0, slice_cycle := 0 })
        = some (m', .ret 0x08050000) ∧
      m'.trace = [ev] ∧ ev.sh4r.slice_cycle = 2) ∧
    (∃ (m' : Machine) (ev : CallEvent),
      run (sampleEnv false)
        (emitted (exit_block_newpcset (sampleEnv false) 0x1004)
          (sampleTranslator 0x1000 false false []))
        (sampleMachine { pc := 0x2000, new_pc := 0x3000, spc := 0, slice_cycle := 0 })
        = some (m', .ret 0x08050000) ∧
      m'.trace = [ev] ∧ ev.sh4r.slice_cycle = 2) :=
  ⟨by decide,
    let ⟨⟨m1, ev1, a1, a2, a3, _⟩, ⟨m2, ev2, b1, b2, b3, _⟩⟩ :=
      exit_block_pcset_newpcset_cycles (sampleEnv false) 0x1004
        (sampleTranslator 0x1000 false false [])
        (sampleMachine { pc := 0x2000, new_pc := 0x3000, spc := 0, slice_cycle := 0 })
        (by decide)
    ⟨⟨m1, ev1, a1, a2, a3.trans (by decide)⟩, ⟨m2, ev2, b1, b2, b3.trans (by decide)⟩⟩⟩

/-- C7. `exit_block_exc(code, pc)`, order of effects.  The emitted code first
advances the guest PC by `pc - block_start_pc` and `slice_cycle` by
`((pc - block_start_pc) >> 1) * sh4_cpu_period`; then it calls
`sh4_raise_exception` with argument `code`, which finds both already
advanced; only then does it read the guest PC slot again and pass the value
the handler left there to the dispatch helper; then it runs the epilogue and
returns with the entry point in EAX.  These two calls are the only ones. -/
theorem exit_block_exc_order (e : Env) (code : Int) (pc : Nat) (s : Translator) (m : Machine)
    (hbp : m.reg .EBP = wrap32 (e.sh4r_addr + 128)) :
    ∃ (m' : Machine) (ev1 ev2 : CallEvent),
      run e (emitted (exit_block_exc e code pc) s) m
        = some (m', .ret (m.stack (add32 (m.reg .ESP) 12))) ∧
      m'.trace = m.trace ++ [ev1, ev2] ∧
      ev1.target = wrap32 e.sh4_raise_exception ∧
      ev1.arg1 = wrapInt32 code ∧
      ev1.sh4r = (m.sh4r.set .pc (add32 m.sh4r.pc (sub32 pc s.block_start_pc))).set .slice_cycle
        (add32 m.sh4r.slice_cycle (wrap32 (sub32 pc s.block_start_pc / 2 * e.sh4_cpu_period))) ∧
      ev2.target = wrap32 (if s.tlb_on then e.xlat_get_code_by_vma else e.xlat_get_code) ∧
      ev2.arg1 = (ev1.result e).sh4r.pc ∧
      ev2.sh4r = (ev1.result e).sh4r ∧
      m'.sh4r = (ev2.result e).sh4r ∧
      m'.reg .EAX = wrap32 (ev2.result e).eax := by
  cases h2 : s.tlb_on <;> cases h3 : e.HAVE_FASTCALL <;>
  · simp only [emitted, exit_block_exc, load_imm32, store_spreg, load_spreg,
      call_dispatch, call_func1, exit_block, h2, h3, emit_listing, emit_tlb_on,
      emit_block_start_pc, List.append_assoc, List.drop_left, List.map, List.singleton_append,
      List.cons_append, List.nil_append, Bool.false_eq_true, if_false, ite_false, if_true,
      ite_true, cycle_delta_emit, ne_eq, reduceCtorEq, not_false_eq_true, not_true_eq_false]
    simp [run_ADDL_r32_rbpdisp, run_ADDL_rbpdisp_r32, run_MOVL_rbpdisp_r32, run_MOVL_r32_rbpdisp,
      hbp, h3, and_assoc, CallEvent.result, Sh4r.get, Sh4r.set, add32_ne_sub32, cycle_delta,
      wrap32_wrapInt32, add32_sub32_ne_self]

/-- C7, witness: the exception `0x40` raised at `0x1004` in a block at `0x1000`
entered with PC `0x1000`; the sample handler moves the PC to `0x140`, which is
the address dispatched on. -/
theorem exit_block_exc_order_witness :
    (sampleMachine { pc := 0x1000, new_pc := 0, spc := 0, slice_cycle := 0 }).reg .EBP
      = wrap32 ((sampleEnv true).sh4r_addr + 128) ∧
    ∃ (m' : Machine) (ev1 ev2 : CallEvent),
      run (sampleEnv true)
        (emitted (exit_block_exc (sampleEnv true) 0x40 0x1004)
          (sampleTranslator 0x1000 false false []))
        (sampleMachine { pc := 0x1000, new_pc := 0, spc := 0, slice_cycle := 0 })
        = some (m', .ret 0x08050000) ∧
      m'.trace = [ev1, ev2] ∧
      ev1.arg1 = 0x40 ∧
      ev1.sh4r = { pc := 0x1004, new_pc := 0, spc := 0, slice_cycle := 2 } ∧
      ev2.arg1 = 0x140 :=
  ⟨by decide,
    let ⟨m', ev1, ev2, h1, h2, h3, h4, h5, _, h7, _⟩ :=
      exit_block_exc_order (sampleEnv true) 0x40 0x1004
        (sampleTranslator 0x1000 false false [])
        (sampleMachine { pc := 0x1000, new_pc := 0, spc := 0, slice_cycle := 0 }) (by decide)
    ⟨m', ev1, ev2, h1, h2, h4.trans (by decide), h5.trans (by decide),
      h7.trans (by
        have hr : (CallEvent.result (sampleEnv true) ev1).sh4r.pc = 0x100 + ev1.arg1 := by
          simp [CallEvent.result, sampleEnv, sampleCall, h3, wrap32]
        rw [hr, h4]
        decide)⟩⟩

/-- C8, counterexample.  For the exception `0x40` raised at `0x1004` in a block
starting at `0x1000`, `exit_block_exc` leaves the backpatch list empty and
emits no zero placeholder, whereas `call_func1_exc` for the same helper and
pc registers one site and stages the placeholder `MOVP_immptr_rptr(0, EDX)`. -/
theorem exit_block_exc_registers_no_site :
    (exit_block_exc (sampleEnv true) 0x40 0x1004
        (sampleTranslator 0x1000 false false [])).backpatch_list = [] ∧
    Instr.MOVP_immptr_rptr 0 .EDX ∉ emitted (exit_block_exc (sampleEnv true) 0x40 0x1004)
        (sampleTranslator 0x1000 false false []) ∧
    (call_func1_exc (sampleEnv true) (sampleEnv true).sh4_raise_exception .EAX 0x1004
        (sampleTranslator 0x1000 false false [])).backpatch_list
      = [{ fixup_offset := 1, fixup_icount := 2, exc_code := -2 }] ∧
    Instr.MOVP_immptr_rptr 0 .EDX ∈ emitted
        (call_func1_exc (sampleEnv true) (sampleEnv true).sh4_raise_exception .EAX 0x1004)
        (sampleTranslator 0x1000 false false []) := by
  decide

/-- C8 (as amended).  `exit_block_exc` invokes the exception-raise helper
through the plain one-argument call: the sequence it emits for the
`sh4_raise_exception` call is that of `call_func1`, it registers no backpatch
site, and it stages no placeholder operand (every pointer immediate it loads
goes to the call register ECX, and nothing is stored to a stack slot). -/
theorem exit_block_exc_plain_call (e : Env) (code : Int) (pc : Nat) (s : Translator) :
    (exit_block_exc e code pc s).backpatch_list = s.backpatch_list ∧
    emitted (exit_block_exc e code pc) s
      = [.MOVL_imm32_r32 (sub32 pc s.block_start_pc) .ECX,
          .ADDL_r32_rbpdisp .ECX .pc,
          .MOVL_imm32_r32 (cycle_delta e s pc) .ECX,
          .ADDL_r32_rbpdisp .ECX .slice_cycle,
          .MOVL_imm32_r32 (wrapInt32 code) .EAX]
        ++ emitted (call_func1 e e.sh4_raise_exception .EAX) s
        ++ [.MOVL_rbpdisp_r32 .pc .EAX]
        ++ emitted (call_dispatch e .EAX) s
        ++ emitted (exit_block e) s ∧
    (∀ p r, Instr.MOVP_immptr_rptr p r ∈ emitted (exit_block_exc e code pc) s → r = .ECX) ∧
    (∀ imm d, Instr.MOVL_imm32_rspdisp imm d ∉ emitted (exit_block_exc e code pc) s) := by
  cases h2 : s.tlb_on <;> cases h3 : e.HAVE_FASTCALL <;>
  · simp only [emitted, exit_block_exc, load_imm32, store_spreg, load_spreg,
      call_dispatch, call_func1, exit_block, h2, h3, emit_listing, emit_tlb_on,
      emit_block_start_pc, emit_backpatch_list, List.append_assoc, List.drop_left, List.map,
      List.singleton_append, List.cons_append, List.nil_append, Bool.false_eq_true, if_false,
      ite_false, if_true, ite_true, cycle_delta_emit, ne_eq, reduceCtorEq, not_false_eq_true,
      not_true_eq_false]
    simp
    intro p r h
    rcases h with ⟨-, h⟩ | ⟨-, h⟩ <;> exact h

/-! ## Backpatching and the trailer (claims C9 and C10) -/

/-- Why the sites are taken with placeholders of their own.  On a hand-made
list with two sites on the same zero placeholder at offset 0 of a block with 8
bytes of body code, the stubs are emitted at offsets 80 and 92, after the
trampolines that end at 80, but the word left at offset 0 is 164, the sum of
both displacements.  The call sequences never register such a list: each of
them registers the placeholder it has just emitted. -/
theorem shared_placeholder_misses_stub :
    read32 (sampleBlock [⟨0, 1, 5⟩, ⟨0, 2, 6⟩]).code 0 = 0 ∧
    0 + 4 ≤ (sampleBlock [⟨0, 1, 5⟩, ⟨0, 2, 6⟩]).xlat_output ∧
    (loop_state (sampleEnv true) 0x1008 (sampleBlock [⟨0, 1, 5⟩, ⟨0, 2, 6⟩]) []).xlat_output = 80 ∧
    (loop_state (sampleEnv true) 0x1008 (sampleBlock [⟨0, 1, 5⟩, ⟨0, 2, 6⟩])
      [⟨0, 1, 5⟩]).xlat_output = 92 ∧
    read32 (sh4_translate_end_block (sampleEnv true) 0x1008
      (sampleBlock [⟨0, 1, 5⟩, ⟨0, 2, 6⟩])).code 0 = 164 ∧
    ¬ (0 + 4 + read32 (sh4_translate_end_block (sampleEnv true) 0x1008
        (sampleBlock [⟨0, 1, 5⟩, ⟨0, 2, 6⟩])).code 0
      = (loop_state (sampleEnv true) 0x1008 (sampleBlock [⟨0, 1, 5⟩, ⟨0, 2, 6⟩])
          [⟨0, 1, 5⟩]).xlat_output) := by
  decide

/-- C9.  Every backpatch site is patched into its own block.  The site `r` is
any one of the registered sites (`pre` before it, `post` after it); as for
every site that the call sequences register, its 4-byte placeholder is zero,
lies in the code emitted before finalization and is the placeholder of no
other site.  After `sh4_translate_end_block` the word at
`r.fixup_offset` is non-zero and resolves to the first byte of the stub
emitted for `r`: as the absolute address `code_addr + stub` for a site coded
-2, as a displacement measured from `fixup_offset + 4` for every other site.
That stub begins with the first instruction emitted for `r`, lies after both
shared trampolines and before the final cursor of the block. -/
theorem backpatch_sites_resolve (e : Env) (pc : Nat) (s : Translator)
    (pre post : List BackpatchRecord) (r : BackpatchRecord)
    (hsites : s.backpatch_list = pre ++ r :: post)
    (hapart : ∀ q ∈ pre ++ post, SitesApart r q)
    (hin : r.fixup_offset + 4 ≤ s.xlat_output)
    (hzero : read32 s.code r.fixup_offset = 0)
    (henc : ∀ i, 0 < (e.encode i).length)
    (haddr : 0 < s.code_addr)
    (hfit : s.code_addr + (sh4_translate_end_block e pc s).xlat_output ≤ 4294967296) :
    read32 (sh4_translate_end_block e pc s).code r.fixup_offset ≠ 0 ∧
    (r.exc_code = -2 →
      read32 (sh4_translate_end_block e pc s).code r.fixup_offset
        = s.code_addr + (loop_state e pc s pre).xlat_output) ∧
    (r.exc_code ≠ -2 →
      r.fixup_offset + 4 + read32 (sh4_translate_end_block e pc s).code r.fixup_offset
        = (loop_state e pc s pre).xlat_output) ∧
    ((loop_state e pc s pre).xlat_output,
        if 0 ≤ r.exc_code then Instr.PUSH_imm32 r.exc_code.toNat
        else Instr.MOVL_imm32_r32 r.fixup_icount .EDX)
      ∈ (sh4_translate_end_block e pc s).listing ∧
    (loop_state e pc s []).xlat_output ≤ (loop_state e pc s pre).xlat_output ∧
    (loop_state e pc s pre).xlat_output < (sh4_translate_end_block e pc s).xlat_output := by
  have hne : s.backpatch_list ≠ [] := by rw [hsites]; simp
  have hfinal : sh4_translate_end_block e pc s = loop_state e pc s (pre ++ r :: post) := by
    rw [end_block_eq_loop e pc s hne, hsites]
  rw [hfinal] at hfit ⊢
  obtain ⟨g1, g2, g3, -⟩ := trampolines_grow e pc s
  have glt := trampolines_lt e pc s henc
  have hz2 : read32 (loop_state e pc s []).code r.fixup_offset = 0 := by
    rw [read32_congr _ s.code r.fixup_offset (fun a _ h2 => g2 a (by omega))]
    exact hzero
  -- the cursor of the stub and of the end of the block
  have hpre : loop_state e pc s pre = pre.foldl (backpatch_site e
      (before_trailer e pc s).xlat_output (raise_trampoline e (before_trailer e pc s)).xlat_output)
      (loop_state e pc s []) := by
    have := loop_state_append e pc s [] pre
    simpa using this
  have hall : loop_state e pc s (pre ++ r :: post) = (pre ++ r :: post).foldl (backpatch_site e
      (before_trailer e pc s).xlat_output (raise_trampoline e (before_trailer e pc s)).xlat_output)
      (loop_state e pc s []) := by
    have := loop_state_append e pc s [] (pre ++ r :: post)
    simpa using this
  have hstub_ge : (loop_state e pc s []).xlat_output ≤ (loop_state e pc s pre).xlat_output := by
    rw [hpre]
    exact (backpatch_loop_grows e _ _ pre _).1
  have hstep : loop_state e pc s (pre ++ r :: post) = post.foldl (backpatch_site e
      (before_trailer e pc s).xlat_output (raise_trampoline e (before_trailer e pc s)).xlat_output)
      (backpatch_site e (before_trailer e pc s).xlat_output
        (raise_trampoline e (before_trailer e pc s)).xlat_output (loop_state e pc s pre) r) := by
    rw [loop_state_append e pc s pre (r :: post), List.foldl_cons]
  have hstub_lt : (loop_state e pc s pre).xlat_output
      < (loop_state e pc s (pre ++ r :: post)).xlat_output := by
    rw [hstep]
    have h1 := backpatch_site_lt e (before_trailer e pc s).xlat_output
      (raise_trampoline e (before_trailer e pc s)).xlat_output (loop_state e pc s pre) r henc
    have h2 := (backpatch_loop_grows e (before_trailer e pc s).xlat_output
      (raise_trampoline e (before_trailer e pc s)).xlat_output post
      (backpatch_site e (before_trailer e pc s).xlat_output
        (raise_trampoline e (before_trailer e pc s)).xlat_output (loop_state e pc s pre) r)).1
    omega
  -- the word stored at the site
  obtain ⟨habs, hrel⟩ := backpatch_loop_read_site e (before_trailer e pc s).xlat_output
    (raise_trampoline e (before_trailer e pc s)).xlat_output pre post r (loop_state e pc s [])
    (by omega)
    (fun q hq => by
      have := hapart q (List.mem_append_left _ hq)
      unfold SitesApart at this ⊢
      omega)
    (fun q hq => hapart q (List.mem_append_right _ hq))
  rw [← hall, ← hpre, g3] at habs
  rw [← hall, ← hpre, hz2] at hrel
  have hval_abs : r.exc_code = -2 →
      read32 (loop_state e pc s (pre ++ r :: post)).code r.fixup_offset
        = s.code_addr + (loop_state e pc s pre).xlat_output := by
    intro h
    rw [habs h]
    unfold wrap32
    omega
  have hval_rel : r.exc_code ≠ -2 →
      r.fixup_offset + 4 + read32 (loop_state e pc s (pre ++ r :: post)).code r.fixup_offset
        = (loop_state e pc s pre).xlat_output := by
    intro h
    rw [hrel h]
    unfold wrapInt32
    omega
  refine ⟨?_, hval_abs, hval_rel, ?_, hstub_ge, hstub_lt⟩
  · by_cases h : r.exc_code = -2
    · rw [hval_abs h]
      omega
    · have := hval_rel h
      omega
  · obtain ⟨j, rel, hl, -⟩ := backpatch_site_stub e (before_trailer e pc s).xlat_output
      (raise_trampoline e (before_trailer e pc s)).xlat_output (loop_state e pc s pre) r
    obtain ⟨zs, hzs⟩ := backpatch_loop_ext e (before_trailer e pc s).xlat_output
      (raise_trampoline e (before_trailer e pc s)).xlat_output post
      (backpatch_site e (before_trailer e pc s).xlat_output
        (raise_trampoline e (before_trailer e pc s)).xlat_output (loop_state e pc s pre) r)
    rw [hstep, hzs, hl]
    by_cases h : 0 ≤ r.exc_code
    · simp [h]
    · simp [h]

/-- C9, witness: a guard site at offset 0 and a call site coded -2 at offset 4
of a block at address `0x40000000`; the call site is patched with the address
`0x4000005C` of its stub at offset 92. -/
theorem backpatch_sites_resolve_witness :
    (sampleBlock [⟨0, 1, 5⟩, ⟨4, 2, -2⟩]).backpatch_list = [⟨0, 1, 5⟩] ++ ⟨4, 2, -2⟩ :: [] ∧
    (∀ q ∈ [(⟨0, 1, 5⟩ : BackpatchRecord)] ++ [], SitesApart ⟨4, 2, -2⟩ q) ∧
    4 + 4 ≤ (sampleBlock [⟨0, 1, 5⟩, ⟨4, 2, -2⟩]).xlat_output ∧
    read32 (sampleBlock [⟨0, 1, 5⟩, ⟨4, 2, -2⟩]).code 4 = 0 ∧
    read32 (sh4_translate_end_block (sampleEnv true) 0x1008
      (sampleBlock [⟨0, 1, 5⟩, ⟨4, 2, -2⟩])).code 4 = 0x4000005C ∧
    (loop_state (sampleEnv true) 0x1008 (sampleBlock [⟨0, 1, 5⟩, ⟨4, 2, -2⟩])
      [⟨0, 1, 5⟩]).xlat_output = 92 :=
  have h := backpatch_sites_resolve (sampleEnv true) 0x1008 (sampleBlock [⟨0, 1, 5⟩, ⟨4, 2, -2⟩])
    [⟨0, 1, 5⟩] [] ⟨4, 2, -2⟩ rfl (by decide) (by decide) (by decide) ia32_encode_pos
    (by decide) (by decide)
  ⟨rfl, by decide, by decide, by decide, (h.2.1 rfl).trans (by decide), by decide⟩

/-- C10. Shared trampolines and routing.  The block has at least one
registered site; `r` is any one of them, `pre` the sites before it and `post`
the sites after it.  `sh4_translate_end_block` emits the raise trampoline
once, at `end_ptr`, then the cleanup trampoline once, at `preexc_ptr`, and
only then runs the loop over the sites, which appends one stub per site in
insertion order: the stub of `r` follows the stubs of `pre` and precedes those
of `post`.  The stub of a site with `exc_code >= 0` is a push of the code, a
load of the instruction count and a jump to the first byte of the raise
trampoline; the stub of a sentinel-coded site is a load of the instruction
count and a jump to the first byte of the cleanup trampoline.  The cleanup
trampoline makes exactly one call, to the dispatch helper, hence none to
`sh4_raise_exception`. -/
theorem trailer_layout (e : Env) (pc : Nat) (s : Translator)
    (pre post : List BackpatchRecord) (r : BackpatchRecord)
    (hsites : s.backpatch_list = pre ++ r :: post) :
    sh4_translate_end_block e pc s = loop_state e pc s (pre ++ r :: post) ∧
    loop_state e pc s [] = cleanup_trampoline e (raise_trampoline e (before_trailer e pc s)) ∧
    (∃ xs, (raise_trampoline e (before_trailer e pc s)).listing
      = (before_trailer e pc s).listing
        ++ ((before_trailer e pc s).xlat_output, .MOVL_r32_r32 .EDX .ECX) :: xs) ∧
    (∃ ys, (loop_state e pc s []).listing
      = (raise_trampoline e (before_trailer e pc s)).listing
        ++ ((raise_trampoline e (before_trailer e pc s)).xlat_output,
            .MOVL_r32_r32 .EDX .ECX) :: ys) ∧
    (∃ (j : Nat) (rel : Int),
      (loop_state e pc s (pre ++ [r])).listing = (loop_state e pc s pre).listing ++
        (if 0 ≤ r.exc_code then
          [((loop_state e pc s pre).xlat_output, .PUSH_imm32 r.exc_code.toNat),
           ((loop_state e pc s pre).xlat_output
              + (e.encode (.PUSH_imm32 r.exc_code.toNat)).length,
              .MOVL_imm32_r32 r.fixup_icount .EDX),
           (j, .JMP_prerel rel)]
         else
          [((loop_state e pc s pre).xlat_output, .MOVL_imm32_r32 r.fixup_icount .EDX),
           (j, .JMP_prerel rel)]) ∧
      (j : Int) + rel
        = (if 0 ≤ r.exc_code then ((before_trailer e pc s).xlat_output : Int)
           else ((raise_trampoline e (before_trailer e pc s)).xlat_output : Int))) ∧
    (∃ zs, (sh4_translate_end_block e pc s).listing
      = (loop_state e pc s (pre ++ [r])).listing ++ zs) ∧
    (∀ m : Machine, m.reg .EBP = wrap32 (e.sh4r_addr + 128) →
      ∃ (m' : Machine) (ev : CallEvent),
        run e (emitted (cleanup_trampoline e) (raise_trampoline e (before_trailer e pc s))) m
          = some (m', .ret (m.stack (add32 (m.reg .ESP) 12))) ∧
        m'.trace = m.trace ++ [ev] ∧
        ev.target = wrap32 (dispatch_helper e s) ∧
        (wrap32 e.sh4_raise_exception ≠ wrap32 (dispatch_helper e s) →
          ev.target ≠ wrap32 e.sh4_raise_exception)) := by
  have hne : s.backpatch_list ≠ [] := by rw [hsites]; simp
  have hfinal : sh4_translate_end_block e pc s = loop_state e pc s (pre ++ r :: post) := by
    rw [end_block_eq_loop e pc s hne, hsites]
  refine ⟨hfinal, rfl, raise_trampoline_head e _, cleanup_trampoline_head e _, ?_, ?_, ?_⟩
  · rw [loop_state_append e pc s pre [r]]
    exact backpatch_site_stub e _ _ (loop_state e pc s pre) r
  · rw [hfinal]
    have : pre ++ r :: post = (pre ++ [r]) ++ post := by simp
    rw [this, loop_state_append e pc s (pre ++ [r]) post]
    exact backpatch_loop_ext e _ _ post _
  · intro m hbp
    obtain ⟨m', ev, h1, h2, h3, -⟩ :=
      cleanup_trampoline_run e (raise_trampoline e (before_trailer e pc s)) m hbp
    have ht : dispatch_helper e (raise_trampoline e (before_trailer e pc s))
        = dispatch_helper e s := by
      unfold dispatch_helper
      rw [(grows_trans (before_trailer_grows e pc s) (raise_trampoline_grows e _)).2.2.2.2]
    rw [ht] at h3
    exact ⟨m', ev, h1, h2, h3, fun hd => by rw [h3]; exact fun h => hd h.symm⟩

/-- C10, witness: a guard site with code 5 followed by a sentinel-coded call
site; the guard's stub at offset 80 jumps to the raise trampoline at offset 8,
the call site's stub at offset 92 to the cleanup trampoline at offset 48. -/
theorem trailer_layout_witness :
    (sampleBlock [⟨0, 1, 5⟩, ⟨4, 2, -2⟩]).backpatch_list = [] ++ ⟨0, 1, 5⟩ :: [⟨4, 2, -2⟩] ∧
    (sh4_translate_end_block (sampleEnv true) 0x1008
        (sampleBlock [⟨0, 1, 5⟩, ⟨4, 2, -2⟩])).listing.drop 27
      = [(80, .PUSH_imm32 5), (85, .MOVL_imm32_r32 1 .EDX), (90, .JMP_prerel (-82)),
         (92, .MOVL_imm32_r32 2 .EDX), (97, .JMP_prerel (-49))] ∧
    (before_trailer (sampleEnv true) 0x1008 (sampleBlock [⟨0, 1, 5⟩, ⟨4, 2, -2⟩])).xlat_output = 8 ∧
    (raise_trampoline (sampleEnv true)
      (before_trailer (sampleEnv true) 0x1008
        (sampleBlock [⟨0, 1, 5⟩, ⟨4, 2, -2⟩]))).xlat_output = 48 :=
  have h := trailer_layout (sampleEnv true) 0x1008 (sampleBlock [⟨0, 1, 5⟩, ⟨4, 2, -2⟩])
    [] [⟨4, 2, -2⟩] ⟨0, 1, 5⟩ rfl
  ⟨rfl, by rw [h.1]; decide, by decide, by decide⟩

/-! ## Execution of the trailer paths -/

theorem wrap32_mul_wrap32 (x y : Nat) : wrap32 (wrap32 x * wrap32 y) = wrap32 (x * y) := by
  unfold wrap32
  exact (Nat.mul_mod x y 4294967296).symm

theorem add32_double (n : Nat) : add32 n n = wrap32 (2 * n) := by
  unfold add32 wrap32; omega

theorem raise_trampoline_split (e : Env) (s : Translator) :
    raise_trampoline e s
      = exit_block e (call_dispatch e .EAX (load_spreg e .EAX .pc
          (call_func1 e e.sh4_raise_exception .EAX (raise_trampoline_entry e s)))) := rfl

theorem raise_trampoline_entry_instrs (e : Env) (s : Translator) :
    (raise_trampoline_entry e s).instrs = s.instrs ++
      [.MOVL_r32_r32 .EDX .ECX, .ADDL_r32_r32 .EDX .ECX, .ADDL_r32_rbpdisp .ECX .pc,
       .MOVL_moffptr_eax e.sh4_cpu_period_addr, .MULL_r32 .EDX,
       .ADDL_r32_rbpdisp .EAX .slice_cycle, .POP_r32 .EAX] := by
  simp [raise_trampoline_entry]

theorem dispatch_helper_raise_entry (e : Env) (s : Translator) :
    dispatch_helper e (raise_trampoline_entry e s) = dispatch_helper e s := by
  simp [raise_trampoline_entry]

theorem dispatch_helper_call_func1 (e : Env) (ptr : Nat) (r : Reg) (s : Translator) :
    dispatch_helper e (call_func1 e ptr r s) = dispatch_helper e s := by
  unfold dispatch_helper
  rw [call_func1_tlb_on]

/-- The execution of a raise stub (without its jump) followed by the raise
trampoline, from the state `m` in which the stub is entered. -/
theorem raise_path_run (e : Env) (s : Translator) (m : Machine) (c n : Nat)
    (hbp : m.reg .EBP = wrap32 (e.sh4r_addr + 128))
    (hesp : m.reg .ESP < 4294967296) :
    ∃ (m2 m' : Machine) (ev1 ev2 : CallEvent),
      run e (.PUSH_imm32 c :: .MOVL_imm32_r32 n .EDX :: emitted (raise_trampoline_entry e) s) m
        = some (m2, .next) ∧
      m2.reg .ESP = m.reg .ESP ∧
      m2.reg .EAX = wrap32 c ∧
      m2.trace = m.trace ∧
      run e (.PUSH_imm32 c :: .MOVL_imm32_r32 n .EDX :: emitted (raise_trampoline e) s) m
        = some (m', .ret (m.stack (add32 (m.reg .ESP) 12))) ∧
      m'.trace = m.trace ++ [ev1, ev2] ∧
      ev1.target = wrap32 e.sh4_raise_exception ∧
      ev1.arg1 = wrap32 c ∧
      ev1.sh4r = (m.sh4r.set .pc (add32 m.sh4r.pc (2 * n))).set .slice_cycle
        (add32 m.sh4r.slice_cycle (n * m.mem e.sh4_cpu_period_addr)) ∧
      ev2.target = wrap32 (dispatch_helper e s) ∧
      ev2.arg1 = (ev1.result e).sh4r.pc ∧
      ev2.sh4r = (ev1.result e).sh4r ∧
      m'.sh4r = (ev2.result e).sh4r ∧
      m'.reg .EAX = wrap32 (ev2.result e).eax ∧
      m'.reg .EBP = m.stack (add32 (m.reg .ESP) 8) ∧
      m'.reg .ESP = add32 (m.reg .ESP) 16 := by
  have hw : wrap32 (m.reg .ESP) = m.reg .ESP := wrap32_of_lt hesp
  rw [emitted_eq_drop, emitted_eq_drop, raise_trampoline_split]
  simp only [exit_block_instrs, call_dispatch_instrs, call_func1_instrs, load_spreg, emit_instrs,
    raise_trampoline_entry_instrs, dispatch_helper_raise_entry, dispatch_helper_call_func1,
    dispatch_helper_emit, List.append_assoc, List.drop_left, ne_eq, not_true_eq_false,
    if_false, List.nil_append, List.singleton_append, List.cons_append]
  cases h3 : e.HAVE_FASTCALL <;>
  · simp [run_ADDL_r32_rbpdisp, run_ADDL_rbpdisp_r32, run_MOVL_rbpdisp_r32, run_MOVL_r32_rbpdisp,
      hbp, h3, hw, and_assoc, Sh4r.get, Sh4r.set, add32_ne_sub32, add32_sub32_ne_self,
      CallEvent.result, wrap32_mul_wrap32, add32_double, Nat.mul_comm]
    unfold add32 wrap32
    omega

/-- The execution of a cleanup stub (without its jump) followed by the cleanup
trampoline, from the state `m` in which the stub is entered. -/
theorem cleanup_path_run (e : Env) (s : Translator) (m : Machine) (n : Nat)
    (hbp : m.reg .EBP = wrap32 (e.sh4r_addr + 128)) :
    ∃ (m' : Machine) (ev : CallEvent),
      run e (.MOVL_imm32_r32 n .EDX :: emitted (cleanup_trampoline e) s) m
        = some (m', .ret (m.stack (add32 (m.reg .ESP) 12))) ∧
      m'.trace = m.trace ++ [ev] ∧
      ev.target = wrap32 (dispatch_helper e s) ∧
      ev.arg1 = m.sh4r.pc ∧
      ev.sh4r = (m.sh4r.set .spc (add32 m.sh4r.spc (2 * n))).set .slice_cycle
        (add32 m.sh4r.slice_cycle (n * m.mem e.sh4_cpu_period_addr)) ∧
      m'.sh4r = (ev.result e).sh4r ∧
      m'.reg .EAX = wrap32 (ev.result e).eax ∧
      m'.reg .EBP = m.stack (add32 (m.reg .ESP) 8) ∧
      m'.reg .ESP = add32 (m.reg .ESP) 16 := by
  rw [emitted_eq_drop]
  unfold cleanup_trampoline
  simp only [exit_block_instrs, call_dispatch_instrs, load_spreg, emit_instrs,
    dispatch_helper_emit, List.append_assoc, List.drop_left, ne_eq, not_true_eq_false,
    if_false, List.nil_append, List.singleton_append, List.cons_append]
  cases h3 : e.HAVE_FASTCALL <;>
  · simp [run_ADDL_r32_rbpdisp, run_ADDL_rbpdisp_r32, run_MOVL_rbpdisp_r32, run_MOVL_r32_rbpdisp,
      hbp, h3, and_assoc, Sh4r.get, Sh4r.set, add32_ne_sub32, add32_sub32_ne_self,
      CallEvent.result, wrap32_mul_wrap32, add32_double, Nat.mul_comm]
    unfold add32 wrap32
    omega

/-! ## The trailer paths (claims C11 and C12) -/

/-- C11. Per-site state is reconstructed by the shared raise trampoline.  The
site `r` is any registered site with `exc_code >= 0` (`pre` the sites before
it, `post` those after it) and `n` its instruction count `fixup_icount`.  Its
stub in the finished block is a push of the code, a load of `n` into EDX and a
jump whose target is `end_ptr`, the first byte of the raise trampoline.  Entered
in a state `m` with EBP bound to the guest register file, the stub runs up to
its jump; the trampoline, run from there, first comes to its call sequence for
`sh4_raise_exception` with the code in EAX and the stack pointer back at its
value on entry to the stub, then makes exactly two calls and returns.  The
first call is to `sh4_raise_exception`, with the code as argument, and finds
the guest PC advanced by `2 * n` and `slice_cycle` advanced by `n` times the
value of `sh4_cpu_period` in memory, both modulo `2^32`; the second is to the
dispatch helper, on the guest PC re-read after the first call. -/
theorem raise_stub_reconstructs_state (e : Env) (pc : Nat) (s : Translator)
    (pre post : List BackpatchRecord) (r : BackpatchRecord) (m : Machine)
    (hsites : s.backpatch_list = pre ++ r :: post)
    (hcode : 0 ≤ r.exc_code)
    (hbp : m.reg .EBP = wrap32 (e.sh4r_addr + 128))
    (hesp : m.reg .ESP < 4294967296) :
    ∃ (j : Nat) (rel : Int) (m1 m2 m' : Machine) (ev1 ev2 : CallEvent),
      (loop_state e pc s (pre ++ [r])).listing = (loop_state e pc s pre).listing ++
          [((loop_state e pc s pre).xlat_output, .PUSH_imm32 r.exc_code.toNat),
           ((loop_state e pc s pre).xlat_output
              + (e.encode (.PUSH_imm32 r.exc_code.toNat)).length,
              .MOVL_imm32_r32 r.fixup_icount .EDX),
           (j, .JMP_prerel rel)] ∧
      (∃ zs, (sh4_translate_end_block e pc s).listing
        = (loop_state e pc s (pre ++ [r])).listing ++ zs) ∧
      (j : Int) + rel = ((before_trailer e pc s).xlat_output : Int) ∧
      (∃ xs, (raise_trampoline e (before_trailer e pc s)).listing
        = (before_trailer e pc s).listing
          ++ ((before_trailer e pc s).xlat_output, .MOVL_r32_r32 .EDX .ECX) :: xs) ∧
      run e [.PUSH_imm32 r.exc_code.toNat, .MOVL_imm32_r32 r.fixup_icount .EDX, .JMP_prerel rel] m
        = some (m1, .jump rel) ∧
      raise_trampoline e (before_trailer e pc s)
        = exit_block e (call_dispatch e .EAX (load_spreg e .EAX .pc
            (call_func1 e e.sh4_raise_exception .EAX
              (raise_trampoline_entry e (before_trailer e pc s))))) ∧
      run e (emitted (raise_trampoline_entry e) (before_trailer e pc s)) m1 = some (m2, .next) ∧
      m2.reg .ESP = m.reg .ESP ∧
      m2.reg .EAX = wrap32 r.exc_code.toNat ∧
      m2.trace = m.trace ∧
      run e (emitted (raise_trampoline e) (before_trailer e pc s)) m1
        = some (m', .ret (m.stack (add32 (m.reg .ESP) 12))) ∧
      m'.trace = m.trace ++ [ev1, ev2] ∧
      ev1.target = wrap32 e.sh4_raise_exception ∧
      ev1.arg1 = wrap32 r.exc_code.toNat ∧
      (r.exc_code < 4294967296 → (ev1.arg1 : Int) = r.exc_code) ∧
      ev1.sh4r = (m.sh4r.set .pc (add32 m.sh4r.pc (2 * r.fixup_icount))).set .slice_cycle
        (add32 m.sh4r.slice_cycle (r.fixup_icount * m.mem e.sh4_cpu_period_addr)) ∧
      ev2.target = wrap32 (dispatch_helper e s) ∧
      (wrap32 e.sh4_raise_exception ≠ wrap32 (dispatch_helper e s) →
        ev2.target ≠ wrap32 e.sh4_raise_exception) ∧
      ev2.arg1 = (ev1.result e).sh4r.pc ∧
      ev2.sh4r = (ev1.result e).sh4r ∧
      m'.sh4r = (ev2.result e).sh4r ∧
      m'.reg .ESP = add32 (m.reg .ESP) 16 := by
  have hne : s.backpatch_list ≠ [] := by rw [hsites]; simp
  have hfinal : sh4_translate_end_block e pc s = loop_state e pc s (pre ++ r :: post) := by
    rw [end_block_eq_loop e pc s hne, hsites]
  obtain ⟨j, rel, hl, hj⟩ := backpatch_site_stub e (before_trailer e pc s).xlat_output
    (raise_trampoline e (before_trailer e pc s)).xlat_output (loop_state e pc s pre) r
  rw [if_pos hcode] at hl hj
  obtain ⟨m2, m', ev1, ev2, a1, a2, a3, a4, a5, a6, a7, a8, a9, a10, a11, a12, a13, -, -, a16⟩ :=
    raise_path_run e (before_trailer e pc s) m r.exc_code.toNat r.fixup_icount hbp hesp
  rw [run_PUSH_imm32, run_MOVL_imm32_r32] at a1 a5
  have ht : dispatch_helper e (before_trailer e pc s) = dispatch_helper e s := by
    unfold dispatch_helper
    rw [(before_trailer_grows e pc s).2.2.2.2]
  rw [ht] at a10
  refine ⟨j, rel, _, m2, m', ev1, ev2, ?_, ?_, hj, raise_trampoline_head e _, ?_,
    raise_trampoline_split e _, a1, a2, a3, a4, a5, a6, a7, a8, ?_, a9, a10, ?_, a11, a12, a13,
    a16⟩
  · rw [loop_state_append e pc s pre [r]]
    exact hl
  · rw [hfinal]
    have : pre ++ r :: post = (pre ++ [r]) ++ post := by simp
    rw [this, loop_state_append e pc s (pre ++ [r]) post]
    exact backpatch_loop_ext e _ _ post _
  · simp
  · intro h
    rw [a8]
    unfold wrap32
    omega
  · intro hd
    rw [a10]
    exact fun h => hd h.symm

/-- C11, witness (Scenario B): a block at `0x1000` whose second instruction is
guarded with code 5, so that the one registered site has count 1.  The stub
entered with guest PC `0x1000` and `slice_cycle` 100 makes one call of
`sh4_raise_exception`, with argument 5, guest PC `0x1002` and `slice_cycle`
101, and then dispatches on `0x105`, where the sample handler put the PC. -/
theorem raise_stub_reconstructs_state_witness :
    (sampleBlock [⟨0, 1, 5⟩]).backpatch_list = [] ++ ⟨0, 1, 5⟩ :: [] ∧
    (0 : Int) ≤ (⟨0, 1, 5⟩ : BackpatchRecord).exc_code ∧
    (sampleMachine { pc := 0x1000, new_pc := 0, spc := 0, slice_cycle := 100 }).reg .EBP
      = wrap32 ((sampleEnv true).sh4r_addr + 128) ∧
    (sampleMachine { pc := 0x1000, new_pc := 0, spc := 0, slice_cycle := 100 }).reg .ESP
      < 4294967296 ∧
    ∃ (m' : Machine) (ev1 ev2 : CallEvent),
      m'.trace = [ev1, ev2] ∧
      ev1.target = 0x08049000 ∧
      ev1.arg1 = 5 ∧
      ev1.sh4r = { pc := 0x1002, new_pc := 0, spc := 0, slice_cycle := 101 } ∧
      ev2.target = 0x08048100 ∧
      ev2.arg1 = 0x105 :=
  ⟨rfl, by decide, by decide, by decide,
    let ⟨_, _, _, _, m', ev1, ev2, _, _, _, _, _, _, _, _, _, _, _, h12, h13, h14, _, h16, h17,
        _, h19, _⟩ :=
      raise_stub_reconstructs_state (sampleEnv true) 0x1008 (sampleBlock [⟨0, 1, 5⟩]) [] []
        ⟨0, 1, 5⟩ (sampleMachine { pc := 0x1000, new_pc := 0, spc := 0, slice_cycle := 100 })
        rfl (by decide) (by decide) (by decide)
    ⟨m', ev1, ev2, h12, h13.trans (by decide), h14.trans (by decide), h16.trans (by decide),
      h17.trans (by decide),
      h19.trans (by
        have hr : (CallEvent.result (sampleEnv true) ev1).sh4r.pc = 0x100 + ev1.arg1 := by
          simp [CallEvent.result, sampleEnv, sampleCall, h13, wrap32]
        rw [hr, h14]
        decide)⟩⟩

/-- C12. The cleanup trampoline uses the saved-PC field.  The site `r` is any
registered site with a negative (sentinel) `exc_code` (`pre` the sites before
it, `post` those after it) and `n` its instruction count `fixup_icount`.  Its
stub in the finished block is a load of `n` into EDX and a jump whose target is
`preexc_ptr`, the first byte of the cleanup trampoline.  Entered in a state `m`
with EBP bound to the guest register file, the stub runs up to its jump, and
the trampoline, run from there, makes exactly one call and returns: the call
is to the dispatch helper (hence not to `sh4_raise_exception`), on the guest
PC as it was on entry, and finds SPC advanced by `2 * n`, `slice_cycle`
advanced by `n` times the value of `sh4_cpu_period` in memory, both modulo
`2^32`, and the guest PC and every other field unchanged. -/
theorem cleanup_stub_advances_spc (e : Env) (pc : Nat) (s : Translator)
    (pre post : List BackpatchRecord) (r : BackpatchRecord) (m : Machine)
    (hsites : s.backpatch_list = pre ++ r :: post)
    (hcode : r.exc_code < 0)
    (hbp : m.reg .EBP = wrap32 (e.sh4r_addr + 128)) :
    ∃ (j : Nat) (rel : Int) (m1 m' : Machine) (ev : CallEvent),
      (loop_state e pc s (pre ++ [r])).listing = (loop_state e pc s pre).listing ++
          [((loop_state e pc s pre).xlat_output, .MOVL_imm32_r32 r.fixup_icount .EDX),
           (j, .JMP_prerel rel)] ∧
      (∃ zs, (sh4_translate_end_block e pc s).listing
        = (loop_state e pc s (pre ++ [r])).listing ++ zs) ∧
      (j : Int) + rel = ((raise_trampoline e (before_trailer e pc s)).xlat_output : Int) ∧
      (∃ ys, (cleanup_trampoline e (raise_trampoline e (before_trailer e pc s))).listing
        = (raise_trampoline e (before_trailer e pc s)).listing
          ++ ((raise_trampoline e (before_trailer e pc s)).xlat_output,
              .MOVL_r32_r32 .EDX .ECX) :: ys) ∧
      run e [.MOVL_imm32_r32 r.fixup_icount .EDX, .JMP_prerel rel] m = some (m1, .jump rel) ∧
      run e (emitted (cleanup_trampoline e) (raise_trampoline e (before_trailer e pc s))) m1
        = some (m', .ret (m.stack (add32 (m.reg .ESP) 12))) ∧
      m'.trace = m.trace ++ [ev] ∧
      ev.target = wrap32 (dispatch_helper e s) ∧
      (wrap32 e.sh4_raise_exception ≠ wrap32 (dispatch_helper e s) →
        ev.target ≠ wrap32 e.sh4_raise_exception) ∧
      ev.arg1 = m.sh4r.pc ∧
      ev.sh4r = (m.sh4r.set .spc (add32 m.sh4r.spc (2 * r.fixup_icount))).set .slice_cycle
        (add32 m.sh4r.slice_cycle (r.fixup_icount * m.mem e.sh4_cpu_period_addr)) ∧
      ev.sh4r.pc = m.sh4r.pc ∧
      ev.sh4r.new_pc = m.sh4r.new_pc ∧
      m'.sh4r = (ev.result e).sh4r ∧
      m'.reg .ESP = add32 (m.reg .ESP) 16 := by
  have hne : s.backpatch_list ≠ [] := by rw [hsites]; simp
  have hfinal : sh4_translate_end_block e pc s = loop_state e pc s (pre ++ r :: post) := by
    rw [end_block_eq_loop e pc s hne, hsites]
  obtain ⟨j, rel, hl, hj⟩ := backpatch_site_stub e (before_trailer e pc s).xlat_output
    (raise_trampoline e (before_trailer e pc s)).xlat_output (loop_state e pc s pre) r
  have hcode2 : ¬ (0 ≤ r.exc_code) := by omega
  rw [if_neg hcode2] at hl hj
  obtain ⟨m', ev, a1, a2, a3, a4, a5, a6, -, -, a9⟩ :=
    cleanup_path_run e (raise_trampoline e (before_trailer e pc s)) m r.fixup_icount hbp
  rw [run_MOVL_imm32_r32] at a1
  have ht : dispatch_helper e (raise_trampoline e (before_trailer e pc s))
      = dispatch_helper e s := by
    unfold dispatch_helper
    rw [(grows_trans (before_trailer_grows e pc s) (raise_trampoline_grows e _)).2.2.2.2]
  rw [ht] at a3
  refine ⟨j, rel, _, m', ev, ?_, ?_, hj, cleanup_trampoline_head e _, ?_, a1, a2, a3, ?_, a4, a5,
    ?_, ?_, a6, a9⟩
  · rw [loop_state_append e pc s pre [r]]
    exact hl
  · rw [hfinal]
    have : pre ++ r :: post = (pre ++ [r]) ++ post := by simp
    rw [this, loop_state_append e pc s (pre ++ [r]) post]
    exact backpatch_loop_ext e _ _ post _
  · simp
  · intro hd
    rw [a3]
    exact fun h => hd h.symm
  · rw [a5]
    simp [Sh4r.set]
  · rw [a5]
    simp [Sh4r.set]

/-- C12, witness: a call site coded -2 with count 2 in a block at `0x1000`,
its stub entered with guest PC `0x1234`, SPC `0x1000` and `slice_cycle` 100:
the only call is the dispatch on `0x1234`, made with SPC `0x1004` and
`slice_cycle` 102. -/
theorem cleanup_stub_advances_spc_witness :
    (sampleBlock [⟨0, 1, 5⟩, ⟨4, 2, -2⟩]).backpatch_list = [⟨0, 1, 5⟩] ++ ⟨4, 2, -2⟩ :: [] ∧
    (⟨4, 2, -2⟩ : BackpatchRecord).exc_code < 0 ∧
    (sampleMachine { pc := 0x1234, new_pc := 0, spc := 0x1000, slice_cycle := 100 }).reg .EBP
      = wrap32 ((sampleEnv true).sh4r_addr + 128) ∧
    ∃ (m' : Machine) (ev : CallEvent),
      m'.trace = [ev] ∧
      ev.target = 0x08048100 ∧
      ev.arg1 = 0x1234 ∧
      ev.sh4r = { pc := 0x1234, new_pc := 0, spc := 0x1004, slice_cycle := 102 } :=
  ⟨rfl, by decide, by decide,
    let ⟨_, _, _, m', ev, _, _, _, _, _, _, h7, h8, _, h10, h11, _⟩ :=
      cleanup_stub_advances_spc (sampleEnv true) 0x1008 (sampleBlock [⟨0, 1, 5⟩, ⟨4, 2, -2⟩])
        [⟨0, 1, 5⟩] [] ⟨4, 2, -2⟩
        (sampleMachine { pc := 0x1234, new_pc := 0, spc := 0x1000, slice_cycle := 100 })
        rfl (by decide) (by decide)
    ⟨m', ev, h7, h8.trans (by decide), h10, h11.trans (by decide)⟩⟩

/-! ## The layout of a block does not depend on its bytes -/

theorem emit_same (e : Env) {i i' : Instr} {s t : Translator} (h : SameLayout s t)
    (hi : i = i') : SameLayout (emit e i s) (emit e i' t) := by
  subst hi
  obtain ⟨h1, h2, h3, h4, h5, h6, h7⟩ := h
  exact ⟨h1, h2, h3, h4, h5, by simp [h6], by simp [h6, h7]⟩

theorem emit_jmp_same (e : Env) (p : Nat) {s t : Translator} (h : SameLayout s t) :
    SameLayout (emit e (.JMP_prerel ((p : Int) - (s.xlat_output : Int))) s)
      (emit e (.JMP_prerel ((p : Int) - (t.xlat_output : Int))) t) :=
  emit_same e h (by rw [h.2.2.2.2.2.1])

theorem call_func1_same (e : Env) (ptr : Nat) (r : Reg) {s t : Translator}
    (h : SameLayout s t) : SameLayout (call_func1 e ptr r s) (call_func1 e ptr r t) := by
  unfold call_func1
  split
  · split
    · exact emit_same e (emit_same e (emit_same e h rfl) rfl) rfl
    · exact emit_same e (emit_same e h rfl) rfl
  · exact emit_same e (emit_same e (emit_same e (emit_same e (emit_same e h rfl) rfl) rfl) rfl) rfl

theorem call_dispatch_same (e : Env) (r : Reg) {s t : Translator} (h : SameLayout s t) :
    SameLayout (call_dispatch e r s) (call_dispatch e r t) := by
  unfold call_dispatch
  rw [h.2.1]
  split <;> exact call_func1_same e _ r h

theorem exit_block_same (e : Env) {s t : Translator} (h : SameLayout s t) :
    SameLayout (exit_block e s) (exit_block e t) :=
  emit_same e (emit_same e (emit_same e h rfl) rfl) rfl

theorem exit_tail_same (e : Env) (endpc : Nat) {s t : Translator} (h : SameLayout s t) :
    SameLayout
      (exit_block e (emit e (.ADDL_r32_rbpdisp .ECX .slice_cycle)
        (load_imm32 e .ECX (cycle_delta e s endpc) s)))
      (exit_block e (emit e (.ADDL_r32_rbpdisp .ECX .slice_cycle)
        (load_imm32 e .ECX (cycle_delta e t endpc) t))) :=
  exit_block_same e (emit_same e (emit_same e h (by unfold cycle_delta; rw [h.1])) rfl)

theorem exit_block_rel_same (e : Env) (pc endpc : Nat) {s t : Translator}
    (h : SameLayout s t) :
    SameLayout (exit_block_rel e pc endpc s) (exit_block_rel e pc endpc t) := by
  have a3 : SameLayout
      (store_spreg e .ECX .pc (emit e (.ADDL_rbpdisp_r32 .pc .ECX)
        (load_imm32 e .ECX (sub32 pc s.block_start_pc) s)))
      (store_spreg e .ECX .pc (emit e (.ADDL_rbpdisp_r32 .pc .ECX)
        (load_imm32 e .ECX (sub32 pc t.block_start_pc) t))) :=
    emit_same e (emit_same e (emit_same e h (by rw [h.1])) rfl) rfl
  unfold exit_block_rel
  by_cases hc : e.IS_IN_ICACHE pc = true
  · simp only [hc, if_true]
    exact exit_tail_same e endpc (emit_same e (emit_same e a3 rfl) rfl)
  · simp only [hc, if_false]
    exact exit_tail_same e endpc (call_dispatch_same e _ a3)

theorem before_trailer_same (e : Env) (pc : Nat) {s t : Translator} (h : SameLayout s t) :
    SameLayout (before_trailer e pc s) (before_trailer e pc t) := by
  unfold before_trailer
  rw [h.2.2.1]
  split
  · exact exit_block_rel_same e pc pc h
  · exact h

theorem raise_trampoline_same (e : Env) {s t : Translator} (h : SameLayout s t) :
    SameLayout (raise_trampoline e s) (raise_trampoline e t) :=
  exit_block_same e (call_dispatch_same e _ (emit_same e (call_func1_same e _ _
    (emit_same e (emit_same e (emit_same e (emit_same e (emit_same e (emit_same e
      (emit_same e h rfl) rfl) rfl) rfl) rfl) rfl) rfl)) rfl))

theorem cleanup_trampoline_same (e : Env) {s t : Translator} (h : SameLayout s t) :
    SameLayout (cleanup_trampoline e s) (cleanup_trampoline e t) :=
  exit_block_same e (call_dispatch_same e _ (emit_same e
    (emit_same e (emit_same e (emit_same e (emit_same e (emit_same e
      (emit_same e h rfl) rfl) rfl) rfl) rfl) rfl) rfl))

theorem patch_abs_same (r : BackpatchRecord) {s t : Translator} (h : SameLayout s t) :
    SameLayout (patch_abs r s) (patch_abs r t) := h

theorem patch_rel_same (r : BackpatchRecord) {s t : Translator} (h : SameLayout s t) :
    SameLayout (patch_rel r s) (patch_rel r t) := h

theorem backpatch_site_same (e : Env) (ep pp : Nat) (r : BackpatchRecord) {s t : Translator}
    (h : SameLayout s t) :
    SameLayout (backpatch_site e ep pp s r) (backpatch_site e ep pp t r) := by
  unfold backpatch_site
  split
  · split
    · exact emit_jmp_same e pp (emit_same e (patch_abs_same r h) rfl)
    · exact emit_jmp_same e pp (emit_same e (patch_rel_same r h) rfl)
  · exact emit_jmp_same e ep (emit_same e (emit_same e (patch_rel_same r h) rfl) rfl)

theorem backpatch_loop_same (e : Env) (ep pp : Nat) (rs : List BackpatchRecord)
    {s t : Translator} (h : SameLayout s t) :
    SameLayout (rs.foldl (backpatch_site e ep pp) s) (rs.foldl (backpatch_site e ep pp) t) := by
  induction rs generalizing s t with
  | nil => exact h
  | cons r rs ih => exact ih (backpatch_site_same e ep pp r h)

theorem loop_state_same (e : Env) (pc : Nat) (done : List BackpatchRecord) {s t : Translator}
    (h : SameLayout s t) : SameLayout (loop_state e pc s done) (loop_state e pc t done) := by
  have hb := before_trailer_same e pc h
  have hr := raise_trampoline_same e hb
  unfold loop_state
  rw [hb.2.2.2.2.2.1, hr.2.2.2.2.2.1]
  exact backpatch_loop_same e _ _ done (cleanup_trampoline_same e hr)

/-- The word at a site that no other site overlaps, after
`sh4_translate_end_block`. -/
theorem end_block_read_site (e : Env) (pc : Nat) (s : Translator)
    (pre post : List BackpatchRecord) (r : BackpatchRecord)
    (hsites : s.backpatch_list = pre ++ r :: post)
    (hapart : ∀ q ∈ pre ++ post, SitesApart r q)
    (hin : r.fixup_offset + 4 ≤ s.xlat_output) :
    (r.exc_code = -2 →
      read32 (sh4_translate_end_block e pc s).code r.fixup_offset
        = wrap32 (s.code_addr + (loop_state e pc s pre).xlat_output)) ∧
    (r.exc_code ≠ -2 →
      read32 (sh4_translate_end_block e pc s).code r.fixup_offset
        = wrapInt32 ((read32 s.code r.fixup_offset : Int)
            + (((loop_state e pc s pre).xlat_output : Int) - (r.fixup_offset : Int) - 4))) := by
  have hne : s.backpatch_list ≠ [] := by rw [hsites]; simp
  have hfinal : sh4_translate_end_block e pc s = loop_state e pc s (pre ++ r :: post) := by
    rw [end_block_eq_loop e pc s hne, hsites]
  rw [hfinal]
  obtain ⟨g1, g2, g3, -⟩ := trampolines_grow e pc s
  have hz2 : read32 (loop_state e pc s []).code r.fixup_offset = read32 s.code r.fixup_offset :=
    read32_congr _ s.code r.fixup_offset (fun a _ h2 => g2 a (by omega))
  have hpre : loop_state e pc s pre = pre.foldl (backpatch_site e
      (before_trailer e pc s).xlat_output (raise_trampoline e (before_trailer e pc s)).xlat_output)
      (loop_state e pc s []) := by
    have := loop_state_append e pc s [] pre
    simpa using this
  have hall : loop_state e pc s (pre ++ r :: post) = (pre ++ r :: post).foldl (backpatch_site e
      (before_trailer e pc s).xlat_output (raise_trampoline e (before_trailer e pc s)).xlat_output)
      (loop_state e pc s []) := by
    have := loop_state_append e pc s [] (pre ++ r :: post)
    simpa using this
  obtain ⟨habs, hrel⟩ := backpatch_loop_read_site e (before_trailer e pc s).xlat_output
    (raise_trampoline e (before_trailer e pc s)).xlat_output pre post r (loop_state e pc s [])
    (by omega)
    (fun q hq => by
      have := hapart q (List.mem_append_left _ hq)
      unfold SitesApart at this ⊢
      omega)
    (fun q hq => hapart q (List.mem_append_right _ hq))
  rw [← hall, ← hpre, g3] at habs
  rw [← hall, ← hpre, hz2] at hrel
  exact ⟨habs, hrel⟩

/-! ## Frame and failure behaviour of the backpatch pass (claims C13 and C14) -/

/-- C13. Frame property of the backpatch pass.  Among the bytes emitted before
`sh4_translate_end_block` is called (offsets below the cursor of `s`), every
byte outside the 4-byte placeholders `[fixup_offset, fixup_offset + 4)` of the
registered sites is unchanged.  For a site `r` whose placeholder lies in that
code and is overlapped by no other site, the word left at `r.fixup_offset` is
the one stored by the iteration of `r` itself: the address of its stub for a
site coded -2, and otherwise the word found there plus the displacement of its
stub.  That word does not depend on what the other sites hold: a block that
differs from `s` only in bytes outside the placeholder of `r` gets the same
word at `r.fixup_offset`. -/
theorem backpatch_pass_frame (e : Env) (pc : Nat) (s : Translator) :
    (∀ a, a < s.xlat_output →
      (∀ q ∈ s.backpatch_list, a < q.fixup_offset ∨ q.fixup_offset + 4 ≤ a) →
      (sh4_translate_end_block e pc s).code a = s.code a) ∧
    (∀ (pre post : List BackpatchRecord) (r : BackpatchRecord),
      s.backpatch_list = pre ++ r :: post →
      (∀ q ∈ pre ++ post, SitesApart r q) →
      r.fixup_offset + 4 ≤ s.xlat_output →
      (r.exc_code = -2 →
        read32 (sh4_translate_end_block e pc s).code r.fixup_offset
          = wrap32 (s.code_addr + (loop_state e pc s pre).xlat_output)) ∧
      (r.exc_code ≠ -2 →
        read32 (sh4_translate_end_block e pc s).code r.fixup_offset
          = wrapInt32 ((read32 s.code r.fixup_offset : Int)
              + (((loop_state e pc s pre).xlat_output : Int) - (r.fixup_offset : Int) - 4))) ∧
      (∀ c : Nat → Nat,
        (∀ a, r.fixup_offset ≤ a → a < r.fixup_offset + 4 → c a = s.code a) →
        read32 (sh4_translate_end_block e pc { s with code := c }).code r.fixup_offset
          = read32 (sh4_translate_end_block e pc s).code r.fixup_offset)) := by
  constructor
  · intro a ha hap
    obtain ⟨g1, g2, -⟩ := before_trailer_grows e pc s
    rw [end_block_code_frame e pc s a (by omega) hap]
    exact g2 a ha
  · intro pre post r hsites hapart hin
    obtain ⟨h1, h2⟩ := end_block_read_site e pc s pre post r hsites hapart hin
    refine ⟨h1, h2, ?_⟩
    intro c hc
    have hsame : SameLayout { s with code := c } s := ⟨rfl, rfl, rfl, rfl, rfl, rfl, rfl⟩
    have hcur : (loop_state e pc { s with code := c } pre).xlat_output
        = (loop_state e pc s pre).xlat_output := (loop_state_same e pc pre hsame).2.2.2.2.2.1
    obtain ⟨k1, k2⟩ := end_block_read_site e pc { s with code := c } pre post r hsites hapart hin
    have hword : read32 c r.fixup_offset = read32 s.code r.fixup_offset :=
      read32_congr _ _ _ hc
    by_cases hx : r.exc_code = -2
    · rw [k1 hx, h1 hx, hcur]
    · rw [k2 hx, h2 hx, hcur]
      show wrapInt32 ((read32 c r.fixup_offset : Int) + _) = _
      rw [hword]

/-- C13, witness: a block of 8 bytes with one guard site on the zero word at
offset 0 and the byte `0xC3` at offset 7.  The pass leaves the byte at offset 7
alone and stores 76 at offset 0, the displacement from offset 4 to the stub at
offset 80, also when the byte at offset 5 is changed. -/
theorem backpatch_pass_frame_witness :
    (sh4_translate_end_block (sampleEnv true) 0x1008
      { sampleBlock [⟨0, 1, 5⟩] with code := fun a => if a = 7 then 0xC3 else 0 }).code 7 = 0xC3 ∧
    read32 (sh4_translate_end_block (sampleEnv true) 0x1008
      { sampleBlock [⟨0, 1, 5⟩] with code := fun a => if a = 7 then 0xC3 else 0 }).code 0 = 76 ∧
    read32 (sh4_translate_end_block (sampleEnv true) 0x1008
      { sampleBlock [⟨0, 1, 5⟩] with code := fun a => if a = 5 then 0xFF else 0 }).code 0 = 76 :=
  have h := backpatch_pass_frame (sampleEnv true) 0x1008
    { sampleBlock [⟨0, 1, 5⟩] with code := fun a => if a = 7 then 0xC3 else 0 }
  have h2 := h.2 [] [] ⟨0, 1, 5⟩ rfl (by decide) (by decide)
  ⟨(h.1 7 (by decide) (by decide)).trans (by decide),
    (h2.2.1 (by decide)).trans (by decide),
    (h2.2.2 (fun a => if a = 5 then 0xFF else 0) (fun a _ ha => by
      have ha4 : a < 4 := ha
      show (if a = 5 then 0xFF else 0) = (if a = 7 then 0xC3 else 0)
      rw [if_neg (Nat.ne_of_lt (by omega)), if_neg (Nat.ne_of_lt (by omega))])).trans
      ((h2.2.1 (by decide)).trans (by decide))⟩

theorem emit_code_outside (e : Env) (i : Instr) (s : Translator) (a : Nat)
    (h : a < s.xlat_output ∨ s.xlat_output + (e.encode i).length ≤ a) :
    (emit e i s).code a = s.code a := by
  show writeBytes s.code s.xlat_output (e.encode i) a = s.code a
  unfold writeBytes
  rw [if_neg (by omega)]

/-- One iteration of the loop, seen from every byte outside the stub it emits:
the word at `fixup_offset` is stored, whatever the offset is. -/
theorem backpatch_site_code_outside (e : Env) (ep pp : Nat) (s : Translator)
    (r : BackpatchRecord) (a : Nat)
    (h : a < s.xlat_output ∨ (backpatch_site e ep pp s r).xlat_output ≤ a) :
    (backpatch_site e ep pp s r).code a
      = write32 s.code r.fixup_offset
          (if r.exc_code = -2 then wrap32 (s.code_addr + s.xlat_output)
           else wrapInt32 ((read32 s.code r.fixup_offset : Int)
              + ((s.xlat_output : Int) - (r.fixup_offset : Int) - 4))) a := by
  unfold backpatch_site at h ⊢
  by_cases h1 : r.exc_code < 0
  · by_cases h2 : r.exc_code = -2
    · simp only [if_pos h1, if_pos h2, load_imm32, emit_xlat_output, patch_abs_xlat_output] at h ⊢
      rw [emit_code_outside _ _ _ _ (by simp only [emit_xlat_output, patch_abs_xlat_output]; omega),
        emit_code_outside _ _ _ _ (by simp only [patch_abs_xlat_output]; omega)]
      rfl
    · simp only [if_pos h1, if_neg h2, load_imm32, emit_xlat_output, patch_rel_xlat_output] at h ⊢
      rw [emit_code_outside _ _ _ _ (by simp only [emit_xlat_output, patch_rel_xlat_output]; omega),
        emit_code_outside _ _ _ _ (by simp only [patch_rel_xlat_output]; omega)]
      rfl
  · have h2 : r.exc_code ≠ -2 := by omega
    simp only [if_neg h1, if_neg h2, load_imm32, emit_xlat_output, patch_rel_xlat_output] at h ⊢
    rw [emit_code_outside _ _ _ _ (by simp only [emit_xlat_output, patch_rel_xlat_output]; omega),
      emit_code_outside _ _ _ _ (by simp only [emit_xlat_output, patch_rel_xlat_output]; omega),
      emit_code_outside _ _ _ _ (by simp only [patch_rel_xlat_output]; omega)]
    rfl

/-! ## The emitters write below their final cursor only -/

theorem below_refl (s : Translator) : WritesBelowCursor s s :=
  ⟨Nat.le_refl _, fun _ _ => rfl⟩

theorem below_trans {s t u : Translator} (h1 : WritesBelowCursor s t)
    (h2 : WritesBelowCursor t u) : WritesBelowCursor s u := by
  obtain ⟨a1, a2⟩ := h1
  obtain ⟨b1, b2⟩ := h2
  refine ⟨Nat.le_trans a1 b1, ?_⟩
  intro a ha
  rw [b2 a ha, a2 a (by omega)]

theorem emit_below (e : Env) (i : Instr) (s : Translator) :
    WritesBelowCursor s (emit e i s) := by
  refine ⟨by simp, ?_⟩
  intro a ha
  simp only [emit_xlat_output] at ha
  exact emit_code_outside e i s a (Or.inr ha)

theorem call_func1_below (e : Env) (ptr : Nat) (r : Reg) (s : Translator) :
    WritesBelowCursor s (call_func1 e ptr r s) := by
  unfold call_func1
  split
  · split
    · exact below_trans (below_trans (emit_below _ _ _) (emit_below _ _ _)) (emit_below _ _ _)
    · exact below_trans (emit_below _ _ _) (emit_below _ _ _)
  · exact below_trans (below_trans (below_trans (below_trans (emit_below _ _ _)
      (emit_below _ _ _)) (emit_below _ _ _)) (emit_below _ _ _)) (emit_below _ _ _)

theorem call_dispatch_below (e : Env) (r : Reg) (s : Translator) :
    WritesBelowCursor s (call_dispatch e r s) := by
  unfold call_dispatch
  split <;> exact call_func1_below e _ r s

theorem exit_block_below (e : Env) (s : Translator) : WritesBelowCursor s (exit_block e s) :=
  below_trans (below_trans (emit_below _ _ _) (emit_below _ _ _)) (emit_below _ _ _)

theorem exit_block_rel_below (e : Env) (pc endpc : Nat) (s : Translator) :
    WritesBelowCursor s (exit_block_rel e pc endpc s) := by
  unfold exit_block_rel
  refine below_trans ?_ (exit_block_below e _)
  refine below_trans ?_ (emit_below e _ _)
  refine below_trans ?_ (emit_below e _ _)
  split
  · iterate 4 refine below_trans ?_ (emit_below e _ _)
    exact emit_below e _ _
  · refine below_trans ?_ (call_dispatch_below e _ _)
    iterate 2 refine below_trans ?_ (emit_below e _ _)
    exact emit_below e _ _

theorem before_trailer_below (e : Env) (pc : Nat) (s : Translator) :
    WritesBelowCursor s (before_trailer e pc s) := by
  unfold before_trailer
  split
  · exact exit_block_rel_below e pc pc s
  · exact below_refl s

theorem raise_trampoline_below (e : Env) (s : Translator) :
    WritesBelowCursor s (raise_trampoline e s) := by
  unfold raise_trampoline
  refine below_trans ?_ (exit_block_below e _)
  refine below_trans ?_ (call_dispatch_below e _ _)
  refine below_trans ?_ (emit_below e _ _)
  refine below_trans ?_ (call_func1_below e _ _ _)
  iterate 6 refine below_trans ?_ (emit_below e _ _)
  exact emit_below e _ _

theorem cleanup_trampoline_below (e : Env) (s : Translator) :
    WritesBelowCursor s (cleanup_trampoline e s) := by
  unfold cleanup_trampoline
  refine below_trans ?_ (exit_block_below e _)
  refine below_trans ?_ (call_dispatch_below e _ _)
  refine below_trans ?_ (emit_below e _ _)
  iterate 5 refine below_trans ?_ (emit_below e _ _)
  exact emit_below e _ _

theorem trampolines_below (e : Env) (pc : Nat) (s : Translator) :
    WritesBelowCursor s (loop_state e pc s []) :=
  below_trans (before_trailer_below e pc s)
    (below_trans (raise_trampoline_below e _) (cleanup_trampoline_below e _))

/-- A byte at or after the final cursor of the loop that no site of `rs`
covers is still there after the loop. -/
theorem backpatch_loop_code_beyond (e : Env) (ep pp : Nat) (rs : List BackpatchRecord)
    (s : Translator) (a : Nat)
    (ha : (rs.foldl (backpatch_site e ep pp) s).xlat_output ≤ a)
    (hap : ∀ q ∈ rs, a < q.fixup_offset ∨ q.fixup_offset + 4 ≤ a) :
    (rs.foldl (backpatch_site e ep pp) s).code a = s.code a := by
  induction rs generalizing s with
  | nil => rfl
  | cons r rs ih =>
    rw [List.foldl_cons] at ha ⊢
    have hle := (backpatch_loop_grows e ep pp rs (backpatch_site e ep pp s r)).1
    rw [ih (backpatch_site e ep pp s r) ha (fun q hq => hap q (List.mem_cons_of_mem _ hq)),
      backpatch_site_code_outside e ep pp s r a (Or.inr (by omega))]
    exact write32_apart _ _ _ _ (hap r (List.mem_cons_self _ _))

/-- The whole of `sh4_translate_end_block` leaves alone every byte at or after
its final cursor that no registered site covers. -/
theorem end_block_code_beyond (e : Env) (pc : Nat) (s : Translator) (a : Nat)
    (ha : (sh4_translate_end_block e pc s).xlat_output ≤ a)
    (hap : ∀ q ∈ s.backpatch_list, a < q.fixup_offset ∨ q.fixup_offset + 4 ≤ a) :
    (sh4_translate_end_block e pc s).code a = s.code a := by
  by_cases hl : s.backpatch_list = []
  · have hb : (before_trailer e pc s).backpatch_list = s.backpatch_list :=
      (before_trailer_grows e pc s).2.2.2.1
    have hn : ¬ (before_trailer e pc s).backpatch_posn ≠ 0 := by
      unfold Translator.backpatch_posn
      rw [hb, hl]
      simp
    have he : sh4_translate_end_block e pc s = before_trailer e pc s := by
      show end_block_trailer e (before_trailer e pc s) = _
      unfold end_block_trailer
      rw [if_neg hn]
    rw [he] at ha ⊢
    exact (before_trailer_below e pc s).2 a ha
  · rw [end_block_eq_loop e pc s hl] at ha ⊢
    have h0 := loop_state_append e pc s [] s.backpatch_list
    simp only [List.nil_append] at h0
    rw [h0] at ha ⊢
    have hle := (backpatch_loop_grows e (before_trailer e pc s).xlat_output
      (raise_trampoline e (before_trailer e pc s)).xlat_output s.backpatch_list
      (loop_state e pc s [])).1
    rw [backpatch_loop_code_beyond e _ _ s.backpatch_list _ a ha hap]
    exact (trampolines_below e pc s).2 a (by omega)

/-- C14, counterexample.  A block with 8 bytes of body code.  A site registered
at offset 200, outside the emitted code (the finished block ends at offset 92),
is patched all the same: the zero word at offset 200 becomes `80 - 200 - 4`
modulo `2^32`.  And of two sites registered on offset 0, the second is patched
although the first has already stored 76 there: the word ends up as 164. -/
theorem patch_target_unchecked :
    (sampleBlock [⟨200, 1, 5⟩]).xlat_output = 8 ∧
    (sh4_translate_end_block (sampleEnv true) 0x1008 (sampleBlock [⟨200, 1, 5⟩])).xlat_output
      = 92 ∧
    read32 (sampleBlock [⟨200, 1, 5⟩]).code 200 = 0 ∧
    read32 (sh4_translate_end_block (sampleEnv true) 0x1008
      (sampleBlock [⟨200, 1, 5⟩])).code 200 = 4294967172 ∧
    read32 (loop_state (sampleEnv true) 0x1008 (sampleBlock [⟨0, 1, 5⟩, ⟨0, 2, 6⟩])
      [⟨0, 1, 5⟩]).code 0 = 76 ∧
    read32 (sh4_translate_end_block (sampleEnv true) 0x1008
      (sampleBlock [⟨0, 1, 5⟩, ⟨0, 2, 6⟩])).code 0 = 164 := by
  decide

/-- C14 (as amended).  `sh4_translate_end_block` does not check patch targets.
The block lies in a buffer of `size` bytes that holds the finished block and
the 4 bytes of every registered site.  For every registered site `r` (`pre`
the sites before it, `post` those after it), wherever in the buffer its
`fixup_offset` lies, also beyond the emitted code, and whether or not an
earlier site named the same location, the pass goes through all the sites,
and the iteration of `r` stores a word at `r.fixup_offset`: the address of the
stub for a site coded -2, and otherwise the word found there plus the
displacement of the stub.  Seen from every byte outside the stub this
iteration emits, that store is its whole effect on the code array.  The pass
as a whole writes no byte outside the buffer. -/
theorem backpatch_pass_unchecked (e : Env) (pc : Nat) (s : Translator)
    (pre post : List BackpatchRecord) (r : BackpatchRecord) (size : Nat)
    (hsites : s.backpatch_list = pre ++ r :: post)
    (hbuf : ∀ q ∈ s.backpatch_list, q.fixup_offset + 4 ≤ size)
    (hend : (sh4_translate_end_block e pc s).xlat_output ≤ size) :
    sh4_translate_end_block e pc s = loop_state e pc s (pre ++ r :: post) ∧
    loop_state e pc s (pre ++ r :: post)
      = post.foldl (backpatch_site e (before_trailer e pc s).xlat_output
          (raise_trampoline e (before_trailer e pc s)).xlat_output)
          (loop_state e pc s (pre ++ [r])) ∧
    (loop_state e pc s pre).xlat_output ≤ (loop_state e pc s (pre ++ [r])).xlat_output ∧
    (∀ a, a < (loop_state e pc s pre).xlat_output
        ∨ (loop_state e pc s (pre ++ [r])).xlat_output ≤ a →
      (loop_state e pc s (pre ++ [r])).code a
        = write32 (loop_state e pc s pre).code r.fixup_offset
            (if r.exc_code = -2 then
              wrap32 (s.code_addr + (loop_state e pc s pre).xlat_output)
             else wrapInt32 ((read32 (loop_state e pc s pre).code r.fixup_offset : Int)
                + (((loop_state e pc s pre).xlat_output : Int) - (r.fixup_offset : Int) - 4))) a) ∧
    (∀ a, size ≤ a → (sh4_translate_end_block e pc s).code a = s.code a) := by
  have hne : s.backpatch_list ≠ [] := by rw [hsites]; simp
  have hfinal : sh4_translate_end_block e pc s = loop_state e pc s (pre ++ r :: post) := by
    rw [end_block_eq_loop e pc s hne, hsites]
  have hstep : loop_state e pc s (pre ++ [r])
      = backpatch_site e (before_trailer e pc s).xlat_output
          (raise_trampoline e (before_trailer e pc s)).xlat_output (loop_state e pc s pre) r := by
    rw [loop_state_append e pc s pre [r]]
    rfl
  have haddr : (loop_state e pc s pre).code_addr = s.code_addr := by
    have h0 := loop_state_append e pc s [] pre
    simp only [List.nil_append] at h0
    rw [h0, (backpatch_loop_grows e _ _ pre _).2.1]
    exact (trampolines_grow e pc s).2.2.1
  refine ⟨hfinal, ?_, ?_, ?_, ?_⟩
  · have : pre ++ r :: post = (pre ++ [r]) ++ post := by simp
    rw [this, loop_state_append e pc s (pre ++ [r]) post]
  · rw [hstep]
    exact (backpatch_site_code e _ _ (loop_state e pc s pre) r).1
  · intro a ha
    rw [hstep] at ha ⊢
    rw [backpatch_site_code_outside e _ _ (loop_state e pc s pre) r a ha, haddr]
  · intro a ha
    exact end_block_code_beyond e pc s a (by omega)
      (fun q hq => Or.inr (by have := hbuf q hq; omega))

/-- C14, witness: the site at offset 200 of the 8-byte block, in a buffer of
256 bytes; the finished block ends at offset 92, the iteration of the site
starts at cursor 80 and leaves `80 - 200 - 4` modulo `2^32` at offset 200, and
the byte at offset 256 is not written. -/
theorem backpatch_pass_unchecked_witness :
    (sampleBlock [⟨200, 1, 5⟩]).backpatch_list = [] ++ ⟨200, 1, 5⟩ :: [] ∧
    (∀ q ∈ (sampleBlock [⟨200, 1, 5⟩]).backpatch_list, q.fixup_offset + 4 ≤ 256) ∧
    (sh4_translate_end_block (sampleEnv true) 0x1008 (sampleBlock [⟨200, 1, 5⟩])).xlat_output
      ≤ 256 ∧
    (loop_state (sampleEnv true) 0x1008 (sampleBlock [⟨200, 1, 5⟩]) []).xlat_output = 80 ∧
    (loop_state (sampleEnv true) 0x1008 (sampleBlock [⟨200, 1, 5⟩]) [⟨200, 1, 5⟩]).code 200
      = 132 ∧
    (loop_state (sampleEnv true) 0x1008 (sampleBlock [⟨200, 1, 5⟩]) [⟨200, 1, 5⟩]).code 201
      = 255 ∧
    (sh4_translate_end_block (sampleEnv true) 0x1008 (sampleBlock [⟨200, 1, 5⟩])).code 256
      = (sampleBlock [⟨200, 1, 5⟩]).code 256 :=
  have h := backpatch_pass_unchecked (sampleEnv true) 0x1008 (sampleBlock [⟨200, 1, 5⟩])
    [] [] ⟨200, 1, 5⟩ 256 rfl (by decide) (by decide)
  ⟨rfl, by decide, by decide, by decide,
    (h.2.2.2.1 200 (Or.inr (by decide))).trans (by decide),
    (h.2.2.2.1 201 (Or.inr (by decide))).trans (by decide),
    h.2.2.2.2 256 (Nat.le_refl 256)⟩

/-! ## Execution of the call sequences -/

@[simp] theorem run_MOVL_imm32_rspdisp (e : Env) (imm disp : Nat) (is : List Instr)
    (m : Machine) :
    run e (.MOVL_imm32_rspdisp imm disp :: is) m
      = run e is (m.setStack (add32 (m.reg .ESP) disp) (wrap32 imm)) := by
  simp [run, step]

@[simp] theorem run_CALL_r32disp (e : Env) (r : Reg) (disp : Nat) (is : List Instr)
    (m : Machine) :
    run e (.CALL_r32disp r disp :: is) m
      = run e is (do_call e (wrap32 (m.mem (add32 (m.reg r) disp))) m) := by
  simp [run, step]

/-! ## The call sequences (claims C15 to C18) -/

/-- C15, counterexample.  The register-passing `call_func2` with `arg1 = EDX`
and `arg2 = EAX`, run with 11 in EAX and 22 in EDX: the callee finds 11 in
both argument registers, so EAX does not hold 22, the value `arg1` held before
the sequence.  The same happens in `call_func2_r32` and `call_func2_exc`. -/
theorem call_func2_clobbers_arg1 :
    sampleRegs.reg .EAX = 11 ∧ sampleRegs.reg .EDX = 22 ∧
    (run (sampleEnv true)
        (emitted (call_func2 (sampleEnv true) 0x08048100 .EDX .EAX)
          (sampleTranslator 0x1000 false false [])) sampleRegs).map
        (fun p => p.1.trace.map (fun ev => (ev.arg1, ev.arg2)))
      = some [(11, 11)] ∧
    (run (sampleEnv true)
        (emitted (call_func2_r32 (sampleEnv true) .ECX .EDX .EAX)
          (sampleTranslator 0x1000 false false [])) sampleRegs).map
        (fun p => p.1.trace.map (fun ev => (ev.arg1, ev.arg2)))
      = some [(11, 11)] ∧
    (run (sampleEnv true)
        (emitted (call_func2_exc (sampleEnv true) 0x08048100 .EDX .EAX 0x1004)
          (sampleTranslator 0x1000 false false [])) sampleRegs).map
        (fun p => p.1.trace.map (fun ev => (ev.arg1, ev.arg2)))
      = some [(11, 11)] := by
  decide

/-- C15 (as amended).  Register-passing argument marshalling.  Under the
register-passing convention each of `call_func1`, `call_func2`,
`call_func2_r32` and `call_func2_exc` makes exactly one call.  At the call of
`call_func1` EAX holds the value `arg1` held before the sequence, for every
`arg1`.  At the call of the three two-argument sequences EDX holds the value
`arg2` held before the sequence, for all `arg1` and `arg2`, and EAX holds the
value `arg1` held before the sequence whenever `arg1` is not EDX or `arg2` is
EDX; when `arg1` is EDX, EAX holds the value `arg2` held before. -/
theorem fastcall_marshalling (e : Env) (ptr : Nat) (addr_reg arg1 arg2 : Reg) (pc : Nat)
    (s : Translator) (m : Machine) (hfc : e.HAVE_FASTCALL = true) :
    (∃ (m' : Machine) (ev : CallEvent),
      run e (emitted (call_func1 e ptr arg1) s) m = some (m', .next) ∧
      m'.trace = m.trace ++ [ev] ∧ ev.arg1 = m.reg arg1) ∧
    (∃ (m' : Machine) (ev : CallEvent),
      run e (emitted (call_func2 e ptr arg1 arg2) s) m = some (m', .next) ∧
      m'.trace = m.trace ++ [ev] ∧ ev.arg2 = m.reg arg2 ∧
      ev.arg1 = (if arg1 = .EDX then m.reg arg2 else m.reg arg1) ∧
      (arg1 ≠ .EDX ∨ arg2 = .EDX → ev.arg1 = m.reg arg1)) ∧
    (∃ (m' : Machine) (ev : CallEvent),
      run e (emitted (call_func2_r32 e addr_reg arg1 arg2) s) m = some (m', .next) ∧
      m'.trace = m.trace ++ [ev] ∧ ev.arg2 = m.reg arg2 ∧
      ev.arg1 = (if arg1 = .EDX then m.reg arg2 else m.reg arg1) ∧
      (arg1 ≠ .EDX ∨ arg2 = .EDX → ev.arg1 = m.reg arg1)) ∧
    (∃ (m' : Machine) (ev : CallEvent),
      run e (emitted (call_func2_exc e ptr arg1 arg2 pc) s) m = some (m', .next) ∧
      m'.trace = m.trace ++ [ev] ∧ ev.arg2 = m.reg arg2 ∧
      ev.arg1 = (if arg1 = .EDX then m.reg arg2 else m.reg arg1) ∧
      (arg1 ≠ .EDX ∨ arg2 = .EDX → ev.arg1 = m.reg arg1)) := by
  refine ⟨?_, ?_, ?_, ?_⟩
  · by_cases h1 : arg1 = .EAX <;>
    · simp only [emitted, call_func1, hfc, h1, emit_listing, List.append_assoc,
        List.drop_left, List.map, List.singleton_append, List.cons_append, List.nil_append,
        Bool.false_eq_true, if_false, ite_false, if_true, ite_true, ne_eq,
        reduceCtorEq, not_false_eq_true, not_true_eq_false]
      simp [h1, hfc]
  · by_cases h1 : arg1 = .EAX <;> by_cases h2 : arg2 = .EDX <;>
    · simp only [emitted, call_func2, hfc, h1, h2, emit_listing, List.append_assoc,
        List.drop_left, List.map, List.singleton_append, List.cons_append, List.nil_append,
        Bool.false_eq_true, if_false, ite_false, if_true, ite_true, ne_eq,
        reduceCtorEq, not_false_eq_true, not_true_eq_false]
      simp [h1, h2, hfc]
      try (first | (intro ha hb; exact absurd hb ha) | (split <;> simp_all))
  · by_cases h1 : arg1 = .EAX <;> by_cases h2 : arg2 = .EDX <;>
    · simp only [emitted, call_func2_r32, hfc, h1, h2, emit_listing, List.append_assoc,
        List.drop_left, List.map, List.singleton_append, List.cons_append, List.nil_append,
        Bool.false_eq_true, if_false, ite_false, if_true, ite_true, ne_eq,
        reduceCtorEq, not_false_eq_true, not_true_eq_false]
      simp [h1, h2, hfc]
      try (first | (intro ha hb; exact absurd hb ha) | (split <;> simp_all))
  · by_cases h1 : arg1 = .EAX <;> by_cases h2 : arg2 = .EDX <;>
    · simp only [emitted, call_func2_exc, hfc, h1, h2, emit_listing, add_backpatch_listing,
        List.append_assoc,
        List.drop_left, List.map, List.singleton_append, List.cons_append, List.nil_append,
        Bool.false_eq_true, if_false, ite_false, if_true, ite_true, ne_eq,
        reduceCtorEq, not_false_eq_true, not_true_eq_false]
      simp [h1, h2, hfc]
      try (first | (intro ha hb; exact absurd hb ha) | (split <;> simp_all))

/-- C15, witness: `call_func2` with `arg1 = ECX` and `arg2 = EAX`, run with 11
in EAX and 33 in ECX: the callee finds 33 in EAX and 11 in EDX. -/
theorem fastcall_marshalling_witness :
    (sampleEnv true).HAVE_FASTCALL = true ∧
    ∃ (m' : Machine) (ev : CallEvent),
      run (sampleEnv true)
        (emitted (call_func2 (sampleEnv true) 0x08048100 .ECX .EAX)
          (sampleTranslator 0x1000 false false [])) sampleRegs = some (m', .next) ∧
      m'.trace = [ev] ∧ ev.arg1 = 33 ∧ ev.arg2 = 11 :=
  ⟨rfl,
    let ⟨m', ev, h1, h2, h3, _, h5⟩ :=
      (fastcall_marshalling (sampleEnv true) 0x08048100 .ECX .ECX .EAX 0x1004
        (sampleTranslator 0x1000 false false []) sampleRegs rfl).2.1
    ⟨m', ev, h1, h2, h5 (Or.inl (by decide)), h3⟩⟩

/-- C16, counterexample.  `call_func1_r32` with `addr_reg = EAX` and
`arg1 = ECX`, run with the target 11 in EAX and 33 in ECX: the call is made
through EAX, after the argument move has overwritten it, and goes to 33. -/
theorem call_func1_r32_through_eax :
    emitted (call_func1_r32 (sampleEnv true) .EAX .ECX) (sampleTranslator 0x1000 false false [])
      = [.MOVL_r32_r32 .ECX .EAX, .CALL_r32 .EAX] ∧
    sampleRegs.reg .EAX = 11 ∧
    (run (sampleEnv true)
        (emitted (call_func1_r32 (sampleEnv true) .EAX .ECX)
          (sampleTranslator 0x1000 false false [])) sampleRegs).map
        (fun p => p.1.trace.map (fun ev => ev.target))
      = some [33] := by
  decide

/-- C16 (as amended).  The call target register.  Each register-passing call
sequence ends in its one call instruction.  In `call_func0`, `call_func1`,
`call_func2`, `call_func1_exc` and `call_func2_exc` that call is made through
ECX, which is neither EAX nor EDX, and goes to the helper address `ptr`, for
every choice of argument registers.  In `call_func1_r32` and `call_func2_r32`
the call is made through `addr_reg` as the caller gave it, EAX and EDX
included; it goes to the value `addr_reg` held before the sequence whenever
`addr_reg` is neither EAX nor EDX, and otherwise to the value the argument
moves left in `addr_reg`. -/
theorem call_target_register (e : Env) (ptr : Nat) (addr_reg arg1 arg2 : Reg) (pc : Nat)
    (s : Translator) (m : Machine) (hfc : e.HAVE_FASTCALL = true) :
    (Reg.ECX ≠ .EAX ∧ Reg.ECX ≠ .EDX) ∧
    (∃ (m' : Machine) (ev : CallEvent),
      (emitted (call_func0 e ptr) s).getLast? = some (.CALL_r32 .ECX) ∧
      run e (emitted (call_func0 e ptr) s) m = some (m', .next) ∧
      m'.trace = m.trace ++ [ev] ∧ ev.target = wrap32 ptr) ∧
    (∃ (m' : Machine) (ev : CallEvent),
      (emitted (call_func1 e ptr arg1) s).getLast? = some (.CALL_r32 .ECX) ∧
      run e (emitted (call_func1 e ptr arg1) s) m = some (m', .next) ∧
      m'.trace = m.trace ++ [ev] ∧ ev.target = wrap32 ptr) ∧
    (∃ (m' : Machine) (ev : CallEvent),
      (emitted (call_func2 e ptr arg1 arg2) s).getLast? = some (.CALL_r32 .ECX) ∧
      run e (emitted (call_func2 e ptr arg1 arg2) s) m = some (m', .next) ∧
      m'.trace = m.trace ++ [ev] ∧ ev.target = wrap32 ptr) ∧
    (∃ (m' : Machine) (ev : CallEvent),
      (emitted (call_func1_exc e ptr arg1 pc) s).getLast? = some (.CALL_r32 .ECX) ∧
      run e (emitted (call_func1_exc e ptr arg1 pc) s) m = some (m', .next) ∧
      m'.trace = m.trace ++ [ev] ∧ ev.target = wrap32 ptr) ∧
    (∃ (m' : Machine) (ev : CallEvent),
      (emitted (call_func2_exc e ptr arg1 arg2 pc) s).getLast? = some (.CALL_r32 .ECX) ∧
      run e (emitted (call_func2_exc e ptr arg1 arg2 pc) s) m = some (m', .next) ∧
      m'.trace = m.trace ++ [ev] ∧ ev.target = wrap32 ptr) ∧
    (∃ (m' : Machine) (ev : CallEvent),
      (emitted (call_func1_r32 e addr_reg arg1) s).getLast? = some (.CALL_r32 addr_reg) ∧
      run e (emitted (call_func1_r32 e addr_reg arg1) s) m = some (m', .next) ∧
      m'.trace = m.trace ++ [ev] ∧
      ev.target = (if addr_reg = .EAX then m.reg arg1 else m.reg addr_reg) ∧
      (addr_reg ≠ .EAX → ev.target = m.reg addr_reg)) ∧
    (∃ (m' : Machine) (ev : CallEvent),
      (emitted (call_func2_r32 e addr_reg arg1 arg2) s).getLast? = some (.CALL_r32 addr_reg) ∧
      run e (emitted (call_func2_r32 e addr_reg arg1 arg2) s) m = some (m', .next) ∧
      m'.trace = m.trace ++ [ev] ∧
      ev.target = (if addr_reg = .EAX then (if arg1 = .EDX then m.reg arg2 else m.reg arg1)
        else if addr_reg = .EDX then m.reg arg2 else m.reg addr_reg) ∧
      (addr_reg ≠ .EAX → addr_reg ≠ .EDX → ev.target = m.reg addr_reg)) := by
  refine ⟨⟨by decide, by decide⟩, ?_, ?_, ?_, ?_, ?_, ?_, ?_⟩
  · simp [emitted, call_func0, load_imm32]
  · by_cases h1 : arg1 = .EAX <;>
    · simp only [emitted, call_func1, hfc, h1, emit_listing, List.append_assoc,
        List.drop_left, List.map, List.singleton_append, List.cons_append, List.nil_append,
        Bool.false_eq_true, if_false, ite_false, if_true, ite_true, ne_eq,
        reduceCtorEq, not_false_eq_true, not_true_eq_false]
      simp [h1, hfc]
  · by_cases h1 : arg1 = .EAX <;> by_cases h2 : arg2 = .EDX <;>
    · simp only [emitted, call_func2, hfc, h1, h2, emit_listing, List.append_assoc,
        List.drop_left, List.map, List.singleton_append, List.cons_append, List.nil_append,
        Bool.false_eq_true, if_false, ite_false, if_true, ite_true, ne_eq,
        reduceCtorEq, not_false_eq_true, not_true_eq_false]
      simp [h1, h2, hfc]
  · by_cases h1 : arg1 = .EAX <;>
    · simp only [emitted, call_func1_exc, hfc, h1, emit_listing, add_backpatch_listing,
        List.append_assoc,
        List.drop_left, List.map, List.singleton_append, List.cons_append, List.nil_append,
        Bool.false_eq_true, if_false, ite_false, if_true, ite_true, ne_eq,
        reduceCtorEq, not_false_eq_true, not_true_eq_false]
      simp [h1, hfc]
  · by_cases h1 : arg1 = .EAX <;> by_cases h2 : arg2 = .EDX <;>
    · simp only [emitted, call_func2_exc, hfc, h1, h2, emit_listing, add_backpatch_listing,
        List.append_assoc,
        List.drop_left, List.map, List.singleton_append, List.cons_append, List.nil_append,
        Bool.false_eq_true, if_false, ite_false, if_true, ite_true, ne_eq,
        reduceCtorEq, not_false_eq_true, not_true_eq_false]
      simp [h1, h2, hfc]
  · by_cases h1 : arg1 = .EAX <;> by_cases h0 : addr_reg = .EAX <;>
    · simp only [emitted, call_func1_r32, hfc, h1, emit_listing, List.append_assoc,
        List.drop_left, List.map, List.singleton_append, List.cons_append, List.nil_append,
        Bool.false_eq_true, if_false, ite_false, if_true, ite_true, ne_eq,
        reduceCtorEq, not_false_eq_true, not_true_eq_false]
      simp [h1, h0, hfc]
  · by_cases h1 : arg1 = .EAX <;> by_cases h2 : arg2 = .EDX <;>
      by_cases h0 : addr_reg = .EAX <;> by_cases h3 : addr_reg = .EDX <;>
    · simp only [emitted, call_func2_r32, hfc, h1, h2, emit_listing, List.append_assoc,
        List.drop_left, List.map, List.singleton_append, List.cons_append, List.nil_append,
        Bool.false_eq_true, if_false, ite_false, if_true, ite_true, ne_eq,
        reduceCtorEq, not_false_eq_true, not_true_eq_false]
      simp [h1, h2, h0, h3, hfc]
      try (split <;> simp_all)

/-- C16, witness: `call_func2_r32` with `addr_reg = EBX`, `arg1 = ECX` and
`arg2 = EAX`, run with 44 in EBX: the call goes to 44. -/
theorem call_target_register_witness :
    (sampleEnv true).HAVE_FASTCALL = true ∧
    ∃ (m' : Machine) (ev : CallEvent),
      run (sampleEnv true)
        (emitted (call_func2_r32 (sampleEnv true) .EBX .ECX .EAX)
          (sampleTranslator 0x1000 false false [])) sampleRegs = some (m', .next) ∧
      m'.trace = [ev] ∧ ev.target = 44 :=
  ⟨rfl,
    let ⟨m', ev, _, h1, h2, _, h4⟩ :=
      (call_target_register (sampleEnv true) 0x08048100 .EBX .ECX .EAX 0x1004
        (sampleTranslator 0x1000 false false []) sampleRegs rfl).2.2.2.2.2.2.2
    ⟨m', ev, h1, h2, h4 (by decide) (by decide)⟩⟩

theorem add32_sub32_lt (a j k : Nat) (hjk : j ≤ k) (hk : k < 4294967296) :
    add32 (sub32 a k) j = sub32 a (k - j) := by
  unfold add32 sub32; omega

/-- C17. Stack-passing calls are balanced.  Under the stack-passing convention
`call_func1` emits a 12-byte adjustment, one push, the load of the target, the
call and a 16-byte release; `call_func2` emits an 8-byte adjustment, the push
of `arg2`, the push of `arg1`, the load of the target, the call and a 16-byte
release.  Run from a state `m`, each sequence reaches its call with the stack
pointer 16 bytes below its value in `m`, the word pushed for `arg1` at the
stack pointer (the lowest address) and, for `call_func2`, the word pushed for
`arg2` 4 bytes above it; the callee receives them as its first and second
argument, and after the sequence the stack pointer has its value in `m`
again.  The word pushed for an argument register is its value in `m` (for ESP
itself, its value at the push). -/
theorem stack_call_balanced (e : Env) (ptr : Nat) (arg1 arg2 : Reg) (s : Translator)
    (m : Machine) (hfc : e.HAVE_FASTCALL = false) (hesp : m.reg .ESP < 4294967296) :
    (emitted (call_func1 e ptr arg1) s
        = [.SUBL_imms_r32 12 .ESP, .PUSH_r32 arg1, .MOVP_immptr_rptr ptr .ECX,
           .CALL_r32 .ECX, .ADDL_imms_r32 16 .ESP] ∧
      ∃ (mc m' : Machine) (ev : CallEvent),
        run e [.SUBL_imms_r32 12 .ESP, .PUSH_r32 arg1, .MOVP_immptr_rptr ptr .ECX] m
          = some (mc, .next) ∧
        mc.reg .ESP = sub32 (m.reg .ESP) 16 ∧
        mc.stack (mc.reg .ESP)
          = (if arg1 = .ESP then sub32 (m.reg .ESP) 12 else m.reg arg1) ∧
        run e (emitted (call_func1 e ptr arg1) s) m = some (m', .next) ∧
        m'.trace = m.trace ++ [ev] ∧
        ev.target = wrap32 ptr ∧
        ev.arg1 = (if arg1 = .ESP then sub32 (m.reg .ESP) 12 else m.reg arg1) ∧
        m'.reg .ESP = m.reg .ESP) ∧
    (emitted (call_func2 e ptr arg1 arg2) s
        = [.SUBL_imms_r32 8 .ESP, .PUSH_r32 arg2, .PUSH_r32 arg1, .MOVP_immptr_rptr ptr .ECX,
           .CALL_r32 .ECX, .ADDL_imms_r32 16 .ESP] ∧
      ∃ (mc m' : Machine) (ev : CallEvent),
        run e [.SUBL_imms_r32 8 .ESP, .PUSH_r32 arg2, .PUSH_r32 arg1,
            .MOVP_immptr_rptr ptr .ECX] m = some (mc, .next) ∧
        mc.reg .ESP = sub32 (m.reg .ESP) 16 ∧
        mc.stack (mc.reg .ESP)
          = (if arg1 = .ESP then sub32 (m.reg .ESP) 12 else m.reg arg1) ∧
        mc.stack (add32 (mc.reg .ESP) 4)
          = (if arg2 = .ESP then sub32 (m.reg .ESP) 8 else m.reg arg2) ∧
        run e (emitted (call_func2 e ptr arg1 arg2) s) m = some (m', .next) ∧
        m'.trace = m.trace ++ [ev] ∧
        ev.target = wrap32 ptr ∧
        ev.arg1 = (if arg1 = .ESP then sub32 (m.reg .ESP) 12 else m.reg arg1) ∧
        ev.arg2 = (if arg2 = .ESP then sub32 (m.reg .ESP) 8 else m.reg arg2) ∧
        m'.reg .ESP = m.reg .ESP) := by
  have hw : wrap32 (m.reg .ESP) = m.reg .ESP := wrap32_of_lt hesp
  have h4 : add32 (sub32 (m.reg .ESP) 16) 4 = sub32 (m.reg .ESP) 12 :=
    add32_sub32_lt _ 4 16 (by decide) (by decide)
  have hne : sub32 (m.reg .ESP) 12 ≠ sub32 (m.reg .ESP) 16 := by
    unfold sub32; omega
  constructor
  · simp only [emitted, call_func1, hfc, emit_listing, List.append_assoc,
      List.drop_left, List.map, List.singleton_append, List.cons_append, List.nil_append,
      Bool.false_eq_true, if_false, ite_false, if_true, ite_true, ne_eq,
      reduceCtorEq, not_false_eq_true, not_true_eq_false, true_and]
    by_cases h1 : arg1 = .ESP <;> simp [h1, hfc, hw]
  · simp only [emitted, call_func2, hfc, emit_listing, List.append_assoc,
      List.drop_left, List.map, List.singleton_append, List.cons_append, List.nil_append,
      Bool.false_eq_true, if_false, ite_false, if_true, ite_true, ne_eq,
      reduceCtorEq, not_false_eq_true, not_true_eq_false, true_and]
    by_cases h1 : arg1 = .ESP <;> by_cases h2 : arg2 = .ESP <;> simp [h1, h2, hfc, hw, h4, hne]

/-- C17, witness: the stack-passing `call_func2` with `arg1 = ECX` and
`arg2 = EAX`, run with the stack pointer at `0xBFFF0000`: the callee receives
33 and 11, and the stack pointer is `0xBFFF0000` again after the sequence. -/
theorem stack_call_balanced_witness :
    (sampleEnv false).HAVE_FASTCALL = false ∧
    sampleRegs.reg .ESP < 4294967296 ∧
    ∃ (m' : Machine) (ev : CallEvent),
      run (sampleEnv false)
        (emitted (call_func2 (sampleEnv false) 0x08048100 .ECX .EAX)
          (sampleTranslator 0x1000 false false [])) sampleRegs = some (m', .next) ∧
      m'.trace = [ev] ∧ ev.arg1 = 33 ∧ ev.arg2 = 11 ∧ m'.reg .ESP = 0xBFFF0000 :=
  ⟨rfl, by decide,
    let ⟨_, _, m', ev, _, _, _, _, h5, h6, _, h8, h9, h10⟩ :=
      (stack_call_balanced (sampleEnv false) 0x08048100 .ECX .EAX
        (sampleTranslator 0x1000 false false []) sampleRegs rfl (by decide)).2
    ⟨m', ev, h5, h6, h8, h9, h10⟩⟩

theorem read32_writeBytes_imm (c : Nat → Nat) (off : Nat) (opc : List Nat) :
    read32 (writeBytes c off (opc ++ le32 0)) (off + opc.length) = 0 := by
  have h : ∀ k, k < 4 → writeBytes c off (opc ++ le32 0) (off + opc.length + k) = 0 := by
    intro k hk
    unfold writeBytes
    rw [if_pos (by simp [le32]; omega)]
    rw [List.getD_append_right _ _ _ _ (by omega)]
    have : off + opc.length + k - off - opc.length = k := by omega
    rw [this]
    interval_cases k <;> simp [le32]
  unfold read32
  have h0 := h 0 (by decide)
  rw [Nat.add_zero] at h0
  rw [h0, h 1 (by decide), h 2 (by decide), h 3 (by decide)]

/-- The placeholder and its registration, from the state `s1` reached by the
argument moves. -/
theorem stage_core (e : Env) (pc : Nat) (s1 : Translator) (ph : Instr) (opc : List Nat)
    (h : e.encode ph = opc ++ le32 0) :
    (sh4_x86_add_backpatch (emit e ph s1).xlat_output pc (-2) (emit e ph s1)).backpatch_list
      = s1.backpatch_list ++ [{ fixup_offset := s1.xlat_output + opc.length
                                fixup_icount := sub32 pc s1.block_start_pc / 2
                                exc_code := -2 }] ∧
    read32 (sh4_x86_add_backpatch (emit e ph s1).xlat_output pc (-2) (emit e ph s1)).code
      (s1.xlat_output + opc.length) = 0 ∧
    (sh4_x86_add_backpatch (emit e ph s1).xlat_output pc (-2) (emit e ph s1)).xlat_output
      = s1.xlat_output + opc.length + 4 := by
  refine ⟨?_, ?_, ?_⟩
  · simp [sh4_x86_add_backpatch, h, le32]
    omega
  · show read32 (writeBytes s1.code s1.xlat_output (e.encode ph)) _ = 0
    rw [h]
    exact read32_writeBytes_imm _ _ _
  · show s1.xlat_output + (e.encode ph).length = _
    rw [h]
    simp [le32]
    omega

/-- A site registered on a placeholder that has just been emitted is apart
from every site registered before, when those lie in the code emitted so far;
and then the sites of the new list lie in the code emitted so far again.  So
the sites that the exception-enabled call sequences register one after the
other have placeholders of their own. -/
theorem fresh_placeholder_apart (e : Env) (pc : Nat) (s1 : Translator) (ph : Instr)
    (opc : List Nat) (h : e.encode ph = opc ++ le32 0)
    (hinv : ∀ q ∈ s1.backpatch_list, q.fixup_offset + 4 ≤ s1.xlat_output) :
    (∀ q ∈ s1.backpatch_list,
      SitesApart { fixup_offset := s1.xlat_output + opc.length
                   fixup_icount := sub32 pc s1.block_start_pc / 2
                   exc_code := -2 } q) ∧
    (∀ q ∈ (sh4_x86_add_backpatch (emit e ph s1).xlat_output pc (-2)
        (emit e ph s1)).backpatch_list,
      q.fixup_offset + 4
        ≤ (sh4_x86_add_backpatch (emit e ph s1).xlat_output pc (-2) (emit e ph s1)).xlat_output) := by
  obtain ⟨h1, -, h3⟩ := stage_core e pc s1 ph opc h
  constructor
  · intro q hq
    have := hinv q hq
    exact Or.inr (by show q.fixup_offset + 4 ≤ s1.xlat_output + opc.length; omega)
  · intro q hq
    rw [h1] at hq
    rw [h3]
    rcases List.mem_append.mp hq with hq | hq
    · have := hinv q hq
      omega
    · rw [List.mem_singleton.mp hq]

theorem stages_intro (e : Env) (pc : Nat) (s s1 t : Translator) (ph : Instr) (opc : List Nat)
    (pre rest : List (Nat × Instr))
    (henc : e.encode ph = opc ++ le32 0)
    (hs1 : s1.listing = s.listing ++ pre)
    (hb1 : s1.backpatch_list = s.backpatch_list)
    (hpc : s1.block_start_pc = s.block_start_pc)
    (ht : t.listing = s1.listing ++ (s1.xlat_output, ph) :: rest)
    (hg : Grows (sh4_x86_add_backpatch (emit e ph s1).xlat_output pc (-2) (emit e ph s1)) t) :
    StagesPlaceholder pc s t (pre.map Prod.snd) ph opc (rest.map Prod.snd) := by
  obtain ⟨c1, c2, c3⟩ := stage_core e pc s1 ph opc henc
  obtain ⟨g1, g2, -, g4, -⟩ := hg
  refine ⟨pre, rest, s1.xlat_output, ?_, rfl, rfl, ?_, ?_, ?_, ?_⟩
  · rw [ht, hs1]
  · rw [g4, c1, hb1, hpc]
  · unfold Translator.backpatch_posn
    rw [g4, c1, hb1]
    simp
  · rw [read32_congr _ _ _ (fun a h1 h2 => g2 a (by rw [c3]; omega))]
    exact c2
  · rw [c3] at g1
    exact g1

theorem add_backpatch_grows_emit (e : Env) (i : Instr) (a pc : Nat) (c : Int) (s : Translator) :
    Grows (sh4_x86_add_backpatch a pc c s) (emit e i (sh4_x86_add_backpatch a pc c s)) :=
  emit_grows e i _

/-! ## The placeholder of the exception-enabled call sequences -/

theorem call_func1_exc_stages (e : Env) (ptr : Nat) (arg1 : Reg) (pc : Nat) (s : Translator)
    (opc : List Nat) (henc : e.encode (.MOVP_immptr_rptr 0 .EDX) = opc ++ le32 0) :
    StagesPlaceholder pc s (call_func1_exc e ptr arg1 pc s)
      (if arg1 ≠ .EAX then [.MOVL_r32_r32 arg1 .EAX] else [])
      (.MOVP_immptr_rptr 0 .EDX) opc [.MOVP_immptr_rptr ptr .ECX, .CALL_r32 .ECX] := by
  by_cases h1 : arg1 = .EAX
  · have key := stages_intro e pc s s
      (call_func1_exc e ptr arg1 pc s) (.MOVP_immptr_rptr 0 .EDX)
      opc []
      [(_, .MOVP_immptr_rptr ptr .ECX), (_, .CALL_r32 .ECX)] henc (by simp) rfl rfl
      (by simp [call_func1_exc, h1]; exact ⟨rfl, rfl⟩)
      (by
        simp only [call_func1_exc, h1, ne_eq, not_true_eq_false, if_false]
        exact grows_trans (emit_grows e _ _) (emit_grows e _ _))
    simpa [h1] using key
  · have key := stages_intro e pc s (emit e (.MOVL_r32_r32 arg1 .EAX) s)
      (call_func1_exc e ptr arg1 pc s) (.MOVP_immptr_rptr 0 .EDX)
      opc [(s.xlat_output, .MOVL_r32_r32 arg1 .EAX)]
      [(_, .MOVP_immptr_rptr ptr .ECX), (_, .CALL_r32 .ECX)] henc (by simp) rfl rfl
      (by simp [call_func1_exc, h1]; exact ⟨rfl, rfl⟩)
      (by
        simp only [call_func1_exc, h1, ne_eq, not_false_eq_true, if_true]
        exact grows_trans (emit_grows e _ _) (emit_grows e _ _))
    simpa [h1] using key

theorem call_func2_exc_stages (e : Env) (ptr : Nat) (arg1 arg2 : Reg) (pc : Nat) (s : Translator)
    (opc : List Nat) (henc : e.encode (.MOVL_imm32_rspdisp 0 0) = opc ++ le32 0) :
    StagesPlaceholder pc s (call_func2_exc e ptr arg1 arg2 pc s)
      ((if arg2 ≠ .EDX then [.MOVL_r32_r32 arg2 .EDX] else [])
        ++ (if arg1 ≠ .EAX then [.MOVL_r32_r32 arg1 .EAX] else []))
      (.MOVL_imm32_rspdisp 0 0) opc [.MOVP_immptr_rptr ptr .ECX, .CALL_r32 .ECX] := by
  by_cases h1 : arg1 = .EAX <;> by_cases h2 : arg2 = .EDX
  · have key := stages_intro e pc s s
      (call_func2_exc e ptr arg1 arg2 pc s) (.MOVL_imm32_rspdisp 0 0)
      opc []
      [(_, .MOVP_immptr_rptr ptr .ECX), (_, .CALL_r32 .ECX)] henc (by simp) rfl rfl
      (by simp [call_func2_exc, h1, h2]; exact ⟨rfl, rfl⟩)
      (by
        simp only [call_func2_exc, h1, h2, ne_eq, not_true_eq_false, not_false_eq_true, if_false, if_true]
        exact grows_trans (emit_grows e _ _) (emit_grows e _ _))
    simpa [h1, h2] using key
  · have key := stages_intro e pc s (emit e (.MOVL_r32_r32 arg2 .EDX) s)
      (call_func2_exc e ptr arg1 arg2 pc s) (.MOVL_imm32_rspdisp 0 0)
      opc [(s.xlat_output, .MOVL_r32_r32 arg2 .EDX)]
      [(_, .MOVP_immptr_rptr ptr .ECX), (_, .CALL_r32 .ECX)] henc (by simp) rfl rfl
      (by simp [call_func2_exc, h1, h2]; exact ⟨rfl, rfl⟩)
      (by
        simp only [call_func2_exc, h1, h2, ne_eq, not_true_eq_false, not_false_eq_true, if_false, if_true]
        exact grows_trans (emit_grows e _ _) (emit_grows e _ _))
    simpa [h1, h2] using key
  · have key := stages_intro e pc s (emit e (.MOVL_r32_r32 arg1 .EAX) s)
      (call_func2_exc e ptr arg1 arg2 pc s) (.MOVL_imm32_rspdisp 0 0)
      opc [(s.xlat_output, .MOVL_r32_r32 arg1 .EAX)]
      [(_, .MOVP_immptr_rptr ptr .ECX), (_, .CALL_r32 .ECX)] henc (by simp) rfl rfl
      (by simp [call_func2_exc, h1, h2]; exact ⟨rfl, rfl⟩)
      (by
        simp only [call_func2_exc, h1, h2, ne_eq, not_true_eq_false, not_false_eq_true, if_false, if_true]
        exact grows_trans (emit_grows e _ _) (emit_grows e _ _))
    simpa [h1, h2] using key
  · have key := stages_intro e pc s (emit e (.MOVL_r32_r32 arg1 .EAX) (emit e (.MOVL_r32_r32 arg2 .EDX) s))
      (call_func2_exc e ptr arg1 arg2 pc s) (.MOVL_imm32_rspdisp 0 0)
      opc [(s.xlat_output, .MOVL_r32_r32 arg2 .EDX),
        (s.xlat_output + (e.encode (.MOVL_r32_r32 arg2 .EDX)).length, .MOVL_r32_r32 arg1 .EAX)]
      [(_, .MOVP_immptr_rptr ptr .ECX), (_, .CALL_r32 .ECX)] henc (by simp) rfl rfl
      (by simp [call_func2_exc, h1, h2]; exact ⟨rfl, rfl⟩)
      (by
        simp only [call_func2_exc, h1, h2, ne_eq, not_true_eq_false, not_false_eq_true, if_false, if_true]
        exact grows_trans (emit_grows e _ _) (emit_grows e _ _))
    simpa [h1, h2] using key

theorem call_func1_r32disp8_exc_stages (e : Env) (preg : Reg) (disp8 : Nat) (arg1 : Reg) (pc : Nat) (s : Translator)
    (opc : List Nat) (henc : e.encode (.MOVP_immptr_rptr 0 .EDX) = opc ++ le32 0) :
    StagesPlaceholder pc s (call_func1_r32disp8_exc e preg disp8 arg1 pc s)
      (if arg1 ≠ .EAX then [.MOVL_r32_r32 arg1 .EAX] else [])
      (.MOVP_immptr_rptr 0 .EDX) opc [.CALL_r32disp preg disp8] := by
  by_cases h1 : arg1 = .EAX
  · have key := stages_intro e pc s s
      (call_func1_r32disp8_exc e preg disp8 arg1 pc s) (.MOVP_immptr_rptr 0 .EDX)
      opc []
      [(_, .CALL_r32disp preg disp8)] henc (by simp) rfl rfl
      (by simp [call_func1_r32disp8_exc, h1]; exact rfl)
      (by
        simp only [call_func1_r32disp8_exc, h1, ne_eq, not_true_eq_false, if_false]
        exact emit_grows e _ _)
    simpa [h1] using key
  · have key := stages_intro e pc s (emit e (.MOVL_r32_r32 arg1 .EAX) s)
      (call_func1_r32disp8_exc e preg disp8 arg1 pc s) (.MOVP_immptr_rptr 0 .EDX)
      opc [(s.xlat_output, .MOVL_r32_r32 arg1 .EAX)]
      [(_, .CALL_r32disp preg disp8)] henc (by simp) rfl rfl
      (by simp [call_func1_r32disp8_exc, h1]; exact rfl)
      (by
        simp only [call_func1_r32disp8_exc, h1, ne_eq, not_false_eq_true, if_true]
        exact emit_grows e _ _)
    simpa [h1] using key

theorem call_func2_r32disp8_exc_stages (e : Env) (preg : Reg) (disp8 : Nat) (arg1 arg2 : Reg) (pc : Nat) (s : Translator)
    (opc : List Nat) (henc : e.encode (.MOVL_imm32_rspdisp 0 0) = opc ++ le32 0) :
    StagesPlaceholder pc s (call_func2_r32disp8_exc e preg disp8 arg1 arg2 pc s)
      ((if arg2 ≠ .EDX then [.MOVL_r32_r32 arg2 .EDX] else [])
        ++ (if arg1 ≠ .EAX then [.MOVL_r32_r32 arg1 .EAX] else []))
      (.MOVL_imm32_rspdisp 0 0) opc [.CALL_r32disp preg disp8] := by
  by_cases h1 : arg1 = .EAX <;> by_cases h2 : arg2 = .EDX
  · have key := stages_intro e pc s s
      (call_func2_r32disp8_exc e preg disp8 arg1 arg2 pc s) (.MOVL_imm32_rspdisp 0 0)
      opc []
      [(_, .CALL_r32disp preg disp8)] henc (by simp) rfl rfl
      (by simp [call_func2_r32disp8_exc, h1, h2]; exact rfl)
      (by
        simp only [call_func2_r32disp8_exc, h1, h2, ne_eq, not_true_eq_false, not_false_eq_true, if_false, if_true]
        exact emit_grows e _ _)
    simpa [h1, h2] using key
  · have key := stages_intro e pc s (emit e (.MOVL_r32_r32 arg2 .EDX) s)
      (call_func2_r32disp8_exc e preg disp8 arg1 arg2 pc s) (.MOVL_imm32_rspdisp 0 0)
      opc [(s.xlat_output, .MOVL_r32_r32 arg2 .EDX)]
      [(_, .CALL_r32disp preg disp8)] henc (by simp) rfl rfl
      (by simp [call_func2_r32disp8_exc, h1, h2]; exact rfl)
      (by
        simp only [call_func2_r32disp8_exc, h1, h2, ne_eq, not_true_eq_false, not_false_eq_true, if_false, if_true]
        exact emit_grows e _ _)
    simpa [h1, h2] using key
  · have key := stages_intro e pc s (emit e (.MOVL_r32_r32 arg1 .EAX) s)
      (call_func2_r32disp8_exc e preg disp8 arg1 arg2 pc s) (.MOVL_imm32_rspdisp 0 0)
      opc [(s.xlat_output, .MOVL_r32_r32 arg1 .EAX)]
      [(_, .CALL_r32disp preg disp8)] henc (by simp) rfl rfl
      (by simp [call_func2_r32disp8_exc, h1, h2]; exact rfl)
      (by
        simp only [call_func2_r32disp8_exc, h1, h2, ne_eq, not_true_eq_false, not_false_eq_true, if_false, if_true]
        exact emit_grows e _ _)
    simpa [h1, h2] using key
  · have key := stages_intro e pc s (emit e (.MOVL_r32_r32 arg1 .EAX) (emit e (.MOVL_r32_r32 arg2 .EDX) s))
      (call_func2_r32disp8_exc e preg disp8 arg1 arg2 pc s) (.MOVL_imm32_rspdisp 0 0)
      opc [(s.xlat_output, .MOVL_r32_r32 arg2 .EDX),
        (s.xlat_output + (e.encode (.MOVL_r32_r32 arg2 .EDX)).length, .MOVL_r32_r32 arg1 .EAX)]
      [(_, .CALL_r32disp preg disp8)] henc (by simp) rfl rfl
      (by simp [call_func2_r32disp8_exc, h1, h2]; exact rfl)
      (by
        simp only [call_func2_r32disp8_exc, h1, h2, ne_eq, not_true_eq_false, not_false_eq_true, if_false, if_true]
        exact emit_grows e _ _)
    simpa [h1, h2] using key

/-- C18. The exception-enabled call sequences stage one zero placeholder and
register it.  The encoder puts the 32-bit immediate of `MOVP_immptr_rptr` and
of `MOVL_imm32_rspdisp` last (`opc1`, `opc2` are the opcode bytes before it).
Each of `call_func1_exc`, `call_func2_exc`, `call_func1_r32disp8_exc` and
`call_func2_r32disp8_exc` then emits its argument moves, the placeholder
instruction with operand zero (a load of EDX for one argument, a store to
`[esp]` for two) and the call; it appends exactly one site to the backpatch
list, coded -2, with the instruction count `(pc - block_start_pc) >> 1` and
the offset of the four operand bytes of the placeholder, which end at the
cursor at which the site is registered and read as zero in the emitted
code; `backpatch_posn` grows by one. -/
theorem exc_variants_stage_placeholder (e : Env) (ptr : Nat) (preg : Reg) (disp8 : Nat)
    (arg1 arg2 : Reg) (pc : Nat) (s : Translator) (opc1 opc2 : List Nat)
    (henc1 : e.encode (.MOVP_immptr_rptr 0 .EDX) = opc1 ++ le32 0)
    (henc2 : e.encode (.MOVL_imm32_rspdisp 0 0) = opc2 ++ le32 0) :
    StagesPlaceholder pc s (call_func1_exc e ptr arg1 pc s)
      (if arg1 ≠ .EAX then [.MOVL_r32_r32 arg1 .EAX] else [])
      (.MOVP_immptr_rptr 0 .EDX) opc1 [.MOVP_immptr_rptr ptr .ECX, .CALL_r32 .ECX] ∧
    StagesPlaceholder pc s (call_func2_exc e ptr arg1 arg2 pc s)
      ((if arg2 ≠ .EDX then [.MOVL_r32_r32 arg2 .EDX] else [])
        ++ (if arg1 ≠ .EAX then [.MOVL_r32_r32 arg1 .EAX] else []))
      (.MOVL_imm32_rspdisp 0 0) opc2 [.MOVP_immptr_rptr ptr .ECX, .CALL_r32 .ECX] ∧
    StagesPlaceholder pc s (call_func1_r32disp8_exc e preg disp8 arg1 pc s)
      (if arg1 ≠ .EAX then [.MOVL_r32_r32 arg1 .EAX] else [])
      (.MOVP_immptr_rptr 0 .EDX) opc1 [.CALL_r32disp preg disp8] ∧
    StagesPlaceholder pc s (call_func2_r32disp8_exc e preg disp8 arg1 arg2 pc s)
      ((if arg2 ≠ .EDX then [.MOVL_r32_r32 arg2 .EDX] else [])
        ++ (if arg1 ≠ .EAX then [.MOVL_r32_r32 arg1 .EAX] else []))
      (.MOVL_imm32_rspdisp 0 0) opc2 [.CALL_r32disp preg disp8] :=
  ⟨call_func1_exc_stages e ptr arg1 pc s opc1 henc1,
    call_func2_exc_stages e ptr arg1 arg2 pc s opc2 henc2,
    call_func1_r32disp8_exc_stages e preg disp8 arg1 pc s opc1 henc1,
    call_func2_r32disp8_exc_stages e preg disp8 arg1 arg2 pc s opc2 henc2⟩

/-- C18, witness: `call_func1_exc` for the guest address `0x1004` in an empty
block at `0x1000`, with `arg1 = ECX` and the IA-32 encodings: the move takes
bytes 0 and 1, the placeholder `BA 00 00 00 00` bytes 2 to 6, and the one site
registered is at offset 3 with count 2. -/
theorem exc_variants_stage_placeholder_witness :
    (sampleEnv true).encode (.MOVP_immptr_rptr 0 .EDX) = [0xBA] ++ le32 0 ∧
    (sampleEnv true).encode (.MOVL_imm32_rspdisp 0 0) = [0xC7, 0x44, 0x24, 0] ++ le32 0 ∧
    StagesPlaceholder 0x1004 (sampleTranslator 0x1000 false false [])
      (call_func1_exc (sampleEnv true) 0x08049000 .ECX 0x1004
        (sampleTranslator 0x1000 false false []))
      [.MOVL_r32_r32 .ECX .EAX]
      (.MOVP_immptr_rptr 0 .EDX) [0xBA] [.MOVP_immptr_rptr 0x08049000 .ECX, .CALL_r32 .ECX] ∧
    (call_func1_exc (sampleEnv true) 0x08049000 .ECX 0x1004
        (sampleTranslator 0x1000 false false [])).backpatch_list
      = [{ fixup_offset := 3, fixup_icount := 2, exc_code := -2 }] :=
  ⟨rfl, rfl,
    (exc_variants_stage_placeholder (sampleEnv true) 0x08049000 .EBX 0 .ECX .EAX 0x1004
      (sampleTranslator 0x1000 false false []) [0xBA] [0xC7, 0x44, 0x24, 0] rfl rfl).1,
    by decide⟩

/-! ## The native-PC resolver (claims C19 and C20) -/

theorem xlat_check_frame_out (ip : Nat) (info : UnwindInfo)
    (h : ¬ (ip ≥ info.block_start ∧ ip < info.block_end)) :
    xlat_check_frame ip info = (.URC_NO_REASON, info) := by
  unfold xlat_check_frame
  rw [if_neg h]

theorem xlat_check_frame_in (ip : Nat) (info : UnwindInfo)
    (h : ip ≥ info.block_start ∧ ip < info.block_end) :
    xlat_check_frame ip info = (.URC_NORMAL_STOP, { info with pc := ip }) := by
  unfold xlat_check_frame
  rw [if_pos h]

/-- Frames outside the block are passed over. -/
theorem backtrace_skip (pre rest : List Nat) (info : UnwindInfo)
    (h : ∀ q ∈ pre, ¬ (q ≥ info.block_start ∧ q < info.block_end)) :
    Unwind_Backtrace xlat_check_frame (pre ++ rest) info
      = ((Unwind_Backtrace xlat_check_frame rest info).1,
         pre ++ (Unwind_Backtrace xlat_check_frame rest info).2) := by
  induction pre with
  | nil => simp
  | cons q pre ih =>
    have hq := xlat_check_frame_out q info (h q (List.mem_cons_self _ _))
    have ih2 := ih (fun x hx => h x (List.mem_cons_of_mem _ hx))
    show Unwind_Backtrace xlat_check_frame (q :: (pre ++ rest)) info = _
    simp only [Unwind_Backtrace, hq]
    rw [ih2]
    rfl

/-- C19. The unwind-strategy resolver.  The stack is the list `frames` of the
instruction pointers of its frames from the trap point outward, and the block
`[code, code + code_size)` lies in the 32-bit address space.  If `p` is the
first instruction pointer of `frames` with `code <= p < code + code_size`,
`xlat_get_native_pc` returns `p`, and the callback has been called on the
frames up to and including `p` and on none after it.  If no instruction
pointer of `frames` lies in that range, the result is `NULL` and every frame
has been visited.  The range is half-open: a stack whose only frame is at
`code + code_size` gives `NULL`. -/
theorem unwind_resolver_first_in_range (frames : List Nat) (code code_size : Nat)
    (hfit : code + code_size < 4294967296) :
    (∀ (pre post : List Nat) (p : Nat), frames = pre ++ p :: post →
      (∀ q ∈ pre, ¬ (code ≤ q ∧ q < code + code_size)) →
      code ≤ p → p < code + code_size →
      xlat_get_native_pc_unwind frames code code_size = p ∧
      (Unwind_Backtrace xlat_check_frame frames (unwind_info code code_size)).2 = pre ++ [p]) ∧
    ((∀ q ∈ frames, ¬ (code ≤ q ∧ q < code + code_size)) →
      xlat_get_native_pc_unwind frames code code_size = 0 ∧
      (Unwind_Backtrace xlat_check_frame frames (unwind_info code code_size)).2 = frames) ∧
    xlat_get_native_pc_unwind [code + code_size] code code_size = 0 := by
  have hs : (unwind_info code code_size).block_start = code := by
    show wrap32 code = code
    unfold wrap32; omega
  have he : (unwind_info code code_size).block_end = code + code_size := by
    show add32 (wrap32 code) code_size = code + code_size
    unfold add32 wrap32; omega
  have hout : ∀ q, ¬ (code ≤ q ∧ q < code + code_size) →
      ¬ (q ≥ (unwind_info code code_size).block_start
          ∧ q < (unwind_info code code_size).block_end) := by
    intro q hq
    rw [hs, he]
    exact hq
  refine ⟨?_, ?_, ?_⟩
  · intro pre post p hf hpre h1 h2
    have hin : p ≥ (unwind_info code code_size).block_start
        ∧ p < (unwind_info code code_size).block_end := by
      rw [hs, he]
      exact ⟨h1, h2⟩
    unfold xlat_get_native_pc_unwind
    rw [hf, backtrace_skip pre (p :: post) _ (fun q hq => hout q (hpre q hq))]
    simp [Unwind_Backtrace, xlat_check_frame_in p _ hin]
  · intro hall
    unfold xlat_get_native_pc_unwind
    have := backtrace_skip frames [] _ (fun q hq => hout q (hall q hq))
    rw [List.append_nil] at this
    rw [this]
    simp [Unwind_Backtrace, unwind_info]
  · unfold xlat_get_native_pc_unwind
    have := backtrace_skip [code + code_size] [] (unwind_info code code_size) (fun q hq => by
      rw [List.mem_singleton] at hq
      rw [hq]
      exact hout _ (by omega))
    rw [List.append_nil] at this
    rw [this]
    simp [Unwind_Backtrace, unwind_info]

/-- C19, witness: a block of 32 bytes at `0x40000000` and a stack of three
frames: the result is the second frame, at `0x40000010`, the third is not
visited; with the second frame at `0x40000020` instead the result is `NULL`. -/
theorem unwind_resolver_first_in_range_witness :
    0x40000000 + 0x20 < 4294967296 ∧
    xlat_get_native_pc_unwind [0x08050000, 0x40000010, 0x40000004] 0x40000000 0x20
      = 0x40000010 ∧
    (Unwind_Backtrace xlat_check_frame [0x08050000, 0x40000010, 0x40000004]
      (unwind_info 0x40000000 0x20)).2 = [0x08050000, 0x40000010] ∧
    xlat_get_native_pc_unwind [0x08050000, 0x40000020] 0x40000000 0x20 = 0 :=
  have h := (unwind_resolver_first_in_range [0x08050000, 0x40000010, 0x40000004]
    0x40000000 0x20 (by decide)).1 [0x08050000] [0x40000004] 0x40000010 rfl
    (by decide) (by decide) (by decide)
  ⟨by decide, h.1, h.2,
    ((unwind_resolver_first_in_range [0x08050000, 0x40000020] 0x40000000 0x20
      (by decide)).2.1 (by decide)).1⟩

theorem frame_chain_zero (mem : Nat → Nat) (ebp : Nat) : frame_chain mem ebp 0 = ebp := rfl

theorem frame_chain_succ (mem : Nat → Nat) (ebp : Nat) (i : Nat) :
    frame_chain mem (wrap32 (mem ebp)) i = frame_chain mem ebp (i + 1) := by
  unfold frame_chain
  rw [Function.iterate_succ_apply]

theorem range_map_chain (mem : Nat → Nat) (ebp : Nat) (j : Nat) :
    (List.range (j + 1)).map (frame_chain mem ebp)
      = ebp :: (List.range j).map (frame_chain mem (wrap32 (mem ebp))) := by
  have h : (frame_chain mem ebp ∘ Nat.succ) = frame_chain mem (wrap32 (mem ebp)) :=
    funext (fun i => (frame_chain_succ mem ebp i).symm)
  rw [List.range_succ_eq_map, List.map_cons, List.map_map, h]
  rfl

theorem frame_loop_succ (fuel : Nat) (st : ScanState) :
    frame_loop (fuel + 1) st =
      if st.eax = 0 then some st
      else if wrap32 (st.mem st.eax) = st.edx then
        some { st with
          result := wrap32 (st.mem (add32 st.eax 4))
          inspected := st.inspected ++ [st.eax] }
      else if sub32 st.ecx 1 = 0 then
        some { st with ecx := sub32 st.ecx 1, inspected := st.inspected ++ [st.eax] }
      else
        frame_loop fuel { st with
          eax := wrap32 (st.mem st.eax)
          ecx := sub32 st.ecx 1
          inspected := st.inspected ++ [st.eax] } := rfl

/-- The loop entered with the count `n + 1` in ECX: it ends within `n + 1`
rounds, leaves the memory alone, inspects the frames of the chain in order,
none of them null, and sets `result` from the first frame whose saved slot
is the sentinel. -/
theorem frame_loop_scan (n : Nat) : ∀ st : ScanState, st.ecx = n + 1 → n + 1 < 4294967296 →
    ∃ st' : ScanState, frame_loop (n + 1) st = some st' ∧ st'.mem = st.mem ∧
      (∃ j, j ≤ n + 1 ∧
        st'.inspected = st.inspected ++ (List.range j).map (frame_chain st.mem st.eax) ∧
        ∀ i < j, frame_chain st.mem st.eax i ≠ 0) ∧
      (∀ k, k < n + 1 → (∀ i ≤ k, frame_chain st.mem st.eax i ≠ 0) →
        (∀ i < k, wrap32 (st.mem (frame_chain st.mem st.eax i)) ≠ st.edx) →
        wrap32 (st.mem (frame_chain st.mem st.eax k)) = st.edx →
        st'.result = wrap32 (st.mem (add32 (frame_chain st.mem st.eax k) 4)) ∧
        st'.inspected
          = st.inspected ++ (List.range (k + 1)).map (frame_chain st.mem st.eax)) ∧
      ((∀ k, k < n + 1 → (∀ i ≤ k, frame_chain st.mem st.eax i ≠ 0) →
        (∀ i < k, wrap32 (st.mem (frame_chain st.mem st.eax i)) ≠ st.edx) →
        wrap32 (st.mem (frame_chain st.mem st.eax k)) ≠ st.edx) →
        st'.result = st.result) := by
  induction n with
  | zero =>
    intro st hecx _
    have hsub : sub32 st.ecx 1 = 0 := by rw [hecx]; rfl
    by_cases h0 : st.eax = 0
    · refine ⟨st, by rw [frame_loop_succ, if_pos h0], rfl, ⟨0, by omega, by simp, fun i hi => by omega⟩,
        ?_, fun _ => rfl⟩
      intro k _ hnz _ _
      exact absurd h0 (hnz 0 (Nat.zero_le _))
    · by_cases h1 : wrap32 (st.mem st.eax) = st.edx
      · refine ⟨{ st with
          result := wrap32 (st.mem (add32 st.eax 4))
          inspected := st.inspected ++ [st.eax] },
          by simp only [frame_loop_succ, h0, h1, if_true, if_false], rfl,
          ⟨1, by omega, rfl, ?_⟩, ?_, ?_⟩
        · intro i hi
          have : i = 0 := by omega
          subst this
          exact h0
        · intro k hk _ _ _
          have : k = 0 := by omega
          subst this
          exact ⟨rfl, rfl⟩
        · intro hall
          exact absurd h1 (hall 0 (by omega) (fun i hi => by
            have : i = 0 := by omega
            subst this
            exact h0) (fun i hi => by omega))
      · refine ⟨{ st with ecx := sub32 st.ecx 1, inspected := st.inspected ++ [st.eax] },
          by simp only [frame_loop_succ, h0, h1, hsub, if_true, if_false], rfl,
          ⟨1, by omega, rfl, ?_⟩, ?_, fun _ => rfl⟩
        · intro i hi
          have : i = 0 := by omega
          subst this
          exact h0
        · intro k hk _ _ hm
          have : k = 0 := by omega
          subst this
          exact absurd hm h1
  | succ n ih =>
    intro st hecx hlt
    have hsub : sub32 st.ecx 1 = n + 1 := by rw [hecx]; unfold sub32; omega
    by_cases h0 : st.eax = 0
    · refine ⟨st, by rw [frame_loop_succ, if_pos h0], rfl, ⟨0, by omega, by simp, fun i hi => by omega⟩,
        ?_, fun _ => rfl⟩
      intro k _ hnz _ _
      exact absurd h0 (hnz 0 (Nat.zero_le _))
    · by_cases h1 : wrap32 (st.mem st.eax) = st.edx
      · refine ⟨{ st with
          result := wrap32 (st.mem (add32 st.eax 4))
          inspected := st.inspected ++ [st.eax] },
          by simp only [frame_loop_succ, h0, h1, if_true, if_false], rfl,
          ⟨1, by omega, rfl, ?_⟩, ?_, ?_⟩
        · intro i hi
          have : i = 0 := by omega
          subst this
          exact h0
        · intro k hk _ hns _
          have : k = 0 := by
            by_contra hk0
            exact hns 0 (by omega) h1
          subst this
          exact ⟨rfl, rfl⟩
        · intro hall
          exact absurd h1 (hall 0 (by omega) (fun i hi => by
            have : i = 0 := by omega
            subst this
            exact h0) (fun i hi => by omega))
      · obtain ⟨st', hrun, hmem, ⟨j, hj, hins, hnzj⟩, hfound, hnot⟩ :=
          ih { st with
            eax := wrap32 (st.mem st.eax)
            ecx := sub32 st.ecx 1
            inspected := st.inspected ++ [st.eax] } hsub (by omega)
        have hne : ¬ (n + 1 = 0) := by omega
        refine ⟨st', ?_, hmem, ⟨j + 1, by omega, ?_, ?_⟩, ?_, ?_⟩
        · rw [frame_loop_succ, if_neg h0, if_neg h1, if_neg (by rw [hsub]; exact hne)]
          exact hrun
        · rw [hins, range_map_chain]
          simp
        · intro i hi
          cases i with
          | zero => exact h0
          | succ i =>
            rw [← frame_chain_succ]
            exact hnzj i (by omega)
        · intro k hk hnz hns hm
          cases k with
          | zero => exact absurd hm h1
          | succ k =>
            obtain ⟨r1, r2⟩ := hfound k (by omega)
              (fun i hi => by
                show frame_chain st.mem (wrap32 (st.mem st.eax)) i ≠ 0
                rw [frame_chain_succ]
                exact hnz (i + 1) (by omega))
              (fun i hi => by
                show wrap32 (st.mem (frame_chain st.mem (wrap32 (st.mem st.eax)) i)) ≠ st.edx
                rw [frame_chain_succ]
                exact hns (i + 1) (by omega))
              (by
                show wrap32 (st.mem (frame_chain st.mem (wrap32 (st.mem st.eax)) k)) = st.edx
                rw [frame_chain_succ]
                exact hm)
            refine ⟨?_, ?_⟩
            · rw [r1]
              show wrap32 (st.mem (add32 (frame_chain st.mem (wrap32 (st.mem st.eax)) k) 4)) = _
              rw [frame_chain_succ]
            · rw [r2, range_map_chain st.mem st.eax (k + 1)]
              simp
        · intro hall
          rw [hnot (fun k hk hnz hns => by
            show wrap32 (st.mem (frame_chain st.mem (wrap32 (st.mem st.eax)) k)) ≠ st.edx
            rw [frame_chain_succ]
            refine hall (k + 1) (by omega) (fun i hi => ?_) (fun i hi => ?_)
            · cases i with
              | zero => exact h0
              | succ i =>
                rw [← frame_chain_succ]
                exact hnz i (by omega)
            · cases i with
              | zero => exact h1
              | succ i =>
                rw [← frame_chain_succ]
                exact hns i (by omega))]

/-- The frame-scan resolver on every input.  For every memory `mem`, every
frame pointer `ebp`, cyclic chains included, and every content `out` of the
output register, the scan ends within 8 rounds of its loop and leaves the
memory as it was.  The frames it inspects are the first `j` frames of the
saved base-pointer chain that starts at `ebp`, with `j` at most 8, and none of
them is null.  If frame `k` of the chain, `k < 8`, is the first whose saved
base-pointer slot holds the sentinel `&sh4r + 128`, with no null frame pointer
up to it, the result is the word at offset 4 of that frame, its saved
instruction pointer, and frames 0 to `k` are the inspected ones.  If there is
no such frame among the first 8, the output register is not written: the
result is `out`. -/
theorem frame_scan_characterised (e : Env) (out : Nat) (mem : Nat → Nat) (ebp : Nat) :
    ∃ st : ScanState, xlat_get_native_pc_framescan e out mem ebp 8 = some st ∧
      st.mem = mem ∧
      (∃ j, j ≤ 8 ∧ st.inspected = (List.range j).map (frame_chain mem ebp) ∧
        ∀ i < j, frame_chain mem ebp i ≠ 0) ∧
      (∀ k, k < 8 → (∀ i ≤ k, frame_chain mem ebp i ≠ 0) →
        (∀ i < k, wrap32 (mem (frame_chain mem ebp i)) ≠ wrap32 (e.sh4r_addr + 128)) →
        wrap32 (mem (frame_chain mem ebp k)) = wrap32 (e.sh4r_addr + 128) →
        st.result = wrap32 (mem (add32 (frame_chain mem ebp k) 4)) ∧
        st.inspected = (List.range (k + 1)).map (frame_chain mem ebp)) ∧
      ((∀ k, k < 8 → (∀ i ≤ k, frame_chain mem ebp i ≠ 0) →
        (∀ i < k, wrap32 (mem (frame_chain mem ebp i)) ≠ wrap32 (e.sh4r_addr + 128)) →
        wrap32 (mem (frame_chain mem ebp k)) ≠ wrap32 (e.sh4r_addr + 128)) →
        st.result = out) := by
  obtain ⟨st, h1, h2, ⟨j, hj, h3, h3b⟩, h4, h5⟩ := frame_loop_scan 7
    { eax := ebp, ecx := 8, edx := wrap32 (e.sh4r_addr + 128), result := out, mem := mem,
      inspected := [] } rfl (by decide)
  refine ⟨st, h1, h2, ⟨j, hj, ?_, h3b⟩, ?_, h5⟩
  · rw [h3]
    rfl
  · intro k hk a b c
    obtain ⟨r1, r2⟩ := h4 k hk a b c
    refine ⟨r1, ?_⟩
    rw [r2]
    rfl

/-- Claim C20, at the inputs on which it fails: when no frame matches, the
frame scan does not return a not-found value but whatever the register of its
output operand held before the `asm` statement.  On a null frame pointer the
scan inspects no frame and the result is `out`; on the cyclic chain in which
every frame points to itself it inspects 8 frames and the result is `out`
again.  With `%0` in the register of the input operand, `out` is the sentinel
`&sh4r + 128`, here `0x0A000080`, and that address is returned; the `NULL`
that the C function assigns to `result` is returned in no case.  The found
path is as the claim says: with the frame at 100 pointing to the frame at 200,
whose saved slot holds the sentinel and whose saved instruction pointer is
`0x40000010`, the scan inspects the two frames and returns `0x40000010`. -/
theorem frame_scan_not_found_unwritten (e : Env) (out : Nat) (mem : Nat → Nat) :
    (∃ st : ScanState, xlat_get_native_pc_framescan e out mem 0 8 = some st ∧
      st.result = out ∧ st.inspected = [] ∧ st.mem = mem) ∧
    (∃ st : ScanState,
      xlat_get_native_pc_framescan (sampleEnv true) out (fun a => a) 100 8 = some st ∧
      st.result = out ∧ st.inspected.length ≤ 8) ∧
    wrap32 ((sampleEnv true).sh4r_addr + 128) = 0x0A000080 ∧
    (xlat_get_native_pc_framescan (sampleEnv true) 0x0A000080 (fun _ => 0) 0 8).map
      (fun st => (st.result, st.inspected)) = some (0x0A000080, []) ∧
    (xlat_get_native_pc_framescan (sampleEnv true) 0x0A000080 (fun a => a) 100 8).map
      (fun st => (st.result, st.inspected))
      = some (0x0A000080, [100, 100, 100, 100, 100, 100, 100, 100]) ∧
    (∃ st : ScanState,
      xlat_get_native_pc_framescan (sampleEnv true) out
        (fun a => if a = 100 then 200 else if a = 200 then 0x0A000080
          else if a = 204 then 0x40000010 else 0) 100 8 = some st ∧
      st.result = 0x40000010 ∧ st.inspected = [100, 200]) := by
  refine ⟨?_, ?_, by decide, by decide, by decide, ?_⟩
  · obtain ⟨st, h1, h2, ⟨j, hj, h3, h3b⟩, -, h5⟩ := frame_scan_characterised e out mem 0
    refine ⟨st, h1, h5 (fun k _ hnz _ => absurd rfl (hnz 0 (Nat.zero_le k))), ?_, h2⟩
    cases j with
    | zero => simpa using h3
    | succ j => exact absurd rfl (h3b 0 (Nat.succ_pos j))
  · obtain ⟨st, h1, -, ⟨j, hj, h3, -⟩, -, h5⟩ :=
      frame_scan_characterised (sampleEnv true) out (fun a => a) 100
    refine ⟨st, h1, h5 (by decide), ?_⟩
    rw [h3]
    simpa using hj
  · obtain ⟨st, h1, -, -, h4, -⟩ := frame_scan_characterised (sampleEnv true) out
      (fun a => if a = 100 then 200 else if a = 200 then 0x0A000080
        else if a = 204 then 0x40000010 else 0) 100
    have h := h4 1 (by decide) (by decide) (by decide) (by decide)
    exact ⟨st, h1, h.1.trans (by decide), h.2.trans (by decide)⟩

/-! ## The not-found result of the resolver (claim C21) -/

/-- The execution of the code of `enter_block`. -/
theorem enter_block_run (e : Env) (s : Translator) (m : Machine) :
    ∃ m1 : Machine,
      run e (emitted (enter_block e) s) m = some (m1, .next) ∧
      m1.reg .EBP = wrap32 (e.sh4r_addr + 128) ∧
      m1.reg .ESP = sub32 (m.reg .ESP) 12 ∧
      m1.stack (sub32 (m.reg .ESP) 4) = m.reg .EBP ∧
      (∀ a, a ≠ sub32 (m.reg .ESP) 4 → m1.stack a = m.stack a) ∧
      m1.trace = m.trace ∧ m1.sh4r = m.sh4r := by
  simp only [emitted, enter_block, load_ptr, load_imm32, emit_listing, List.append_assoc,
    List.drop_left, List.map, List.singleton_append, List.cons_append, List.nil_append]
  simp +contextual

/-- The execution of the code of `exit_block`. -/
theorem exit_block_run (e : Env) (s : Translator) (m : Machine) :
    ∃ m' : Machine,
      run e (emitted (exit_block e) s) m
        = some (m', .ret (m.stack (add32 (m.reg .ESP) 12))) ∧
      m'.reg .EBP = m.stack (add32 (m.reg .ESP) 8) ∧
      m'.reg .ESP = add32 (m.reg .ESP) 16 := by
  simp only [emitted, exit_block, emit_listing, List.append_assoc, List.drop_left, List.map,
    List.singleton_append, List.cons_append, List.nil_append]
  simp

/-- C22. Prologue and epilogue are inverse.  Entered in a state `m` whose
stack pointer is a 32-bit value pointing at the return address, the code of
`enter_block` pushes the host EBP just below the return address, binds EBP to
`&sh4r + 128` and leaves the stack pointer 12 bytes below its entry value: 4
for the saved EBP and exactly 8 of scratch; it changes no other word of the
stack.  From every state `mb` a body may have led to that has the stack
pointer where `enter_block` left it and still holds the saved EBP and the
return address in their two words of the frame, the code of `exit_block`
restores EBP to its value in `m` and returns to the return address of `m`
with the stack pointer 4 above its entry value. -/
theorem prologue_epilogue_inverse (e : Env) (s s2 : Translator) (m : Machine)
    (hesp : m.reg .ESP < 4294967296) :
    ∃ m1 : Machine,
      run e (emitted (enter_block e) s) m = some (m1, .next) ∧
      m1.reg .EBP = wrap32 (e.sh4r_addr + 128) ∧
      m1.reg .ESP = sub32 (m.reg .ESP) 12 ∧
      sub32 (m.reg .ESP) 4 = add32 (m1.reg .ESP) 8 ∧
      m1.stack (sub32 (m.reg .ESP) 4) = m.reg .EBP ∧
      (∀ a, a ≠ sub32 (m.reg .ESP) 4 → m1.stack a = m.stack a) ∧
      ∀ mb : Machine,
        mb.reg .ESP = m1.reg .ESP →
        mb.stack (sub32 (m.reg .ESP) 4) = m1.stack (sub32 (m.reg .ESP) 4) →
        mb.stack (m.reg .ESP) = m1.stack (m.reg .ESP) →
        ∃ m' : Machine,
          run e (emitted (exit_block e) s2) mb = some (m', .ret (m.stack (m.reg .ESP))) ∧
          m'.reg .EBP = m.reg .EBP ∧
          m'.reg .ESP = add32 (m.reg .ESP) 4 := by
  have h8 : add32 (sub32 (m.reg .ESP) 12) 8 = sub32 (m.reg .ESP) 4 :=
    add32_sub32_lt _ 8 12 (by decide) (by decide)
  have hne : m.reg .ESP ≠ sub32 (m.reg .ESP) 4 := by
    unfold sub32; omega
  obtain ⟨m1, a1, a2, a3, a4, a5, -, -⟩ := enter_block_run e s m
  refine ⟨m1, a1, a2, a3, by rw [a3, h8], a4, a5, ?_⟩
  intro mb h1 h2 h3
  have k1 : mb.reg .ESP = sub32 (m.reg .ESP) 12 := h1.trans a3
  have k2 : mb.stack (sub32 (m.reg .ESP) 4) = m.reg .EBP := h2.trans a4
  have k3 : mb.stack (m.reg .ESP) = m.stack (m.reg .ESP) := h3.trans (a5 _ hne)
  have e8 : add32 (mb.reg .ESP) 8 = sub32 (m.reg .ESP) 4 := by rw [k1, h8]
  have e12 : add32 (mb.reg .ESP) 12 = m.reg .ESP := by
    rw [k1]
    unfold add32 sub32
    omega
  have e16 : add32 (mb.reg .ESP) 16 = add32 (m.reg .ESP) 4 := by
    rw [k1]
    unfold add32 sub32
    omega
  obtain ⟨m', r1, r2, r3⟩ := exit_block_run e s2 mb
  rw [e12, k3] at r1
  rw [e8, k2] at r2
  rw [e16] at r3
  exact ⟨m', r1, r2, r3⟩

/-- C22, witness: a block entered with the stack pointer at `0xBFFF000C`, the
return address `0x08050000` and the host EBP `0xBFFF0100`; after `enter_block`
the stack pointer is `0xBFFF0000`, and `exit_block`, run right after it,
returns to `0x08050000` with EBP `0xBFFF0100` and the stack pointer at
`0xBFFF0010`. -/
theorem prologue_epilogue_inverse_witness :
    sampleEntry.reg .ESP < 4294967296 ∧
    ∃ m1 m' : Machine,
      run (sampleEnv true) (emitted (enter_block (sampleEnv true))
        (sampleTranslator 0x1000 false false [])) sampleEntry = some (m1, .next) ∧
      m1.reg .ESP = 0xBFFF0000 ∧
      run (sampleEnv true) (emitted (exit_block (sampleEnv true))
        (sampleTranslator 0x1000 false false [])) m1 = some (m', .ret 0x08050000) ∧
      m'.reg .EBP = 0xBFFF0100 ∧ m'.reg .ESP = 0xBFFF0010 := by
  refine ⟨by decide, ?_⟩
  obtain ⟨m1, a1, -, a3, -, -, -, a7⟩ := prologue_epilogue_inverse (sampleEnv true)
    (sampleTranslator 0x1000 false false []) (sampleTranslator 0x1000 false false [])
    sampleEntry (by decide)
  obtain ⟨m', b1, b2, b3⟩ := a7 m1 rfl rfl rfl
  exact ⟨m1, m', a1, a3.trans (by decide), b1, b2, b3.trans (by decide)⟩

/-! ## The stack pointer at the calls -/

@[simp] theorem call_esps_nil (e : Env) (m : Machine) : call_esps e [] m = [] := rfl

@[simp] theorem call_esps_MOVL_imm32_r32 (e : Env) (imm : Nat) (r : Reg) (is : List Instr) (m : Machine) :
    call_esps e (.MOVL_imm32_r32 imm r :: is) m
      = call_esps e is (m.setReg r (wrap32 imm)) := by
  simp [call_esps, step, Instr.isCall]

@[simp] theorem call_esps_MOVP_immptr_rptr (e : Env) (p : Nat) (r : Reg) (is : List Instr) (m : Machine) :
    call_esps e (.MOVP_immptr_rptr p r :: is) m
      = call_esps e is (m.setReg r (wrap32 p)) := by
  simp [call_esps, step, Instr.isCall]

@[simp] theorem call_esps_MOVL_r32_r32 (e : Env) (r1 r2 : Reg) (is : List Instr) (m : Machine) :
    call_esps e (.MOVL_r32_r32 r1 r2 :: is) m
      = call_esps e is (m.setReg r2 (m.reg r1)) := by
  simp [call_esps, step, Instr.isCall]

@[simp] theorem call_esps_ADDL_r32_r32 (e : Env) (r1 r2 : Reg) (is : List Instr) (m : Machine) :
    call_esps e (.ADDL_r32_r32 r1 r2 :: is) m
      = call_esps e is (m.setReg r2 (add32 (m.reg r2) (m.reg r1))) := by
  simp [call_esps, step, Instr.isCall]

@[simp] theorem call_esps_ADDL_imms_r32 (e : Env) (imm : Nat) (r : Reg) (is : List Instr) (m : Machine) :
    call_esps e (.ADDL_imms_r32 imm r :: is) m
      = call_esps e is (m.setReg r (add32 (m.reg r) imm)) := by
  simp [call_esps, step, Instr.isCall]

@[simp] theorem call_esps_SUBL_imms_r32 (e : Env) (imm : Nat) (r : Reg) (is : List Instr) (m : Machine) :
    call_esps e (.SUBL_imms_r32 imm r :: is) m
      = call_esps e is (m.setReg r (sub32 (m.reg r) imm)) := by
  simp [call_esps, step, Instr.isCall]

@[simp] theorem call_esps_ANDL_imms_r32 (e : Env) (imm : Nat) (r : Reg) (is : List Instr) (m : Machine) :
    call_esps e (.ANDL_imms_r32 imm r :: is) m
      = call_esps e is (m.setReg r (m.reg r &&& wrap32 imm)) := by
  simp [call_esps, step, Instr.isCall]

theorem call_esps_ADDL_r32_rbpdisp (e : Env) (r : Reg) (f : Sh4Field) (is : List Instr) (m : Machine)
    (h : m.reg .EBP = wrap32 (e.sh4r_addr + 128)) :
    call_esps e (.ADDL_r32_rbpdisp r f :: is) m
      = call_esps e is (m.setField f (add32 (m.sh4r.get f) (m.reg r))) := by
  simp [call_esps, step, Instr.isCall, h]

theorem call_esps_ADDL_rbpdisp_r32 (e : Env) (f : Sh4Field) (r : Reg) (is : List Instr) (m : Machine)
    (h : m.reg .EBP = wrap32 (e.sh4r_addr + 128)) :
    call_esps e (.ADDL_rbpdisp_r32 f r :: is) m
      = call_esps e is (m.setReg r (add32 (m.reg r) (m.sh4r.get f))) := by
  simp [call_esps, step, Instr.isCall, h]

theorem call_esps_MOVL_rbpdisp_r32 (e : Env) (f : Sh4Field) (r : Reg) (is : List Instr) (m : Machine)
    (h : m.reg .EBP = wrap32 (e.sh4r_addr + 128)) :
    call_esps e (.MOVL_rbpdisp_r32 f r :: is) m
      = call_esps e is (m.setReg r (m.sh4r.get f)) := by
  simp [call_esps, step, Instr.isCall, h]

theorem call_esps_MOVL_r32_rbpdisp (e : Env) (r : Reg) (f : Sh4Field) (is : List Instr) (m : Machine)
    (h : m.reg .EBP = wrap32 (e.sh4r_addr + 128)) :
    call_esps e (.MOVL_r32_rbpdisp r f :: is) m
      = call_esps e is (m.setField f (m.reg r)) := by
  simp [call_esps, step, Instr.isCall, h]

@[simp] theorem call_esps_MOVL_imm32_rspdisp (e : Env) (imm disp : Nat) (is : List Instr) (m : Machine) :
    call_esps e (.MOVL_imm32_rspdisp imm disp :: is) m
      = call_esps e is (m.setStack (add32 (m.reg .ESP) disp) (wrap32 imm)) := by
  simp [call_esps, step, Instr.isCall]

@[simp] theorem call_esps_MOVP_moffptr_rax (e : Env) (a : Nat) (is : List Instr) (m : Machine) :
    call_esps e (.MOVP_moffptr_rax a :: is) m
      = call_esps e is (m.setReg .EAX (wrap32 (m.mem a))) := by
  simp [call_esps, step, Instr.isCall]

@[simp] theorem call_esps_MOVL_moffptr_eax (e : Env) (a : Nat) (is : List Instr) (m : Machine) :
    call_esps e (.MOVL_moffptr_eax a :: is) m
      = call_esps e is (m.setReg .EAX (wrap32 (m.mem a))) := by
  simp [call_esps, step, Instr.isCall]

@[simp] theorem call_esps_MULL_r32 (e : Env) (r : Reg) (is : List Instr) (m : Machine) :
    call_esps e (.MULL_r32 r :: is) m
      = call_esps e is ((m.setReg .EAX (wrap32 (m.reg .EAX * m.reg r))).setReg .EDX
          (wrap32 (m.reg .EAX * m.reg r / 4294967296))) := by
  simp [call_esps, step, Instr.isCall]

@[simp] theorem call_esps_PUSH_r32 (e : Env) (r : Reg) (is : List Instr) (m : Machine) :
    call_esps e (.PUSH_r32 r :: is) m
      = call_esps e is ((m.setStack (sub32 (m.reg .ESP) 4) (m.reg r)).setReg .ESP (sub32 (m.reg .ESP) 4)) := by
  simp [call_esps, step, Instr.isCall]

@[simp] theorem call_esps_PUSH_imm32 (e : Env) (imm : Nat) (is : List Instr) (m : Machine) :
    call_esps e (.PUSH_imm32 imm :: is) m
      = call_esps e is ((m.setStack (sub32 (m.reg .ESP) 4) (wrap32 imm)).setReg .ESP (sub32 (m.reg .ESP) 4)) := by
  simp [call_esps, step, Instr.isCall]

@[simp] theorem call_esps_POP_r32 (e : Env) (r : Reg) (is : List Instr) (m : Machine) :
    call_esps e (.POP_r32 r :: is) m
      = call_esps e is ((m.setReg .ESP (add32 (m.reg .ESP) 4)).setReg r (m.stack (m.reg .ESP))) := by
  simp [call_esps, step, Instr.isCall]

@[simp] theorem call_esps_CALL_r32 (e : Env) (r : Reg) (is : List Instr) (m : Machine) :
    call_esps e (.CALL_r32 r :: is) m = m.reg .ESP :: call_esps e is (do_call e (m.reg r) m) := by
  simp [call_esps, step, Instr.isCall]

@[simp] theorem call_esps_CALL_r32disp (e : Env) (r : Reg) (disp : Nat) (is : List Instr)
    (m : Machine) :
    call_esps e (.CALL_r32disp r disp :: is) m
      = m.reg .ESP :: call_esps e is (do_call e (wrap32 (m.mem (add32 (m.reg r) disp))) m) := by
  simp [call_esps, step, Instr.isCall]

@[simp] theorem call_esps_JMP_prerel (e : Env) (rel : Int) (is : List Instr) (m : Machine) :
    call_esps e (.JMP_prerel rel :: is) m = [] := by
  simp [call_esps, step, Instr.isCall]

@[simp] theorem call_esps_RET (e : Env) (is : List Instr) (m : Machine) :
    call_esps e (.RET :: is) m = [] := by
  simp [call_esps, step, Instr.isCall]

theorem sub32_mod16 (a k : Nat) (ha : a % 16 = 0) (hk : k % 16 = 0) : sub32 a k % 16 = 0 := by
  unfold sub32; omega

theorem wrap32_mod16 (a : Nat) : wrap32 a % 16 = a % 16 := by
  unfold wrap32; omega

/-- C23. 16-byte stack alignment.  A block is entered with the stack pointer
congruent to 12 modulo 16.  After the code of `enter_block` the stack pointer
is congruent to 0 modulo 16 and EBP is bound to the guest register file.  From
every state `mb` of the block with such a stack pointer and EBP, under either
calling convention: `call_func1` and `call_func2` make their one call, every
exit sequence makes its calls (one; none when `exit_block_abs` or
`exit_block_rel` finds `pc` in the instruction cache; two in
`exit_block_exc`), and a raise stub followed by the raise trampoline makes its
two calls, each with the stack pointer congruent to 0 modulo 16. -/
theorem stack_alignment (e : Env) (ptr : Nat) (arg1 arg2 : Reg) (pc endpc : Nat) (code : Int)
    (c n : Nat) (s : Translator) (m : Machine) (hentry : m.reg .ESP % 16 = 12) :
    ∃ m1 : Machine,
      run e (emitted (enter_block e) s) m = some (m1, .next) ∧
      m1.reg .ESP % 16 = 0 ∧
      m1.reg .EBP = wrap32 (e.sh4r_addr + 128) ∧
      ∀ (t : Translator) (mb : Machine), mb.reg .ESP % 16 = 0 →
        mb.reg .EBP = wrap32 (e.sh4r_addr + 128) →
        (call_esps e (emitted (call_func1 e ptr arg1) t) mb).map (fun sp => sp % 16) = [0] ∧
        (call_esps e (emitted (call_func2 e ptr arg1 arg2) t) mb).map (fun sp => sp % 16)
          = [0] ∧
        (call_esps e (emitted (exit_block_pcset e pc) t) mb).map (fun sp => sp % 16) = [0] ∧
        (call_esps e (emitted (exit_block_newpcset e pc) t) mb).map (fun sp => sp % 16)
          = [0] ∧
        (call_esps e (emitted (exit_block_abs e pc endpc) t) mb).map (fun sp => sp % 16)
          = (if e.IS_IN_ICACHE pc = true then [] else [0]) ∧
        (call_esps e (emitted (exit_block_rel e pc endpc) t) mb).map (fun sp => sp % 16)
          = (if e.IS_IN_ICACHE pc = true then [] else [0]) ∧
        (call_esps e (emitted (exit_block_exc e code pc) t) mb).map (fun sp => sp % 16)
          = [0, 0] ∧
        (call_esps e (.PUSH_imm32 c :: .MOVL_imm32_r32 n .EDX :: emitted (raise_trampoline e) t)
          mb).map (fun sp => sp % 16) = [0, 0] := by
  obtain ⟨m1, a1, a2, a3, -⟩ := enter_block_run e s m
  refine ⟨m1, a1, ?_, a2, ?_⟩
  · rw [a3]
    unfold sub32
    omega
  intro t mb hal hbp
  have h16 : sub32 (mb.reg .ESP) 16 % 16 = 0 := sub32_mod16 _ _ hal rfl
  have hw16 : wrap32 (mb.reg .ESP) % 16 = 0 := by rw [wrap32_mod16]; exact hal
  refine ⟨?_, ?_, ?_, ?_, ?_, ?_, ?_, ?_⟩
  · cases h3 : e.HAVE_FASTCALL <;> by_cases ha : arg1 = .EAX <;>
    · simp only [emitted, call_func1, h3, ha, emit_listing, List.append_assoc,
        List.drop_left, List.map, List.singleton_append, List.cons_append, List.nil_append,
        Bool.false_eq_true, if_false, ite_false, if_true, ite_true, ne_eq,
        reduceCtorEq, not_false_eq_true, not_true_eq_false]
      simp [hal, h16]
  · cases h3 : e.HAVE_FASTCALL <;> by_cases ha : arg1 = .EAX <;> by_cases hb : arg2 = .EDX <;>
    · simp only [emitted, call_func2, h3, ha, hb, emit_listing, List.append_assoc,
        List.drop_left, List.map, List.singleton_append, List.cons_append, List.nil_append,
        Bool.false_eq_true, if_false, ite_false, if_true, ite_true, ne_eq,
        reduceCtorEq, not_false_eq_true, not_true_eq_false]
      simp [hal, h16]
  · cases h2 : t.tlb_on <;> cases h3 : e.HAVE_FASTCALL <;>
    · simp only [emitted, exit_block_pcset, load_imm32, load_spreg, store_spreg, call_dispatch,
        call_func1, exit_block, h2, h3, emit_listing, emit_tlb_on, emit_block_start_pc,
        List.append_assoc, List.drop_left, List.map, List.singleton_append, List.cons_append,
        List.nil_append, Bool.false_eq_true, if_false, ite_false, if_true, ite_true,
        cycle_delta_emit, ne_eq, reduceCtorEq, not_false_eq_true, not_true_eq_false]
      simp [call_esps_ADDL_r32_rbpdisp, call_esps_ADDL_rbpdisp_r32, call_esps_MOVL_rbpdisp_r32,
        call_esps_MOVL_r32_rbpdisp, hbp, hal, h16]
  · cases h2 : t.tlb_on <;> cases h3 : e.HAVE_FASTCALL <;>
    · simp only [emitted, exit_block_newpcset, load_imm32, load_spreg, store_spreg,
        call_dispatch, call_func1, exit_block, h2, h3, emit_listing, emit_tlb_on,
        emit_block_start_pc, List.append_assoc, List.drop_left, List.map,
        List.singleton_append, List.cons_append, List.nil_append, Bool.false_eq_true,
        if_false, ite_false, if_true, ite_true, cycle_delta_emit, ne_eq, reduceCtorEq,
        not_false_eq_true, not_true_eq_false]
      simp [call_esps_ADDL_r32_rbpdisp, call_esps_ADDL_rbpdisp_r32, call_esps_MOVL_rbpdisp_r32,
        call_esps_MOVL_r32_rbpdisp, hbp, hal, h16]
  · cases h1 : e.IS_IN_ICACHE pc <;> cases h2 : t.tlb_on <;> cases h3 : e.HAVE_FASTCALL <;>
    · simp only [emitted, exit_block_abs, load_imm32, load_spreg, store_spreg, call_dispatch,
        call_func1, exit_block, h1, h2, h3, emit_listing, emit_tlb_on, emit_block_start_pc,
        List.append_assoc, List.drop_left, List.map, List.singleton_append, List.cons_append,
        List.nil_append, Bool.false_eq_true, if_false, ite_false, if_true, ite_true,
        cycle_delta_emit, ne_eq, reduceCtorEq, not_false_eq_true, not_true_eq_false]
      simp [call_esps_ADDL_r32_rbpdisp, call_esps_ADDL_rbpdisp_r32, call_esps_MOVL_rbpdisp_r32,
        call_esps_MOVL_r32_rbpdisp, hbp, hal, h16]
  · cases h1 : e.IS_IN_ICACHE pc <;> cases h2 : t.tlb_on <;> cases h3 : e.HAVE_FASTCALL <;>
    · simp only [emitted, exit_block_rel, load_imm32, load_spreg, store_spreg, call_dispatch,
        call_func1, exit_block, h1, h2, h3, emit_listing, emit_tlb_on, emit_block_start_pc,
        List.append_assoc, List.drop_left, List.map, List.singleton_append, List.cons_append,
        List.nil_append, Bool.false_eq_true, if_false, ite_false, if_true, ite_true,
        cycle_delta_emit, ne_eq, reduceCtorEq, not_false_eq_true, not_true_eq_false]
      simp [call_esps_ADDL_r32_rbpdisp, call_esps_ADDL_rbpdisp_r32, call_esps_MOVL_rbpdisp_r32,
        call_esps_MOVL_r32_rbpdisp, hbp, hal, h16]
  · cases h2 : t.tlb_on <;> cases h3 : e.HAVE_FASTCALL <;>
    · simp only [emitted, exit_block_exc, load_imm32, load_spreg, store_spreg, call_dispatch,
        call_func1, exit_block, h2, h3, emit_listing, emit_tlb_on, emit_block_start_pc,
        List.append_assoc, List.drop_left, List.map, List.singleton_append, List.cons_append,
        List.nil_append, Bool.false_eq_true, if_false, ite_false, if_true, ite_true,
        cycle_delta_emit, ne_eq, reduceCtorEq, not_false_eq_true, not_true_eq_false]
      simp [call_esps_ADDL_r32_rbpdisp, call_esps_ADDL_rbpdisp_r32, call_esps_MOVL_rbpdisp_r32,
        call_esps_MOVL_r32_rbpdisp, hbp, hal, h16, hw16]
  · rw [emitted_eq_drop, raise_trampoline_split]
    simp only [exit_block_instrs, call_dispatch_instrs, call_func1_instrs, load_spreg,
      emit_instrs, raise_trampoline_entry_instrs, dispatch_helper_raise_entry,
      dispatch_helper_call_func1, dispatch_helper_emit, List.append_assoc, List.drop_left,
      ne_eq, not_true_eq_false, if_false, List.nil_append, List.singleton_append,
      List.cons_append]
    cases h3 : e.HAVE_FASTCALL <;>
    · simp [call_esps_ADDL_r32_rbpdisp, call_esps_ADDL_rbpdisp_r32, call_esps_MOVL_rbpdisp_r32,
        call_esps_MOVL_r32_rbpdisp, hbp, hal, h16, hw16, h3, add32_ne_sub32,
        add32_sub32_ne_self]

/-- C23, witness: the block entered with the stack pointer at `0xBFFF000C`.
After `enter_block` the stack pointer is `0xBFFF0000`; the stack-passing
`call_func2` then makes its call with the stack pointer at `0xBFFEFFF0`. -/
theorem stack_alignment_witness :
    sampleEntry.reg .ESP % 16 = 12 ∧
    ∃ m1 : Machine,
      run (sampleEnv false) (emitted (enter_block (sampleEnv false))
        (sampleTranslator 0x1000 false false [])) sampleEntry = some (m1, .next) ∧
      m1.reg .ESP % 16 = 0 ∧
      (call_esps (sampleEnv false) (emitted (call_func2 (sampleEnv false) 0x08048100 .ECX .EAX)
        (sampleTranslator 0x1000 false false [])) m1).map (fun sp => sp % 16) = [0] ∧
      call_esps (sampleEnv false) (emitted (call_func2 (sampleEnv false) 0x08048100 .ECX .EAX)
        (sampleTranslator 0x1000 false false [])) sampleRegs = [0xBFFEFFF0] := by
  refine ⟨by decide, ?_⟩
  obtain ⟨m1, a1, a2, a3, a4⟩ := stack_alignment (sampleEnv false) 0x08048100 .ECX .EAX
    0x1004 0x1008 0x40 5 1 (sampleTranslator 0x1000 false false []) sampleEntry (by decide)
  exact ⟨m1, a1, a2, (a4 (sampleTranslator 0x1000 false false []) m1 a2 a3).2.1, by decide⟩

/-! ## Masks and shifts as division and remainder -/

theorem and_shifted_mask (a n k : Nat) :
    a &&& ((2 ^ n - 1) * 2 ^ k) = a % 2 ^ (n + k) / 2 ^ k * 2 ^ k := by
  apply Nat.eq_of_testBit_eq
  intro i
  rw [Nat.testBit_and, Nat.mul_comm (2 ^ n - 1), Nat.testBit_mul_pow_two,
    Nat.mul_comm (a % 2 ^ (n + k) / 2 ^ k), Nat.testBit_mul_pow_two, ← Nat.shiftRight_eq_div_pow,
    Nat.testBit_shiftRight, Nat.testBit_mod_two_pow, Nat.testBit_two_pow_sub_one]
  by_cases h : k ≤ i
  · have h2 : k + (i - k) = i := by omega
    simp only [ge_iff_le, h, decide_True, Bool.true_and, h2]
    by_cases h3 : i - k < n
    · have : i < n + k := by omega
      simp [h3, this]
    · have : ¬ i < n + k := by omega
      simp [h3, this]
  · simp [h]

theorem and_7FFFFF (a : Nat) : a &&& 0x7FFFFF = a % 0x800000 := by
  have := and_shifted_mask a 23 0
  simpa using this

theorem and_7FFFF8 (a : Nat) : a &&& 0x7FFFF8 = a % 0x800000 / 8 * 8 := by
  have := and_shifted_mask a 20 3
  simpa using this

theorem and_4 (a : Nat) : a &&& 4 = a % 8 / 4 * 4 := by
  have := and_shifted_mask a 1 2
  simpa using this

theorem and_3 (a : Nat) : a &&& 3 = a % 4 := by
  have := and_shifted_mask a 2 0
  simpa using this

theorem and_7 (a : Nat) : a &&& 7 = a % 8 := by
  have := and_shifted_mask a 3 0
  simpa using this

theorem and_6 (a : Nat) : a &&& 6 = a % 8 / 2 * 2 := by
  have := and_shifted_mask a 2 1
  simpa using this

theorem and_2 (a : Nat) : a &&& 2 = a % 4 / 2 * 2 := by
  have := and_shifted_mask a 1 1
  simpa using this

theorem and_1 (a : Nat) : a &&& 1 = a % 2 := Nat.and_one_is_mod a

theorem shr_1 (a : Nat) : a >>> 1 = a / 2 := by
  simp [Nat.shiftRight_eq_div_pow]

theorem shr_2 (a : Nat) : a >>> 2 = a / 4 := by
  simp [Nat.shiftRight_eq_div_pow]

theorem shr_3 (a : Nat) : a >>> 3 = a / 8 := by
  simp [Nat.shiftRight_eq_div_pow]

/-! ## The layout of the 64-bit region -/

theorem bank_offset_eq (a : Nat) (h : a < 0x800000) : bank_offset a = lin_offset a := by
  unfold bank_offset lin_offset
  rw [and_7FFFF8, and_3, and_4, shr_1]
  split <;> split <;> omega

theorem lin_offset_inj (a b : Nat) (ha : a < 0x800000) (hb : b < 0x800000)
    (h : lin_offset a = lin_offset b) : a = b := by
  unfold lin_offset at h
  split at h <;> split at h <;> omega

theorem lin_offset_lt (a : Nat) (ha : a < 0x800000) : lin_offset a < 0x800000 := by
  unfold lin_offset
  split <;> omega

theorem lin_offset_add (a j : Nat) (h4 : a % 4 = 0) (hj : j < 4) :
    lin_offset (a + j) = lin_offset a + j := by
  unfold lin_offset
  have h1 : (a + j) / 8 = a / 8 := by omega
  have h2 : (a + j) / 4 = a / 4 := by omega
  rw [h1, h2]
  omega

theorem banks_at_get (a : Nat) (h4 : a % 4 = 0) :
    (banks_at a).get (flag_at a) = lin_offset a := by
  unfold Banks.get banks_at flag_at lin_offset
  split <;> split <;> simp only [] <;> omega

theorem banks_at_inc (a : Nat) (h4 : a % 4 = 0) :
    (banks_at a).inc (flag_at a) 4 = banks_at (a + 4) := by
  unfold Banks.inc banks_at flag_at
  split <;> simp only [Banks.mk.injEq] <;> omega

theorem lnot_flag_at (a : Nat) : lnot (flag_at a) = flag_at (a + 4) := by
  unfold lnot flag_at
  split <;> omega

/-! ## The copy loops -/

theorem store_apply (mem : Nat → Nat) (a v x : Nat) :
    store mem a v x = if x = a then v else mem x := rfl

theorem copy_bytes_apply (src : Nat → Nat) (n d s : Nat) (dest : Nat → Nat) (x : Nat) :
    copy_bytes src n d s dest x = if d ≤ x ∧ x < d + n then src (s + (x - d)) else dest x := by
  induction n generalizing d s dest with
  | zero =>
    rw [copy_bytes, if_neg (by omega)]
  | succ n ih =>
    rw [copy_bytes, ih, store_apply]
    by_cases h1 : d + 1 ≤ x ∧ x < d + 1 + n
    · rw [if_pos h1, if_pos (by omega)]
      congr 1
      omega
    · rw [if_neg h1]
      by_cases h2 : x = d
      · rw [if_pos h2, if_pos (by omega)]
        subst h2
        simp
      · rw [if_neg h2, if_neg (by omega)]

theorem copy_bytes_zero (src : Nat → Nat) (d s : Nat) (dest : Nat → Nat) :
    copy_bytes src 0 d s dest = dest := rfl

theorem write_words_succ (src : Nat → Nat) (n s : Nat) (banks : Banks) (f : Nat)
    (vram : Nat → Nat) :
    write_words src (n + 1) s banks f vram
      = write_words src n (s + 4) (banks.inc f 4) (lnot f)
          (copy_bytes src 4 (banks.get f) s vram) := rfl

theorem write_words_state (src : Nat → Nat) (n s a : Nat) (vram : Nat → Nat) (h4 : a % 4 = 0) :
    (write_words src n s (banks_at a) (flag_at a) vram).2
      = (banks_at (a + 4 * n), flag_at (a + 4 * n)) := by
  induction n generalizing s a vram with
  | zero => rfl
  | succ n ih =>
    rw [write_words_succ, banks_at_inc a h4, lnot_flag_at, ih _ _ _ (by omega)]
    have : a + 4 + 4 * n = a + 4 * (n + 1) := by omega
    rw [this]

theorem write_words_frame (src : Nat → Nat) (n s a : Nat) (vram : Nat → Nat) (x : Nat)
    (h4 : a % 4 = 0) (hx : ∀ k, k < 4 * n → x ≠ lin_offset (a + k)) :
    (write_words src n s (banks_at a) (flag_at a) vram).1 x = vram x := by
  induction n generalizing s a vram with
  | zero => rfl
  | succ n ih =>
    rw [write_words_succ, banks_at_inc a h4, lnot_flag_at, banks_at_get a h4,
      ih _ _ _ (by omega), copy_bytes_apply, if_neg]
    · intro h
      have := hx (x - lin_offset a) (by omega)
      rw [lin_offset_add a _ h4 (by omega)] at this
      omega
    · intro k hk
      have := hx (4 + k) (by omega)
      rwa [← Nat.add_assoc] at this

theorem write_words_written (src : Nat → Nat) (n s a : Nat) (vram : Nat → Nat) (k : Nat)
    (h4 : a % 4 = 0) (hin : a + 4 * n ≤ 0x800000) (hk : k < 4 * n) :
    (write_words src n s (banks_at a) (flag_at a) vram).1 (lin_offset (a + k)) = src (s + k) := by
  induction n generalizing s a vram k with
  | zero => omega
  | succ n ih =>
    rw [write_words_succ, banks_at_inc a h4, lnot_flag_at, banks_at_get a h4]
    by_cases h : k < 4
    · rw [write_words_frame _ _ _ _ _ _ (by omega), copy_bytes_apply,
        lin_offset_add a k h4 h, if_pos (by omega)]
      · congr 1
        omega
      · intro j hj he
        have := lin_offset_inj _ _ (by omega) (by omega) he
        omega
    · have := ih (s + 4) (a + 4) (copy_bytes src 4 (lin_offset a) s vram) (k - 4) (by omega)
        (by omega) (by omega)
      have e1 : a + 4 + (k - 4) = a + k := by omega
      have e2 : s + 4 + (k - 4) = s + k := by omega
      rw [e1, e2] at this
      exact this

/-! ## The aligned accesses -/

theorem start_banks (destaddr : Nat) (h4 : destaddr % 4 = 0) :
    (if ¬ destaddr % 8 / 4 * 4 / 4 = 0 then
        Banks.inc { b0 := destaddr % 0x800000 % 0x800000 / 8 * 8 / 2,
                    b1 := destaddr % 0x800000 % 0x800000 / 8 * 8 / 2 + 0x400000 } 0 4
      else { b0 := destaddr % 0x800000 % 0x800000 / 8 * 8 / 2,
             b1 := destaddr % 0x800000 % 0x800000 / 8 * 8 / 2 + 0x400000 })
      = banks_at (destaddr % 0x800000) := by
  unfold Banks.inc banks_at
  split <;> simp only [Banks.mk.injEq, if_true] <;> omega

theorem start_flag (destaddr : Nat) :
    destaddr % 8 / 4 * 4 / 4 = flag_at (destaddr % 0x800000) := by
  unfold flag_at
  omega

theorem pvr2_vram64_write_aligned (destaddr : Nat) (src : Nat → Nat) (length : Nat)
    (vram : Nat → Nat) (h4 : destaddr % 4 = 0) :
    pvr2_vram64_write destaddr src length vram
      = (if (if wrap32 (destaddr % 0x800000 + length) > 0x800000
              then 0x800000 - destaddr % 0x800000 else length) % 4 ≠ 0 then
          copy_bytes src
            ((if wrap32 (destaddr % 0x800000 + length) > 0x800000
              then 0x800000 - destaddr % 0x800000 else length) % 4)
            (lin_offset (destaddr % 0x800000 + 4 *
              ((if wrap32 (destaddr % 0x800000 + length) > 0x800000
                then 0x800000 - destaddr % 0x800000 else length) / 4)))
            (4 * ((if wrap32 (destaddr % 0x800000 + length) > 0x800000
                then 0x800000 - destaddr % 0x800000 else length) / 4))
            (write_words src
              ((if wrap32 (destaddr % 0x800000 + length) > 0x800000
                then 0x800000 - destaddr % 0x800000 else length) / 4) 0
              (banks_at (destaddr % 0x800000)) (flag_at (destaddr % 0x800000)) vram).1
        else
          (write_words src
              ((if wrap32 (destaddr % 0x800000 + length) > 0x800000
                then 0x800000 - destaddr % 0x800000 else length) / 4) 0
              (banks_at (destaddr % 0x800000)) (flag_at (destaddr % 0x800000)) vram).1) := by
  have hd : destaddr % 0x800000 % 4 = 0 := by omega
  simp only [pvr2_vram64_write, and_7FFFFF, and_7FFFF8, and_4, and_3, shr_1, shr_2, hd,
    ne_eq, not_true_eq_false, if_false, Nat.sub_zero, Nat.zero_add]
  rw [start_banks destaddr h4, start_flag, write_words_state _ _ _ _ _ hd,
    banks_at_get _ (by omega)]

theorem no_clip (d length : Nat) (hin : d + length ≤ 0x800000) :
    (if wrap32 (d + length) > 0x800000 then 0x800000 - d else length) = length := by
  rw [if_neg]
  unfold wrap32
  omega

theorem pvr2_vram64_write_frame (destaddr : Nat) (src : Nat → Nat) (length : Nat)
    (vram : Nat → Nat) (x : Nat) (h4 : destaddr % 4 = 0)
    (hin : destaddr % 0x800000 + length ≤ 0x800000)
    (hx : ∀ k, k < length → x ≠ lin_offset (destaddr % 0x800000 + k)) :
    pvr2_vram64_write destaddr src length vram x = vram x := by
  have hd : destaddr % 0x800000 % 4 = 0 := by omega
  rw [pvr2_vram64_write_aligned _ _ _ _ h4, no_clip _ _ hin]
  have hw := write_words_frame src (length / 4) 0 (destaddr % 0x800000) vram x hd
    (fun k hk => hx k (by omega))
  split
  · rw [copy_bytes_apply, if_neg, hw]
    intro h
    have := hx (4 * (length / 4) + (x - lin_offset (destaddr % 0x800000 + 4 * (length / 4))))
      (by omega)
    rw [← Nat.add_assoc, lin_offset_add _ _ (by omega) (by omega)] at this
    omega
  · exact hw

theorem pvr2_vram64_write_written (destaddr : Nat) (src : Nat → Nat) (length : Nat)
    (vram : Nat → Nat) (k : Nat) (h4 : destaddr % 4 = 0)
    (hin : destaddr % 0x800000 + length ≤ 0x800000) (hk : k < length) :
    pvr2_vram64_write destaddr src length vram (lin_offset (destaddr % 0x800000 + k))
      = src k := by
  have hd : destaddr % 0x800000 % 4 = 0 := by omega
  rw [pvr2_vram64_write_aligned _ _ _ _ h4, no_clip _ _ hin]
  have hw : k < 4 * (length / 4) →
      (write_words src (length / 4) 0 (banks_at (destaddr % 0x800000))
        (flag_at (destaddr % 0x800000)) vram).1 (lin_offset (destaddr % 0x800000 + k))
        = src k := by
    intro hk4
    have := write_words_written src (length / 4) 0 (destaddr % 0x800000) vram k hd (by omega) hk4
    rwa [Nat.zero_add] at this
  split
  · rw [copy_bytes_apply]
    by_cases hk4 : k < 4 * (length / 4)
    · rw [if_neg, hw hk4]
      intro h
      have e := lin_offset_add (destaddr % 0x800000 + 4 * (length / 4))
        (lin_offset (destaddr % 0x800000 + k)
          - lin_offset (destaddr % 0x800000 + 4 * (length / 4))) (by omega) (by omega)
      have := lin_offset_inj (destaddr % 0x800000 + k)
        (destaddr % 0x800000 + 4 * (length / 4)
          + (lin_offset (destaddr % 0x800000 + k)
            - lin_offset (destaddr % 0x800000 + 4 * (length / 4))))
        (by omega) (by omega) (by omega)
      omega
    · have e := lin_offset_add (destaddr % 0x800000 + 4 * (length / 4))
        (k - 4 * (length / 4)) (by omega) (by omega)
      have e2 : destaddr % 0x800000 + 4 * (length / 4) + (k - 4 * (length / 4))
          = destaddr % 0x800000 + k := by omega
      rw [e2] at e
      rw [if_pos (by omega)]
      congr 1
      omega
  · exact hw (by omega)

theorem read_words_succ (vram : Nat → Nat) (n d : Nat) (banks : Banks) (f : Nat)
    (dest : Nat → Nat) :
    read_words vram (n + 1) d banks f dest
      = read_words vram n (d + 4) (banks.inc f 4) (lnot f)
          (copy_bytes vram 4 d (banks.get f) dest) := rfl

theorem read_words_state (vram : Nat → Nat) (n d a : Nat) (dest : Nat → Nat) (h4 : a % 4 = 0) :
    (read_words vram n d (banks_at a) (flag_at a) dest).2
      = (banks_at (a + 4 * n), flag_at (a + 4 * n)) := by
  induction n generalizing d a dest with
  | zero => rfl
  | succ n ih =>
    rw [read_words_succ, banks_at_inc a h4, lnot_flag_at, ih _ _ _ (by omega)]
    have : a + 4 + 4 * n = a + 4 * (n + 1) := by omega
    rw [this]

theorem read_words_apply (vram : Nat → Nat) (n d a : Nat) (dest : Nat → Nat) (x : Nat)
    (h4 : a % 4 = 0) :
    (read_words vram n d (banks_at a) (flag_at a) dest).1 x
      = if d ≤ x ∧ x < d + 4 * n then vram (lin_offset (a + (x - d))) else dest x := by
  induction n generalizing d a dest with
  | zero =>
    rw [if_neg (by omega)]
    rfl
  | succ n ih =>
    rw [read_words_succ, banks_at_inc a h4, lnot_flag_at, banks_at_get a h4,
      ih _ _ _ (by omega), copy_bytes_apply]
    by_cases h1 : d + 4 ≤ x ∧ x < d + 4 + 4 * n
    · rw [if_pos h1, if_pos (by omega)]
      congr 2
      omega
    · rw [if_neg h1]
      by_cases h2 : d ≤ x ∧ x < d + 4
      · rw [if_pos h2, if_pos (by omega), lin_offset_add a _ h4 (by omega)]
      · rw [if_neg h2, if_neg (by omega)]

theorem pvr2_vram64_read_aligned (dest : Nat → Nat) (srcaddr length : Nat)
    (vram : Nat → Nat) (h4 : srcaddr % 4 = 0) :
    pvr2_vram64_read dest srcaddr length vram
      = (if (if wrap32 (srcaddr % 0x800000 + length) > 0x800000
              then 0x800000 - srcaddr % 0x800000 else length) % 4 ≠ 0 then
          copy_bytes vram
            ((if wrap32 (srcaddr % 0x800000 + length) > 0x800000
              then 0x800000 - srcaddr % 0x800000 else length) % 4)
            (4 * ((if wrap32 (srcaddr % 0x800000 + length) > 0x800000
                then 0x800000 - srcaddr % 0x800000 else length) / 4))
            (lin_offset (srcaddr % 0x800000 + 4 *
              ((if wrap32 (srcaddr % 0x800000 + length) > 0x800000
                then 0x800000 - srcaddr % 0x800000 else length) / 4)))
            (read_words vram
              ((if wrap32 (srcaddr % 0x800000 + length) > 0x800000
                then 0x800000 - srcaddr % 0x800000 else length) / 4) 0
              (banks_at (srcaddr % 0x800000)) (flag_at (srcaddr % 0x800000)) dest).1
        else
          (read_words vram
              ((if wrap32 (srcaddr % 0x800000 + length) > 0x800000
                then 0x800000 - srcaddr % 0x800000 else length) / 4) 0
              (banks_at (srcaddr % 0x800000)) (flag_at (srcaddr % 0x800000)) dest).1) := by
  have hd : srcaddr % 0x800000 % 4 = 0 := by omega
  simp only [pvr2_vram64_read, and_7FFFFF, and_7FFFF8, and_4, and_3, shr_1, shr_2, hd,
    ne_eq, not_true_eq_false, if_false, Nat.sub_zero, Nat.zero_add]
  rw [start_banks srcaddr h4, start_flag, read_words_state _ _ _ _ _ hd,
    banks_at_get _ (by omega)]

theorem pvr2_vram64_read_apply (dest : Nat → Nat) (srcaddr length : Nat)
    (vram : Nat → Nat) (k : Nat) (h4 : srcaddr % 4 = 0)
    (hin : srcaddr % 0x800000 + length ≤ 0x800000) :
    pvr2_vram64_read dest srcaddr length vram k
      = if k < length then vram (lin_offset (srcaddr % 0x800000 + k)) else dest k := by
  have hd : srcaddr % 0x800000 % 4 = 0 := by omega
  rw [pvr2_vram64_read_aligned _ _ _ _ h4, no_clip _ _ hin]
  split
  · rw [copy_bytes_apply, read_words_apply _ _ _ _ _ _ hd]
    by_cases h1 : 4 * (length / 4) ≤ k ∧ k < 4 * (length / 4) + length % 4
    · rw [if_pos h1, if_pos (by omega), ← lin_offset_add _ _ (by omega) (by omega)]
      congr 2
      omega
    · rw [if_neg h1]
      by_cases h2 : k < 4 * (length / 4)
      · rw [if_pos (by omega), if_pos (by omega), Nat.sub_zero]
      · rw [if_neg (by omega), if_neg (by omega)]
  · rw [read_words_apply _ _ _ _ _ _ hd]
    by_cases h2 : k < length
    · rw [if_pos (by omega), if_pos h2, Nat.sub_zero]
    · rw [if_neg (by omega), if_neg h2]

/-! ## Plain writes and reads (claims C28 to C30) -/

/-- Claim C28, at the input on which it fails: for `destaddr = 1` and
`length = 12` the twelve bytes lie inside the region, and after
`pvr2_vram64_write( 1, src, 12 )` the offset of the layout for `src[0]`, which
is 1, holds `src[8]`, while the offset of the layout for `src[7]`, which is 4,
still holds the old byte of VRAM: the loop of the non-aligned start leaves
`banks[bank_flag]` where it was, so the word loop later stores `src[7..10]`
over the bytes of the start. -/
theorem write_unaligned_start_overwritten (src vram : Nat → Nat) :
    (1 &&& 0x7FFFFF) + 12 ≤ 0x800000 ∧
    pvr2_vram64_write 1 src 12 vram (bank_offset ((1 &&& 0x7FFFFF) + 0)) = src 8 ∧
    pvr2_vram64_write 1 src 12 vram (bank_offset ((1 &&& 0x7FFFFF) + 7))
      = vram (bank_offset ((1 &&& 0x7FFFFF) + 7)) ∧
    (List.range 8).map (pvr2_vram64_write 1 sampleSrc 12 zeros) = [8, 9, 10, 11, 0, 0, 0, 0] := by
  refine ⟨by decide, ?_, ?_, by decide⟩
  · have e : bank_offset ((1 &&& 0x7FFFFF) + 0) = 1 := by decide
    rw [e]
    simp [pvr2_vram64_write, and_7FFFFF, and_7FFFF8, and_4, and_3, shr_1, shr_2, wrap32,
      write_words, copy_bytes, store, Banks.get, Banks.inc, lnot]
  · have e : bank_offset ((1 &&& 0x7FFFFF) + 7) = 4 := by decide
    rw [e]
    simp [pvr2_vram64_write, and_7FFFFF, and_7FFFF8, and_4, and_3, shr_1, shr_2, wrap32,
      write_words, copy_bytes, store, Banks.get, Banks.inc, lnot]

/-- Claim C29: for every 4-byte aligned `addr` and every `length` with
`(addr & 0x7FFFFF) + length <= 0x800000`, after `pvr2_vram64_write( addr, src,
length )` the call `pvr2_vram64_read( dest, addr, length )` leaves `src[k]`
in `dest[k]` for every `k < length`. -/
theorem read_undoes_write (addr length k : Nat) (src dest vram : Nat → Nat)
    (h4 : addr % 4 = 0) (hin : (addr &&& 0x7FFFFF) + length ≤ 0x800000) (hk : k < length) :
    pvr2_vram64_read dest addr length (pvr2_vram64_write addr src length vram) k = src k := by
  rw [and_7FFFFF] at hin
  rw [pvr2_vram64_read_apply _ _ _ _ _ h4 hin, if_pos hk,
    pvr2_vram64_write_written _ _ _ _ _ h4 hin hk]

theorem read_undoes_write_witness :
    0x0500000C % 4 = 0 ∧ (0x0500000C &&& 0x7FFFFF) + 11 ≤ 0x800000 ∧ 10 < 11 ∧
    pvr2_vram64_read zeros 0x0500000C 11 (pvr2_vram64_write 0x0500000C sampleSrc 11 sampleVram) 10
      = sampleSrc 10 :=
  ⟨by decide, by decide, by decide,
    read_undoes_write 0x0500000C 11 10 sampleSrc zeros sampleVram (by decide) (by decide)
      (by decide)⟩

theorem write_words_last (src : Nat → Nat) (n s a : Nat) (vram : Nat → Nat) (j : Nat)
    (h4 : a % 4 = 0) (hj : j < 4) :
    (write_words src (n + 1) s (banks_at a) (flag_at a) vram).1 (lin_offset (a + 4 * n) + j)
      = src (s + 4 * n + j) := by
  induction n generalizing s a vram with
  | zero =>
    rw [write_words_succ, banks_at_get a h4]
    show copy_bytes src 4 (lin_offset a) s vram (lin_offset (a + 4 * 0) + j) = _
    rw [copy_bytes_apply, if_pos (by simp; omega)]
    congr 1
    simp
  | succ n ih =>
    rw [write_words_succ, banks_at_inc a h4, lnot_flag_at, banks_at_get a h4]
    have := ih (s + 4) (a + 4) (copy_bytes src 4 (lin_offset a) s vram) (by omega)
    have e1 : a + 4 + 4 * n = a + 4 * (n + 1) := by omega
    have e2 : s + 4 + 4 * n = s + 4 * (n + 1) := by omega
    rw [e1, e2] at this
    exact this

/-- The last word of an aligned write whose length is a multiple of 4 and is
not clipped. -/
theorem pvr2_vram64_write_last (destaddr : Nat) (src : Nat → Nat) (n : Nat)
    (vram : Nat → Nat) (j : Nat) (h4 : destaddr % 4 = 0)
    (hclip : wrap32 (destaddr % 0x800000 + 4 * (n + 1)) ≤ 0x800000) (hj : j < 4) :
    pvr2_vram64_write destaddr src (4 * (n + 1)) vram
        (lin_offset (destaddr % 0x800000 + 4 * n) + j)
      = src (4 * n + j) := by
  have hd : destaddr % 0x800000 % 4 = 0 := by omega
  have hL : (if wrap32 (destaddr % 0x800000 + 4 * (n + 1)) > 0x800000
      then 0x800000 - destaddr % 0x800000 else 4 * (n + 1)) = 4 * (n + 1) := if_neg (by omega)
  rw [pvr2_vram64_write_aligned _ _ _ _ h4, hL, if_neg (by omega)]
  have e : 4 * (n + 1) / 4 = n + 1 := by omega
  rw [e, write_words_last _ _ _ _ _ _ hd hj, Nat.zero_add]

/-- The last word of an aligned read whose length is a multiple of 4 and is
not clipped. -/
theorem pvr2_vram64_read_last (dest : Nat → Nat) (srcaddr n : Nat)
    (vram : Nat → Nat) (j : Nat) (h4 : srcaddr % 4 = 0)
    (hclip : wrap32 (srcaddr % 0x800000 + 4 * (n + 1)) ≤ 0x800000) (hj : j < 4) :
    pvr2_vram64_read dest srcaddr (4 * (n + 1)) vram (4 * n + j)
      = vram (lin_offset (srcaddr % 0x800000 + 4 * n) + j) := by
  have hd : srcaddr % 0x800000 % 4 = 0 := by omega
  have hL : (if wrap32 (srcaddr % 0x800000 + 4 * (n + 1)) > 0x800000
      then 0x800000 - srcaddr % 0x800000 else 4 * (n + 1)) = 4 * (n + 1) := if_neg (by omega)
  rw [pvr2_vram64_read_aligned _ _ _ _ h4, hL, if_neg (by omega)]
  have e : 4 * (n + 1) / 4 = n + 1 := by omega
  rw [e, read_words_apply _ _ _ _ _ _ hd, if_pos (by omega), Nat.sub_zero,
    ← Nat.add_assoc, lin_offset_add _ _ (by omega) hj]

/-- Claim C30, at the input on which it fails: for `destaddr = 4` and the
32-bit `length = 0xFFFFFFFC` the sum `destaddr + length` is 0 modulo `2 ^ 32`,
so the length is not clipped, although only `0x7FFFFC` bytes are left in the
region: `pvr2_vram64_write` stores `src[0xFFFFFFFB]` at the VRAM offset
`0x803FFFFF`, which is outside `[0, 0x800000)`, and `pvr2_vram64_read` loads
the byte at that offset into `dest[0xFFFFFFFB]`. -/
theorem length_clip_wraps (src dest vram : Nat → Nat) :
    0xFFFFFFFC < 4294967296 ∧ 0x800000 - (4 &&& 0x7FFFFF) < 0xFFFFFFFC ∧
    wrap32 ((4 &&& 0x7FFFFF) + 0xFFFFFFFC) = 0 ∧
    pvr2_vram64_write 4 src 0xFFFFFFFC vram 0x803FFFFF = src 0xFFFFFFFB ∧
    pvr2_vram64_read dest 4 0xFFFFFFFC vram 0xFFFFFFFB = vram 0x803FFFFF :=
  ⟨by decide, by decide, by decide,
    pvr2_vram64_write_last 4 src 0x3FFFFFFE vram 3 (by decide) (by decide) (by decide),
    pvr2_vram64_read_last dest 4 0x3FFFFFFE vram 3 (by decide) (by decide) (by decide)⟩

/-! ## Writes with a line stride -/

theorem copy_bytes_shift (src : Nat → Nat) (c n d s : Nat) (dest : Nat → Nat) :
    copy_bytes (fun k => src (c + k)) n d s dest = copy_bytes src n d (c + s) dest := by
  funext x
  rw [copy_bytes_apply, copy_bytes_apply, Nat.add_assoc]

theorem write_words_shift (src : Nat → Nat) (c n s : Nat) (banks : Banks) (f : Nat)
    (vram : Nat → Nat) :
    write_words (fun k => src (c + k)) n s banks f vram = write_words src n (c + s) banks f vram := by
  induction n generalizing s banks f vram with
  | zero => rfl
  | succ n ih =>
    rw [write_words_succ, write_words_succ, ih, copy_bytes_shift, Nat.add_assoc]

theorem write_lines_succ (src : Nat → Nat) (lw gap gf n s : Nat) (banks : Banks) (f : Nat)
    (vram : Nat → Nat) :
    write_lines src lw gap gf (n + 1) s banks f vram
      = if gf ≠ 0 then
          write_lines src lw gap gf n (s + 4 * lw)
            ((((write_words src lw s banks f vram).2.1.inc 0 (4 * gap)).inc 1 (4 * gap)).inc
              (write_words src lw s banks f vram).2.2 4)
            (lnot (write_words src lw s banks f vram).2.2)
            (write_words src lw s banks f vram).1
        else
          write_lines src lw gap gf n (s + 4 * lw)
            (((write_words src lw s banks f vram).2.1.inc 0 (4 * gap)).inc 1 (4 * gap))
            (write_words src lw s banks f vram).2.2
            (write_words src lw s banks f vram).1 := rfl

theorem write_lines_zero (src : Nat → Nat) (lw gap gf s : Nat) (banks : Banks) (f : Nat)
    (vram : Nat → Nat) :
    write_lines src lw gap gf 0 s banks f vram = (vram, banks, f) := rfl

theorem banks_at_gap (a g : Nat) :
    ((banks_at a).inc 0 (4 * (g / 8))).inc 1 (4 * (g / 8)) = banks_at (a + g / 8 * 8) := by
  unfold Banks.inc banks_at
  simp only [if_true, Nat.one_ne_zero, if_false, Banks.mk.injEq]
  omega

theorem flag_at_gap (a g : Nat) : flag_at (a + g / 8 * 8) = flag_at a := by
  unfold flag_at
  omega

/-- One line of `write_lines` when the gap of the lines is `g` bytes. -/
theorem write_lines_step (src : Nat → Nat) (lw g n s a : Nat) (vram : Nat → Nat)
    (h4 : a % 4 = 0) (hg : g % 4 = 0) (hg31 : g < 0x80000000) :
    write_lines src lw (sar3 g) (g &&& 4) (n + 1) s (banks_at a) (flag_at a) vram
      = write_lines src lw (sar3 g) (g &&& 4) n (s + 4 * lw)
          (banks_at (a + 4 * lw + g)) (flag_at (a + 4 * lw + g))
          (write_words src lw s (banks_at a) (flag_at a) vram).1 := by
  have hs : sar3 g = g / 8 := by
    unfold sar3
    rw [if_pos hg31, shr_3]
  rw [write_lines_succ, write_words_state _ _ _ _ _ h4, hs, and_4]
  simp only []
  rw [banks_at_gap]
  by_cases h : g % 8 / 4 * 4 = 0
  · rw [if_neg (by simpa using h), ← flag_at_gap (a + 4 * lw) g]
    have e : a + 4 * lw + g / 8 * 8 = a + 4 * lw + g := by omega
    rw [e]
  · rw [if_pos h, ← flag_at_gap (a + 4 * lw) g, banks_at_inc _ (by omega), lnot_flag_at]
    have e : a + 4 * lw + g / 8 * 8 + 4 = a + 4 * lw + g := by omega
    rw [e]

theorem write_lines_one (src : Nat → Nat) (lw gap gf s : Nat) (banks : Banks) (f : Nat)
    (vram : Nat → Nat) :
    (write_lines src lw gap gf 1 s banks f vram).1 = (write_words src lw s banks f vram).1 := by
  rw [write_lines_succ]
  split <;> rfl

theorem start_banks_stride (destaddr : Nat) (h4 : destaddr % 4 = 0) :
    (if ¬ destaddr % 8 / 4 * 4 / 4 = 0 then
        Banks.inc { b0 := destaddr % 0x800000 / 8 * 8 / 2,
                    b1 := destaddr % 0x800000 / 8 * 8 / 2 + 0x400000 } 0 4
      else { b0 := destaddr % 0x800000 / 8 * 8 / 2,
             b1 := destaddr % 0x800000 / 8 * 8 / 2 + 0x400000 })
      = banks_at (destaddr % 0x800000) := by
  unfold Banks.inc banks_at
  split <;> simp only [Banks.mk.injEq, if_true] <;> omega

theorem pvr2_vram64_write_stride_aligned (destaddr : Nat) (src : Nat → Nat)
    (line_bytes line_stride_bytes line_count : Nat) (vram : Nat → Nat) (h4 : destaddr % 4 = 0) :
    pvr2_vram64_write_stride destaddr src line_bytes line_stride_bytes line_count vram
      = (write_lines src (line_bytes / 4) (sar3 (sub32 line_stride_bytes line_bytes))
          (sub32 line_stride_bytes line_bytes &&& 4) line_count 0
          (banks_at (destaddr % 0x800000)) (flag_at (destaddr % 0x800000)) vram).1 := by
  simp only [pvr2_vram64_write_stride, and_7FFFF8, shr_1, shr_2, ne_eq]
  rw [and_4 destaddr, start_banks_stride destaddr h4, start_flag]

/-- A single line written by `pvr2_vram64_write`. -/
theorem pvr2_vram64_write_line (destaddr : Nat) (src : Nat → Nat) (lw : Nat)
    (vram : Nat → Nat) (h4 : destaddr % 4 = 0)
    (hin : destaddr % 0x800000 + 4 * lw ≤ 0x800000) :
    pvr2_vram64_write destaddr src (4 * lw) vram
      = (write_words src lw 0 (banks_at (destaddr % 0x800000))
          (flag_at (destaddr % 0x800000)) vram).1 := by
  rw [pvr2_vram64_write_aligned _ _ _ _ h4, no_clip _ _ hin, if_neg (by omega)]
  have e : 4 * lw / 4 = lw := by omega
  rw [e]

theorem line_addr (destaddr stride i lb : Nat) (h4 : destaddr % 4 = 0) (hs : stride % 4 = 0)
    (hin : destaddr % 0x800000 + i * stride + lb ≤ 0x800000) (hlb : 0 < lb) :
    wrap32 (destaddr + i * stride) % 4 = 0 ∧
    wrap32 (destaddr + i * stride) % 0x800000 = destaddr % 0x800000 + i * stride := by
  have h : i * stride % 4 = 0 := by
    rw [Nat.mul_mod, hs]
    simp
  unfold wrap32
  constructor <;> omega

theorem write_line_by_line_succ (destaddr : Nat) (src : Nat → Nat) (lb stride n i : Nat)
    (vram : Nat → Nat) :
    write_line_by_line destaddr src lb stride (n + 1) i vram
      = write_line_by_line destaddr src lb stride n (i + 1)
          (pvr2_vram64_write (wrap32 (destaddr + i * stride)) (fun k => src (i * lb + k)) lb
            vram) := rfl

/-- Line `i` of the line-by-line writes is the word loop at the cursor of the
line. -/
theorem line_write_eq (destaddr : Nat) (src : Nat → Nat) (lw stride i : Nat) (vram : Nat → Nat)
    (h4 : destaddr % 4 = 0) (hs : stride % 4 = 0) (hlw : 0 < lw)
    (hin : destaddr % 0x800000 + i * stride + 4 * lw ≤ 0x800000) :
    pvr2_vram64_write (wrap32 (destaddr + i * stride)) (fun k => src (i * (4 * lw) + k))
        (4 * lw) vram
      = (write_words src lw (i * (4 * lw)) (banks_at (destaddr % 0x800000 + i * stride))
          (flag_at (destaddr % 0x800000 + i * stride)) vram).1 := by
  obtain ⟨ha, hb⟩ := line_addr destaddr stride i (4 * lw) h4 hs hin (by omega)
  rw [pvr2_vram64_write_line _ _ _ _ ha (by rw [hb]; omega), hb, write_words_shift,
    Nat.add_zero]

theorem stride_lines_eq (destaddr : Nat) (src : Nat → Nat) (lw stride : Nat)
    (h4 : destaddr % 4 = 0) (hs : stride % 4 = 0) (hlw : 0 < lw) (hge : 4 * lw ≤ stride)
    (n i : Nat) (vram : Nat → Nat)
    (hin : ∀ j, i ≤ j → j < i + n → destaddr % 0x800000 + j * stride + 4 * lw ≤ 0x800000) :
    (write_lines src lw (sar3 (sub32 stride (4 * lw))) (sub32 stride (4 * lw) &&& 4) n
        (i * (4 * lw)) (banks_at (destaddr % 0x800000 + i * stride))
        (flag_at (destaddr % 0x800000 + i * stride)) vram).1
      = write_line_by_line destaddr src (4 * lw) stride n i vram := by
  induction n generalizing i vram with
  | zero => rfl
  | succ n ih =>
    have hi := hin i (Nat.le_refl i) (by omega)
    have hmod : i * stride % 4 = 0 := by
      rw [Nat.mul_mod, hs]
      simp
    rw [write_line_by_line_succ, line_write_eq _ _ _ _ _ _ h4 hs hlw hi]
    cases n with
    | zero =>
      rw [write_lines_one]
      rfl
    | succ m =>
      have hi1 := hin (i + 1) (by omega) (by omega)
      rw [Nat.succ_mul i stride] at hi1
      have hsub : sub32 stride (4 * lw) = stride - 4 * lw := by
        unfold sub32
        omega
      have e1 : destaddr % 0x800000 + i * stride + 4 * lw + (stride - 4 * lw)
          = destaddr % 0x800000 + (i + 1) * stride := by
        rw [Nat.succ_mul i stride]
        omega
      have e2 : i * (4 * lw) + 4 * lw = (i + 1) * (4 * lw) := by
        rw [Nat.succ_mul i (4 * lw)]
      have := ih (i + 1)
        ((write_words src lw (i * (4 * lw)) (banks_at (destaddr % 0x800000 + i * stride))
          (flag_at (destaddr % 0x800000 + i * stride)) vram).1)
        (fun j h1 h2 => hin j (by omega) (by omega))
      rw [← this, hsub, write_lines_step _ _ _ _ _ _ _ (by omega) (by omega) (by omega), e1, e2]

theorem write_line_by_line_frame (destaddr : Nat) (src : Nat → Nat) (lw stride : Nat)
    (h4 : destaddr % 4 = 0) (hs : stride % 4 = 0) (hlw : 0 < lw)
    (n i : Nat) (vram : Nat → Nat) (x : Nat)
    (hin : ∀ j, i ≤ j → j < i + n → destaddr % 0x800000 + j * stride + 4 * lw ≤ 0x800000)
    (hx : ∀ j k, i ≤ j → j < i + n → k < 4 * lw →
      x ≠ lin_offset (destaddr % 0x800000 + j * stride + k)) :
    write_line_by_line destaddr src (4 * lw) stride n i vram x = vram x := by
  induction n generalizing i vram with
  | zero => rfl
  | succ n ih =>
    have hi := hin i (Nat.le_refl i) (by omega)
    obtain ⟨ha, hb⟩ := line_addr destaddr stride i (4 * lw) h4 hs hi (by omega)
    rw [write_line_by_line_succ, ih (i + 1) _ (fun j h1 h2 => hin j (by omega) (by omega))
      (fun j k h1 h2 h3 => hx j k (by omega) (by omega) h3),
      pvr2_vram64_write_frame _ _ _ _ _ ha (by rw [hb]; omega)]
    intro k hk
    rw [hb]
    exact hx i k (Nat.le_refl i) (by omega) hk

theorem write_lines_empty (src : Nat → Nat) (gap gf n s : Nat) (banks : Banks) (f : Nat)
    (vram : Nat → Nat) :
    (write_lines src 0 gap gf n s banks f vram).1 = vram := by
  induction n generalizing s banks f with
  | zero => rfl
  | succ n ih =>
    rw [write_lines_succ]
    simp only [write_words]
    split <;> exact ih _ _ _

theorem write_line_by_line_empty (destaddr : Nat) (src : Nat → Nat) (stride : Nat)
    (h4 : destaddr % 4 = 0) (hs : stride % 4 = 0) (n i : Nat) (vram : Nat → Nat) :
    write_line_by_line destaddr src 0 stride n i vram = vram := by
  induction n generalizing i vram with
  | zero => rfl
  | succ n ih =>
    have hmod : i * stride % 4 = 0 := by
      rw [Nat.mul_mod, hs]
      simp
    have ha : wrap32 (destaddr + i * stride) % 4 = 0 := by
      unfold wrap32
      omega
    rw [write_line_by_line_succ, ih, pvr2_vram64_write_aligned _ _ _ _ ha]
    have hc : (if wrap32 (wrap32 (destaddr + i * stride) % 0x800000 + 0) > 0x800000
        then 0x800000 - wrap32 (destaddr + i * stride) % 0x800000 else 0) = 0 := by
      rw [if_neg]
      unfold wrap32
      omega
    rw [hc]
    rfl

/-! ## Writes with a line stride (claim C24) -/

/-- Claim C24: for a 32-bit aligned `destaddr`, `line_bytes` and
`line_stride_bytes` multiples of 4 with `line_stride_bytes >= line_bytes`, and
every line of the image inside the 8 MB region, the VRAM after
`pvr2_vram64_write_stride` is the VRAM after the calls `pvr2_vram64_write(
destaddr + i*line_stride_bytes, src + i*line_bytes, line_bytes )` for
`i = 0 .. line_count-1`, and every byte that is not a byte of a line, so every
byte of the gaps between the lines, is unchanged. -/
theorem write_stride_line_by_line (destaddr line_bytes line_stride_bytes line_count : Nat)
    (src vram : Nat → Nat)
    (ha : destaddr % 4 = 0) (hb : line_bytes % 4 = 0) (hs : line_stride_bytes % 4 = 0)
    (hge : line_bytes ≤ line_stride_bytes)
    (hin : ∀ i, i < line_count →
      (destaddr &&& 0x7FFFFF) + i * line_stride_bytes + line_bytes ≤ 0x800000) :
    pvr2_vram64_write_stride destaddr src line_bytes line_stride_bytes line_count vram
      = write_line_by_line destaddr src line_bytes line_stride_bytes line_count 0 vram ∧
    ∀ x, (∀ i k, i < line_count → k < line_bytes →
        x ≠ bank_offset ((destaddr &&& 0x7FFFFF) + i * line_stride_bytes + k)) →
      pvr2_vram64_write_stride destaddr src line_bytes line_stride_bytes line_count vram x
        = vram x := by
  simp only [and_7FFFFF] at hin ⊢
  obtain ⟨lw, rfl⟩ : ∃ lw, line_bytes = 4 * lw := ⟨line_bytes / 4, by omega⟩
  have e4 : 4 * lw / 4 = lw := by omega
  rw [pvr2_vram64_write_stride_aligned _ _ _ _ _ _ ha, e4]
  rcases Nat.eq_zero_or_pos lw with h0 | hlw
  · subst h0
    rw [write_lines_empty]
    exact ⟨(write_line_by_line_empty destaddr src line_stride_bytes ha hs line_count 0 vram).symm,
      fun _ _ => rfl⟩
  · have key := stride_lines_eq destaddr src lw line_stride_bytes ha hs hlw hge line_count 0 vram
      (fun j _ h2 => hin j (by omega))
    rw [Nat.zero_mul, Nat.zero_mul, Nat.add_zero] at key
    rw [key]
    refine ⟨rfl, fun x hx => ?_⟩
    apply write_line_by_line_frame destaddr src lw line_stride_bytes ha hs hlw line_count 0 vram x
      (fun j _ h2 => hin j (by omega))
    intro j k _ h2 h3
    have := hx j k (by omega) h3
    rwa [bank_offset_eq _ (by have := hin j (by omega); omega)] at this

theorem write_stride_line_by_line_witness :
    0x05000004 % 4 = 0 ∧ 8 % 4 = 0 ∧ 20 % 4 = 0 ∧ 8 ≤ 20 ∧
    (∀ i, i < 3 → (0x05000004 &&& 0x7FFFFF) + i * 20 + 8 ≤ 0x800000) ∧
    (pvr2_vram64_write_stride 0x05000004 sampleSrc 8 20 3 sampleVram
      = write_line_by_line 0x05000004 sampleSrc 8 20 3 0 sampleVram ∧
    ∀ x, (∀ i k, i < 3 → k < 8 → x ≠ bank_offset ((0x05000004 &&& 0x7FFFFF) + i * 20 + k)) →
      pvr2_vram64_write_stride 0x05000004 sampleSrc 8 20 3 sampleVram x = sampleVram x) :=
  ⟨by decide, by decide, by decide, by decide, by decide,
    write_stride_line_by_line 0x05000004 8 20 3 sampleSrc sampleVram (by decide) (by decide)
      (by decide) (by decide) (by decide)⟩

/-! ## Reads with a line stride (claim C25) -/

/-- Claim C25, at the input on which it fails: for `addr = 0`, `line_bytes =
4`, `stride = 8` and `line_count = 2` the read takes the branch
`src_line_bytes > dest_line_bytes`, which does not assign `dest_line_gap`.
For every nonzero value `g + 1` of that local, the second line of `src` is
stored at `dest[4 + 4*(g+1)]` instead of `dest[4]`, and `dest[4]` keeps the
byte it had. -/
theorem read_stride_gap_unassigned (g : Nat) (src dest vram : Nat → Nat) :
    0 % 4 = 0 ∧ 4 % 4 = 0 ∧ 8 % 4 = 0 ∧ 4 < 8 ∧ (0 &&& 0x7FFFFF) + 1 * 8 + 4 ≤ 0x800000 ∧
    pvr2_vram64_read_stride (g + 1) dest 4 0 8 2 (pvr2_vram64_write_stride 0 src 4 8 2 vram) 4
      = dest 4 ∧
    pvr2_vram64_read_stride (g + 1) dest 4 0 8 2 (pvr2_vram64_write_stride 0 src 4 8 2 vram)
      (4 + 4 * (g + 1)) = src 4 ∧
    (List.range 12).map
      (pvr2_vram64_read_stride 1 zeros 4 0 8 2 (pvr2_vram64_write_stride 0 sampleSrc 4 8 2 zeros))
      = [1, 2, 3, 4, 0, 0, 0, 0, 5, 6, 7, 8] := by
  refine ⟨by decide, by decide, by decide, by decide, by decide, ?_, ?_, by decide⟩
  · simp [pvr2_vram64_read_stride, pvr2_vram64_write_stride, and_7FFFF8, and_4, shr_1, shr_2,
      sar3, sub32, shr_3, read_lines, read_words, write_lines, write_words, copy_bytes_apply,
      Banks.get, Banks.inc, lnot]
  · simp [pvr2_vram64_read_stride, pvr2_vram64_write_stride, and_7FFFF8, and_4, shr_1, shr_2,
      sar3, sub32, shr_3, read_lines, read_words, write_lines, write_words, copy_bytes_apply,
      Banks.get, Banks.inc, lnot]

/-! ## Twiddled 16-bit images -/

theorem lin_offset_arith (a : Nat) :
    lin_offset a = a / 8 * 4 + a % 4 + 0x400000 * (a / 4 % 2) := by
  unfold lin_offset
  split <;> omega

theorem detwiddle_16_base (vram : Nat → Nat) (fuel : Nat) (dest : Nat → Nat)
    (a x1 y1 stride : Nat) (ha : a % 2 = 0) :
    pvr2_vram64_detwiddle_16 vram (fuel + 1) dest (tw_banks_16 a) (a % 4 / 2) x1 y1 2 stride
      = some (store (store (store (store dest (cell stride x1 y1 0 0)
                (load16 vram (lin_offset a)))
              (cell stride x1 y1 0 1) (load16 vram (lin_offset (a + 2))))
            (cell stride x1 y1 1 0) (load16 vram (lin_offset (a + 4))))
          (cell stride x1 y1 1 1) (load16 vram (lin_offset (a + 6))),
        tw_banks_16 (a + 8)) := by
  have h8 : (a + 8) % 4 = a % 4 := by omega
  rcases (by omega : a % 4 = 0 ∨ a % 4 = 2) with h | h
  · have e2 : lin_offset (a + 2) = lin_offset a + 2 := by simp only [lin_offset_arith]; omega
    have e6 : lin_offset (a + 6) = lin_offset (a + 4) + 2 := by
      simp only [lin_offset_arith]; omega
    have e8 : lin_offset (a + 8) = lin_offset a + 2 + 2 := by
      simp only [lin_offset_arith]; omega
    have e12 : lin_offset (a + 8 + 4) = lin_offset (a + 4) + 2 + 2 := by
      simp only [lin_offset_arith]; omega
    simp [pvr2_vram64_detwiddle_16, tw_banks_16, h, h8, Banks.get, Banks.inc, cell, e2, e6, e8,
      e12]
  · have e4 : lin_offset (a + 4) = lin_offset (a + 2) + 2 := by
      simp only [lin_offset_arith]; omega
    have e6 : lin_offset (a + 6) = lin_offset a + 2 := by
      simp only [lin_offset_arith]; omega
    have e8 : lin_offset (a + 8) = lin_offset a + 2 + 2 := by
      simp only [lin_offset_arith]; omega
    have e12 : lin_offset (a + 10) = lin_offset (a + 2) + 2 + 2 := by
      simp only [lin_offset_arith]; omega
    simp [pvr2_vram64_detwiddle_16, tw_banks_16, h, h8, Banks.get, Banks.inc, cell, e4, e6, e8,
      e12]

theorem cell_eq_iff (stride xa ya x y xb yb x2 y2 : Nat) (h1 : xa + x < stride)
    (h2 : xb + x2 < stride) :
    cell stride xa ya x y = cell stride xb yb x2 y2 ↔ xa + x = xb + x2 ∧ ya + y = yb + y2 := by
  unfold cell
  constructor
  · intro h
    have hpos : 0 < stride := by omega
    have e1 : (ya + y) * stride + xa + x = stride * (ya + y) + (xa + x) := by
      rw [Nat.mul_comm, Nat.add_assoc]
    have e2 : (yb + y2) * stride + xb + x2 = stride * (yb + y2) + (xb + x2) := by
      rw [Nat.mul_comm, Nat.add_assoc]
    rw [e1, e2] at h
    have hm := congrArg (fun n => n % stride) h
    have hd := congrArg (fun n => n / stride) h
    simp only [Nat.mul_add_mod, Nat.mod_eq_of_lt h1, Nat.mod_eq_of_lt h2] at hm
    simp only [Nat.mul_add_div hpos, Nat.div_eq_of_lt h1, Nat.div_eq_of_lt h2,
      Nat.add_zero] at hd
    exact ⟨hm, hd⟩
  · rintro ⟨h, h'⟩
    rw [h', Nat.add_assoc, h, ← Nat.add_assoc]

theorem cell_right (stride x1 y1 s x y : Nat) (hx : s ≤ x) :
    cell stride (x1 + s) y1 (x - s) y = cell stride x1 y1 x y := by
  unfold cell
  omega

theorem cell_down (stride x1 y1 s x y : Nat) (hy : s ≤ y) :
    cell stride x1 (y1 + s) x (y - s) = cell stride x1 y1 x y := by
  unfold cell
  have : y1 + s + (y - s) = y1 + y := by omega
  rw [this]

theorem cell_diag (stride x1 y1 s x y : Nat) (hx : s ≤ x) (hy : s ≤ y) :
    cell stride (x1 + s) (y1 + s) (x - s) (y - s) = cell stride x1 y1 x y := by
  unfold cell
  have : y1 + s + (y - s) = y1 + y := by omega
  rw [this]
  omega

theorem twiddle_succ (k x y : Nat) :
    twiddle (k + 1) x y = y % 2 + 2 * (x % 2) + 4 * twiddle k (x / 2) (y / 2) := rfl

theorem twiddle_lt (k x y : Nat) : twiddle k x y < 4 ^ k := by
  induction k generalizing x y with
  | zero => simp [twiddle]
  | succ k ih =>
    have := ih (x / 2) (y / 2)
    rw [twiddle_succ, pow_succ]
    omega

theorem twiddle_quadrant (k bx b x y : Nat) (hbx : bx < 2) (hb : b < 2)
    (hx : x < 2 ^ k) (hy : y < 2 ^ k) :
    twiddle (k + 1) (bx * 2 ^ k + x) (b * 2 ^ k + y)
      = 4 ^ k * (2 * bx + b) + twiddle k x y := by
  induction k generalizing x y with
  | zero =>
    have hx0 : x = 0 := by simpa using hx
    have hy0 : y = 0 := by simpa using hy
    subst hx0 hy0
    simp [twiddle]
    omega
  | succ k ih =>
    rw [pow_succ] at hx hy
    have e1 : (bx * 2 ^ (k + 1) + x) / 2 = bx * 2 ^ k + x / 2 := by
      rw [pow_succ, ← Nat.mul_assoc]
      omega
    have e2 : (b * 2 ^ (k + 1) + y) / 2 = b * 2 ^ k + y / 2 := by
      rw [pow_succ, ← Nat.mul_assoc]
      omega
    have e3 : (bx * 2 ^ (k + 1) + x) % 2 = x % 2 := by
      rw [pow_succ, ← Nat.mul_assoc]
      omega
    have e4 : (b * 2 ^ (k + 1) + y) % 2 = y % 2 := by
      rw [pow_succ, ← Nat.mul_assoc]
      omega
    rw [twiddle_succ, e1, e2, e3, e4, ih (x / 2) (y / 2) (by omega) (by omega),
      twiddle_succ k x y, pow_succ 4 k]
    have : 4 ^ k * 4 * (2 * bx + b) = 4 * (4 ^ k * (2 * bx + b)) := by ring
    rw [this]
    generalize 4 ^ k * (2 * bx + b) = p
    omega

theorem detwiddle_16_rec (vram : Nat → Nat) (fuel : Nat) (dest : Nat → Nat) (banks : Banks)
    (offset x1 y1 width stride : Nat) (hw : width ≠ 2) :
    pvr2_vram64_detwiddle_16 vram (fuel + 1) dest banks offset x1 y1 width stride
      = (pvr2_vram64_detwiddle_16 vram fuel dest banks offset x1 y1 (width / 2) stride).bind
        fun r =>
        (pvr2_vram64_detwiddle_16 vram fuel r.1 r.2 offset x1 (y1 + width / 2) (width / 2)
          stride).bind
        fun r =>
        (pvr2_vram64_detwiddle_16 vram fuel r.1 r.2 offset (x1 + width / 2) y1 (width / 2)
          stride).bind
        fun r =>
        pvr2_vram64_detwiddle_16 vram fuel r.1 r.2 offset (x1 + width / 2) (y1 + width / 2)
          (width / 2) stride := by
  rw [pvr2_vram64_detwiddle_16]
  simp only [if_neg hw, shr_1]

theorem cell_ne (stride xa ya x y xb yb x2 y2 : Nat) (h1 : xa + x < stride)
    (h2 : xb + x2 < stride) (h : xa + x ≠ xb + x2 ∨ ya + y ≠ yb + y2) :
    cell stride xa ya x y ≠ cell stride xb yb x2 y2 := by
  intro he
  have := (cell_eq_iff stride xa ya x y xb yb x2 y2 h1 h2).1 he
  omega

theorem store_eq (mem : Nat → Nat) (a v : Nat) : store mem a v a = v := by
  simp [store]

theorem store_ne (mem : Nat → Nat) (a v x : Nat) (h : x ≠ a) : store mem a v x = mem x := by
  simp [store, h]

theorem detwiddle_16_block (vram : Nat → Nat) (k : Nat) :
    ∀ (fuel : Nat) (dest : Nat → Nat) (a x1 y1 stride : Nat),
      k + 1 ≤ fuel → a % 2 = 0 → x1 + 2 ^ (k + 1) ≤ stride →
      ∃ d, pvr2_vram64_detwiddle_16 vram fuel dest (tw_banks_16 a) (a % 4 / 2) x1 y1
            (2 ^ (k + 1)) stride = some (d, tw_banks_16 (a + 2 * 4 ^ (k + 1))) ∧
        (∀ x y, x < 2 ^ (k + 1) → y < 2 ^ (k + 1) →
          d (cell stride x1 y1 x y)
            = load16 vram (lin_offset (a + 2 * twiddle (k + 1) x y))) ∧
        (∀ j, (∀ x y, x < 2 ^ (k + 1) → y < 2 ^ (k + 1) → j ≠ cell stride x1 y1 x y) →
          d j = dest j) := by
  induction k with
  | zero =>
    intro fuel dest a x1 y1 stride hf ha hs
    obtain ⟨f, rfl⟩ : ∃ f, fuel = f + 1 := ⟨fuel - 1, by omega⟩
    have h2 : 2 ^ (0 + 1) = 2 := rfl
    have h4 : a + 2 * 4 ^ (0 + 1) = a + 8 := rfl
    rw [h2] at hs
    rw [h2, h4]
    refine ⟨_, detwiddle_16_base vram f dest a x1 y1 stride ha, ?_, ?_⟩
    · intro x y hx hy
      have n01 : cell stride x1 y1 0 0 ≠ cell stride x1 y1 0 1 :=
        cell_ne _ _ _ _ _ _ _ _ _ (by omega) (by omega) (by omega)
      have n02 : cell stride x1 y1 0 0 ≠ cell stride x1 y1 1 0 :=
        cell_ne _ _ _ _ _ _ _ _ _ (by omega) (by omega) (by omega)
      have n03 : cell stride x1 y1 0 0 ≠ cell stride x1 y1 1 1 :=
        cell_ne _ _ _ _ _ _ _ _ _ (by omega) (by omega) (by omega)
      have n12 : cell stride x1 y1 0 1 ≠ cell stride x1 y1 1 0 :=
        cell_ne _ _ _ _ _ _ _ _ _ (by omega) (by omega) (by omega)
      have n13 : cell stride x1 y1 0 1 ≠ cell stride x1 y1 1 1 :=
        cell_ne _ _ _ _ _ _ _ _ _ (by omega) (by omega) (by omega)
      have n23 : cell stride x1 y1 1 0 ≠ cell stride x1 y1 1 1 :=
        cell_ne _ _ _ _ _ _ _ _ _ (by omega) (by omega) (by omega)
      interval_cases x <;> interval_cases y
      · rw [store_ne _ _ _ _ n03, store_ne _ _ _ _ n02, store_ne _ _ _ _ n01, store_eq]
        rfl
      · rw [store_ne _ _ _ _ n13, store_ne _ _ _ _ n12, store_eq]
        rfl
      · rw [store_ne _ _ _ _ n23, store_eq]
        rfl
      · rw [store_eq]
        rfl
    · intro j hj
      rw [store_ne _ _ _ _ (hj 1 1 (by omega) (by omega)),
        store_ne _ _ _ _ (hj 1 0 (by omega) (by omega)),
        store_ne _ _ _ _ (hj 0 1 (by omega) (by omega)),
        store_ne _ _ _ _ (hj 0 0 (by omega) (by omega))]
  | succ k ih =>
    intro fuel dest a x1 y1 stride hf ha hs
    obtain ⟨f, rfl⟩ : ∃ f, fuel = f + 1 := ⟨fuel - 1, by omega⟩
    have hs2 : 2 ^ (k + 1 + 1) = 2 * 2 ^ (k + 1) := by rw [pow_succ]; omega
    have hq4 : 4 ^ (k + 1 + 1) = 4 * 4 ^ (k + 1) := by rw [pow_succ]; omega
    have hq : 4 ^ (k + 1) = 4 * 4 ^ k := by rw [pow_succ]; omega
    have hsge : 2 ≤ 2 ^ (k + 1) := by
      have : 0 < 2 ^ k := Nat.two_pow_pos k
      rw [pow_succ]; omega
    have tq := fun bx b x y => twiddle_quadrant (k + 1) bx b x y
    rw [hs2] at hs
    rw [hs2, hq4]
    generalize hsdef : 2 ^ (k + 1) = s at *
    generalize hqdef : 4 ^ (k + 1) = q at *
    have hw : 2 * s ≠ 2 := by omega
    have hhalf : 2 * s / 2 = s := by omega
    obtain ⟨d1, e1, p1, f1⟩ := ih f dest a x1 y1 stride (by omega) ha (by omega)
    obtain ⟨d2, e2, p2, f2⟩ := ih f d1 (a + 2 * q) x1 (y1 + s) stride (by omega) (by omega)
      (by omega)
    obtain ⟨d3, e3, p3, f3⟩ := ih f d2 (a + 2 * q + 2 * q) (x1 + s) y1 stride (by omega)
      (by omega) (by omega)
    obtain ⟨d4, e4, p4, f4⟩ := ih f d3 (a + 2 * q + 2 * q + 2 * q) (x1 + s) (y1 + s) stride
      (by omega) (by omega) (by omega)
    have o2 : (a + 2 * q) % 4 / 2 = a % 4 / 2 := by omega
    have o3 : (a + 2 * q + 2 * q) % 4 / 2 = a % 4 / 2 := by omega
    have o4 : (a + 2 * q + 2 * q + 2 * q) % 4 / 2 = a % 4 / 2 := by omega
    rw [o2] at e2
    rw [o3] at e3
    rw [o4] at e4
    have efin : a + 2 * q + 2 * q + 2 * q + 2 * q = a + 2 * (4 * q) := by omega
    refine ⟨d4, ?_, ?_, ?_⟩
    · rw [detwiddle_16_rec _ _ _ _ _ _ _ _ _ hw, hhalf, e1]
      simp only [Option.bind]
      rw [e2]
      simp only [Option.bind]
      rw [e3]
      simp only [Option.bind]
      rw [e4, efin]
    · intro x y hx hy
      by_cases hxs : x < s <;> by_cases hys : y < s
      · rw [f4 _ (fun x2 y2 h1 h2 => cell_ne _ _ _ _ _ _ _ _ _ (by omega) (by omega) (by omega)),
          f3 _ (fun x2 y2 h1 h2 => cell_ne _ _ _ _ _ _ _ _ _ (by omega) (by omega) (by omega)),
          f2 _ (fun x2 y2 h1 h2 => cell_ne _ _ _ _ _ _ _ _ _ (by omega) (by omega) (by omega)),
          p1 x y hxs hys]
        have := tq 0 0 x y (by omega) (by omega) hxs hys
        simp only [Nat.zero_mul, Nat.zero_add, Nat.mul_zero] at this
        rw [this]
      · rw [f4 _ (fun x2 y2 h1 h2 => cell_ne _ _ _ _ _ _ _ _ _ (by omega) (by omega) (by omega)),
          f3 _ (fun x2 y2 h1 h2 => cell_ne _ _ _ _ _ _ _ _ _ (by omega) (by omega) (by omega)),
          ← cell_down stride x1 y1 s x y (by omega), p2 x (y - s) hxs (by omega)]
        have := tq 0 1 x (y - s) (by omega) (by omega) hxs (by omega)
        simp only [Nat.zero_mul, Nat.zero_add, Nat.mul_zero, Nat.one_mul, Nat.mul_one] at this
        rw [Nat.add_sub_cancel' (by omega : s ≤ y)] at this
        rw [this]
        congr 2
        omega
      · rw [f4 _ (fun x2 y2 h1 h2 => cell_ne _ _ _ _ _ _ _ _ _ (by omega) (by omega) (by omega)),
          ← cell_right stride x1 y1 s x y (by omega), p3 (x - s) y (by omega) hys]
        have := tq 1 0 (x - s) y (by omega) (by omega) (by omega) hys
        simp only [Nat.zero_mul, Nat.zero_add, Nat.add_zero, Nat.one_mul, Nat.mul_one] at this
        rw [Nat.add_sub_cancel' (by omega : s ≤ x)] at this
        rw [this]
        congr 2
        omega
      · rw [← cell_diag stride x1 y1 s x y (by omega) (by omega),
          p4 (x - s) (y - s) (by omega) (by omega)]
        have := tq 1 1 (x - s) (y - s) (by omega) (by omega) (by omega) (by omega)
        simp only [Nat.one_mul, Nat.mul_one] at this
        rw [Nat.add_sub_cancel' (by omega : s ≤ x), Nat.add_sub_cancel' (by omega : s ≤ y)]
          at this
        rw [this]
        congr 2
        omega
    · intro j hj
      rw [f4 _ (fun x2 y2 h1 h2 => by
            have := hj (s + x2) (s + y2) (by omega) (by omega)
            rwa [← cell_diag stride x1 y1 s (s + x2) (s + y2) (by omega) (by omega),
              Nat.add_sub_cancel_left, Nat.add_sub_cancel_left] at this),
        f3 _ (fun x2 y2 h1 h2 => by
            have := hj (s + x2) y2 (by omega) (by omega)
            rwa [← cell_right stride x1 y1 s (s + x2) y2 (by omega),
              Nat.add_sub_cancel_left] at this),
        f2 _ (fun x2 y2 h1 h2 => by
            have := hj x2 (s + y2) (by omega) (by omega)
            rwa [← cell_down stride x1 y1 s x2 (s + y2) (by omega),
              Nat.add_sub_cancel_left] at this),
        f1 _ (fun x2 y2 h1 h2 => hj x2 y2 (by omega) (by omega))]

theorem tiles_across_16_done (vram : Nat → Nat) (fuel off width height n i : Nat)
    (dest : Nat → Nat) (banks : Banks) (h : ¬ i < width) :
    tiles_across_16 vram fuel off width height n i dest banks = some (dest, banks) := by
  cases n <;> simp [tiles_across_16, h]

theorem tiles_across_16_step (vram : Nat → Nat) (fuel off width height n i : Nat)
    (dest : Nat → Nat) (banks : Banks) (h : i < width) :
    tiles_across_16 vram fuel off width height (n + 1) i dest banks
      = (pvr2_vram64_detwiddle_16 vram fuel dest banks off i 0 height width).bind
          fun r => tiles_across_16 vram fuel off width height n (i + height) r.1 r.2 := by
  simp [tiles_across_16, h]

theorem tiles_down_16_done (vram : Nat → Nat) (fuel off width height n i : Nat)
    (dest : Nat → Nat) (banks : Banks) (h : ¬ i < height) :
    tiles_down_16 vram fuel off width height n i dest banks = some (dest, banks) := by
  cases n <;> simp [tiles_down_16, h]

theorem tiles_down_16_step (vram : Nat → Nat) (fuel off width height n i : Nat)
    (dest : Nat → Nat) (banks : Banks) (h : i < height) :
    tiles_down_16 vram fuel off width height (n + 1) i dest banks
      = (pvr2_vram64_detwiddle_16 vram fuel dest banks off 0 i width width).bind
          fun r => tiles_down_16 vram fuel off width height n (i + width) r.1 r.2 := by
  simp [tiles_down_16, h]

theorem tile_lt (t u r m x : Nat) (hu : u < r) (hx : x < m) : (t + u) * m + x < (t + r) * m := by
  have h1 : (t + u + 1) * m ≤ (t + r) * m := Nat.mul_le_mul_right m (by omega)
  rw [Nat.succ_mul (t + u) m] at h1
  omega

theorem tile_inj (t1 t2 m x x2 : Nat) (hx : x < m) (hx2 : x2 < m)
    (h : t1 * m + x = t2 * m + x2) : t1 = t2 := by
  have hpos : 0 < m := by omega
  have e1 : t1 * m + x = m * t1 + x := by rw [Nat.mul_comm]
  have e2 : t2 * m + x2 = m * t2 + x2 := by rw [Nat.mul_comm]
  rw [e1, e2] at h
  have hd := congrArg (fun n => n / m) h
  simp only [Nat.mul_add_div hpos, Nat.div_eq_of_lt hx, Nat.div_eq_of_lt hx2,
    Nat.add_zero] at hd
  exact hd

theorem tiles_across_16_spec (vram : Nat → Nat) (k width fuel : Nat) (hf : k + 1 ≤ fuel)
    (r : Nat) :
    ∀ (t n : Nat) (dest : Nat → Nat) (a : Nat),
      width = (t + r) * 2 ^ (k + 1) → r ≤ n → a % 2 = 0 →
      ∃ d b, tiles_across_16 vram fuel (a % 4 / 2) width (2 ^ (k + 1)) n (t * 2 ^ (k + 1)) dest
            (tw_banks_16 a) = some (d, b) ∧
        (∀ u x y, u < r → x < 2 ^ (k + 1) → y < 2 ^ (k + 1) →
          d (cell width ((t + u) * 2 ^ (k + 1)) 0 x y)
            = load16 vram (lin_offset (a + 2 * (u * 4 ^ (k + 1) + twiddle (k + 1) x y)))) ∧
        (∀ j, (∀ u x y, u < r → x < 2 ^ (k + 1) → y < 2 ^ (k + 1) →
            j ≠ cell width ((t + u) * 2 ^ (k + 1)) 0 x y) → d j = dest j) := by
  have hq : 4 ^ (k + 1) = 4 * 4 ^ k := by rw [pow_succ]; omega
  induction r with
  | zero =>
    intro t n dest a hw hn ha
    refine ⟨dest, _, tiles_across_16_done _ _ _ _ _ _ _ _ _ (by rw [hw]; simp), ?_, ?_⟩
    · intro u x y hu
      omega
    · intro j _
      rfl
  | succ r ih =>
    intro t n dest a hw hn ha
    obtain ⟨n, rfl⟩ : ∃ n', n = n' + 1 := ⟨n - 1, by omega⟩
    have hlt : ∀ u x, u < r + 1 → x < 2 ^ (k + 1) →
        (t + u) * 2 ^ (k + 1) + x < width := by
      intro u x hu hx
      rw [hw]
      exact tile_lt t u (r + 1) _ x hu hx
    have hi : t * 2 ^ (k + 1) < width := by
      have := hlt 0 0 (by omega) (Nat.two_pow_pos _)
      simpa using this
    have hfit : t * 2 ^ (k + 1) + 2 ^ (k + 1) ≤ width := by
      have := hlt 0 (2 ^ (k + 1) - 1) (by omega) (by have := Nat.two_pow_pos (k + 1); omega)
      have := Nat.two_pow_pos (k + 1)
      simp only [Nat.add_zero] at *
      omega
    obtain ⟨d1, e1, p1, f1⟩ := detwiddle_16_block vram k fuel dest a (t * 2 ^ (k + 1)) 0 width
      hf ha hfit
    have hw2 : width = (t + 1 + r) * 2 ^ (k + 1) := by
      rw [hw]
      congr 1
      omega
    obtain ⟨d2, b2, e2, p2, f2⟩ := ih (t + 1) n d1 (a + 2 * 4 ^ (k + 1)) hw2 (by omega)
      (by omega)
    have o2 : (a + 2 * 4 ^ (k + 1)) % 4 / 2 = a % 4 / 2 := by omega
    rw [o2, Nat.succ_mul t] at e2
    refine ⟨d2, b2, ?_, ?_, ?_⟩
    · rw [tiles_across_16_step _ _ _ _ _ _ _ _ _ hi, e1]
      exact e2
    · intro u x y hu hx hy
      cases u with
      | zero =>
        rw [f2 _ (fun u2 x2 y2 h1 h2 h3 => cell_ne _ _ _ _ _ _ _ _ _
            (hlt 0 x (by omega) hx)
            (by have := hlt (1 + u2) x2 (by omega) h2
                rwa [← Nat.add_assoc] at this)
            (Or.inl (fun he => by
              have := tile_inj _ _ _ _ _ hx h2 he
              omega))),
          Nat.add_zero, p1 x y hx hy, Nat.zero_mul, Nat.zero_add]
      | succ u =>
        have := p2 u x y (by omega) hx hy
        have e : t + 1 + u = t + (u + 1) := by omega
        rw [e] at this
        rw [this, Nat.succ_mul u]
        congr 2
        omega
    · intro j hj
      rw [f2 _ (fun u2 x2 y2 h1 h2 h3 => by
            have := hj (u2 + 1) x2 y2 (by omega) h2 h3
            have e : t + 1 + u2 = t + (u2 + 1) := by omega
            rwa [e]),
        f1 _ (fun x2 y2 h2 h3 => by
            have := hj 0 x2 y2 (by omega) h2 h3
            rwa [Nat.add_zero] at this)]

theorem tiles_down_16_spec (vram : Nat → Nat) (k height fuel : Nat) (hf : k + 1 ≤ fuel)
    (r : Nat) :
    ∀ (t n : Nat) (dest : Nat → Nat) (a : Nat),
      height = (t + r) * 2 ^ (k + 1) → r ≤ n → a % 2 = 0 →
      ∃ d b, tiles_down_16 vram fuel (a % 4 / 2) (2 ^ (k + 1)) height n (t * 2 ^ (k + 1)) dest
            (tw_banks_16 a) = some (d, b) ∧
        (∀ u x y, u < r → x < 2 ^ (k + 1) → y < 2 ^ (k + 1) →
          d (cell (2 ^ (k + 1)) 0 ((t + u) * 2 ^ (k + 1)) x y)
            = load16 vram (lin_offset (a + 2 * (u * 4 ^ (k + 1) + twiddle (k + 1) x y)))) ∧
        (∀ j, (∀ u x y, u < r → x < 2 ^ (k + 1) → y < 2 ^ (k + 1) →
            j ≠ cell (2 ^ (k + 1)) 0 ((t + u) * 2 ^ (k + 1)) x y) → d j = dest j) := by
  have hq : 4 ^ (k + 1) = 4 * 4 ^ k := by rw [pow_succ]; omega
  induction r with
  | zero =>
    intro t n dest a hw hn ha
    refine ⟨dest, _, tiles_down_16_done _ _ _ _ _ _ _ _ _ (by rw [hw]; simp), ?_, ?_⟩
    · intro u x y hu
      omega
    · intro j _
      rfl
  | succ r ih =>
    intro t n dest a hw hn ha
    obtain ⟨n, rfl⟩ : ∃ n', n = n' + 1 := ⟨n - 1, by omega⟩
    have hi : t * 2 ^ (k + 1) < height := by
      have := tile_lt t 0 (r + 1) (2 ^ (k + 1)) 0 (by omega) (Nat.two_pow_pos _)
      rw [hw]
      simp
    obtain ⟨d1, e1, p1, f1⟩ := detwiddle_16_block vram k fuel dest a 0 (t * 2 ^ (k + 1))
      (2 ^ (k + 1)) hf ha (by omega)
    have hw2 : height = (t + 1 + r) * 2 ^ (k + 1) := by
      rw [hw]
      congr 1
      omega
    obtain ⟨d2, b2, e2, p2, f2⟩ := ih (t + 1) n d1 (a + 2 * 4 ^ (k + 1)) hw2 (by omega)
      (by omega)
    have o2 : (a + 2 * 4 ^ (k + 1)) % 4 / 2 = a % 4 / 2 := by omega
    rw [o2, Nat.succ_mul t] at e2
    refine ⟨d2, b2, ?_, ?_, ?_⟩
    · rw [tiles_down_16_step _ _ _ _ _ _ _ _ _ hi, e1]
      exact e2
    · intro u x y hu hx hy
      cases u with
      | zero =>
        rw [f2 _ (fun u2 x2 y2 h1 h2 h3 => cell_ne _ _ _ _ _ _ _ _ _
            (by omega) (by omega)
            (Or.inr (fun he => by
              rw [Nat.add_zero] at he
              have := tile_inj _ _ _ _ _ hy h3 he
              omega))),
          Nat.add_zero t, p1 x y hx hy, Nat.zero_mul, Nat.zero_add]
      | succ u =>
        have := p2 u x y (by omega) hx hy
        have e : t + 1 + u = t + (u + 1) := by omega
        rw [e] at this
        rw [this, Nat.succ_mul u]
        congr 2
        omega
    · intro j hj
      rw [f2 _ (fun u2 x2 y2 h1 h2 h3 => by
            have := hj (u2 + 1) x2 y2 (by omega) h2 h3
            have e : t + 1 + u2 = t + (u2 + 1) := by omega
            rwa [e]),
        f1 _ (fun x2 y2 h2 h3 => by
            have := hj 0 x2 y2 (by omega) h2 h3
            rwa [Nat.add_zero t] at this)]

theorem read_twiddled_16_start (fuel : Nat) (dest : Nat → Nat) (srcaddr width height : Nat)
    (vram : Nat → Nat) (h2 : srcaddr % 2 = 0) :
    pvr2_vram64_read_twiddled_16 fuel dest srcaddr width height vram
      = if width > height then
          (tiles_across_16 vram fuel (srcaddr % 0x800000 % 4 / 2) width height fuel 0 dest
            (tw_banks_16 (srcaddr % 0x800000))).map Prod.fst
        else if height > width then
          (tiles_down_16 vram fuel (srcaddr % 0x800000 % 4 / 2) width height fuel 0 dest
            (tw_banks_16 (srcaddr % 0x800000))).map Prod.fst
        else if width = 1 then
          some (store dest 0 (load16 vram ((tw_banks_16 (srcaddr % 0x800000)).get 0)))
        else
          (pvr2_vram64_detwiddle_16 vram fuel dest (tw_banks_16 (srcaddr % 0x800000))
            (srcaddr % 0x800000 % 4 / 2) 0 0 width width).map Prod.fst := by
  simp only [pvr2_vram64_read_twiddled_16, and_6, and_2, and_1, and_7FFFF8, shr_1]
  have hoff : (if srcaddr % 8 / 2 * 2 / 2 % 4 / 2 * 2 ≠ 0 then srcaddr % 8 / 2 * 2 / 2 % 2
      else srcaddr % 8 / 2 * 2 / 2) = srcaddr % 0x800000 % 4 / 2 := by
    split <;> omega
  have hbanks : ((if srcaddr % 8 / 2 * 2 / 2 % 4 / 2 * 2 ≠ 0 then
        ({ b0 := srcaddr % 0x800000 / 8 * 8 / 2 + 0x400000,
           b1 := srcaddr % 0x800000 / 8 * 8 / 2 + 4 } : Banks)
      else { b0 := srcaddr % 0x800000 / 8 * 8 / 2,
             b1 := srcaddr % 0x800000 / 8 * 8 / 2 + 0x400000 }).inc 0
        (2 * (srcaddr % 0x800000 % 4 / 2))) = tw_banks_16 (srcaddr % 0x800000) := by
    unfold Banks.inc tw_banks_16
    simp only [lin_offset_arith, if_true]
    split <;> simp only [Banks.mk.injEq] <;> omega
  rw [hoff, hbanks]

theorem four_pow (n : Nat) : 4 ^ n = 2 ^ n * 2 ^ n := by
  rw [← Nat.mul_pow]

theorem load16_lin_offset (vram : Nat → Nat) (a : Nat) (h : a < 0x800000) :
    load16 vram (lin_offset a) = load16 vram (bank_offset a) := by
  rw [bank_offset_eq a h]

/-- A square image: the whole image is one block. -/
theorem read_twiddled_16_square (k fuel srcaddr : Nat) (dest vram : Nat → Nat)
    (h2 : srcaddr % 2 = 0)
    (hin : srcaddr % 0x800000 + 2 * (2 ^ (k + 1) * 2 ^ (k + 1)) ≤ 0x800000)
    (hf : 2 ^ (k + 1) ≤ fuel) :
    ∃ d, pvr2_vram64_read_twiddled_16 fuel dest srcaddr (2 ^ (k + 1)) (2 ^ (k + 1)) vram
        = some d ∧
      ∀ x y, x < 2 ^ (k + 1) → y < 2 ^ (k + 1) →
        d (y * 2 ^ (k + 1) + x)
          = load16 vram (bank_offset (srcaddr % 0x800000
              + 2 * twiddled_index (k + 1) x y)) := by
  have hk : k + 1 ≤ fuel := by
    have := Nat.lt_two_pow (k + 1)
    omega
  have hm : 2 ≤ 2 ^ (k + 1) := by
    have := Nat.two_pow_pos k
    rw [pow_succ]; omega
  obtain ⟨d, e, p, _⟩ := detwiddle_16_block vram k fuel dest (srcaddr % 0x800000) 0 0
    (2 ^ (k + 1)) hk (by omega) (by omega)
  refine ⟨d, ?_, ?_⟩
  · rw [read_twiddled_16_start _ _ _ _ _ _ h2, if_neg (by omega), if_neg (by omega),
      if_neg (by omega), e]
    rfl
  · intro x y hx hy
    have hc : cell (2 ^ (k + 1)) 0 0 x y = y * 2 ^ (k + 1) + x := by
      unfold cell
      rw [Nat.zero_add, Nat.add_zero]
    have ht : twiddled_index (k + 1) x y = twiddle (k + 1) x y := by
      unfold twiddled_index
      rw [Nat.div_eq_of_lt hx, Nat.div_eq_of_lt hy, Nat.mod_eq_of_lt hx, Nat.mod_eq_of_lt hy]
      simp
    have hlt := twiddle_lt (k + 1) x y
    rw [four_pow] at hlt
    rw [← hc, p x y hx hy, ht, load16_lin_offset _ _ (by omega)]

/-- A wide image: `T` squares side by side. -/
theorem read_twiddled_16_wide (k T fuel srcaddr : Nat) (dest vram : Nat → Nat)
    (h2 : srcaddr % 2 = 0) (hT : 2 ≤ T)
    (hin : srcaddr % 0x800000 + 2 * (T * 2 ^ (k + 1) * 2 ^ (k + 1)) ≤ 0x800000)
    (hf : T * 2 ^ (k + 1) ≤ fuel) :
    ∃ d, pvr2_vram64_read_twiddled_16 fuel dest srcaddr (T * 2 ^ (k + 1)) (2 ^ (k + 1)) vram
        = some d ∧
      ∀ x y, x < T * 2 ^ (k + 1) → y < 2 ^ (k + 1) →
        d (y * (T * 2 ^ (k + 1)) + x)
          = load16 vram (bank_offset (srcaddr % 0x800000
              + 2 * twiddled_index (k + 1) x y)) := by
  have hm : 2 ≤ 2 ^ (k + 1) := by
    have := Nat.two_pow_pos k
    rw [pow_succ]; omega
  have hTm : 2 * 2 ^ (k + 1) ≤ T * 2 ^ (k + 1) := Nat.mul_le_mul_right _ hT
  have hTle : T ≤ T * 2 ^ (k + 1) := Nat.le_mul_of_pos_right T (by omega)
  have hk : k + 1 ≤ fuel := by
    have := Nat.lt_two_pow (k + 1)
    omega
  obtain ⟨d, b2, e, p, _⟩ := tiles_across_16_spec vram k (T * 2 ^ (k + 1)) fuel hk T 0 fuel dest
    (srcaddr % 0x800000) (by rw [Nat.zero_add]) (by omega) (by omega)
  rw [Nat.zero_mul] at e
  refine ⟨d, ?_, ?_⟩
  · rw [read_twiddled_16_start _ _ _ _ _ _ h2, if_pos (by omega), e]
    rfl
  · intro x y hx hy
    have hmpos : 0 < 2 ^ (k + 1) := by omega
    have hu : x / 2 ^ (k + 1) < T := (Nat.div_lt_iff_lt_mul hmpos).2 hx
    have hx2 : x % 2 ^ (k + 1) < 2 ^ (k + 1) := Nat.mod_lt _ hmpos
    have hc : cell (T * 2 ^ (k + 1)) ((0 + x / 2 ^ (k + 1)) * 2 ^ (k + 1)) 0 (x % 2 ^ (k + 1)) y
        = y * (T * 2 ^ (k + 1)) + x := by
      unfold cell
      rw [Nat.zero_add, Nat.zero_add, Nat.add_assoc, Nat.div_add_mod' x (2 ^ (k + 1))]
    have ht : twiddled_index (k + 1) x y
        = x / 2 ^ (k + 1) * 4 ^ (k + 1) + twiddle (k + 1) (x % 2 ^ (k + 1)) y := by
      unfold twiddled_index
      rw [Nat.div_eq_of_lt hy, Nat.mod_eq_of_lt hy, four_pow]
      ring
    have hlt := twiddle_lt (k + 1) (x % 2 ^ (k + 1)) y
    have hb : (x / 2 ^ (k + 1) + 1) * 4 ^ (k + 1) ≤ T * 4 ^ (k + 1) :=
      Nat.mul_le_mul_right _ (by omega)
    rw [Nat.succ_mul] at hb
    have hq : T * 4 ^ (k + 1) = T * 2 ^ (k + 1) * 2 ^ (k + 1) := by
      rw [four_pow, Nat.mul_assoc]
    rw [← hc, p _ _ y hu hx2 hy, ht, load16_lin_offset _ _ (by omega)]

/-- A tall image: `T` squares one below the other. -/
theorem read_twiddled_16_tall (k T fuel srcaddr : Nat) (dest vram : Nat → Nat)
    (h2 : srcaddr % 2 = 0) (hT : 2 ≤ T)
    (hin : srcaddr % 0x800000 + 2 * (2 ^ (k + 1) * (T * 2 ^ (k + 1))) ≤ 0x800000)
    (hf : T * 2 ^ (k + 1) ≤ fuel) :
    ∃ d, pvr2_vram64_read_twiddled_16 fuel dest srcaddr (2 ^ (k + 1)) (T * 2 ^ (k + 1)) vram
        = some d ∧
      ∀ x y, x < 2 ^ (k + 1) → y < T * 2 ^ (k + 1) →
        d (y * 2 ^ (k + 1) + x)
          = load16 vram (bank_offset (srcaddr % 0x800000
              + 2 * twiddled_index (k + 1) x y)) := by
  have hm : 2 ≤ 2 ^ (k + 1) := by
    have := Nat.two_pow_pos k
    rw [pow_succ]; omega
  have hTm : 2 * 2 ^ (k + 1) ≤ T * 2 ^ (k + 1) := Nat.mul_le_mul_right _ hT
  have hTle : T ≤ T * 2 ^ (k + 1) := Nat.le_mul_of_pos_right T (by omega)
  have hk : k + 1 ≤ fuel := by
    have := Nat.lt_two_pow (k + 1)
    omega
  obtain ⟨d, b2, e, p, _⟩ := tiles_down_16_spec vram k (T * 2 ^ (k + 1)) fuel hk T 0 fuel dest
    (srcaddr % 0x800000) (by rw [Nat.zero_add]) (by omega) (by omega)
  rw [Nat.zero_mul] at e
  refine ⟨d, ?_, ?_⟩
  · rw [read_twiddled_16_start _ _ _ _ _ _ h2, if_neg (by omega), if_pos (by omega), e]
    rfl
  · intro x y hx hy
    have hmpos : 0 < 2 ^ (k + 1) := by omega
    have hu : y / 2 ^ (k + 1) < T := (Nat.div_lt_iff_lt_mul hmpos).2 hy
    have hy2 : y % 2 ^ (k + 1) < 2 ^ (k + 1) := Nat.mod_lt _ hmpos
    have hc : cell (2 ^ (k + 1)) 0 ((0 + y / 2 ^ (k + 1)) * 2 ^ (k + 1)) x (y % 2 ^ (k + 1))
        = y * 2 ^ (k + 1) + x := by
      unfold cell
      rw [Nat.zero_add, Nat.add_zero, Nat.div_add_mod' y (2 ^ (k + 1))]
    have ht : twiddled_index (k + 1) x y
        = y / 2 ^ (k + 1) * 4 ^ (k + 1) + twiddle (k + 1) x (y % 2 ^ (k + 1)) := by
      unfold twiddled_index
      rw [Nat.div_eq_of_lt hx, Nat.mod_eq_of_lt hx, four_pow]
      ring
    have hlt := twiddle_lt (k + 1) x (y % 2 ^ (k + 1))
    have hb : (y / 2 ^ (k + 1) + 1) * 4 ^ (k + 1) ≤ T * 4 ^ (k + 1) :=
      Nat.mul_le_mul_right _ (by omega)
    rw [Nat.succ_mul] at hb
    have hq : T * 4 ^ (k + 1) = 2 ^ (k + 1) * (T * 2 ^ (k + 1)) := by
      rw [four_pow]
      ring
    rw [← hc, p _ x _ hu hx hy2, ht, load16_lin_offset _ _ (by omega)]

/-! ## Twiddled 16-bit images (claim C26) -/

/-- Claim C26: for a 16-bit aligned `srcaddr`, `width = 2 ^ a` and `height =
2 ^ b` with both at least 2, and the image inside the 64-bit region,
`pvr2_vram64_read_twiddled_16` returns (with enough fuel for its loops and
its recursion) and leaves in `dest[y*width + x]` the 16-bit pixel whose
linear address is `srcaddr` plus twice the twiddled index of `(x, y)`, read
at the VRAM offset that the two-bank layout gives to that address.  The
twiddled index interleaves the bits of `y` (even positions) and `x` (odd
positions) inside a square of side `min width height`, and the squares follow
one another along the longer side. -/
theorem read_twiddled_16_detwiddles (a b fuel srcaddr : Nat) (dest vram : Nat → Nat)
    (ha : 1 ≤ a) (hb : 1 ≤ b) (h2 : srcaddr % 2 = 0)
    (hin : (srcaddr &&& 0x7FFFFF) + 2 * (2 ^ a * 2 ^ b) ≤ 0x800000)
    (hfw : 2 ^ a ≤ fuel) (hfh : 2 ^ b ≤ fuel) :
    ∃ d, pvr2_vram64_read_twiddled_16 fuel dest srcaddr (2 ^ a) (2 ^ b) vram = some d ∧
      ∀ x y, x < 2 ^ a → y < 2 ^ b →
        d (y * 2 ^ a + x)
          = load16 vram (bank_offset ((srcaddr &&& 0x7FFFFF)
              + 2 * twiddled_index (min a b) x y)) := by
  rw [and_7FFFFF] at hin ⊢
  rcases Nat.lt_trichotomy a b with h | h | h
  · obtain ⟨k, rfl⟩ : ∃ k, a = k + 1 := ⟨a - 1, by omega⟩
    have hpow : 2 ^ b = 2 ^ (b - (k + 1)) * 2 ^ (k + 1) := by
      rw [← pow_add]
      congr 1
      omega
    have hT : 2 ≤ 2 ^ (b - (k + 1)) := by
      have := Nat.pow_le_pow_right (by omega : 0 < 2) (by omega : 1 ≤ b - (k + 1))
      simpa using this
    rw [Nat.min_eq_left (by omega)]
    rw [hpow] at hin hfh ⊢
    exact read_twiddled_16_tall k _ fuel srcaddr dest vram h2 hT hin hfh
  · subst h
    obtain ⟨k, rfl⟩ : ∃ k, a = k + 1 := ⟨a - 1, by omega⟩
    rw [Nat.min_self]
    exact read_twiddled_16_square k fuel srcaddr dest vram h2 hin hfw
  · obtain ⟨k, rfl⟩ : ∃ k, b = k + 1 := ⟨b - 1, by omega⟩
    have hpow : 2 ^ a = 2 ^ (a - (k + 1)) * 2 ^ (k + 1) := by
      rw [← pow_add]
      congr 1
      omega
    have hT : 2 ≤ 2 ^ (a - (k + 1)) := by
      have := Nat.pow_le_pow_right (by omega : 0 < 2) (by omega : 1 ≤ a - (k + 1))
      simpa using this
    rw [Nat.min_eq_right (by omega)]
    rw [hpow] at hin hfw ⊢
    exact read_twiddled_16_wide k _ fuel srcaddr dest vram h2 hT hin hfw

theorem read_twiddled_16_detwiddles_witness :
    1 ≤ 2 ∧ 1 ≤ 1 ∧ 0x05000006 % 2 = 0 ∧
    (0x05000006 &&& 0x7FFFFF) + 2 * (2 ^ 2 * 2 ^ 1) ≤ 0x800000 ∧ 2 ^ 2 ≤ 4 ∧ 2 ^ 1 ≤ 4 ∧
    ∃ d, pvr2_vram64_read_twiddled_16 4 zeros 0x05000006 (2 ^ 2) (2 ^ 1) sampleVram = some d ∧
      ∀ x y, x < 2 ^ 2 → y < 2 ^ 1 →
        d (y * 2 ^ 2 + x)
          = load16 sampleVram (bank_offset ((0x05000006 &&& 0x7FFFFF)
              + 2 * twiddled_index (min 2 1) x y)) :=
  ⟨by decide, by decide, by decide, by decide, by decide, by decide,
    read_twiddled_16_detwiddles 2 1 4 0x05000006 zeros sampleVram (by decide) (by decide)
      (by decide) (by decide) (by decide) (by decide)⟩

/-! ## Twiddled 4-bit images (claim C27) -/

/-- Claim C27, at two inputs on which it fails.  For `srcaddr = 0`, `width =
2`, `height = 8` the pixel `(0, 4)` has the twiddled index 8, the low nibble
of the byte at the linear address 4, which is the VRAM offset `0x400000`; the
code takes the low nibble of `dest[4]` from the VRAM offset 4, the linear
address 8, as every square of side 2 is read from `banks[0]`.  For `srcaddr =
1`, `width = height = 4` the pixel `(3, 2)` has the twiddled index 14, the low
nibble of the byte at the linear address 8, which is the VRAM offset 4; the
code takes the high nibble of `dest[5]` from the VRAM offset `0x400004`, the
linear address 12, as `offset<3?0:1` selects bank 1 for the last byte. -/
theorem read_twiddled_4_wrong_bank (dest vram : Nat → Nat) :
    twiddled_index 1 0 4 = 8 ∧ bank_offset (0 + 8 / 2) = 0x400000 ∧
    (∃ d, pvr2_vram64_read_twiddled_4 8 dest 0 2 8 vram = some d ∧
      d (4 * (2 / 2) + 0 / 2) = ((vram 4 &&& 0x0F) ||| (vram 5 <<< 4)) % 256) ∧
    (pvr2_vram64_read_twiddled_4 8 zeros 0 2 8 sampleVram).map (fun d => d 4 % 16) = some 4 ∧
    sampleVram 0x400000 % 16 = 14 ∧
    twiddled_index 2 3 2 = 14 ∧ bank_offset (1 + 14 / 2) = 4 ∧
    (∃ d, pvr2_vram64_read_twiddled_4 8 dest 1 4 4 vram = some d ∧
      d (2 * (4 / 2) + 3 / 2) = ((vram 0x400003 &&& 0x0F) ||| (vram 0x400004 <<< 4)) % 256) ∧
    (pvr2_vram64_read_twiddled_4 8 zeros 1 4 4 sampleVram).map (fun d => d 5 / 16) = some 2 ∧
    sampleVram 4 % 16 = 4 := by
  refine ⟨by decide, by decide, ?_, by decide, by decide, by decide, by decide, ?_, by decide,
    by decide⟩
  · simp [pvr2_vram64_read_twiddled_4, tiles_down_4, pvr2_vram64_detwiddle_4, and_7, and_4,
      and_7FFFF8, shr_1, Banks.get, Banks.inc, store]
  · simp [pvr2_vram64_read_twiddled_4, pvr2_vram64_detwiddle_4, and_7, and_4, and_3,
      and_7FFFF8, shr_1, Banks.get, Banks.inc, store]

/-! ## Termination of the twiddled readers (claim C31) -/

theorem detwiddle_16_width_zero (vram : Nat → Nat) (fuel : Nat) (dest : Nat → Nat)
    (banks : Banks) (offset x1 y1 stride : Nat) :
    pvr2_vram64_detwiddle_16 vram fuel dest banks offset x1 y1 0 stride = none := by
  induction fuel generalizing dest banks x1 y1 with
  | zero => rfl
  | succ fuel ih =>
    rw [pvr2_vram64_detwiddle_16]
    simp [ih]

theorem detwiddle_16_width_one (vram : Nat → Nat) (fuel : Nat) (dest : Nat → Nat)
    (banks : Banks) (offset x1 y1 stride : Nat) :
    pvr2_vram64_detwiddle_16 vram fuel dest banks offset x1 y1 1 stride = none := by
  cases fuel with
  | zero => rfl
  | succ fuel =>
    rw [pvr2_vram64_detwiddle_16]
    simp [detwiddle_16_width_zero]

theorem detwiddle_8_width_zero (vram : Nat → Nat) (fuel : Nat) (dest : Nat → Nat)
    (banks : Banks) (offset x1 y1 stride : Nat) :
    pvr2_vram64_detwiddle_8 vram fuel dest banks offset x1 y1 0 stride = none := by
  induction fuel generalizing dest banks x1 y1 with
  | zero => rfl
  | succ fuel ih =>
    rw [pvr2_vram64_detwiddle_8]
    simp [ih]

theorem detwiddle_8_width_one (vram : Nat → Nat) (fuel : Nat) (dest : Nat → Nat)
    (banks : Banks) (offset x1 y1 stride : Nat) :
    pvr2_vram64_detwiddle_8 vram fuel dest banks offset x1 y1 1 stride = none := by
  cases fuel with
  | zero => rfl
  | succ fuel =>
    rw [pvr2_vram64_detwiddle_8]
    simp [detwiddle_8_width_zero]

theorem detwiddle_4_width_zero (vram : Nat → Nat) (fuel : Nat) (dest : Nat → Nat)
    (banks : Banks) (offset x1 y1 stride : Nat) :
    pvr2_vram64_detwiddle_4 vram fuel dest banks offset x1 y1 0 stride = none := by
  induction fuel generalizing dest banks x1 y1 with
  | zero => rfl
  | succ fuel ih =>
    rw [pvr2_vram64_detwiddle_4]
    simp [ih]

theorem detwiddle_4_width_one (vram : Nat → Nat) (fuel : Nat) (dest : Nat → Nat)
    (banks : Banks) (offset x1 y1 stride : Nat) :
    pvr2_vram64_detwiddle_4 vram fuel dest banks offset x1 y1 1 stride = none := by
  cases fuel with
  | zero => rfl
  | succ fuel =>
    rw [pvr2_vram64_detwiddle_4]
    simp [detwiddle_4_width_zero]

theorem tiles_down_16_width_one (vram : Nat → Nat) (fuel off height n : Nat)
    (dest : Nat → Nat) (banks : Banks) (h : 0 < height) :
    tiles_down_16 vram fuel off 1 height n 0 dest banks = none := by
  cases n <;> simp [tiles_down_16, h, detwiddle_16_width_one]

theorem tiles_across_16_height_one (vram : Nat → Nat) (fuel off width n : Nat)
    (dest : Nat → Nat) (banks : Banks) (h : 0 < width) :
    tiles_across_16 vram fuel off width 1 n 0 dest banks = none := by
  cases n <;> simp [tiles_across_16, h, detwiddle_16_width_one]

theorem tiles_down_8_width_one (vram : Nat → Nat) (fuel off height n : Nat)
    (dest : Nat → Nat) (banks : Banks) (h : 0 < height) :
    tiles_down_8 vram fuel off 1 height n 0 dest banks = none := by
  cases n <;> simp [tiles_down_8, h, detwiddle_8_width_one]

theorem tiles_across_8_height_one (vram : Nat → Nat) (fuel off width n : Nat)
    (dest : Nat → Nat) (banks : Banks) (h : 0 < width) :
    tiles_across_8 vram fuel off width 1 n 0 dest banks = none := by
  cases n <;> simp [tiles_across_8, h, detwiddle_8_width_one]

theorem tiles_down_4_width_one (vram : Nat → Nat) (fuel off height stride n : Nat)
    (dest : Nat → Nat) (banks : Banks) (h : 0 < height) :
    tiles_down_4 vram fuel off 1 height stride n 0 dest banks = none := by
  cases n <;> simp [tiles_down_4, h, detwiddle_4_width_one]

theorem tiles_across_4_height_one (vram : Nat → Nat) (fuel off width stride n : Nat)
    (dest : Nat → Nat) (banks : Banks) (h : 0 < width) :
    tiles_across_4 vram fuel off width 1 stride n 0 dest banks = none := by
  cases n <;> simp [tiles_across_4, h, detwiddle_4_width_one]

/-- Claim C31, at the inputs on which it fails: for `width = 1` and a height
`h + 2`, and for `height = 1` and a width `w + 2`, which covers the powers of
two 2, 4, 8, ..., none of the three twiddled readers returns, whatever the
fuel: the tile loop calls the detwiddle helper with `width = 1`, which is
neither 2 nor (for 4-bit pixels) 4, so the helper calls itself with
`subdivide = 0` and from then on with `width = 0` again and again.  The same
readers return for a 1 by 1 image and for a 2 by 2 image. -/
theorem twiddled_readers_diverge (fuel srcaddr h w : Nat) (dest vram : Nat → Nat) :
    pvr2_vram64_read_twiddled_4 fuel dest srcaddr 1 (h + 2) vram = none ∧
    pvr2_vram64_read_twiddled_8 fuel dest srcaddr 1 (h + 2) vram = none ∧
    pvr2_vram64_read_twiddled_16 fuel dest srcaddr 1 (h + 2) vram = none ∧
    pvr2_vram64_read_twiddled_4 fuel dest srcaddr (w + 2) 1 vram = none ∧
    pvr2_vram64_read_twiddled_8 fuel dest srcaddr (w + 2) 1 vram = none ∧
    pvr2_vram64_read_twiddled_16 fuel dest srcaddr (w + 2) 1 vram = none ∧
    (pvr2_vram64_read_twiddled_4 0 dest srcaddr 1 1 vram).isSome = true ∧
    (pvr2_vram64_read_twiddled_8 0 dest srcaddr 1 1 vram).isSome = true ∧
    (pvr2_vram64_read_twiddled_16 0 dest srcaddr 1 1 vram).isSome = true ∧
    (pvr2_vram64_read_twiddled_4 1 dest srcaddr 2 2 vram).isSome = true ∧
    (pvr2_vram64_read_twiddled_8 1 dest srcaddr 2 2 vram).isSome = true ∧
    (pvr2_vram64_read_twiddled_16 1 dest srcaddr 2 2 vram).isSome = true := by
  refine ⟨?_, ?_, ?_, ?_, ?_, ?_, ?_, ?_, ?_, ?_, ?_, ?_⟩
  · simp [pvr2_vram64_read_twiddled_4, tiles_down_4_width_one]
  · simp [pvr2_vram64_read_twiddled_8, tiles_down_8_width_one]
  · simp [pvr2_vram64_read_twiddled_16, tiles_down_16_width_one]
  · simp [pvr2_vram64_read_twiddled_4, tiles_across_4_height_one]
  · simp [pvr2_vram64_read_twiddled_8, tiles_across_8_height_one]
  · simp [pvr2_vram64_read_twiddled_16, tiles_across_16_height_one]
  · simp [pvr2_vram64_read_twiddled_4]
  · simp [pvr2_vram64_read_twiddled_8]
  · simp [pvr2_vram64_read_twiddled_16]
  · simp [pvr2_vram64_read_twiddled_4, pvr2_vram64_detwiddle_4]
  · simp [pvr2_vram64_read_twiddled_8, pvr2_vram64_detwiddle_8]
  · simp [pvr2_vram64_read_twiddled_16, pvr2_vram64_detwiddle_16]

/-! ## The path of the render buffer copies (claim C32) -/

/-- Claim C32, at the input on which it fails: the address `0x04000000`
is not -1 and satisfies `(render_addr & 0xFF000000) == 0x04000000`, yet
`pvr2_render_buffer_copy_to_sh4` transfers the pixels of such a buffer with
`pvr2_vram_write_invert` and `pvr2_render_buffer_copy_from_sh4` uses the
memory region directly.  Both do so for every buffer that they do not skip:
the test of the source is `render_addr & (0xFF000000 == 0x04000000)`, which is
0 for every address, so the 64-bit path is never taken. -/
theorem interlaced_buffer_takes_regular_path (buffer : pvr2_render_buffer) :
    sampleBuffer.render_addr ≠ wrapInt32 (-1) ∧
    sampleBuffer.render_addr &&& 0xFF000000 = 0x04000000 ∧
    pvr2_render_buffer_copy_to_sh4 sampleBuffer
      = some (.vram_write_invert 0x04000000 16 8) ∧
    pvr2_render_buffer_copy_from_sh4 sampleBuffer = some (.direct 0x04000000) ∧
    (∀ destaddr size, pvr2_render_buffer_copy_to_sh4 buffer
      ≠ some (.vram64_write destaddr size)) ∧
    (∀ srcaddr size, pvr2_render_buffer_copy_from_sh4 buffer
      ≠ some (.vram64_read srcaddr size)) := by
  refine ⟨by decide, by decide, by decide, by decide, ?_, ?_⟩
  · intro destaddr size
    unfold pvr2_render_buffer_copy_to_sh4
    split
    · simp
    · simp
  · intro srcaddr size
    unfold pvr2_render_buffer_copy_from_sh4
    split
    · simp
    · simp

end Lxdream
